import Mathlib

/-!
# TWI master transfer driver (`drivers/peripherals/twid.c`)

A shallow embedding of the two-wire transfer driver.  Every function of
`twid.c` is a function on an explicit `World`: the descriptors the callers
own, the global asynchronous slot table `asyncdesc` with its round-robin
index, byte memory, and the mocked hardware.

The hardware layer (`twi_*`, `aic_*`, `pmc_*`, `xdmad_*`, `cache_*`,
`timer_*`) is external.  Each call to it is appended to `World.trace`
together with the value it returned; the returned values are taken, in
order, from `World.script`, and a call made after the script is used up is
answered `1`.  All loops of the driver poll the hardware, so every function
is total.
-/

namespace Twid

/-! ## Constants of `twid.c` -/

def TWID_DMA_THRESHOLD : Nat := 16

def TWID_TIMEOUT : Nat := 100

def MAX_ADESC : Nat := 8

/-! ## Data model -/

/-- Status codes of the driver, the `TWID_*` names used by `twid.c`.  The code
tests `if (status)` for failure, so `TWID_SUCCESS` is the zero code and every
other code is non-zero. -/
inductive Status
  | TWID_SUCCESS
  | TWID_ERROR_LOCK
  | TWID_ERROR_DUPLEX
  | TWID_ERROR_ACK
  | TWID_ERROR_TIMEOUT
  | TWID_ERROR_TRANSFER
  deriving DecidableEq, Repr

/-- Transfer strategy stored in `desc->transfert_mode`; `other` stands for any
value of the field that is none of the four named modes. -/
inductive TransMode
  | TWID_MODE_POLLING
  | TWID_MODE_ASYNC
  | TWID_MODE_DMA
  | TWID_MODE_FIFO
  | other (n : Nat)
  deriving DecidableEq, Repr

/-- A descriptor pointer (`struct _twi_desc*`): either a descriptor owned by a
caller or the copy held inside slot `i` of `asyncdesc`. -/
inductive DescRef
  | caller (n : Nat)
  | slot (i : Nat)
  deriving DecidableEq, Repr

/-- A completion callback (`twid_callback_t`): the null pointer, the driver's
own `twid_finish_transfert_callback`, or a function of the application, which
is identified by a number and whose only modelled effect is to be recorded in
the trace. -/
inductive Callback
  | null
  | twid_finish_transfert_callback
  | user (n : Nat)
  deriving DecidableEq, Repr

/-- An address handed to the DMA engine: a controller register or memory. -/
inductive DmaAddr
  | TWI_RHR (addr : Nat)
  | TWI_THR (addr : Nat)
  | mem (a : Nat)
  deriving DecidableEq, Repr

/-- The transfer configuration `struct _xdmad_cfg` as the driver fills it:
direction, the two addressing modes, the two addresses, the sizes. -/
structure XdmadCfg where
  per2mem : Bool
  sam_incremented : Bool
  dam_incremented : Bool
  src_addr : DmaAddr
  dest_addr : DmaAddr
  ublock_size : Nat
  block_size : Nat
  deriving DecidableEq, Repr

/-- A caller's buffer `struct _buffer`: address of the first byte and length
(a 32-bit unsigned field). -/
structure Buffer where
  data : Nat
  size : Nat
  deriving DecidableEq, Repr

/-- The transfer descriptor `struct _twi_desc` with the fields `twid.c` uses.
The mutex is the busy lock: `true` when held. -/
structure TwiDesc where
  addr : Nat
  freq : Nat
  slave_addr : Nat
  transfert_mode : TransMode
  iaddr : Nat
  isize : Nat
  timeout : Nat
  region_start : Nat
  region_length : Nat
  callback : Callback
  cb_args : Nat
  mutex : Bool
  deriving DecidableEq, Repr

/-- One entry `struct _async_desc` of the table `asyncdesc`. -/
structure AsyncDesc where
  twi_desc : TwiDesc
  twi_id : Nat
  pdata : Nat
  size : Nat
  transferred : Nat
  deriving DecidableEq, Repr

/-- Every call the driver makes outside `twid.c`, with its arguments.  The
last constructor is the invocation of an application callback. -/
inductive Call
  | twi_start_read (addr slave iaddr isize : Nat)
  | twi_start_write (addr slave iaddr isize byte : Nat)
  | twi_send_stop_condition (addr : Nat)
  | twi_read_byte (addr : Nat)
  | twi_write_byte (addr byte : Nat)
  | twi_get_status (addr : Nat)
  | twi_get_masked_status (addr : Nat)
  | twi_is_byte_received (addr : Nat)
  | twi_is_byte_sent (addr : Nat)
  | twi_is_transfer_complete (addr : Nat)
  | twi_enable_it (addr mask : Nat)
  | twi_disable_it (addr mask : Nat)
  | twi_configure_master (addr freq : Nat)
  | twi_fifo_configure (addr tx_thres rx_thres ready_modes : Nat)
  | twi_init_read_transfert (addr slave iaddr isize len : Nat)
  | twi_init_write_transfert (addr slave iaddr isize len : Nat)
  | twi_write_stream (addr slave iaddr isize data size timeout : Nat)
  | twi_read_stream (addr slave iaddr isize data size timeout : Nat)
  | flexcom_select (flexcom mode : Nat)
  | pmc_enable_peripheral (id : Nat)
  | aic_get_current_interrupt_identifier
  | aic_set_source_vector (id : Nat)
  | aic_enable (id : Nat)
  | aic_disable (id : Nat)
  | timer_start_timeout (ms : Nat)
  | timer_timeout_reached
  | xdmad_allocate_channel (src dst : Nat)
  | xdmad_prepare_channel (channel : Nat)
  | xdmad_configure_transfer (channel : Nat) (cfg : XdmadCfg)
  | xdmad_set_callback (channel : Nat) (desc : DescRef)
  | xdmad_start_transfer (channel : Nat)
  | xdmad_free_channel (channel : Nat)
  | cache_clean_region (start length : Nat)
  | cache_invalidate_region (start length : Nat)
  | callback (n : Nat) (desc : DescRef) (args : Nat)
  deriving DecidableEq, Repr

/-- A recorded call: the call and the value it returned (`0` for a call whose
result the driver does not use). -/
abbrev Ev := Call × Nat

/-- What the driver takes from the headers of the chip and the build
configuration, none of which is part of `twid.c`: the configuration switches,
the peripheral lookup functions, the interrupt and status masks of the TWI
controller and the status-decoding macros of `twi.h`. -/
structure Chip where
  CONFIG_SOC_SAMA5D4 : Bool
  CONFIG_HAVE_FLEXCOM : Bool
  CONFIG_HAVE_TWI_FIFO : Bool
  CONFIG_HAVE_TWI_ALTERNATE_CMD : Bool
  ID_PERIPH_COUNT : Nat
  get_twi_id_from_addr : Nat → Nat
  get_twi_addr_from_id : Nat → Nat
  get_flexcom_addr_from_id : Nat → Nat
  get_peripheral_fifo_depth : Nat → Nat
  XDMAD_PERIPH_MEMORY : Nat
  FLEX_MR_OPMODE_TWI : Nat
  TWI_FMR_ONE_DATA : Nat
  TWI_SR_NACK : Nat
  TWI_IER_RXRDY : Nat
  TWI_IER_TXRDY : Nat
  TWI_IER_TXCOMP : Nat
  TWI_IDR_RXRDY : Nat
  TWI_IDR_TXRDY : Nat
  TWI_IDR_TXCOMP : Nat
  TWI_STATUS_RXRDY : Nat → Bool
  TWI_STATUS_TXRDY : Nat → Bool
  TWI_STATUS_TXCOMP : Nat → Bool

/-- The state the driver runs in. -/
structure World where
  /-- descriptors owned by callers, by handle -/
  descs : Nat → TwiDesc
  /-- the global table `asyncdesc[MAX_ADESC]` -/
  asyncdesc : Nat → AsyncDesc
  /-- the global `adesc_index` -/
  adesc_index : Nat
  /-- byte memory holding the callers' buffers -/
  mem : Nat → Nat
  /-- the word obtained when the `size` field is read through a null
  `struct _buffer*` -/
  null_size : Nat
  /-- how many times a `size` field was read through a null pointer -/
  null_reads : Nat
  /-- values the hardware will return, in order -/
  script : List Nat
  /-- calls made so far, oldest first -/
  trace : List Ev

/-! ## The mocked hardware -/

/-- A call whose result is used: the next scripted value is returned (`1`
when the script is used up) and the call is recorded. -/
def World.query (w : World) (c : Call) : Nat × World :=
  match w.script with
  | [] => (1, { w with trace := w.trace ++ [(c, 1)] })
  | r :: rest => (r, { w with script := rest, trace := w.trace ++ [(c, r)] })

/-- A call whose result is not used: it is recorded. -/
def World.cmd (w : World) (c : Call) : World :=
  { w with trace := w.trace ++ [(c, 0)] }

/-- The loop `while (!cond()) { if (timer_timeout_reached(&timeout)) ... }`
shared by the three waits of the driver, run on the script alone.  Returns
whether the deadline was reached, the rest of the script and the calls made.
A poll made after the script is used up is answered `1`. -/
def pollUntil (cond : Call) : List Nat → Bool × List Nat × List Ev
  | [] => (false, [], [(cond, 1)])
  | [r] =>
    if r ≠ 0 then (false, [], [(cond, r)])
    else (true, [], [(cond, r), (Call.timer_timeout_reached, 1)])
  | r :: t :: rest =>
    if r ≠ 0 then (false, t :: rest, [(cond, r)])
    else if t ≠ 0 then (true, rest, [(cond, r), (Call.timer_timeout_reached, t)])
    else
      let p := pollUntil cond rest
      (p.1, p.2.1, (cond, r) :: (Call.timer_timeout_reached, t) :: p.2.2)

/-- The polling loop run in a world. -/
def World.pollUntil (w : World) (cond : Call) : Bool × World :=
  let p := Twid.pollUntil cond w.script
  (p.1, { w with script := p.2.1, trace := w.trace ++ p.2.2 })

/-! ## Memory, descriptors and the mutex -/

/-- Assignment to entry `i` of `asyncdesc`. -/
def World.setSlot (w : World) (i : Nat) (a : AsyncDesc) : World :=
  { w with asyncdesc := Function.update w.asyncdesc i a }

def World.getDesc (w : World) : DescRef → TwiDesc
  | .caller n => w.descs n
  | .slot i => (w.asyncdesc i).twi_desc

def World.setDesc (w : World) (r : DescRef) (d : TwiDesc) : World :=
  match r with
  | .caller n => { w with descs := Function.update w.descs n d }
  | .slot i => w.setSlot i { w.asyncdesc i with twi_desc := d }

/-- Write of one byte to memory: `p[i] = v`. -/
def World.store (w : World) (a v : Nat) : World :=
  { w with mem := Function.update w.mem a v }

/-- Read of `b->size` for a buffer pointer that may be null.  Through a null
pointer the read yields the word `null_size` of the world and is counted. -/
def World.bufSize (w : World) : Option Buffer → Nat × World
  | some b => (b.size, w)
  | none => (w.null_size, { w with null_reads := w.null_reads + 1 })

/-- Modelled from the spec: the mutex primitives are not part of `twid.c`;
try-lock is non-blocking, reports the prior state and leaves the mutex held. -/
def mutex_try_lock (desc : DescRef) (w : World) : Bool × World :=
  ((w.getDesc desc).mutex, w.setDesc desc { w.getDesc desc with mutex := true })

/-- Modelled from the spec: unlock of the mutex of a descriptor. -/
def mutex_free (desc : DescRef) (w : World) : World :=
  w.setDesc desc { w.getDesc desc with mutex := false }

/-- Modelled from the spec: query of the mutex of a descriptor. -/
def mutex_is_locked (desc : DescRef) (w : World) : Bool :=
  (w.getDesc desc).mutex

/-! ## Internal functions -/

def twid_finish_transfert (desc : DescRef) (w : World) : World :=
  mutex_free desc w

def twid_finish_transfert_callback (desc : DescRef) (_user_args : Nat)
    (w : World) : World :=
  twid_finish_transfert desc w

/-- The call `cb(desc, args)` through a non-null callback pointer. -/
def invoke_callback (cb : Callback) (desc : DescRef) (args : Nat)
    (w : World) : World :=
  match cb with
  | .null => w
  | .twid_finish_transfert_callback => twid_finish_transfert_callback desc args w
  | .user n => w.cmd (.callback n desc args)

/-- The driver function `twid_configure`.  The flag is `false` when the
assertion `id < ID_PERIPH_COUNT` fails, which aborts the program. -/
def twid_configure (chip : Chip) (desc : DescRef) (w : World) : Bool × World :=
  let id := chip.get_twi_id_from_addr (w.getDesc desc).addr
  if ¬ id < chip.ID_PERIPH_COUNT then (false, w)
  else
    let w := if (w.getDesc desc).timeout = 0 then
        w.setDesc desc { w.getDesc desc with timeout := TWID_TIMEOUT }
      else w
    let w := if chip.CONFIG_HAVE_FLEXCOM then
        let flexcom := chip.get_flexcom_addr_from_id
          (chip.get_twi_id_from_addr (w.getDesc desc).addr)
        if flexcom ≠ 0 then w.cmd (.flexcom_select flexcom chip.FLEX_MR_OPMODE_TWI)
        else w
      else w
    let w := w.cmd (.pmc_enable_peripheral id)
    let w := w.cmd (.twi_configure_master (w.getDesc desc).addr (w.getDesc desc).freq)
    let w := if chip.CONFIG_HAVE_TWI_FIFO then
        if (w.getDesc desc).transfert_mode = .TWID_MODE_FIFO then
          let fifo_depth := chip.get_peripheral_fifo_depth (w.getDesc desc).addr
          w.cmd (.twi_fifo_configure (w.getDesc desc).addr (fifo_depth / 2)
            (fifo_depth / 2) chip.TWI_FMR_ONE_DATA)
        else w
      else w
    (true, w)

/-- The function `_twid_wait_twi_transfer`.  The status is `none` when the
assertion inside `twid_configure` aborted the program. -/
def _twid_wait_twi_transfer (chip : Chip) (desc : DescRef) (w : World) :
    Option Status × World :=
  let w := w.cmd (.timer_start_timeout (w.getDesc desc).timeout)
  let p := w.pollUntil (.twi_is_transfer_complete (w.getDesc desc).addr)
  if p.1 then
    let c := twid_configure chip desc p.2
    if c.1 then (some .TWID_ERROR_TRANSFER, c.2) else (none, c.2)
  else (some .TWID_SUCCESS, p.2)

def _check_nack (chip : Chip) (addr : Nat) (w : World) : Status × World :=
  let q := w.query (.twi_get_status addr)
  if q.1 &&& chip.TWI_SR_NACK ≠ 0 then (.TWID_ERROR_ACK, q.2)
  else (.TWID_SUCCESS, q.2)

def _check_rx_time_out (desc : DescRef) (w : World) : Status × World :=
  let w := w.cmd (.timer_start_timeout (w.getDesc desc).timeout)
  let p := w.pollUntil (.twi_is_byte_received (w.getDesc desc).addr)
  if p.1 then (.TWID_ERROR_TIMEOUT, p.2) else (.TWID_SUCCESS, p.2)

def _check_tx_time_out (desc : DescRef) (w : World) : Status × World :=
  let w := w.cmd (.timer_start_timeout (w.getDesc desc).timeout)
  let p := w.pollUntil (.twi_is_byte_sent (w.getDesc desc).addr)
  if p.1 then (.TWID_ERROR_TIMEOUT, p.2) else (.TWID_SUCCESS, p.2)

/-! ### Polling engine, `CONFIG_SOC_SAMA5D4` -/

/-- How a byte loop of the polling engine ends: it ran to its bound, it was
left by `break`, or the function returned `TWID_ERROR_ACK` from inside it. -/
inductive LoopExit
  | done
  | brk
  | ret
  deriving DecidableEq, Repr

/-- The loop `for (i = 0; i < buffer->size-1; ++i)` of `_twid_poll_read`, with
`n` iterations left.  Returns how it ended, the final `i` and the world. -/
def _twid_poll_read_loop (chip : Chip) (desc : DescRef) (addr data : Nat) :
    Nat → Nat → World → LoopExit × Nat × World
  | 0, i, w => (.done, i, w)
  | n + 1, i, w =>
    let t := _check_rx_time_out desc w
    if t.1 ≠ .TWID_SUCCESS then (.brk, i, t.2)
    else
      let q := t.2.query (.twi_read_byte addr)
      let w1 := q.2.store (data + i) (q.1 % 256)
      let k := _check_nack chip addr w1
      if k.1 ≠ .TWID_SUCCESS then (.ret, i, k.2)
      else _twid_poll_read_loop chip desc addr data n (i + 1) k.2

/-- The part of `_twid_poll_read` (`CONFIG_SOC_SAMA5D4` build) that follows the
byte loop: stop condition, NACK check, wait for the last byte, its store at
index `i`, final wait. -/
def _twid_poll_read_last (chip : Chip) (desc : DescRef) (buffer : Buffer)
    (addr i : Nat) (w : World) : Option Status × World :=
  let w := w.cmd (.twi_send_stop_condition addr)
  let k := _check_nack chip addr w
  if k.1 ≠ .TWID_SUCCESS then (some .TWID_ERROR_ACK, k.2)
  else
    let t := _check_rx_time_out desc k.2
    if t.1 ≠ .TWID_SUCCESS then (some .TWID_ERROR_TIMEOUT, t.2)
    else
      let q := t.2.query (.twi_read_byte addr)
      let w := q.2.store (buffer.data + i) (q.1 % 256)
      _twid_wait_twi_transfer chip desc w

/-- The function `_twid_poll_read` of the `CONFIG_SOC_SAMA5D4` build. -/
def _twid_poll_read_sama5d4 (chip : Chip) (desc : DescRef) (buffer : Buffer)
    (w : World) : Option Status × World :=
  let addr := (w.getDesc desc).addr
  let w := w.cmd (.twi_start_read addr (w.getDesc desc).slave_addr
    (w.getDesc desc).iaddr (w.getDesc desc).isize)
  let l := if buffer.size ≠ 1 then
      _twid_poll_read_loop chip desc addr buffer.data
        ((buffer.size + 2 ^ 32 - 1) % 2 ^ 32) 0 w
    else (.done, 0, w)
  if l.1 = .ret then (some .TWID_ERROR_ACK, l.2.2)
  else _twid_poll_read_last chip desc buffer addr l.2.1 l.2.2

/-- The loop `for (i = 1; i < buffer->size; ++i)` of `_twid_poll_write`, with
`n` iterations left. -/
def _twid_poll_write_loop (chip : Chip) (desc : DescRef) (addr data : Nat) :
    Nat → Nat → World → LoopExit × World
  | 0, _, w => (.done, w)
  | n + 1, i, w =>
    let t := _check_tx_time_out desc w
    if t.1 ≠ .TWID_SUCCESS then (.brk, t.2)
    else
      let w1 := t.2.cmd (.twi_write_byte addr (t.2.mem (data + i)))
      let k := _check_nack chip addr w1
      if k.1 ≠ .TWID_SUCCESS then (.ret, k.2)
      else _twid_poll_write_loop chip desc addr data n (i + 1) k.2

/-- The part of `_twid_poll_write` (`CONFIG_SOC_SAMA5D4` build) that follows the
staging of the first byte and the stop of a one-byte buffer: first NACK check,
byte loop, stop of a longer buffer, final wait. -/
def _twid_poll_write_rest (chip : Chip) (desc : DescRef) (buffer : Buffer)
    (addr : Nat) (w : World) : Option Status × World :=
  let k := _check_nack chip addr w
  if k.1 ≠ .TWID_SUCCESS then (some .TWID_ERROR_ACK, k.2)
  else
    let l := _twid_poll_write_loop chip desc addr buffer.data (buffer.size - 1) 1 k.2
    if l.1 = .ret then (some .TWID_ERROR_ACK, l.2)
    else
      let w := if buffer.size ≠ 1 then l.2.cmd (.twi_send_stop_condition addr)
        else l.2
      _twid_wait_twi_transfer chip desc w

/-- The function `_twid_poll_write` of the `CONFIG_SOC_SAMA5D4` build. -/
def _twid_poll_write_sama5d4 (chip : Chip) (desc : DescRef) (buffer : Buffer)
    (w : World) : Option Status × World :=
  let addr := (w.getDesc desc).addr
  let w := w.cmd (.twi_start_write addr (w.getDesc desc).slave_addr
    (w.getDesc desc).iaddr (w.getDesc desc).isize (w.mem buffer.data))
  let w := if buffer.size = 1 then w.cmd (.twi_send_stop_condition addr) else w
  _twid_poll_write_rest chip desc buffer addr w

/-! ### Polling engine, other builds -/

/-- The function `_twid_poll_read` of the builds other than
`CONFIG_SOC_SAMA5D4`; its loop is the one above started at `i = 0` with bound
`buffer->size`. -/
def _twid_poll_read_other (chip : Chip) (desc : DescRef) (buffer : Buffer)
    (w : World) : Option Status × World :=
  let addr := (w.getDesc desc).addr
  let w := if chip.CONFIG_HAVE_TWI_ALTERNATE_CMD then
      w.cmd (.twi_init_read_transfert addr (w.getDesc desc).slave_addr
        (w.getDesc desc).iaddr (w.getDesc desc).isize buffer.size)
    else w
  let k := _check_nack chip addr w
  if k.1 ≠ .TWID_SUCCESS then (some .TWID_ERROR_ACK, k.2)
  else
    let l := _twid_poll_read_loop chip desc addr buffer.data buffer.size 0 k.2
    if l.1 = .ret then (some .TWID_ERROR_ACK, l.2.2)
    else _twid_wait_twi_transfer chip desc l.2.2

/-- The function `_twid_poll_write` of the builds other than
`CONFIG_SOC_SAMA5D4`. -/
def _twid_poll_write_other (chip : Chip) (desc : DescRef) (buffer : Buffer)
    (w : World) : Option Status × World :=
  let addr := (w.getDesc desc).addr
  let w := if chip.CONFIG_HAVE_TWI_ALTERNATE_CMD then
      w.cmd (.twi_init_write_transfert addr (w.getDesc desc).slave_addr
        (w.getDesc desc).iaddr (w.getDesc desc).isize buffer.size)
    else w
  let k := _check_nack chip addr w
  if k.1 ≠ .TWID_SUCCESS then (some .TWID_ERROR_ACK, k.2)
  else
    let l := _twid_poll_write_loop chip desc addr buffer.data buffer.size 0 k.2
    if l.1 = .ret then (some .TWID_ERROR_ACK, l.2)
    else _twid_wait_twi_transfer chip desc l.2

def _twid_poll_read (chip : Chip) (desc : DescRef) (buffer : Buffer)
    (w : World) : Option Status × World :=
  if chip.CONFIG_SOC_SAMA5D4 then _twid_poll_read_sama5d4 chip desc buffer w
  else _twid_poll_read_other chip desc buffer w

def _twid_poll_write (chip : Chip) (desc : DescRef) (buffer : Buffer)
    (w : World) : Option Status × World :=
  if chip.CONFIG_SOC_SAMA5D4 then _twid_poll_write_sama5d4 chip desc buffer w
  else _twid_poll_write_other chip desc buffer w

/-! ### DMA engine adapter -/

/-- The function `_twid_xdmad_callback_wrapper`, the completion callback the
driver registers with the DMA engine; `desc` is the `args` pointer. -/
def _twid_xdmad_callback_wrapper (channel : Nat) (desc : DescRef) (w : World) :
    World :=
  let w := w.cmd (.xdmad_free_channel channel)
  let w := if (w.getDesc desc).region_start ≠ 0 ∧ (w.getDesc desc).region_length ≠ 0 then
      w.cmd (.cache_invalidate_region (w.getDesc desc).region_start
        (w.getDesc desc).region_length)
    else w
  if (w.getDesc desc).callback ≠ .null then
    invoke_callback (w.getDesc desc).callback desc (w.getDesc desc).cb_args w
  else w

/-- The function `_twid_init_dma_read_channel`; the result is `none` when one
of its assertions fails. -/
def _twid_init_dma_read_channel (chip : Chip) (desc : DescRef) (w : World) :
    Option (Nat × XdmadCfg) × World :=
  let id := chip.get_twi_id_from_addr (w.getDesc desc).addr
  if ¬ id < chip.ID_PERIPH_COUNT then (none, w)
  else
    let q := w.query (.xdmad_allocate_channel id chip.XDMAD_PERIPH_MEMORY)
    if q.1 = 0 then (none, q.2)
    else
      let w := q.2.cmd (.xdmad_prepare_channel q.1)
      (some (q.1, { per2mem := true, sam_incremented := false,
                    dam_incremented := false,
                    src_addr := .TWI_RHR (w.getDesc desc).addr,
                    dest_addr := .mem 0, ublock_size := 0, block_size := 0 }), w)

def _twid_dma_read (chip : Chip) (desc : DescRef) (buffer : Buffer) (w : World) :
    Bool × World :=
  match _twid_init_dma_read_channel chip desc w with
  | (none, w) => (false, w)
  | (some (channel, cfg), w) =>
    let cfg := { cfg with dam_incremented := true, dest_addr := .mem buffer.data,
                          ublock_size := buffer.size, block_size := 0 }
    let w := w.cmd (.xdmad_configure_transfer channel cfg)
    let w := w.cmd (.xdmad_set_callback channel desc)
    let w := w.cmd (.cache_clean_region (w.getDesc desc).region_start
      (w.getDesc desc).region_length)
    (true, w.cmd (.xdmad_start_transfer channel))

/-- The function `_twid_init_dma_write_channel`; the result is `none` when one
of its assertions fails. -/
def _twid_init_dma_write_channel (chip : Chip) (desc : DescRef) (w : World) :
    Option (Nat × XdmadCfg) × World :=
  let id := chip.get_twi_id_from_addr (w.getDesc desc).addr
  if ¬ id < chip.ID_PERIPH_COUNT then (none, w)
  else
    let q := w.query (.xdmad_allocate_channel chip.XDMAD_PERIPH_MEMORY id)
    if q.1 = 0 then (none, q.2)
    else
      let w := q.2.cmd (.xdmad_prepare_channel q.1)
      (some (q.1, { per2mem := false, sam_incremented := false,
                    dam_incremented := false,
                    src_addr := .mem 0,
                    dest_addr := .TWI_THR (w.getDesc desc).addr,
                    ublock_size := 0, block_size := 0 }), w)

def _twid_dma_write (chip : Chip) (desc : DescRef) (buffer : Buffer) (w : World) :
    Bool × World :=
  match _twid_init_dma_write_channel chip desc w with
  | (none, w) => (false, w)
  | (some (channel, cfg), w) =>
    let cfg := { cfg with sam_incremented := true, src_addr := .mem buffer.data,
                          ublock_size := buffer.size, block_size := 0 }
    let w := w.cmd (.xdmad_configure_transfer channel cfg)
    let w := w.cmd (.xdmad_set_callback channel desc)
    let w := w.cmd (.cache_clean_region (w.getDesc desc).region_start
      (w.getDesc desc).region_length)
    (true, w.cmd (.xdmad_start_transfer channel))

/-! ### Interrupt handler -/

/-- The search loop `for (i=0; i!=MAX_ADESC; i++)` of `_twid_handler`, with `n`
iterations left: the first index from `i` on whose slot is bound to `id`. -/
def _twid_handler_find (tbl : Nat → AsyncDesc) (id : Nat) : Nat → Nat → Option Nat
  | 0, _ => none
  | n + 1, i => if (tbl i).twi_id = id then some i
    else _twid_handler_find tbl id n (i + 1)

/-- The function `_twid_handler`, one invocation. -/
def _twid_handler (chip : Chip) (w : World) : World :=
  let q := w.query .aic_get_current_interrupt_identifier
  let id := q.1
  let w := q.2
  match _twid_handler_find w.asyncdesc id MAX_ADESC 0 with
  | none =>
    let addr := chip.get_twi_addr_from_id id
    w.cmd (.twi_disable_it addr (chip.TWI_IDR_RXRDY ||| chip.TWI_IDR_TXRDY))
  | some i =>
    let addr := (w.asyncdesc i).twi_desc.addr
    let s := w.query (.twi_get_masked_status addr)
    let status := s.1
    let w := s.2
    if chip.TWI_STATUS_RXRDY status then
      let b := w.query (.twi_read_byte addr)
      let w := b.2.store ((b.2.asyncdesc i).pdata + (b.2.asyncdesc i).transferred)
        (b.1 % 256)
      let w := w.setSlot i
        { w.asyncdesc i with transferred := ((w.asyncdesc i).transferred + 1) % 2 ^ 32 }
      if (w.asyncdesc i).transferred = (w.asyncdesc i).size then
        let w := w.cmd (.twi_disable_it addr chip.TWI_IDR_RXRDY)
        w.cmd (.twi_enable_it addr chip.TWI_IER_TXCOMP)
      else if (w.asyncdesc i).transferred
          = ((w.asyncdesc i).size + 2 ^ 32 - 1) % 2 ^ 32 then
        w.cmd (.twi_send_stop_condition addr)
      else w
    else if chip.TWI_STATUS_TXRDY status then
      if (w.asyncdesc i).transferred = (w.asyncdesc i).size then
        let w := w.cmd (.twi_disable_it addr chip.TWI_IDR_TXRDY)
        let w := w.cmd (.twi_enable_it addr chip.TWI_IER_TXCOMP)
        w.cmd (.twi_send_stop_condition addr)
      else
        let w := w.cmd (.twi_write_byte addr
          (w.mem ((w.asyncdesc i).pdata + (w.asyncdesc i).transferred)))
        w.setSlot i
          { w.asyncdesc i with transferred := ((w.asyncdesc i).transferred + 1) % 2 ^ 32 }
    else if chip.TWI_STATUS_TXCOMP status then
      let w := w.cmd (.aic_disable id)
      let w := w.cmd (.twi_disable_it addr (chip.TWI_IDR_RXRDY ||| chip.TWI_IDR_RXRDY))
      let w := w.cmd (.twi_disable_it addr chip.TWI_IDR_TXCOMP)
      let w := if (w.asyncdesc i).twi_desc.callback ≠ .null then
          invoke_callback (w.asyncdesc i).twi_desc.callback (.slot i)
            (w.asyncdesc i).twi_desc.cb_args w
        else w
      let w := w.setSlot i { w.asyncdesc i with pdata := 0 }
      w.setSlot i { w.asyncdesc i with twi_id := 0 }
    else w

/-- The handler invoked `n` times in a row. -/
def run_handler (chip : Chip) : Nat → World → World
  | 0, w => w
  | n + 1, w => run_handler chip n (_twid_handler chip w)

/-! ## External functions -/

/-- The mode test at the head of `twid_transfert`: the configured mode, with
`TWID_MODE_ASYNC` replaced by `TWID_MODE_POLLING` when
`(tx->size == 1) || (rx->size == 1)`.  Both sizes are read through the
pointers as passed, the second one only when the first test fails. -/
def twid_transfert_tmode (desc : DescRef) (rx tx : Option Buffer) (w : World) :
    TransMode × World :=
  if (w.getDesc desc).transfert_mode = .TWID_MODE_ASYNC then
    let t := w.bufSize tx
    if t.1 = 1 then (.TWID_MODE_POLLING, t.2)
    else
      let r := t.2.bufSize rx
      if r.1 = 1 then (.TWID_MODE_POLLING, r.2) else (.TWID_MODE_ASYNC, r.2)
  else ((w.getDesc desc).transfert_mode, w)

/-- The arm `case TWID_MODE_ASYNC` of `twid_transfert`. -/
def twid_transfert_async (chip : Chip) (desc : DescRef) (rx tx : Option Buffer)
    (w : World) : Option Status × World :=
  let w := w.setSlot w.adesc_index
    { w.asyncdesc w.adesc_index with twi_desc := w.getDesc desc }
  let w := w.setSlot w.adesc_index { w.asyncdesc w.adesc_index with pdata := 0 }
  let id := chip.get_twi_id_from_addr (w.getDesc desc).addr
  let w := w.setSlot w.adesc_index { w.asyncdesc w.adesc_index with twi_id := id }
  let w := w.cmd (.aic_set_source_vector id)
  let w := w.cmd (.aic_enable id)
  let w :=
    match tx, rx with
    | some t, _ =>
      let w := w.setSlot w.adesc_index
        { w.asyncdesc w.adesc_index with pdata := t.data + 1 }
      let w := w.setSlot w.adesc_index
        { w.asyncdesc w.adesc_index with size := (t.size + 2 ^ 32 - 1) % 2 ^ 32 }
      let w := w.cmd (.twi_start_write (w.getDesc desc).addr (w.getDesc desc).slave_addr
        (w.getDesc desc).iaddr (w.getDesc desc).isize (w.mem t.data))
      w.cmd (.twi_enable_it (w.getDesc desc).addr chip.TWI_IER_TXRDY)
    | none, some r =>
      let w := w.setSlot w.adesc_index { w.asyncdesc w.adesc_index with pdata := r.data }
      let w := w.setSlot w.adesc_index { w.asyncdesc w.adesc_index with size := r.size }
      let w := w.cmd (.twi_enable_it (w.getDesc desc).addr chip.TWI_IER_RXRDY)
      w.cmd (.twi_start_read (w.getDesc desc).addr (w.getDesc desc).slave_addr
        (w.getDesc desc).iaddr (w.getDesc desc).isize)
    | none, none => w
  (some .TWID_SUCCESS, { w with adesc_index := (w.adesc_index + 1) % MAX_ADESC })

/-- The arm `case TWID_MODE_POLLING` of `twid_transfert`. -/
def twid_transfert_polling (chip : Chip) (desc : DescRef) (rx tx : Option Buffer)
    (cb : Callback) (user_args : Nat) (w : World) : Option Status × World :=
  let r : Option Status × World :=
    match tx, rx with
    | some t, _ =>
      _twid_poll_write chip desc t
        (w.cmd (.twi_enable_it (w.getDesc desc).addr chip.TWI_IER_TXRDY))
    | none, some r =>
      _twid_poll_read chip desc r
        (w.cmd (.twi_enable_it (w.getDesc desc).addr chip.TWI_IER_RXRDY))
    | none, none => (some .TWID_SUCCESS, w)
  match r with
  | (some .TWID_SUCCESS, w) =>
    let w := if cb ≠ .null then invoke_callback cb desc user_args w else w
    (some .TWID_SUCCESS, mutex_free desc w)
  | r => r

/-- The arm `case TWID_MODE_DMA` of `twid_transfert`. -/
def twid_transfert_dma (chip : Chip) (desc : DescRef) (rx tx : Option Buffer)
    (cb : Callback) (user_args : Nat) (w : World) : Option Status × World :=
  match tx, rx with
  | none, none => (some .TWID_ERROR_DUPLEX, w)
  | some t, _ =>
    if t.size < TWID_DMA_THRESHOLD then
      match _twid_poll_write chip desc t w with
      | (some .TWID_SUCCESS, w) =>
        let w := if cb ≠ .null then invoke_callback cb desc user_args w else w
        (some .TWID_SUCCESS, mutex_free desc w)
      | r => r
    else
      let w := if chip.CONFIG_HAVE_TWI_ALTERNATE_CMD then
          w.cmd (.twi_init_write_transfert (w.getDesc desc).addr
            (w.getDesc desc).slave_addr (w.getDesc desc).iaddr
            (w.getDesc desc).isize t.size)
        else w
      let w := w.setDesc desc { w.getDesc desc with region_start := t.data }
      let w := w.setDesc desc { w.getDesc desc with region_length := t.size }
      let d := _twid_dma_write chip desc t w
      if d.1 then (some .TWID_SUCCESS, d.2) else (none, d.2)
  | none, some r =>
    if r.size < TWID_DMA_THRESHOLD then
      match _twid_poll_read chip desc r w with
      | (some .TWID_SUCCESS, w) =>
        let w := if cb ≠ .null then invoke_callback cb desc user_args w else w
        (some .TWID_SUCCESS, mutex_free desc w)
      | r => r
    else
      let w := if chip.CONFIG_HAVE_TWI_ALTERNATE_CMD then
          w.cmd (.twi_init_read_transfert (w.getDesc desc).addr
            (w.getDesc desc).slave_addr (w.getDesc desc).iaddr
            (w.getDesc desc).isize r.size)
        else w
      let w := w.setDesc desc { w.getDesc desc with region_start := r.data }
      let w := w.setDesc desc { w.getDesc desc with region_length := r.size }
      let q := w.query (.twi_get_status (w.getDesc desc).addr)
      if q.1 &&& chip.TWI_SR_NACK ≠ 0 then (some .TWID_ERROR_ACK, q.2)
      else
        let d := _twid_dma_read chip desc r q.2
        if d.1 then (some .TWID_SUCCESS, d.2) else (none, d.2)

/-- The write half of `case TWID_MODE_FIFO`: `none` in the first component
means that the arm goes on to the read half. -/
def twid_transfert_fifo_tx (chip : Chip) (desc : DescRef) (t : Buffer) (w : World) :
    Option (Option Status) × World :=
  let q := w.query (.twi_write_stream (w.getDesc desc).addr (w.getDesc desc).slave_addr
    (w.getDesc desc).iaddr (w.getDesc desc).isize t.data t.size (w.getDesc desc).timeout)
  if q.1 = 0 then (some (some .TWID_ERROR_ACK), q.2)
  else
    match _twid_wait_twi_transfer chip desc q.2 with
    | (some .TWID_SUCCESS, w) => (none, w)
    | (r, w) => (some r, w)

/-- The read half of `case TWID_MODE_FIFO`. -/
def twid_transfert_fifo_rx (chip : Chip) (desc : DescRef) (r : Buffer) (w : World) :
    Option (Option Status) × World :=
  let q := w.query (.twi_read_stream (w.getDesc desc).addr (w.getDesc desc).slave_addr
    (w.getDesc desc).iaddr (w.getDesc desc).isize r.data r.size (w.getDesc desc).timeout)
  if q.1 = 0 then (some (some .TWID_ERROR_ACK), q.2)
  else
    match _twid_wait_twi_transfer chip desc q.2 with
    | (some .TWID_SUCCESS, w) => (none, w)
    | (r, w) => (some r, w)

/-- The arm `case TWID_MODE_FIFO` of `twid_transfert`, present when
`CONFIG_HAVE_TWI_FIFO` is defined. -/
def twid_transfert_fifo (chip : Chip) (desc : DescRef) (rx tx : Option Buffer)
    (cb : Callback) (user_args : Nat) (w : World) : Option Status × World :=
  let a : Option (Option Status) × World :=
    match tx with
    | some t => twid_transfert_fifo_tx chip desc t w
    | none => (none, w)
  match a with
  | (some r, w) => (r, w)
  | (none, w) =>
    let b : Option (Option Status) × World :=
      match rx with
      | some r => twid_transfert_fifo_rx chip desc r w
      | none => (none, w)
    match b with
    | (some r, w) => (r, w)
    | (none, w) =>
      let w := if cb ≠ .null then invoke_callback cb desc user_args w else w
      (some .TWID_SUCCESS, mutex_free desc w)

/-- The `switch (tmode)` of `twid_transfert`: the value of `status` at the
end of the switch, `none` when an assertion aborted the program. -/
def twid_transfert_switch (chip : Chip) (tmode : TransMode) (desc : DescRef)
    (rx tx : Option Buffer) (cb : Callback) (user_args : Nat) (w : World) :
    Option Status × World :=
  match tmode with
  | .TWID_MODE_ASYNC => twid_transfert_async chip desc rx tx w
  | .TWID_MODE_POLLING => twid_transfert_polling chip desc rx tx cb user_args w
  | .TWID_MODE_DMA => twid_transfert_dma chip desc rx tx cb user_args w
  | .TWID_MODE_FIFO =>
    if chip.CONFIG_HAVE_TWI_FIFO then twid_transfert_fifo chip desc rx tx cb user_args w
    else (some .TWID_SUCCESS, w)
  | .other _ => (some .TWID_SUCCESS, w)

/-- The part of `twid_transfert` that runs once the lock is acquired: mode
test, switch, and release of the lock when the status is an error. -/
def twid_transfert_locked (chip : Chip) (desc : DescRef) (rx tx : Option Buffer)
    (cb : Callback) (user_args : Nat) (w : World) : Option Status × World :=
  let m := twid_transfert_tmode desc rx tx w
  match twid_transfert_switch chip m.1 desc rx tx cb user_args m.2 with
  | (none, w) => (none, w)
  | (some status, w) =>
    if status ≠ .TWID_SUCCESS then (some status, mutex_free desc w)
    else (some status, w)

/-- The driver function `twid_transfert`.  The status is `none` when an
assertion aborted the program before the function returned. -/
def twid_transfert (chip : Chip) (desc : DescRef) (rx tx : Option Buffer)
    (cb : Callback) (user_args : Nat) (w : World) : Option Status × World :=
  let w := w.setDesc desc { w.getDesc desc with callback := cb }
  let w := w.setDesc desc { w.getDesc desc with cb_args := user_args }
  let l := mutex_try_lock desc w
  if l.1 then (some .TWID_ERROR_LOCK, l.2)
  else twid_transfert_locked chip desc rx tx cb user_args l.2

def twid_is_busy (desc : DescRef) (w : World) : Bool :=
  mutex_is_locked desc w

/-! ## A concrete chip and world for evaluating the driver -/

/-- A SAMA5D4-like chip: three TWI controllers with identifiers 32 to 34, the
status bits TXCOMP, RXRDY, TXRDY at positions 0, 1, 2 and NACK at position 8. -/
def sama5d4 : Chip where
  CONFIG_SOC_SAMA5D4 := true
  CONFIG_HAVE_FLEXCOM := false
  CONFIG_HAVE_TWI_FIFO := false
  CONFIG_HAVE_TWI_ALTERNATE_CMD := false
  ID_PERIPH_COUNT := 74
  get_twi_id_from_addr := fun a => if a = 1000 then 32 else if a = 2000 then 33
    else if a = 3000 then 34 else 74
  get_twi_addr_from_id := fun i => if i = 32 then 1000 else if i = 33 then 2000
    else if i = 34 then 3000 else 0
  get_flexcom_addr_from_id := fun _ => 0
  get_peripheral_fifo_depth := fun _ => 0
  XDMAD_PERIPH_MEMORY := 255
  FLEX_MR_OPMODE_TWI := 3
  TWI_FMR_ONE_DATA := 0
  TWI_SR_NACK := 256
  TWI_IER_RXRDY := 2
  TWI_IER_TXRDY := 4
  TWI_IER_TXCOMP := 1
  TWI_IDR_RXRDY := 2
  TWI_IDR_TXRDY := 4
  TWI_IDR_TXCOMP := 1
  TWI_STATUS_RXRDY := fun s => s &&& 2 = 2
  TWI_STATUS_TXRDY := fun s => s &&& 4 = 4
  TWI_STATUS_TXCOMP := fun s => s &&& 1 = 1

/-- A descriptor for controller `addr` in mode `m`, unlocked, with the default
timeout and no internal address. -/
def mkDesc (addr : Nat) (m : TransMode) : TwiDesc where
  addr := addr
  freq := 400000
  slave_addr := 80
  transfert_mode := m
  iaddr := 0
  isize := 0
  timeout := TWID_TIMEOUT
  region_start := 0
  region_length := 0
  callback := .null
  cb_args := 0
  mutex := false

/-- The zero-initialised entry of `asyncdesc`. -/
def zeroSlot : AsyncDesc where
  twi_desc :=
    { addr := 0, freq := 0, slave_addr := 0, transfert_mode := .other 0, iaddr := 0,
      isize := 0, timeout := 0, region_start := 0, region_length := 0,
      callback := .null, cb_args := 0, mutex := false }
  twi_id := 0
  pdata := 0
  size := 0
  transferred := 0

/-- The world at start-up: every caller descriptor is `d`, the slot table and
its index are zero, memory is `mem`, the hardware will answer `script`. -/
def initWorld (d : TwiDesc) (mem : Nat → Nat) (script : List Nat) : World where
  descs := fun _ => d
  asyncdesc := fun _ => zeroSlot
  adesc_index := 0
  mem := mem
  null_size := 0
  null_reads := 0
  script := script
  trace := []

/-- A memory holding the bytes `0x12 0x34 0x56` at addresses 500 to 502 and
zero elsewhere. -/
def exampleMem : Nat → Nat :=
  fun a => if a = 500 then 0x12 else if a = 501 then 0x34 else if a = 502 then 0x56 else 0

/-- The start-up world for a descriptor of controller 1000 in mode `m`. -/
def exampleWorld (m : TransMode) (script : List Nat) : World :=
  initWorld (mkDesc 1000 m) exampleMem script

/-! ## Reading the trace -/

/-- A recorded status read in which the controller reported NACK. -/
def isNackEv (chip : Chip) : Ev → Bool
  | (.twi_get_status _, r) => decide (r &&& chip.TWI_SR_NACK ≠ 0)
  | _ => false

/-- The trace of the second world is the trace of the first followed by calls
none of which is a status read reporting NACK. -/
def CleanExt (chip : Chip) (w w1 : World) : Prop :=
  ∃ evs, w1.trace = w.trace ++ evs ∧ ∀ e ∈ evs, isNackEv chip e = false

/-- The trace of the second world is the trace of the first followed by calls
of which the last one, and only the last one, is a status read reporting
NACK. -/
def NackEnd (chip : Chip) (w w1 : World) : Prop :=
  ∃ pre e, w1.trace = w.trace ++ (pre ++ [e])
    ∧ (∀ x ∈ pre, isNackEv chip x = false) ∧ isNackEv chip e = true

/-- The outcome of a polling function as far as NACK is concerned: either it
returned `TWID_ERROR_ACK` right after the status read that reported NACK, or
it did not return `TWID_ERROR_ACK` and no status read reported NACK. -/
def NackOutcome (chip : Chip) (w : World) (r : Option Status × World) : Prop :=
  (r.1 = some Status.TWID_ERROR_ACK ∧ NackEnd chip w r.2)
  ∨ (r.1 ≠ some Status.TWID_ERROR_ACK ∧ CleanExt chip w r.2)

/-- What a recorded call means for the transfer: a byte handed to or taken
from the controller, a start or stop condition, a status read that reported
NACK, a deadline found reached.  Every other call (a poll that did not end
the wait, a status read without NACK, configuration) is not an observation. -/
inductive Obs
  | start_write (byte : Nat)
  | start_read
  | write (byte : Nat)
  | read (byte : Nat)
  | stop
  | nack
  | expired
  deriving DecidableEq, Repr

def obs (chip : Chip) : Ev → Option Obs
  | (.twi_start_write _ _ _ _ b, _) => some (.start_write b)
  | (.twi_start_read _ _ _ _, _) => some .start_read
  | (.twi_write_byte _ b, _) => some (.write b)
  | (.twi_read_byte _, r) => some (.read r)
  | (.twi_send_stop_condition _, _) => some .stop
  | (.twi_get_status _, r) => if r &&& chip.TWI_SR_NACK ≠ 0 then some .nack else none
  | (.timer_timeout_reached, t) => if t ≠ 0 then some .expired else none
  | _ => none

/-- The observations of a list of recorded calls, in order. -/
def observe (chip : Chip) (evs : List Ev) : List Obs :=
  evs.filterMap (obs chip)

/-- The calls recorded between two worlds of one run. -/
def added (w w1 : World) : List Ev :=
  w1.trace.drop w.trace.length

/-- The second world extends the trace of the first by calls whose
observations are `os`. -/
def Obsd (chip : Chip) (w w1 : World) (os : List Obs) : Prop :=
  ∃ evs, w1.trace = w.trace ++ evs ∧ observe chip evs = os

/-- The writes of the `k` bytes stored from address `a` on, in order. -/
def obsWrites (mem : Nat → Nat) : Nat → Nat → List Obs
  | _, 0 => []
  | a, k + 1 => .write (mem a) :: obsWrites mem (a + 1) k

/-- The observation a byte loop of the polling engine ends with. -/
def exitObs : LoopExit → List Obs
  | .done => []
  | .brk => [.expired]
  | .ret => [.nack]

/-- Whether a NACK or a reached deadline is observed before the first stop
condition. -/
def faultBeforeStop : List Obs → Bool
  | [] => false
  | .stop :: _ => false
  | .nack :: _ => true
  | .expired :: _ => true
  | _ :: rest => faultBeforeStop rest

/-- The calls to the interrupt controller. -/
def isAicCall : Call → Bool
  | .aic_get_current_interrupt_identifier => true
  | .aic_set_source_vector _ => true
  | .aic_enable _ => true
  | .aic_disable _ => true
  | _ => false

/-- What a step of the polling path on the descriptor of caller `n` may change:
it leaves the slot table, its index and the mode of the descriptor alone, and
it makes no call to the interrupt controller. -/
structure PollStep (n : Nat) (w w1 : World) : Prop where
  asyncdesc : w1.asyncdesc = w.asyncdesc
  adesc_index : w1.adesc_index = w.adesc_index
  mode : (w1.descs n).transfert_mode = (w.descs n).transfert_mode
  calls : ∃ evs, w1.trace = w.trace ++ evs ∧ ∀ e ∈ evs, isAicCall e.1 = false

/-- The world in which the descriptor of caller `n` is configured for polling
and the count of null reads is `k`, everything else being as in `w`. -/
def asPolling (n k : Nat) (w : World) : World :=
  { w with
    descs := Function.update w.descs n
      { w.descs n with transfert_mode := .TWID_MODE_POLLING }
    null_reads := k }

/-- The result of a driver function seen in the world `asPolling`. -/
def asPollingResult {α : Type} (n k : Nat) (r : α × World) : α × World :=
  (r.1, asPolling n k r.2)

/-- The recorded calls of `j` rounds of a wait in which the polled condition
does not hold and the deadline is not reached. -/
def idlePolls (cond : Call) : Nat → List Ev
  | 0 => []
  | j + 1 => (cond, 0) :: (Call.timer_timeout_reached, 0) :: idlePolls cond j

/-- The invocation of an application callback among the recorded calls. -/
def isCallbackEv : Ev → Bool
  | (.callback _ _ _, _) => true
  | _ => false

/-- The hardware answers that drive one invocation of the handler per status
of `ss`: the identifier of the firing peripheral, then the masked status. -/
def handlerScript (id : Nat) : List Nat → List Nat
  | [] => []
  | s :: ss => id :: s :: handlerScript id ss

/-- One complete asynchronous write of buffer `t` on the descriptor of caller
`n`: the submit, then three invocations of the handler. -/
def asyncCycle (chip : Chip) (n : Nat) (t : Buffer) (w : World) : World :=
  run_handler chip 3 (twid_transfert chip (.caller n) none (some t) .null 0 w).2

/-- The cycles of `asyncCycle` for the callers `0` to `k - 1`, in this order. -/
def asyncCycles (chip : Chip) (t : Buffer) : Nat → World → World
  | 0, w => w
  | k + 1, w => asyncCycle chip k t (asyncCycles chip t k w)

/-- The hardware answers of one asynchronous two-byte write on the controller
with identifier 32, driven to completion: transmit-ready twice (second byte,
then stop), then transfer complete. -/
def cycleScript : List Nat := [32, 4, 32, 4, 32, 1]

/-- The answers of eight such writes followed by one transmit-ready
interrupt. -/
def nineWritesScript : List Nat :=
  cycleScript ++ cycleScript ++ cycleScript ++ cycleScript ++ cycleScript ++ cycleScript
    ++ cycleScript ++ cycleScript ++ [32, 4]

/-- The world after eight completed asynchronous two-byte writes on the
callers 0 to 7 and the submit, by caller 8, of an asynchronous write of the
three bytes at addresses 500 to 502. -/
def afterNinthSubmit : World :=
  (twid_transfert sama5d4 (.caller 8) none (some ⟨500, 3⟩) .null 0
    (asyncCycles sama5d4 ⟨500, 2⟩ 8 (exampleWorld .TWID_MODE_ASYNC nineWritesScript))).2

/-- The world after an asynchronous two-byte write submitted by caller 0 with
the default callback `twid_finish_transfert_callback` and driven to
completion by three invocations of the handler. -/
def afterDefaultCallback : World :=
  run_handler sama5d4 3
    (twid_transfert sama5d4 (.caller 0) none (some ⟨500, 2⟩)
      .twid_finish_transfert_callback 0 (exampleWorld .TWID_MODE_ASYNC cycleScript)).2

/-- The calls `twid_configure` makes for a descriptor with the fields of `d`,
in order: the selection of the TWI function of a FLEXCOM when there is one,
the enable of the peripheral clock, the bus timing, and the FIFO thresholds
when the FIFO mode is built in and selected. -/
def configCalls (chip : Chip) (d : TwiDesc) : List Ev :=
  (if chip.CONFIG_HAVE_FLEXCOM = true
      ∧ chip.get_flexcom_addr_from_id (chip.get_twi_id_from_addr d.addr) ≠ 0 then
    [(Call.flexcom_select (chip.get_flexcom_addr_from_id (chip.get_twi_id_from_addr d.addr))
      chip.FLEX_MR_OPMODE_TWI, 0)]
  else [])
  ++ [(Call.pmc_enable_peripheral (chip.get_twi_id_from_addr d.addr), 0),
      (Call.twi_configure_master d.addr d.freq, 0)]
  ++ (if chip.CONFIG_HAVE_TWI_FIFO = true ∧ d.transfert_mode = .TWID_MODE_FIFO then
    [(Call.twi_fifo_configure d.addr (chip.get_peripheral_fifo_depth d.addr / 2)
      (chip.get_peripheral_fifo_depth d.addr / 2) chip.TWI_FMR_ONE_DATA, 0)]
  else [])

/-- The calls `twid_configure` makes. -/
def isConfigCall : Call → Bool
  | .flexcom_select _ _ => true
  | .pmc_enable_peripheral _ => true
  | .twi_configure_master _ _ => true
  | .twi_fifo_configure _ _ _ _ => true
  | _ => false

/-- The world after an asynchronous two-byte write submitted by caller 0 with
the application callback 7 and two transmit-ready interrupts: the slot waits
for transfer complete. -/
def beforeTxcomp : World :=
  run_handler sama5d4 2
    (twid_transfert sama5d4 (.caller 0) none (some ⟨500, 2⟩) (.user 7) 0
      (exampleWorld .TWID_MODE_ASYNC cycleScript)).2

/-- The calls to the DMA engine and the cache maintenance that goes with
them. -/
def isDmaCall : Call → Bool
  | .xdmad_allocate_channel _ _ => true
  | .xdmad_prepare_channel _ => true
  | .xdmad_configure_transfer _ _ => true
  | .xdmad_set_callback _ _ => true
  | .xdmad_start_transfer _ => true
  | .xdmad_free_channel _ => true
  | .cache_clean_region _ _ => true
  | .cache_invalidate_region _ _ => true
  | _ => false

/-- An asynchronous submission with exactly one buffer: the caller whose
descriptor is used, the direction, the buffer, the callback and its
argument. -/
structure Submission where
  n : Nat
  write : Bool
  buf : Buffer
  cb : Callback
  args : Nat

def Submission.rx (s : Submission) : Option Buffer :=
  if s.write then none else some s.buf

def Submission.tx (s : Submission) : Option Buffer :=
  if s.write then some s.buf else none

/-- The call `twid_transfert(desc, rx, tx, cb, args)` of a submission. -/
def submit (chip : Chip) (s : Submission) (w : World) : Option Status × World :=
  twid_transfert chip (.caller s.n) s.rx s.tx s.cb s.args w

/-- The submission is made on a free descriptor configured for the
asynchronous strategy, with a buffer that is not one byte long, in a world in
which the size read through the null buffer pointer is not 1: the submit runs
the asynchronous arm. -/
def Submission.Async (s : Submission) (w : World) : Prop :=
  (w.getDesc (.caller s.n)).transfert_mode = .TWID_MODE_ASYNC
  ∧ mutex_is_locked (.caller s.n) w = false
  ∧ s.buf.size ≠ 1
  ∧ w.null_size ≠ 1

/-- The calls the asynchronous arm makes for a submission on descriptor `d`. -/
def asyncSubmitCalls (chip : Chip) (d : TwiDesc) (s : Submission) (mem : Nat → Nat) :
    List Ev :=
  [(Call.aic_set_source_vector (chip.get_twi_id_from_addr d.addr), 0),
   (Call.aic_enable (chip.get_twi_id_from_addr d.addr), 0)]
  ++ (if s.write then
    [(Call.twi_start_write d.addr d.slave_addr d.iaddr d.isize (mem s.buf.data), 0),
     (Call.twi_enable_it d.addr chip.TWI_IER_TXRDY, 0)]
  else
    [(Call.twi_enable_it d.addr chip.TWI_IER_RXRDY, 0),
     (Call.twi_start_read d.addr d.slave_addr d.iaddr d.isize, 0)])

/-- The worlds reached from a world whose round-robin index is 0 by `k`
asynchronous submissions, with invocations of the handler in between. -/
inductive AsyncReach (chip : Chip) : Nat → World → Prop
  | start (w : World) (h : w.adesc_index = 0) : AsyncReach chip 0 w
  | submitted {k : Nat} {w : World} (s : Submission) (hr : AsyncReach chip k w)
      (hs : s.Async w) : AsyncReach chip (k + 1) (submit chip s w).2
  | handled {k : Nat} {w : World} (hr : AsyncReach chip k w) :
      AsyncReach chip k (_twid_handler chip w)

/-- The invariant of the slot table: every slot below `MAX_ADESC` is free
(identifier cleared and buffer pointer null) or bound to an identifier, and no
two of them are bound to the same identifier. -/
def SlotInv (w : World) : Prop :=
  (∀ i, i < MAX_ADESC →
    ((w.asyncdesc i).twi_id = 0 ∧ (w.asyncdesc i).pdata = 0) ∨ (w.asyncdesc i).twi_id ≠ 0)
  ∧ ∀ i j, i < MAX_ADESC → j < MAX_ADESC → i ≠ j → (w.asyncdesc i).twi_id ≠ 0 →
      (w.asyncdesc i).twi_id ≠ (w.asyncdesc j).twi_id

/-- The worlds reached from an all-free slot table by asynchronous submissions,
each for a peripheral whose identifier is not 0 and is bound in no slot when
the submission is made, and by invocations of the handler. -/
inductive SlotReach (chip : Chip) : World → Prop
  | start (w : World) (hidx : w.adesc_index < MAX_ADESC)
      (hfree : ∀ i, (w.asyncdesc i).twi_id = 0 ∧ (w.asyncdesc i).pdata = 0) :
      SlotReach chip w
  | submitted {w : World} (s : Submission) (hr : SlotReach chip w) (hs : s.Async w)
      (hid : chip.get_twi_id_from_addr (w.getDesc (.caller s.n)).addr ≠ 0)
      (hnew : ∀ i, i < MAX_ADESC →
        (w.asyncdesc i).twi_id ≠ chip.get_twi_id_from_addr (w.getDesc (.caller s.n)).addr) :
      SlotReach chip (submit chip s w).2
  | handled {w : World} (hr : SlotReach chip w) : SlotReach chip (_twid_handler chip w)

/-- The world after two asynchronous two-byte writes submitted by the callers
0 and 1, whose descriptors both name controller 1000. -/
def twoSubmitsOneController : World :=
  (submit sama5d4 ⟨1, true, ⟨500, 2⟩, .null, 0⟩
    (submit sama5d4 ⟨0, true, ⟨500, 2⟩, .null, 0⟩ (exampleWorld .TWID_MODE_ASYNC [])).2).2

/-- The calls the polling engine makes: bus operations on the controller,
status reads and polls, timer calls, and the calls of `twid_configure`. -/
def isEngineCall : Call → Bool
  | .twi_start_read _ _ _ _ => true
  | .twi_start_write _ _ _ _ _ => true
  | .twi_send_stop_condition _ => true
  | .twi_read_byte _ => true
  | .twi_write_byte _ _ => true
  | .twi_get_status _ => true
  | .twi_is_byte_received _ => true
  | .twi_is_byte_sent _ => true
  | .twi_is_transfer_complete _ => true
  | .twi_configure_master _ _ => true
  | .twi_fifo_configure _ _ _ _ => true
  | .twi_init_read_transfert _ _ _ _ _ => true
  | .twi_init_write_transfert _ _ _ _ _ => true
  | .flexcom_select _ _ => true
  | .pmc_enable_peripheral _ => true
  | .timer_start_timeout _ => true
  | .timer_timeout_reached => true
  | _ => false

/-- The trace of the second world is the trace of the first followed by calls
of the polling engine. -/
def EngineExt (w w1 : World) : Prop :=
  ∃ evs, w1.trace = w.trace ++ evs ∧ ∀ e ∈ evs, isEngineCall e.1 = true

/-- The recorded invocation of the callback `cb` on `desc` with `args`: one
call for a callback of the application, nothing for the null pointer and for
the driver's own `twid_finish_transfert_callback`, which makes no call. -/
def callbackCalls (cb : Callback) (desc : DescRef) (args : Nat) : List Ev :=
  match cb with
  | .user m => [(Call.callback m desc args, 0)]
  | _ => []

/-- The world in which the switch of `twid_transfert` runs when the lock was
free: callback and user data recorded in the descriptor, lock taken. -/
def lockedWorld (desc : DescRef) (cb : Callback) (user_args : Nat) (w : World) : World :=
  (mutex_try_lock desc
    ((w.setDesc desc { w.getDesc desc with callback := cb }).setDesc desc
      { (w.setDesc desc { w.getDesc desc with callback := cb }).getDesc desc with
        cb_args := user_args })).2

/-- The calls of `_twid_dma_write` for buffer `t` on a descriptor with the
fields of `d` when the DMA engine hands out `channel`: allocation and
preparation of the channel, configuration of a transfer of `t.size` bytes from
the buffer to the transmit register, registration of the completion wrapper,
cache clean of the recorded region, start. -/
def dmaWriteCalls (chip : Chip) (d : TwiDesc) (desc : DescRef) (t : Buffer)
    (channel : Nat) : List Ev :=
  [(Call.xdmad_allocate_channel chip.XDMAD_PERIPH_MEMORY (chip.get_twi_id_from_addr d.addr),
      channel),
   (Call.xdmad_prepare_channel channel, 0),
   (Call.xdmad_configure_transfer channel
      { per2mem := false, sam_incremented := true, dam_incremented := false,
        src_addr := .mem t.data, dest_addr := .TWI_THR d.addr,
        ublock_size := t.size, block_size := 0 }, 0),
   (Call.xdmad_set_callback channel desc, 0),
   (Call.cache_clean_region d.region_start d.region_length, 0),
   (Call.xdmad_start_transfer channel, 0)]

/-- The calls of `_twid_dma_read` for buffer `r`, likewise. -/
def dmaReadCalls (chip : Chip) (d : TwiDesc) (desc : DescRef) (r : Buffer)
    (channel : Nat) : List Ev :=
  [(Call.xdmad_allocate_channel (chip.get_twi_id_from_addr d.addr) chip.XDMAD_PERIPH_MEMORY,
      channel),
   (Call.xdmad_prepare_channel channel, 0),
   (Call.xdmad_configure_transfer channel
      { per2mem := true, sam_incremented := false, dam_incremented := true,
        src_addr := .TWI_RHR d.addr, dest_addr := .mem r.data,
        ublock_size := r.size, block_size := 0 }, 0),
   (Call.xdmad_set_callback channel desc, 0),
   (Call.cache_clean_region d.region_start d.region_length, 0),
   (Call.xdmad_start_transfer channel, 0)]

/-- The result `e` is that of a run of the polling engine started in world
`w0` on descriptor `desc`: `_twid_poll_write` or `_twid_poll_read` on some
buffer. -/
def EngineRun (chip : Chip) (desc : DescRef) (w0 : World) (e : Option Status × World) :
    Prop :=
  (∃ b, e = _twid_poll_write chip desc b w0) ∨ (∃ b, e = _twid_poll_read chip desc b w0)

/-- How the calls of a run of the polling engine end, by the status returned.
`TWID_SUCCESS`: with a transfer-complete poll that found the transfer
complete.  `TWID_ERROR_TIMEOUT`: with a byte-received poll that failed and the
deadline check that found the deadline reached.  `TWID_ERROR_TRANSFER`, or the
abort of the program inside `twid_configure`: with a transfer-complete poll
that failed, the deadline check that found the deadline reached, and then
calls of `twid_configure` only.  Nothing is said for `TWID_ERROR_ACK`; the
engine returns no other status. -/
def Ending (st : Option Status) (evs : List Ev) : Prop :=
  match st with
  | some .TWID_SUCCESS =>
    ∃ pre a c, evs = pre ++ [(Call.twi_is_transfer_complete a, c)] ∧ c ≠ 0
  | some .TWID_ERROR_TIMEOUT =>
    ∃ pre a t, evs = pre ++ [(Call.twi_is_byte_received a, 0), (Call.timer_timeout_reached, t)]
  | some .TWID_ERROR_TRANSFER =>
    ∃ pre a t cfg, evs = pre ++ (Call.twi_is_transfer_complete a, 0)
        :: (Call.timer_timeout_reached, t) :: cfg
      ∧ t ≠ 0 ∧ ∀ e ∈ cfg, isConfigCall e.1 = true
  | none =>
    ∃ pre a t cfg, evs = pre ++ (Call.twi_is_transfer_complete a, 0)
        :: (Call.timer_timeout_reached, t) :: cfg
      ∧ t ≠ 0 ∧ ∀ e ∈ cfg, isConfigCall e.1 = true
  | some .TWID_ERROR_ACK => True
  | _ => False

/-- The result `r` of a run started in world `w` extends the trace by calls
that end as its status says. -/
def Ends (w : World) (r : Option Status × World) : Prop :=
  ∃ evs, r.2.trace = w.trace ++ evs ∧ Ending r.1 evs

/-- Whether the final wait of a run timed out, read from the calls of the
run: once the trailing calls of `twid_configure` are set aside, the last two
calls are a transfer-complete poll and the deadline check that found the
deadline reached. -/
def finalWaitExpired (evs : List Ev) : Bool :=
  match evs.reverse.dropWhile (fun e => isConfigCall e.1) with
  | (.timer_timeout_reached, t) :: (.twi_is_transfer_complete _, _) :: _ => t != 0
  | _ => false

/-- A transfer-complete poll among recorded calls. -/
def isCompletePoll : Ev → Bool
  | (.twi_is_transfer_complete _, _) => true
  | _ => false

/-- Slot `j` of the table is bound to the peripheral `id` and is the first
slot bound to it; its descriptor names the controller at `addr`, its buffer
pointer is `pdata`, its size `size` and its transferred count `count`. -/
def Bound (w : World) (j id addr pdata size count : Nat) : Prop :=
  j < MAX_ADESC
  ∧ (w.asyncdesc j).twi_id = id
  ∧ (∀ x, x < j → (w.asyncdesc x).twi_id ≠ id)
  ∧ (w.asyncdesc j).twi_desc.addr = addr
  ∧ (w.asyncdesc j).pdata = pdata
  ∧ (w.asyncdesc j).size = size
  ∧ (w.asyncdesc j).transferred = count

/-- The hardware answers that drive one invocation of the handler per pair of
`ps` in the receive direction: the identifier of the firing peripheral, the
masked status, the byte read. -/
def rxScript (id : Nat) : List (Nat × Nat) → List Nat
  | [] => []
  | p :: ps => id :: p.1 :: p.2 :: rxScript id ps

/-- The calls of one invocation of the handler that serves receive-ready for
the controller at `addr`: identification, status, the byte read, and then
what the new count `count` asks for. -/
def rxEventCalls (chip : Chip) (id addr size count : Nat) (p : Nat × Nat) : List Ev :=
  [(Call.aic_get_current_interrupt_identifier, id),
   (Call.twi_get_masked_status addr, p.1),
   (Call.twi_read_byte addr, p.2)]
  ++ (if count = size then
      [(Call.twi_disable_it addr chip.TWI_IDR_RXRDY, 0),
       (Call.twi_enable_it addr chip.TWI_IER_TXCOMP, 0)]
    else if count = (size + 2 ^ 32 - 1) % 2 ^ 32 then
      [(Call.twi_send_stop_condition addr, 0)]
    else [])

/-- The trace of the second world is the trace of the first followed by calls
none of which is a transfer-complete poll: the final wait has not been
started. -/
def NoFinalWait (w w1 : World) : Prop :=
  ∃ evs, w1.trace = w.trace ++ evs ∧ evs.filter isCompletePoll = []

/-- The world after an asynchronous read of three bytes to address 600
submitted by caller 0 on controller 1000; the hardware will then answer two
receive-ready interrupts of that controller with the bytes `0xA1` and
`0xA2`. -/
def afterFirstRead : World :=
  (submit sama5d4 ⟨0, false, ⟨600, 3⟩, .null, 0⟩
    (exampleWorld .TWID_MODE_ASYNC [32, 2, 0xA1, 32, 2, 0xA2])).2

/-- A second asynchronous read, of two bytes to address 700, submitted by
caller 1, whose descriptor names the same controller, followed by two
invocations of the handler. -/
def secondReadDriven : World :=
  run_handler sama5d4 2 (submit sama5d4 ⟨1, false, ⟨700, 2⟩, .null, 0⟩ afterFirstRead).2

/-- The world after an asynchronous write of the three bytes at addresses 500
to 502 submitted by caller 0 on controller 1000; the hardware will then answer
two transmit-ready interrupts of that controller. -/
def afterFirstWrite : World :=
  (submit sama5d4 ⟨0, true, ⟨500, 3⟩, .null, 0⟩
    (exampleWorld .TWID_MODE_ASYNC [32, 4, 32, 4])).2

/-- A second asynchronous write, of the two bytes at addresses 501 and 502,
submitted by caller 1, whose descriptor names the same controller, followed by
two invocations of the handler. -/
def secondWriteDriven : World :=
  run_handler sama5d4 2 (submit sama5d4 ⟨1, true, ⟨501, 2⟩, .null, 0⟩ afterFirstWrite).2

/-! ## Basic facts about the world -/

@[simp] theorem getDesc_setDesc (w : World) (r : DescRef) (d : TwiDesc) :
    (w.setDesc r d).getDesc r = d := by
  cases r <;> simp [World.setDesc, World.getDesc, World.setSlot]

@[simp] theorem setDesc_trace (w : World) (r : DescRef) (d : TwiDesc) :
    (w.setDesc r d).trace = w.trace := by
  cases r <;> rfl

@[simp] theorem setDesc_script (w : World) (r : DescRef) (d : TwiDesc) :
    (w.setDesc r d).script = w.script := by
  cases r <;> rfl

@[simp] theorem setDesc_mem (w : World) (r : DescRef) (d : TwiDesc) :
    (w.setDesc r d).mem = w.mem := by
  cases r <;> rfl

@[simp] theorem setDesc_adesc_index (w : World) (r : DescRef) (d : TwiDesc) :
    (w.setDesc r d).adesc_index = w.adesc_index := by
  cases r <;> rfl

@[simp] theorem mutex_free_mutex (desc : DescRef) (w : World) :
    ((mutex_free desc w).getDesc desc).mutex = false := by
  simp [mutex_free]

@[simp] theorem mutex_free_trace (desc : DescRef) (w : World) :
    (mutex_free desc w).trace = w.trace := by
  simp [mutex_free]

/-! ## The busy lock at the entry and exit of `twid_transfert` -/

/-- C1: a submit on a descriptor whose busy lock is already held returns
`TWID_ERROR_LOCK`, whatever the mode and the buffers, and makes no call to the
hardware layer: the trace of calls is unchanged and no hardware answer is
consumed. -/
theorem C1_submit_on_held_lock (chip : Chip) (desc : DescRef) (rx tx : Option Buffer)
    (cb : Callback) (user_args : Nat) (w : World)
    (hlock : mutex_is_locked desc w = true) :
    (twid_transfert chip desc rx tx cb user_args w).1 = some Status.TWID_ERROR_LOCK
    ∧ (twid_transfert chip desc rx tx cb user_args w).2.trace = w.trace
    ∧ (twid_transfert chip desc rx tx cb user_args w).2.script = w.script := by
  simp only [mutex_is_locked] at hlock
  simp [twid_transfert, mutex_try_lock, hlock]

/-- C1 at a concrete input: an asynchronous write on a locked descriptor. -/
theorem C1_submit_on_held_lock_witness :
    mutex_is_locked (.caller 0)
        (initWorld { mkDesc 1000 .TWID_MODE_ASYNC with mutex := true } (fun _ => 0) [5]) = true
    ∧ ((twid_transfert sama5d4 (.caller 0) none (some ⟨500, 4⟩) (.user 1) 0
        (initWorld { mkDesc 1000 .TWID_MODE_ASYNC with mutex := true } (fun _ => 0) [5])).1
          = some Status.TWID_ERROR_LOCK
      ∧ (twid_transfert sama5d4 (.caller 0) none (some ⟨500, 4⟩) (.user 1) 0
        (initWorld { mkDesc 1000 .TWID_MODE_ASYNC with mutex := true } (fun _ => 0) [5])).2.trace
          = (initWorld { mkDesc 1000 .TWID_MODE_ASYNC with mutex := true } (fun _ => 0) [5]).trace
      ∧ (twid_transfert sama5d4 (.caller 0) none (some ⟨500, 4⟩) (.user 1) 0
        (initWorld { mkDesc 1000 .TWID_MODE_ASYNC with mutex := true } (fun _ => 0) [5])).2.script
          = (initWorld { mkDesc 1000 .TWID_MODE_ASYNC with mutex := true } (fun _ => 0) [5]).script) :=
  ⟨rfl, C1_submit_on_held_lock sama5d4 (.caller 0) none (some ⟨500, 4⟩) (.user 1) 0 _ rfl⟩

/-- C2: when a submit on a descriptor whose busy lock was free at entry
returns a status other than `TWID_SUCCESS`, the busy lock of that descriptor
is free on return, whichever arm of the switch produced the status. -/
theorem C2_lock_free_after_error (chip : Chip) (desc : DescRef) (rx tx : Option Buffer)
    (cb : Callback) (user_args : Nat) (w : World) (status : Status)
    (hfree : mutex_is_locked desc w = false)
    (hret : (twid_transfert chip desc rx tx cb user_args w).1 = some status)
    (herr : status ≠ Status.TWID_SUCCESS) :
    mutex_is_locked desc (twid_transfert chip desc rx tx cb user_args w).2 = false := by
  simp only [mutex_is_locked] at hfree ⊢
  simp only [twid_transfert, twid_transfert_locked, mutex_try_lock, getDesc_setDesc,
    hfree] at hret ⊢
  simp only [Bool.false_eq_true, if_false] at hret ⊢
  split at hret
  · simp at hret
  · rename_i st w1 heq
    by_cases hs : st = Status.TWID_SUCCESS
    · subst hs
      simp at hret
      exact absurd hret.symm herr
    · simp [hs]

/-- C2 at a concrete input: a two-byte polling write refused by the slave at
the first check returns `TWID_ERROR_ACK` with the lock free. -/
theorem C2_lock_free_after_error_witness :
    mutex_is_locked (.caller 0) (initWorld (mkDesc 1000 .TWID_MODE_POLLING) (fun _ => 0) [256])
        = false
    ∧ (twid_transfert sama5d4 (.caller 0) none (some ⟨500, 2⟩) (.user 1) 0
        (initWorld (mkDesc 1000 .TWID_MODE_POLLING) (fun _ => 0) [256])).1
          = some Status.TWID_ERROR_ACK
    ∧ Status.TWID_ERROR_ACK ≠ Status.TWID_SUCCESS
    ∧ mutex_is_locked (.caller 0)
        (twid_transfert sama5d4 (.caller 0) none (some ⟨500, 2⟩) (.user 1) 0
          (initWorld (mkDesc 1000 .TWID_MODE_POLLING) (fun _ => 0) [256])).2 = false :=
  ⟨rfl, rfl, by decide,
    C2_lock_free_after_error sama5d4 (.caller 0) none (some ⟨500, 2⟩) (.user 1) 0
      (initWorld (mkDesc 1000 .TWID_MODE_POLLING) (fun _ => 0) [256])
      Status.TWID_ERROR_ACK rfl rfl (by decide)⟩

/-! ## NACK in the polling engine -/

theorem CleanExt.same (chip : Chip) (w : World) : CleanExt chip w w :=
  ⟨[], by simp, by simp⟩

theorem CleanExt.andThen {chip : Chip} {w w1 w2 : World}
    (h1 : CleanExt chip w w1) (h2 : CleanExt chip w1 w2) : CleanExt chip w w2 := by
  obtain ⟨e1, t1, c1⟩ := h1
  obtain ⟨e2, t2, c2⟩ := h2
  refine ⟨e1 ++ e2, by rw [t2, t1, List.append_assoc], ?_⟩
  intro e he
  rcases List.mem_append.mp he with h | h
  · exact c1 e h
  · exact c2 e h

theorem CleanExt.then_nack {chip : Chip} {w w1 w2 : World}
    (h1 : CleanExt chip w w1) (h2 : NackEnd chip w1 w2) : NackEnd chip w w2 := by
  obtain ⟨e1, t1, c1⟩ := h1
  obtain ⟨pre, e, t2, c2, hn⟩ := h2
  refine ⟨e1 ++ pre, e, by rw [t2, t1]; simp [List.append_assoc], ?_, hn⟩
  intro x hx
  rcases List.mem_append.mp hx with h | h
  · exact c1 x h
  · exact c2 x h

theorem CleanExt.of_same_trace {chip : Chip} {w w1 : World} (h : w1.trace = w.trace) :
    CleanExt chip w w1 :=
  ⟨[], by simp [h], by simp⟩

theorem cleanExt_cmd (chip : Chip) (w : World) (c : Call) : CleanExt chip w (w.cmd c) := by
  refine ⟨[(c, 0)], rfl, ?_⟩
  intro e he
  simp only [List.mem_singleton] at he
  subst he
  cases c <;> simp [isNackEv]

theorem query_trace (w : World) (c : Call) :
    (w.query c).2.trace = w.trace ++ [(c, (w.query c).1)] := by
  unfold World.query
  split <;> rfl

theorem cleanExt_query (chip : Chip) (w : World) (c : Call)
    (hc : ∀ a, c ≠ Call.twi_get_status a) : CleanExt chip w (w.query c).2 := by
  refine ⟨[(c, (w.query c).1)], query_trace w c, ?_⟩
  intro e he
  simp only [List.mem_singleton] at he
  subst he
  cases c <;> simp_all [isNackEv]

theorem pollUntil_calls (cond : Call) (s : List Nat) :
    ∀ e ∈ (pollUntil cond s).2.2, e.1 = cond ∨ e.1 = Call.timer_timeout_reached := by
  induction s using pollUntil.induct cond with
  | case1 => simp [pollUntil]
  | case2 r h => simp [pollUntil, h]
  | case3 r h => simp [pollUntil, h]
  | case4 r t rest h => simp [pollUntil, h]
  | case5 r t rest h1 h2 => simp [pollUntil, h1, h2]
  | case6 r t rest h1 h2 ih =>
    simp only [pollUntil, h1, h2]
    simp at h1 h2
    simp [h1, h2]
    exact fun a b hab => ih (a, b) hab

theorem cleanExt_pollUntil (chip : Chip) (w : World) (cond : Call)
    (hc : ∀ a, cond ≠ Call.twi_get_status a) : CleanExt chip w (w.pollUntil cond).2 := by
  refine ⟨(pollUntil cond w.script).2.2, rfl, ?_⟩
  intro e he
  rcases pollUntil_calls cond w.script e he with h | h
  · rcases e with ⟨c, r⟩
    simp only at h
    subst h
    cases c <;> simp_all [isNackEv]
  · rcases e with ⟨c, r⟩
    simp only at h
    subst h
    rfl

theorem cleanExt_setDesc (chip : Chip) (w : World) (r : DescRef) (d : TwiDesc) :
    CleanExt chip w (w.setDesc r d) :=
  CleanExt.of_same_trace (setDesc_trace w r d)

theorem cleanExt_twid_configure (chip : Chip) (desc : DescRef) (w : World) :
    CleanExt chip w (twid_configure chip desc w).2 := by
  unfold twid_configure
  simp only
  split_ifs <;>
    repeat first
      | exact CleanExt.same _ _
      | refine CleanExt.andThen ?_ (cleanExt_cmd _ _ _)
      | refine CleanExt.andThen ?_ (cleanExt_setDesc _ _ _ _)

theorem nackOutcome_clean {chip : Chip} {w : World} {r : Option Status × World}
    (hs : r.1 ≠ some Status.TWID_ERROR_ACK) (hc : CleanExt chip w r.2) :
    NackOutcome chip w r :=
  Or.inr ⟨hs, hc⟩

theorem NackOutcome.after {chip : Chip} {w w1 : World} {r : Option Status × World}
    (h1 : CleanExt chip w w1) (h2 : NackOutcome chip w1 r) : NackOutcome chip w r := by
  rcases h2 with ⟨hs, hn⟩ | ⟨hs, hc⟩
  · exact Or.inl ⟨hs, h1.then_nack hn⟩
  · exact Or.inr ⟨hs, h1.andThen hc⟩

theorem nackOutcome_wait (chip : Chip) (desc : DescRef) (w : World) :
    NackOutcome chip w (_twid_wait_twi_transfer chip desc w) := by
  unfold _twid_wait_twi_transfer
  simp only
  have h1 : CleanExt chip w ((w.cmd (.timer_start_timeout (w.getDesc desc).timeout)).pollUntil
      (.twi_is_transfer_complete
        ((w.cmd (.timer_start_timeout (w.getDesc desc).timeout)).getDesc desc).addr)).2 :=
    (cleanExt_cmd chip w _).andThen (cleanExt_pollUntil chip _ _ (by intro a; simp))
  split
  · have h2 := h1.andThen (cleanExt_twid_configure chip desc _)
    split
    · exact nackOutcome_clean (by simp) h2
    · exact nackOutcome_clean (by simp) h2
  · exact nackOutcome_clean (by simp) h1

theorem cleanExt_check_rx (chip : Chip) (desc : DescRef) (w : World) :
    CleanExt chip w (_check_rx_time_out desc w).2 := by
  unfold _check_rx_time_out
  simp only
  have h1 : CleanExt chip w ((w.cmd (.timer_start_timeout (w.getDesc desc).timeout)).pollUntil
      (.twi_is_byte_received
        ((w.cmd (.timer_start_timeout (w.getDesc desc).timeout)).getDesc desc).addr)).2 :=
    (cleanExt_cmd chip w _).andThen (cleanExt_pollUntil chip _ _ (by intro a; simp))
  split <;> exact h1

theorem cleanExt_check_tx (chip : Chip) (desc : DescRef) (w : World) :
    CleanExt chip w (_check_tx_time_out desc w).2 := by
  unfold _check_tx_time_out
  simp only
  have h1 : CleanExt chip w ((w.cmd (.timer_start_timeout (w.getDesc desc).timeout)).pollUntil
      (.twi_is_byte_sent
        ((w.cmd (.timer_start_timeout (w.getDesc desc).timeout)).getDesc desc).addr)).2 :=
    (cleanExt_cmd chip w _).andThen (cleanExt_pollUntil chip _ _ (by intro a; simp))
  split <;> exact h1

theorem check_nack_cases (chip : Chip) (addr : Nat) (w : World) :
    ((_check_nack chip addr w).1 = Status.TWID_ERROR_ACK
        ∧ NackEnd chip w (_check_nack chip addr w).2)
    ∨ ((_check_nack chip addr w).1 = Status.TWID_SUCCESS
        ∧ CleanExt chip w (_check_nack chip addr w).2) := by
  unfold _check_nack
  simp only
  by_cases h : (w.query (.twi_get_status addr)).1 &&& chip.TWI_SR_NACK ≠ 0
  · left
    rw [if_pos h]
    refine ⟨rfl, [], (.twi_get_status addr, (w.query (.twi_get_status addr)).1), ?_, by simp, ?_⟩
    · simpa using query_trace w (.twi_get_status addr)
    · simpa [isNackEv] using h
  · right
    rw [if_neg h]
    refine ⟨rfl, [(.twi_get_status addr, (w.query (.twi_get_status addr)).1)],
      query_trace w (.twi_get_status addr), ?_⟩
    intro e he
    simp only [List.mem_singleton] at he
    subst he
    simpa [isNackEv] using h

theorem cleanExt_store (chip : Chip) (w : World) (a v : Nat) : CleanExt chip w (w.store a v) :=
  CleanExt.of_same_trace rfl

theorem poll_read_loop_nack (chip : Chip) (desc : DescRef) (addr data : Nat) (n : Nat) :
    ∀ (i : Nat) (w : World),
      ((_twid_poll_read_loop chip desc addr data n i w).1 = LoopExit.ret
          ∧ NackEnd chip w (_twid_poll_read_loop chip desc addr data n i w).2.2)
      ∨ ((_twid_poll_read_loop chip desc addr data n i w).1 ≠ LoopExit.ret
          ∧ CleanExt chip w (_twid_poll_read_loop chip desc addr data n i w).2.2) := by
  induction n with
  | zero => intro i w; right; exact ⟨by simp [_twid_poll_read_loop], CleanExt.same chip w⟩
  | succ n ih =>
    intro i w
    simp only [_twid_poll_read_loop]
    have h1 := cleanExt_check_rx chip desc w
    split
    · right; exact ⟨by simp, h1⟩
    · have h2 := h1.andThen (cleanExt_query chip (_check_rx_time_out desc w).2
        (.twi_read_byte addr) (by intro a; simp))
      have h3 := h2.andThen (cleanExt_store chip _ (data + i)
        ((World.query (_check_rx_time_out desc w).2 (.twi_read_byte addr)).1 % 256))
      rcases check_nack_cases chip addr (((_check_rx_time_out desc w).2.query
        (.twi_read_byte addr)).2.store (data + i)
          ((World.query (_check_rx_time_out desc w).2 (.twi_read_byte addr)).1 % 256))
        with ⟨hs, hn⟩ | ⟨hs, hc⟩
      · left
        rw [if_pos (by rw [hs]; decide)]
        exact ⟨rfl, h3.then_nack hn⟩
      · rw [if_neg (by rw [hs]; decide)]
        rcases ih (i + 1) _ with ⟨he, hn⟩ | ⟨he, hc2⟩
        · left; exact ⟨he, (h3.andThen hc).then_nack hn⟩
        · right; exact ⟨he, (h3.andThen hc).andThen hc2⟩

theorem poll_write_loop_nack (chip : Chip) (desc : DescRef) (addr data : Nat) (n : Nat) :
    ∀ (i : Nat) (w : World),
      ((_twid_poll_write_loop chip desc addr data n i w).1 = LoopExit.ret
          ∧ NackEnd chip w (_twid_poll_write_loop chip desc addr data n i w).2)
      ∨ ((_twid_poll_write_loop chip desc addr data n i w).1 ≠ LoopExit.ret
          ∧ CleanExt chip w (_twid_poll_write_loop chip desc addr data n i w).2) := by
  induction n with
  | zero => intro i w; right; exact ⟨by simp [_twid_poll_write_loop], CleanExt.same chip w⟩
  | succ n ih =>
    intro i w
    simp only [_twid_poll_write_loop]
    have h1 := cleanExt_check_tx chip desc w
    split
    · right; exact ⟨by simp, h1⟩
    · have h2 := h1.andThen (cleanExt_cmd chip (_check_tx_time_out desc w).2
        (.twi_write_byte addr ((_check_tx_time_out desc w).2.mem (data + i))))
      rcases check_nack_cases chip addr ((_check_tx_time_out desc w).2.cmd
        (.twi_write_byte addr ((_check_tx_time_out desc w).2.mem (data + i))))
        with ⟨hs, hn⟩ | ⟨hs, hc⟩
      · left
        rw [if_pos (by rw [hs]; decide)]
        exact ⟨rfl, h2.then_nack hn⟩
      · rw [if_neg (by rw [hs]; decide)]
        rcases ih (i + 1) _ with ⟨he, hn⟩ | ⟨he, hc2⟩
        · left; exact ⟨he, (h2.andThen hc).then_nack hn⟩
        · right; exact ⟨he, (h2.andThen hc).andThen hc2⟩

theorem cleanExt_ite_cmd (chip : Chip) (p : Prop) [Decidable p] (w : World) (c : Call) :
    CleanExt chip w (if p then w.cmd c else w) := by
  split
  · exact cleanExt_cmd chip w c
  · exact CleanExt.same chip w

theorem nackOutcome_of_loop {chip : Chip} {w w1 : World} {e : LoopExit}
    {rest : Option Status × World}
    (hl : (e = LoopExit.ret ∧ NackEnd chip w w1) ∨ (e ≠ LoopExit.ret ∧ CleanExt chip w w1))
    (hrest : NackOutcome chip w1 rest) :
    NackOutcome chip w (if e = LoopExit.ret then (some Status.TWID_ERROR_ACK, w1) else rest) := by
  rcases hl with ⟨he, hn⟩ | ⟨he, hc⟩
  · rw [if_pos he]; exact Or.inl ⟨rfl, hn⟩
  · rw [if_neg he]; exact NackOutcome.after hc hrest

theorem nackOutcome_of_check {chip : Chip} {addr : Nat} {w w1 : World}
    {rest : Option Status × World} (h1 : CleanExt chip w w1)
    (hrest : NackOutcome chip (_check_nack chip addr w1).2 rest) :
    NackOutcome chip w (if (_check_nack chip addr w1).1 ≠ Status.TWID_SUCCESS
      then (some Status.TWID_ERROR_ACK, (_check_nack chip addr w1).2) else rest) := by
  rcases check_nack_cases chip addr w1 with ⟨hs, hn⟩ | ⟨hs, hc⟩
  · rw [if_pos (by rw [hs]; decide)]
    exact Or.inl ⟨rfl, h1.then_nack hn⟩
  · rw [if_neg (by rw [hs]; decide)]
    exact NackOutcome.after (h1.andThen hc) hrest

theorem nackOutcome_poll_read_last (chip : Chip) (desc : DescRef) (buffer : Buffer)
    (addr i : Nat) (w : World) :
    NackOutcome chip w (_twid_poll_read_last chip desc buffer addr i w) := by
  unfold _twid_poll_read_last
  simp only
  refine nackOutcome_of_check (cleanExt_cmd chip w _) ?_
  split
  · exact nackOutcome_clean (by simp) (cleanExt_check_rx chip desc _)
  · refine NackOutcome.after ?_ (nackOutcome_wait chip desc _)
    exact ((cleanExt_check_rx chip desc _).andThen
      (cleanExt_query chip _ _ (by intro a; simp))).andThen (cleanExt_store chip _ _ _)

theorem nackOutcome_poll_read_sama5d4 (chip : Chip) (desc : DescRef) (buffer : Buffer)
    (w : World) : NackOutcome chip w (_twid_poll_read_sama5d4 chip desc buffer w) := by
  unfold _twid_poll_read_sama5d4
  simp only
  refine NackOutcome.after (cleanExt_cmd chip w (.twi_start_read (w.getDesc desc).addr
    (w.getDesc desc).slave_addr (w.getDesc desc).iaddr (w.getDesc desc).isize)) ?_
  by_cases hsz : buffer.size ≠ 1
  · simp only [if_pos hsz]
    exact nackOutcome_of_loop (poll_read_loop_nack chip desc _ _ _ _ _)
      (nackOutcome_poll_read_last chip desc buffer _ _ _)
  · simp only [if_neg hsz]
    exact nackOutcome_of_loop (Or.inr ⟨by simp, CleanExt.same chip _⟩)
      (nackOutcome_poll_read_last chip desc buffer _ _ _)

theorem nackOutcome_poll_write_rest (chip : Chip) (desc : DescRef) (buffer : Buffer)
    (addr : Nat) (w : World) :
    NackOutcome chip w (_twid_poll_write_rest chip desc buffer addr w) := by
  unfold _twid_poll_write_rest
  simp only
  refine nackOutcome_of_check (CleanExt.same chip w) ?_
  refine nackOutcome_of_loop (poll_write_loop_nack chip desc _ _ _ _ _) ?_
  exact NackOutcome.after (cleanExt_ite_cmd chip _ _ _) (nackOutcome_wait chip desc _)

theorem nackOutcome_poll_write_sama5d4 (chip : Chip) (desc : DescRef) (buffer : Buffer)
    (w : World) : NackOutcome chip w (_twid_poll_write_sama5d4 chip desc buffer w) := by
  unfold _twid_poll_write_sama5d4
  simp only
  exact NackOutcome.after
    ((cleanExt_cmd chip w _).andThen (cleanExt_ite_cmd chip _ _ _))
    (nackOutcome_poll_write_rest chip desc buffer _ _)

theorem nackOutcome_poll_read_other (chip : Chip) (desc : DescRef) (buffer : Buffer)
    (w : World) : NackOutcome chip w (_twid_poll_read_other chip desc buffer w) := by
  unfold _twid_poll_read_other
  simp only
  refine nackOutcome_of_check (cleanExt_ite_cmd chip _ w _) ?_
  exact nackOutcome_of_loop (poll_read_loop_nack chip desc _ _ _ _ _)
      (nackOutcome_wait chip desc _)

theorem nackOutcome_poll_write_other (chip : Chip) (desc : DescRef) (buffer : Buffer)
    (w : World) : NackOutcome chip w (_twid_poll_write_other chip desc buffer w) := by
  unfold _twid_poll_write_other
  simp only
  refine nackOutcome_of_check (cleanExt_ite_cmd chip _ w _) ?_
  exact nackOutcome_of_loop (poll_write_loop_nack chip desc _ _ _ _ _)
      (nackOutcome_wait chip desc _)

/-- What `NackOutcome` says about any status read in the added trace: if it
reported NACK it is the last call and the status is `TWID_ERROR_ACK`. -/
theorem NackOutcome.nack_is_last {chip : Chip} {w : World} {r : Option Status × World}
    (h : NackOutcome chip w r) :
    ∃ evs, r.2.trace = w.trace ++ evs ∧
      ∀ (pre post : List Ev) (a v : Nat),
        evs = pre ++ (Call.twi_get_status a, v) :: post → v &&& chip.TWI_SR_NACK ≠ 0 →
          post = [] ∧ r.1 = some Status.TWID_ERROR_ACK := by
  rcases h with ⟨hs, pre0, e0, ht, hclean, hn⟩ | ⟨hs, evs, ht, hclean⟩
  · refine ⟨pre0 ++ [e0], ht, ?_⟩
    intro pre post a v hev hv
    refine ⟨?_, hs⟩
    rcases List.eq_nil_or_concat post with hp | ⟨post1, x, hp⟩
    · exact hp
    · exfalso
      subst hp
      have h2 : (pre ++ (Call.twi_get_status a, v) :: post1) ++ [x] = pre0 ++ [e0] := by
        rw [hev]; simp
      have h3 := List.append_inj_left' h2 rfl
      have h4 := hclean (Call.twi_get_status a, v) (by rw [← h3]; simp)
      simp [isNackEv] at h4
      exact hv h4
  · refine ⟨evs, ht, ?_⟩
    intro pre post a v hev hv
    exfalso
    have h4 := hclean (Call.twi_get_status a, v) (by rw [hev]; simp)
    simp [isNackEv] at h4
    exact hv h4

/-! ## Observations of the polling engine -/

theorem added_eq {w w1 : World} {evs : List Ev} (h : w1.trace = w.trace ++ evs) :
    added w w1 = evs := by
  simp [added, h]

theorem Obsd.observe_added {chip : Chip} {w w1 : World} {os : List Obs}
    (h : Obsd chip w w1 os) : observe chip (added w w1) = os := by
  obtain ⟨evs, ht, ho⟩ := h
  rw [added_eq ht, ho]

theorem Obsd.nil (chip : Chip) (w : World) : Obsd chip w w [] :=
  ⟨[], by simp, rfl⟩

theorem Obsd.of_trace {chip : Chip} {w w1 : World} (h : w1.trace = w.trace) :
    Obsd chip w w1 [] :=
  ⟨[], by simp [h], rfl⟩

theorem Obsd.seq {chip : Chip} {w w1 w2 : World} {o1 o2 : List Obs}
    (h1 : Obsd chip w w1 o1) (h2 : Obsd chip w1 w2 o2) : Obsd chip w w2 (o1 ++ o2) := by
  obtain ⟨e1, t1, c1⟩ := h1
  obtain ⟨e2, t2, c2⟩ := h2
  refine ⟨e1 ++ e2, by rw [t2, t1, List.append_assoc], ?_⟩
  simp [observe, List.filterMap_append] at c1 c2 ⊢
  rw [c1, c2]

theorem Obsd.congr {chip : Chip} {w w1 : World} {o1 o2 : List Obs}
    (h1 : Obsd chip w w1 o1) (h : o1 = o2) : Obsd chip w w1 o2 :=
  h ▸ h1

theorem obsd_cmd (chip : Chip) (w : World) (c : Call) :
    Obsd chip w (w.cmd c) (obs chip (c, 0)).toList := by
  refine ⟨[(c, 0)], rfl, ?_⟩
  simp only [observe, List.filterMap_cons, List.filterMap_nil]
  cases obs chip (c, 0) <;> rfl

theorem obsd_query (chip : Chip) (w : World) (c : Call) :
    Obsd chip w (w.query c).2 (obs chip (c, (w.query c).1)).toList := by
  refine ⟨[(c, (w.query c).1)], query_trace w c, ?_⟩
  simp only [observe, List.filterMap_cons, List.filterMap_nil]
  cases obs chip (c, (w.query c).1) <;> rfl

theorem obs_timer_expired (chip : Chip) (t : Nat) (h : t ≠ 0) :
    obs chip (Call.timer_timeout_reached, t) = some Obs.expired := by
  simp [obs, h]

theorem obs_timer_running (chip : Chip) :
    obs chip (Call.timer_timeout_reached, 0) = none := by
  simp [obs]

theorem observe_pollUntil (chip : Chip) (cond : Call)
    (hc : ∀ v, obs chip (cond, v) = none) (s : List Nat) :
    observe chip (pollUntil cond s).2.2
      = if (pollUntil cond s).1 then [Obs.expired] else [] := by
  unfold observe
  induction s using pollUntil.induct cond with
  | case1 => simp [pollUntil, List.filterMap_cons_none (hc _)]
  | case2 r h => simp [pollUntil, h, List.filterMap_cons_none (hc _)]
  | case3 r h =>
    simp only [pollUntil, h, if_false]
    rw [List.filterMap_cons_none (hc _),
      List.filterMap_cons_some (obs_timer_expired chip 1 (by decide))]
    simp
  | case4 r t rest h => simp [pollUntil, h, List.filterMap_cons_none (hc _)]
  | case5 r t rest h1 h2 =>
    simp only [pollUntil, h1, if_false, if_pos h2]
    rw [List.filterMap_cons_none (hc _),
      List.filterMap_cons_some (obs_timer_expired chip t h2)]
    simp
  | case6 r t rest h1 h2 ih =>
    simp only [pollUntil, h1, if_false, if_neg h2]
    have ht : t = 0 := by simpa using h2
    subst ht
    rw [List.filterMap_cons_none (hc _), List.filterMap_cons_none (obs_timer_running chip)]
    exact ih

theorem obsd_pollUntil (chip : Chip) (w : World) (cond : Call)
    (hc : ∀ v, obs chip (cond, v) = none) :
    Obsd chip w (w.pollUntil cond).2
      (if (w.pollUntil cond).1 then [Obs.expired] else []) :=
  ⟨(pollUntil cond w.script).2.2, rfl, observe_pollUntil chip cond hc w.script⟩

@[simp] theorem cmd_mem (w : World) (c : Call) : (w.cmd c).mem = w.mem := rfl

@[simp] theorem query_mem (w : World) (c : Call) : (w.query c).2.mem = w.mem := by
  unfold World.query
  split <;> rfl

@[simp] theorem pollUntil_mem (w : World) (c : Call) : (w.pollUntil c).2.mem = w.mem := rfl

theorem check_tx_obs (chip : Chip) (desc : DescRef) (w : World) :
    (_check_tx_time_out desc w).2.mem = w.mem
    ∧ (((_check_tx_time_out desc w).1 = Status.TWID_SUCCESS
          ∧ Obsd chip w (_check_tx_time_out desc w).2 [])
      ∨ ((_check_tx_time_out desc w).1 = Status.TWID_ERROR_TIMEOUT
          ∧ Obsd chip w (_check_tx_time_out desc w).2 [Obs.expired])) := by
  unfold _check_tx_time_out
  simp only
  have h1 := (obsd_cmd chip w (.timer_start_timeout (w.getDesc desc).timeout)).seq
    (obsd_pollUntil chip (w.cmd (.timer_start_timeout (w.getDesc desc).timeout))
      (.twi_is_byte_sent
        ((w.cmd (.timer_start_timeout (w.getDesc desc).timeout)).getDesc desc).addr)
      (by intro v; rfl))
  split
  · rename_i hp
    refine ⟨by simp, Or.inr ⟨rfl, ?_⟩⟩
    rw [if_pos hp] at h1
    exact h1
  · rename_i hp
    refine ⟨by simp, Or.inl ⟨rfl, ?_⟩⟩
    rw [if_neg hp] at h1
    exact h1

theorem check_rx_obs (chip : Chip) (desc : DescRef) (w : World) :
    (_check_rx_time_out desc w).2.mem = w.mem
    ∧ (((_check_rx_time_out desc w).1 = Status.TWID_SUCCESS
          ∧ Obsd chip w (_check_rx_time_out desc w).2 [])
      ∨ ((_check_rx_time_out desc w).1 = Status.TWID_ERROR_TIMEOUT
          ∧ Obsd chip w (_check_rx_time_out desc w).2 [Obs.expired])) := by
  unfold _check_rx_time_out
  simp only
  have h1 := (obsd_cmd chip w (.timer_start_timeout (w.getDesc desc).timeout)).seq
    (obsd_pollUntil chip (w.cmd (.timer_start_timeout (w.getDesc desc).timeout))
      (.twi_is_byte_received
        ((w.cmd (.timer_start_timeout (w.getDesc desc).timeout)).getDesc desc).addr)
      (by intro v; rfl))
  split
  · rename_i hp
    refine ⟨by simp, Or.inr ⟨rfl, ?_⟩⟩
    rw [if_pos hp] at h1
    exact h1
  · rename_i hp
    refine ⟨by simp, Or.inl ⟨rfl, ?_⟩⟩
    rw [if_neg hp] at h1
    exact h1

theorem check_nack_trace (chip : Chip) (addr : Nat) (w : World) :
    (_check_nack chip addr w).2.trace
      = w.trace ++ [(Call.twi_get_status addr, (w.query (.twi_get_status addr)).1)] := by
  unfold _check_nack
  simp only
  split <;> exact query_trace w _

theorem check_nack_obs (chip : Chip) (addr : Nat) (w : World) :
    (_check_nack chip addr w).2.mem = w.mem
    ∧ (((_check_nack chip addr w).1 = Status.TWID_SUCCESS
          ∧ Obsd chip w (_check_nack chip addr w).2 [])
      ∨ ((_check_nack chip addr w).1 = Status.TWID_ERROR_ACK
          ∧ Obsd chip w (_check_nack chip addr w).2 [Obs.nack])) := by
  have hq := obsd_query chip w (.twi_get_status addr)
  unfold _check_nack
  simp only
  by_cases h : (w.query (.twi_get_status addr)).1 &&& chip.TWI_SR_NACK ≠ 0
  · rw [if_pos h]
    refine ⟨by simp, Or.inr ⟨rfl, ?_⟩⟩
    refine hq.congr ?_
    simp [obs, h]
  · rw [if_neg h]
    refine ⟨by simp, Or.inl ⟨rfl, ?_⟩⟩
    refine hq.congr ?_
    simp [obs, h]

theorem obsd_setDesc (chip : Chip) (w : World) (r : DescRef) (d : TwiDesc) :
    Obsd chip w (w.setDesc r d) [] :=
  Obsd.of_trace (setDesc_trace w r d)

/-- A command without observation. -/
theorem obsd_cmd_silent (chip : Chip) (w : World) (c : Call) (hc : obs chip (c, 0) = none) :
    Obsd chip w (w.cmd c) [] :=
  (obsd_cmd chip w c).congr (by rw [hc]; rfl)

theorem Obsd.silent_seq {chip : Chip} {w w1 w2 : World}
    (h1 : Obsd chip w w1 []) (h2 : Obsd chip w1 w2 []) : Obsd chip w w2 [] :=
  h1.seq h2

theorem obsd_twid_configure (chip : Chip) (desc : DescRef) (w : World) :
    Obsd chip w (twid_configure chip desc w).2 [] := by
  unfold twid_configure
  simp only
  split_ifs <;>
    repeat first
      | exact Obsd.nil _ _
      | refine Obsd.silent_seq ?_ (obsd_cmd_silent _ _ _ rfl)
      | refine Obsd.silent_seq ?_ (obsd_setDesc _ _ _ _)

theorem wait_obs (chip : Chip) (desc : DescRef) (w : World) :
    ((_twid_wait_twi_transfer chip desc w).1 = some Status.TWID_SUCCESS
        ∧ Obsd chip w (_twid_wait_twi_transfer chip desc w).2 [])
    ∨ (((_twid_wait_twi_transfer chip desc w).1 = some Status.TWID_ERROR_TRANSFER
          ∨ (_twid_wait_twi_transfer chip desc w).1 = none)
        ∧ Obsd chip w (_twid_wait_twi_transfer chip desc w).2 [Obs.expired]) := by
  unfold _twid_wait_twi_transfer
  simp only
  have h1 := (obsd_cmd chip w (.timer_start_timeout (w.getDesc desc).timeout)).seq
    (obsd_pollUntil chip (w.cmd (.timer_start_timeout (w.getDesc desc).timeout))
      (.twi_is_transfer_complete
        ((w.cmd (.timer_start_timeout (w.getDesc desc).timeout)).getDesc desc).addr)
      (by intro v; rfl))
  split
  · rename_i hp
    rw [if_pos hp] at h1
    have h2 := h1.seq (obsd_twid_configure chip desc _)
    right
    split
    · exact ⟨Or.inl rfl, h2⟩
    · exact ⟨Or.inr rfl, h2⟩
  · rename_i hp
    rw [if_neg hp] at h1
    left
    exact ⟨rfl, h1⟩

theorem poll_write_loop_obs (chip : Chip) (desc : DescRef) (addr data : Nat) (n : Nat) :
    ∀ (i : Nat) (w : World),
      (_twid_poll_write_loop chip desc addr data n i w).2.mem = w.mem
      ∧ ∃ k, k ≤ n
        ∧ Obsd chip w (_twid_poll_write_loop chip desc addr data n i w).2
            (obsWrites w.mem (data + i) k
              ++ exitObs (_twid_poll_write_loop chip desc addr data n i w).1)
        ∧ ((_twid_poll_write_loop chip desc addr data n i w).1 = LoopExit.done → k = n)
        ∧ ((_twid_poll_write_loop chip desc addr data n i w).1 = LoopExit.brk → k < n) := by
  induction n with
  | zero =>
    intro i w
    have h0 : Obsd chip w (_twid_poll_write_loop chip desc addr data 0 i w).2
        (obsWrites w.mem (data + i) 0
          ++ exitObs (_twid_poll_write_loop chip desc addr data 0 i w).1) := by
      simpa [_twid_poll_write_loop, obsWrites, exitObs] using Obsd.nil chip w
    exact ⟨rfl, 0, le_refl 0, h0, fun _ => rfl, by simp [_twid_poll_write_loop]⟩
  | succ n ih =>
    intro i w
    simp only [_twid_poll_write_loop]
    obtain ⟨hm1, ht⟩ := check_tx_obs chip desc w
    rcases ht with ⟨hs, ho⟩ | ⟨hs, ho⟩
    · rw [if_neg (by rw [hs]; decide)]
      have hw := obsd_cmd chip (_check_tx_time_out desc w).2
        (.twi_write_byte addr ((_check_tx_time_out desc w).2.mem (data + i)))
      obtain ⟨hm2, hk⟩ := check_nack_obs chip addr ((_check_tx_time_out desc w).2.cmd
        (.twi_write_byte addr ((_check_tx_time_out desc w).2.mem (data + i))))
      rcases hk with ⟨hks, hko⟩ | ⟨hks, hko⟩
      · rw [if_neg (by rw [hks]; decide)]
        obtain ⟨hm3, k, hk1, hk2, hk3, hk4⟩ := ih (i + 1) (_check_nack chip addr
          ((_check_tx_time_out desc w).2.cmd
            (.twi_write_byte addr ((_check_tx_time_out desc w).2.mem (data + i))))).2
        refine ⟨by rw [hm3, hm2, cmd_mem, hm1], k + 1, Nat.succ_le_succ hk1, ?_,
          fun h => by rw [hk3 h], fun h => Nat.succ_lt_succ (hk4 h)⟩
        refine (((ho.seq hw).seq hko).seq hk2).congr ?_
        rw [hm2, cmd_mem, hm1]
        simp [obs, obsWrites, Nat.add_assoc]
      · rw [if_pos (by rw [hks]; decide)]
        refine ⟨by rw [hm2, cmd_mem, hm1], 1, Nat.succ_le_succ (Nat.zero_le n), ?_,
          by simp, by simp⟩
        refine ((ho.seq hw).seq hko).congr ?_
        rw [hm1]
        simp [obs, obsWrites, exitObs]
    · rw [if_pos (by rw [hs]; decide)]
      refine ⟨hm1, 0, Nat.zero_le _, ?_, by simp, fun _ => Nat.succ_pos n⟩
      simpa [obsWrites, exitObs] using ho

theorem poll_read_loop_obs (chip : Chip) (desc : DescRef) (addr data : Nat) (n : Nat) :
    ∀ (i : Nat) (w : World),
      ∃ bs : List Nat, bs.length ≤ n
        ∧ Obsd chip w (_twid_poll_read_loop chip desc addr data n i w).2.2
            (bs.map Obs.read
              ++ exitObs (_twid_poll_read_loop chip desc addr data n i w).1)
        ∧ ((_twid_poll_read_loop chip desc addr data n i w).1 = LoopExit.done
            → bs.length = n)
        ∧ ((_twid_poll_read_loop chip desc addr data n i w).1 = LoopExit.brk
            → bs.length < n) := by
  induction n with
  | zero =>
    intro i w
    have h0 : Obsd chip w (_twid_poll_read_loop chip desc addr data 0 i w).2.2
        (([] : List Nat).map Obs.read
          ++ exitObs (_twid_poll_read_loop chip desc addr data 0 i w).1) := by
      simpa [_twid_poll_read_loop, exitObs] using Obsd.nil chip w
    exact ⟨[], le_refl 0, h0, fun _ => rfl, by simp [_twid_poll_read_loop]⟩
  | succ n ih =>
    intro i w
    simp only [_twid_poll_read_loop]
    obtain ⟨_, ht⟩ := check_rx_obs chip desc w
    rcases ht with ⟨hs, ho⟩ | ⟨hs, ho⟩
    · rw [if_neg (by rw [hs]; decide)]
      have hq := obsd_query chip (_check_rx_time_out desc w).2 (.twi_read_byte addr)
      have hst : Obsd chip ((_check_rx_time_out desc w).2.query (.twi_read_byte addr)).2
          ((((_check_rx_time_out desc w).2.query (.twi_read_byte addr)).2).store (data + i)
            (((_check_rx_time_out desc w).2.query (.twi_read_byte addr)).1 % 256)) [] :=
        Obsd.of_trace rfl
      obtain ⟨_, hk⟩ := check_nack_obs chip addr
        ((((_check_rx_time_out desc w).2.query (.twi_read_byte addr)).2).store (data + i)
            (((_check_rx_time_out desc w).2.query (.twi_read_byte addr)).1 % 256))
      rcases hk with ⟨hks, hko⟩ | ⟨hks, hko⟩
      · rw [if_neg (by rw [hks]; decide)]
        obtain ⟨bs, hb1, hb2, hb3, hb4⟩ := ih (i + 1) (_check_nack chip addr
          ((((_check_rx_time_out desc w).2.query (.twi_read_byte addr)).2).store (data + i)
            (((_check_rx_time_out desc w).2.query (.twi_read_byte addr)).1 % 256))).2
        refine ⟨((_check_rx_time_out desc w).2.query (.twi_read_byte addr)).1 :: bs,
          by simpa using hb1, ?_, fun h => by simp [hb3 h],
          fun h => by simpa using hb4 h⟩
        refine ((((ho.seq hq).seq hst).seq hko).seq hb2).congr ?_
        simp [obs]
      · rw [if_pos (by rw [hks]; decide)]
        refine ⟨[((_check_rx_time_out desc w).2.query (.twi_read_byte addr)).1],
          by simp, ?_, by simp, by simp⟩
        refine (((ho.seq hq).seq hst).seq hko).congr ?_
        simp [obs, exitObs]
    · rw [if_pos (by rw [hs]; decide)]
      refine ⟨[], Nat.zero_le _, ?_, by simp, fun _ => Nat.succ_pos n⟩
      simpa [exitObs] using ho

theorem poll_write_rest_obs (chip : Chip) (desc : DescRef) (buffer : Buffer)
    (addr : Nat) (w : World) :
    ((_twid_poll_write_rest chip desc buffer addr w).1 = some Status.TWID_ERROR_ACK
      ∧ ∃ k, k ≤ buffer.size - 1
        ∧ Obsd chip w (_twid_poll_write_rest chip desc buffer addr w).2
            (obsWrites w.mem (buffer.data + 1) k ++ [Obs.nack]))
    ∨ (∃ k tail, k ≤ buffer.size - 1
        ∧ Obsd chip w (_twid_poll_write_rest chip desc buffer addr w).2
            (obsWrites w.mem (buffer.data + 1) k
              ++ (if k = buffer.size - 1 then [] else [Obs.expired])
              ++ (if buffer.size ≠ 1 then [Obs.stop] else []) ++ tail)
        ∧ (((_twid_poll_write_rest chip desc buffer addr w).1 = some Status.TWID_SUCCESS
              ∧ tail = [])
          ∨ (((_twid_poll_write_rest chip desc buffer addr w).1
                  = some Status.TWID_ERROR_TRANSFER
                ∨ (_twid_poll_write_rest chip desc buffer addr w).1 = none)
              ∧ tail = [Obs.expired]))) := by
  unfold _twid_poll_write_rest
  simp only
  obtain ⟨hm, hk⟩ := check_nack_obs chip addr w
  rcases hk with ⟨hks, hko⟩ | ⟨hks, hko⟩
  · rw [if_neg (by rw [hks]; decide)]
    obtain ⟨hm2, k, hk1, hk2, hk3, hk4⟩ :=
      poll_write_loop_obs chip desc addr buffer.data (buffer.size - 1) 1 (_check_nack chip addr w).2
    rw [hm] at hk2
    cases hl : (_twid_poll_write_loop chip desc addr buffer.data (buffer.size - 1) 1
        (_check_nack chip addr w).2).1 with
    | ret =>
      rw [if_pos rfl]
      left
      refine ⟨rfl, k, hk1, ?_⟩
      rw [hl] at hk2
      simpa [exitObs] using hko.seq hk2
    | done =>
      rw [if_neg (by decide)]
      right
      have hkn := hk3 hl
      rw [hl] at hk2
      have hstop : Obsd chip
          (_twid_poll_write_loop chip desc addr buffer.data (buffer.size - 1) 1
            (_check_nack chip addr w).2).2
          (if buffer.size ≠ 1 then
            (_twid_poll_write_loop chip desc addr buffer.data (buffer.size - 1) 1
              (_check_nack chip addr w).2).2.cmd (.twi_send_stop_condition addr)
           else (_twid_poll_write_loop chip desc addr buffer.data (buffer.size - 1) 1
              (_check_nack chip addr w).2).2)
          (if buffer.size ≠ 1 then [Obs.stop] else []) := by
        split
        · exact obsd_cmd chip _ _
        · exact Obsd.nil chip _
      rcases wait_obs chip desc (if buffer.size ≠ 1 then
            (_twid_poll_write_loop chip desc addr buffer.data (buffer.size - 1) 1
              (_check_nack chip addr w).2).2.cmd (.twi_send_stop_condition addr)
           else (_twid_poll_write_loop chip desc addr buffer.data (buffer.size - 1) 1
              (_check_nack chip addr w).2).2) with ⟨hws, hwo⟩ | ⟨hws, hwo⟩
      · refine ⟨k, [], hk1, ?_, Or.inl ⟨hws, rfl⟩⟩
        refine (((hko.seq hk2).seq hstop).seq hwo).congr ?_
        simp [exitObs, hkn]
      · refine ⟨k, [Obs.expired], hk1, ?_, Or.inr ⟨hws, rfl⟩⟩
        refine (((hko.seq hk2).seq hstop).seq hwo).congr ?_
        simp [exitObs, hkn]
    | brk =>
      rw [if_neg (by decide)]
      right
      have hkn := hk4 hl
      rw [hl] at hk2
      have hstop : Obsd chip
          (_twid_poll_write_loop chip desc addr buffer.data (buffer.size - 1) 1
            (_check_nack chip addr w).2).2
          (if buffer.size ≠ 1 then
            (_twid_poll_write_loop chip desc addr buffer.data (buffer.size - 1) 1
              (_check_nack chip addr w).2).2.cmd (.twi_send_stop_condition addr)
           else (_twid_poll_write_loop chip desc addr buffer.data (buffer.size - 1) 1
              (_check_nack chip addr w).2).2)
          (if buffer.size ≠ 1 then [Obs.stop] else []) := by
        split
        · exact obsd_cmd chip _ _
        · exact Obsd.nil chip _
      rcases wait_obs chip desc (if buffer.size ≠ 1 then
            (_twid_poll_write_loop chip desc addr buffer.data (buffer.size - 1) 1
              (_check_nack chip addr w).2).2.cmd (.twi_send_stop_condition addr)
           else (_twid_poll_write_loop chip desc addr buffer.data (buffer.size - 1) 1
              (_check_nack chip addr w).2).2) with ⟨hws, hwo⟩ | ⟨hws, hwo⟩
      · refine ⟨k, [], hk1, ?_, Or.inl ⟨hws, rfl⟩⟩
        refine (((hko.seq hk2).seq hstop).seq hwo).congr ?_
        simp [exitObs, Nat.ne_of_lt hkn]
      · refine ⟨k, [Obs.expired], hk1, ?_, Or.inr ⟨hws, rfl⟩⟩
        refine (((hko.seq hk2).seq hstop).seq hwo).congr ?_
        simp [exitObs, Nat.ne_of_lt hkn]
  · rw [if_pos (by rw [hks]; decide)]
    left
    exact ⟨rfl, 0, Nat.zero_le _, by simpa [obsWrites] using hko⟩

theorem poll_read_last_obs (chip : Chip) (desc : DescRef) (buffer : Buffer)
    (addr i : Nat) (w : World) :
    ∃ tail, Obsd chip (w.cmd (.twi_send_stop_condition addr))
        (_twid_poll_read_last chip desc buffer addr i w).2 tail
      ∧ (((_twid_poll_read_last chip desc buffer addr i w).1 = some Status.TWID_ERROR_ACK
            ∧ tail = [Obs.nack])
        ∨ ((_twid_poll_read_last chip desc buffer addr i w).1 = some Status.TWID_ERROR_TIMEOUT
            ∧ tail = [Obs.expired])
        ∨ ∃ b, ((_twid_poll_read_last chip desc buffer addr i w).1 = some Status.TWID_SUCCESS
              ∧ tail = [Obs.read b])
          ∨ (((_twid_poll_read_last chip desc buffer addr i w).1
                  = some Status.TWID_ERROR_TRANSFER
                ∨ (_twid_poll_read_last chip desc buffer addr i w).1 = none)
              ∧ tail = [Obs.read b, Obs.expired])) := by
  unfold _twid_poll_read_last
  simp only
  obtain ⟨_, hk⟩ := check_nack_obs chip addr (w.cmd (.twi_send_stop_condition addr))
  rcases hk with ⟨hks, hko⟩ | ⟨hks, hko⟩
  · rw [if_neg (by rw [hks]; decide)]
    obtain ⟨_, ht⟩ := check_rx_obs chip desc
      (_check_nack chip addr (w.cmd (.twi_send_stop_condition addr))).2
    rcases ht with ⟨hts, hto⟩ | ⟨hts, hto⟩
    · rw [if_neg (by rw [hts]; decide)]
      have hq := obsd_query chip (_check_rx_time_out desc
        (_check_nack chip addr (w.cmd (.twi_send_stop_condition addr))).2).2
        (.twi_read_byte addr)
      have hst : Obsd chip ((_check_rx_time_out desc
            (_check_nack chip addr (w.cmd (.twi_send_stop_condition addr))).2).2.query
              (.twi_read_byte addr)).2
          (((_check_rx_time_out desc
            (_check_nack chip addr (w.cmd (.twi_send_stop_condition addr))).2).2.query
              (.twi_read_byte addr)).2.store (buffer.data + i)
            (((_check_rx_time_out desc
              (_check_nack chip addr (w.cmd (.twi_send_stop_condition addr))).2).2.query
                (.twi_read_byte addr)).1 % 256)) [] :=
        Obsd.of_trace rfl
      have h4 := ((hko.seq hto).seq hq).seq hst
      rcases wait_obs chip desc (((_check_rx_time_out desc
            (_check_nack chip addr (w.cmd (.twi_send_stop_condition addr))).2).2.query
              (.twi_read_byte addr)).2.store (buffer.data + i)
            (((_check_rx_time_out desc
              (_check_nack chip addr (w.cmd (.twi_send_stop_condition addr))).2).2.query
                (.twi_read_byte addr)).1 % 256)) with ⟨hws, hwo⟩ | ⟨hws, hwo⟩
      · refine ⟨[Obs.read ((_check_rx_time_out desc
            (_check_nack chip addr (w.cmd (.twi_send_stop_condition addr))).2).2.query
              (.twi_read_byte addr)).1], ?_, Or.inr (Or.inr ⟨_, Or.inl ⟨hws, rfl⟩⟩)⟩
        refine (h4.seq hwo).congr ?_
        simp [obs]
      · refine ⟨[Obs.read ((_check_rx_time_out desc
            (_check_nack chip addr (w.cmd (.twi_send_stop_condition addr))).2).2.query
              (.twi_read_byte addr)).1, Obs.expired], ?_,
            Or.inr (Or.inr ⟨_, Or.inr ⟨hws, rfl⟩⟩)⟩
        refine (h4.seq hwo).congr ?_
        simp [obs]
    · rw [if_pos (by rw [hts]; decide)]
      refine ⟨[Obs.expired], ?_, Or.inr (Or.inl ⟨rfl, rfl⟩)⟩
      refine (hko.seq hto).congr ?_
      simp [obs]
  · rw [if_pos (by rw [hks]; decide)]
    refine ⟨[Obs.nack], ?_, Or.inl ⟨rfl, rfl⟩⟩
    refine hko.congr ?_
    simp [obs]

theorem faultBeforeStop_reads (bs : List Nat) (rest : List Obs) :
    faultBeforeStop (bs.map Obs.read ++ rest) = faultBeforeStop rest := by
  induction bs with
  | nil => rfl
  | cons b bs ih => simpa [faultBeforeStop] using ih

theorem obsWrites_no_stop (mem : Nat → Nat) (k : Nat) :
    ∀ a, Obs.stop ∉ obsWrites mem a k ∧ Obs.nack ∉ obsWrites mem a k := by
  induction k with
  | zero => intro a; simp [obsWrites]
  | succ k ih => intro a; simpa [obsWrites] using ih (a + 1)

/-! ## NACK and stop condition in the polling engine (`CONFIG_SOC_SAMA5D4`) -/

/-- C3: in a polling write and in a polling read (the build with explicit stop
conditions), whenever a status read reports NACK, that read is the last call
the engine makes (no further byte is read or written, no further wait is
started) and the engine returns `TWID_ERROR_ACK`. -/
theorem C3_nack_ends_polling (chip : Chip) (desc : DescRef) (buffer : Buffer) (w : World) :
    (∃ evs, (_twid_poll_write_sama5d4 chip desc buffer w).2.trace = w.trace ++ evs ∧
      ∀ (pre post : List Ev) (a v : Nat),
        evs = pre ++ (Call.twi_get_status a, v) :: post → v &&& chip.TWI_SR_NACK ≠ 0 →
          post = [] ∧ (_twid_poll_write_sama5d4 chip desc buffer w).1
            = some Status.TWID_ERROR_ACK)
    ∧ (∃ evs, (_twid_poll_read_sama5d4 chip desc buffer w).2.trace = w.trace ++ evs ∧
      ∀ (pre post : List Ev) (a v : Nat),
        evs = pre ++ (Call.twi_get_status a, v) :: post → v &&& chip.TWI_SR_NACK ≠ 0 →
          post = [] ∧ (_twid_poll_read_sama5d4 chip desc buffer w).1
            = some Status.TWID_ERROR_ACK) :=
  ⟨(nackOutcome_poll_write_sama5d4 chip desc buffer w).nack_is_last,
   (nackOutcome_poll_read_sama5d4 chip desc buffer w).nack_is_last⟩

/-- C4 as stated fails: a two-byte polling write refused at the first NACK
check issues no stop condition at all, and a three-byte polling write whose
first byte wait times out issues its stop condition after byte 0 only. -/
theorem C4_counterexample :
    observe sama5d4 (added (exampleWorld .TWID_MODE_POLLING [256])
        (_twid_poll_write_sama5d4 sama5d4 (.caller 0) ⟨500, 2⟩
          (exampleWorld .TWID_MODE_POLLING [256])).2)
      = [Obs.start_write 0x12, Obs.nack]
    ∧ observe sama5d4 (added (exampleWorld .TWID_MODE_POLLING [0, 0, 1, 1])
        (_twid_poll_write_sama5d4 sama5d4 (.caller 0) ⟨500, 3⟩
          (exampleWorld .TWID_MODE_POLLING [0, 0, 1, 1])).2)
      = [Obs.start_write 0x12, Obs.expired, Obs.stop] := by
  constructor <;> rfl

/-- C4 (amended): in a polling write of one byte the stop condition is the
call right after start-write, right before the first NACK check, and it is
issued once, whatever that check reports.  In a polling write of two or more
bytes during which no NACK is reported the stop condition is issued once,
after every byte the call writes: byte 0 by start-write and the `k` following
bytes in buffer order, where `k` is all the remaining bytes unless a byte wait
reached its deadline, in which case the stop follows that deadline.  In a
polling write of two or more bytes during which a NACK is reported, the NACK
is the last thing observed, after byte 0 and the `k` bytes written until
then; the write returns `TWID_ERROR_ACK` and has issued no stop condition. -/
theorem C4_poll_write_stop (chip : Chip) (desc : DescRef) (buffer : Buffer) (w : World) :
    (buffer.size = 1 →
      ∃ v rest, added w (_twid_poll_write_sama5d4 chip desc buffer w).2
          = (Call.twi_start_write (w.getDesc desc).addr (w.getDesc desc).slave_addr
                (w.getDesc desc).iaddr (w.getDesc desc).isize (w.mem buffer.data), 0)
            :: (Call.twi_send_stop_condition (w.getDesc desc).addr, 0)
            :: (Call.twi_get_status (w.getDesc desc).addr, v) :: rest
        ∧ Obs.stop ∉ observe chip rest)
    ∧ (2 ≤ buffer.size →
        Obs.nack ∉ observe chip (added w (_twid_poll_write_sama5d4 chip desc buffer w).2) →
      ∃ k tail, k ≤ buffer.size - 1
        ∧ observe chip (added w (_twid_poll_write_sama5d4 chip desc buffer w).2)
          = Obs.start_write (w.mem buffer.data)
            :: (obsWrites w.mem (buffer.data + 1) k
              ++ (if k = buffer.size - 1 then [] else [Obs.expired])
              ++ Obs.stop :: tail)
        ∧ Obs.stop ∉ obsWrites w.mem (buffer.data + 1) k
        ∧ (tail = [] ∨ tail = [Obs.expired]))
    ∧ (2 ≤ buffer.size →
        Obs.nack ∈ observe chip (added w (_twid_poll_write_sama5d4 chip desc buffer w).2) →
      (_twid_poll_write_sama5d4 chip desc buffer w).1 = some Status.TWID_ERROR_ACK
      ∧ Obs.stop ∉ observe chip (added w (_twid_poll_write_sama5d4 chip desc buffer w).2)
      ∧ ∃ k, k ≤ buffer.size - 1
        ∧ observe chip (added w (_twid_poll_write_sama5d4 chip desc buffer w).2)
          = Obs.start_write (w.mem buffer.data)
            :: (obsWrites w.mem (buffer.data + 1) k ++ [Obs.nack])) := by
  refine ⟨?_, ?_, ?_⟩
  · intro h1
    simp only [_twid_poll_write_sama5d4, h1, if_true, _twid_poll_write_rest,
      Nat.sub_self, _twid_poll_write_loop, ne_eq, not_true_eq_false, if_false]
    have hW1 : ((w.cmd (.twi_start_write (w.getDesc desc).addr (w.getDesc desc).slave_addr
        (w.getDesc desc).iaddr (w.getDesc desc).isize (w.mem buffer.data))).cmd
          (.twi_send_stop_condition (w.getDesc desc).addr)).trace
        = w.trace ++ [(Call.twi_start_write (w.getDesc desc).addr (w.getDesc desc).slave_addr
              (w.getDesc desc).iaddr (w.getDesc desc).isize (w.mem buffer.data), 0),
            (Call.twi_send_stop_condition (w.getDesc desc).addr, 0)] := by
      simp [World.cmd]
    generalize ((w.cmd (.twi_start_write (w.getDesc desc).addr (w.getDesc desc).slave_addr
        (w.getDesc desc).iaddr (w.getDesc desc).isize (w.mem buffer.data))).cmd
          (.twi_send_stop_condition (w.getDesc desc).addr)) = W1 at hW1 ⊢
    have ht := check_nack_trace chip (w.getDesc desc).addr W1
    split
    · refine ⟨(W1.query (.twi_get_status (w.getDesc desc).addr)).1, [], added_eq ?_,
        by simp [observe]⟩
      rw [ht, hW1]
      simp
    · rcases wait_obs chip desc (_check_nack chip (w.getDesc desc).addr W1).2
        with ⟨_, evs, he, ho⟩ | ⟨_, evs, he, ho⟩
      · refine ⟨(W1.query (.twi_get_status (w.getDesc desc).addr)).1, evs, added_eq ?_,
          by simp [ho]⟩
        rw [if_neg (by decide), he, ht, hW1]
        simp
      · refine ⟨(W1.query (.twi_get_status (w.getDesc desc).addr)).1, evs, added_eq ?_,
          by simp [ho]⟩
        rw [if_neg (by decide), he, ht, hW1]
        simp
  · intro h2 hn
    have hne : buffer.size ≠ 1 := by omega
    simp only [_twid_poll_write_sama5d4, if_neg hne] at hn ⊢
    have hstart := obsd_cmd chip w (.twi_start_write (w.getDesc desc).addr
      (w.getDesc desc).slave_addr (w.getDesc desc).iaddr (w.getDesc desc).isize
      (w.mem buffer.data))
    rcases poll_write_rest_obs chip desc buffer (w.getDesc desc).addr
      (w.cmd (.twi_start_write (w.getDesc desc).addr (w.getDesc desc).slave_addr
        (w.getDesc desc).iaddr (w.getDesc desc).isize (w.mem buffer.data)))
      with ⟨_, k, _, ho⟩ | ⟨k, tail, hk, ho, htail⟩
    · exfalso
      apply hn
      rw [(hstart.seq ho).observe_added]
      simp [obs]
    · refine ⟨k, tail, hk, ?_, (obsWrites_no_stop w.mem k _).1, ?_⟩
      · rw [(hstart.seq ho).observe_added]
        simp [obs, hne]
      · rcases htail with ⟨_, h⟩ | ⟨_, h⟩
        · exact Or.inl h
        · exact Or.inr h
  · intro h2 hn
    have hne : buffer.size ≠ 1 := by omega
    simp only [_twid_poll_write_sama5d4, if_neg hne] at hn ⊢
    have hstart := obsd_cmd chip w (.twi_start_write (w.getDesc desc).addr
      (w.getDesc desc).slave_addr (w.getDesc desc).iaddr (w.getDesc desc).isize
      (w.mem buffer.data))
    rcases poll_write_rest_obs chip desc buffer (w.getDesc desc).addr
      (w.cmd (.twi_start_write (w.getDesc desc).addr (w.getDesc desc).slave_addr
        (w.getDesc desc).iaddr (w.getDesc desc).isize (w.mem buffer.data)))
      with ⟨hst, k, hk, ho⟩ | ⟨k, tail, hk, ho, htail⟩
    · have hO := (hstart.seq ho).observe_added
      refine ⟨hst, ?_, k, hk, ?_⟩
      · rw [hO]
        simp [obs, (obsWrites_no_stop w.mem k (buffer.data + 1)).1]
      · rw [hO]
        simp [obs]
    · exfalso
      rw [(hstart.seq ho).observe_added] at hn
      have hw := (obsWrites_no_stop w.mem k (buffer.data + 1)).2
      have hw2 : Obs.nack ∉ (if k = buffer.size - 1 then [] else [Obs.expired]) := by
        split <;> simp
      have ht : Obs.nack ∉ tail := by
        rcases htail with ⟨_, h⟩ | ⟨_, h⟩ <;> subst h <;> simp
      simp only [List.mem_append] at hn
      rcases hn with hn | ((hn | hn) | hn) | hn
      · simp [obs] at hn
      · exact hw hn
      · exact hw2 hn
      · simp [hne] at hn
      · exact ht hn

/-- C4 (amended) at concrete inputs: a one-byte write, a two-byte write that
is acknowledged, and a two-byte write refused at the first NACK check. -/
theorem C4_poll_write_stop_witness :
    ((⟨500, 1⟩ : Buffer).size = 1
      ∧ ∃ v rest, added (exampleWorld .TWID_MODE_POLLING [0, 1])
            (_twid_poll_write_sama5d4 sama5d4 (.caller 0) ⟨500, 1⟩
              (exampleWorld .TWID_MODE_POLLING [0, 1])).2
          = (Call.twi_start_write
                ((exampleWorld .TWID_MODE_POLLING [0, 1]).getDesc (.caller 0)).addr
                ((exampleWorld .TWID_MODE_POLLING [0, 1]).getDesc (.caller 0)).slave_addr
                ((exampleWorld .TWID_MODE_POLLING [0, 1]).getDesc (.caller 0)).iaddr
                ((exampleWorld .TWID_MODE_POLLING [0, 1]).getDesc (.caller 0)).isize
                ((exampleWorld .TWID_MODE_POLLING [0, 1]).mem (⟨500, 1⟩ : Buffer).data), 0)
            :: (Call.twi_send_stop_condition
                ((exampleWorld .TWID_MODE_POLLING [0, 1]).getDesc (.caller 0)).addr, 0)
            :: (Call.twi_get_status
                ((exampleWorld .TWID_MODE_POLLING [0, 1]).getDesc (.caller 0)).addr, v) :: rest
        ∧ Obs.stop ∉ observe sama5d4 rest)
    ∧ (2 ≤ (⟨500, 2⟩ : Buffer).size
      ∧ Obs.nack ∉ observe sama5d4 (added (exampleWorld .TWID_MODE_POLLING [0, 1, 0, 1])
          (_twid_poll_write_sama5d4 sama5d4 (.caller 0) ⟨500, 2⟩
            (exampleWorld .TWID_MODE_POLLING [0, 1, 0, 1])).2)
      ∧ ∃ k tail, k ≤ (⟨500, 2⟩ : Buffer).size - 1
        ∧ observe sama5d4 (added (exampleWorld .TWID_MODE_POLLING [0, 1, 0, 1])
            (_twid_poll_write_sama5d4 sama5d4 (.caller 0) ⟨500, 2⟩
              (exampleWorld .TWID_MODE_POLLING [0, 1, 0, 1])).2)
          = Obs.start_write ((exampleWorld .TWID_MODE_POLLING [0, 1, 0, 1]).mem
              (⟨500, 2⟩ : Buffer).data)
            :: (obsWrites (exampleWorld .TWID_MODE_POLLING [0, 1, 0, 1]).mem
                  ((⟨500, 2⟩ : Buffer).data + 1) k
              ++ (if k = (⟨500, 2⟩ : Buffer).size - 1 then [] else [Obs.expired])
              ++ Obs.stop :: tail)
        ∧ Obs.stop ∉ obsWrites (exampleWorld .TWID_MODE_POLLING [0, 1, 0, 1]).mem
            ((⟨500, 2⟩ : Buffer).data + 1) k
        ∧ (tail = [] ∨ tail = [Obs.expired]))
    ∧ (2 ≤ (⟨500, 2⟩ : Buffer).size
      ∧ Obs.nack ∈ observe sama5d4 (added (exampleWorld .TWID_MODE_POLLING [256])
          (_twid_poll_write_sama5d4 sama5d4 (.caller 0) ⟨500, 2⟩
            (exampleWorld .TWID_MODE_POLLING [256])).2)
      ∧ (_twid_poll_write_sama5d4 sama5d4 (.caller 0) ⟨500, 2⟩
          (exampleWorld .TWID_MODE_POLLING [256])).1 = some Status.TWID_ERROR_ACK
      ∧ Obs.stop ∉ observe sama5d4 (added (exampleWorld .TWID_MODE_POLLING [256])
          (_twid_poll_write_sama5d4 sama5d4 (.caller 0) ⟨500, 2⟩
            (exampleWorld .TWID_MODE_POLLING [256])).2)
      ∧ ∃ k, k ≤ (⟨500, 2⟩ : Buffer).size - 1
        ∧ observe sama5d4 (added (exampleWorld .TWID_MODE_POLLING [256])
            (_twid_poll_write_sama5d4 sama5d4 (.caller 0) ⟨500, 2⟩
              (exampleWorld .TWID_MODE_POLLING [256])).2)
          = Obs.start_write ((exampleWorld .TWID_MODE_POLLING [256]).mem
              (⟨500, 2⟩ : Buffer).data)
            :: (obsWrites (exampleWorld .TWID_MODE_POLLING [256]).mem
                  ((⟨500, 2⟩ : Buffer).data + 1) k ++ [Obs.nack])) :=
  ⟨⟨rfl, (C4_poll_write_stop sama5d4 (.caller 0) ⟨500, 1⟩
      (exampleWorld .TWID_MODE_POLLING [0, 1])).1 rfl⟩,
   ⟨by decide, by decide, (C4_poll_write_stop sama5d4 (.caller 0) ⟨500, 2⟩
      (exampleWorld .TWID_MODE_POLLING [0, 1, 0, 1])).2.1 (by decide) (by decide)⟩,
   ⟨by decide, by decide, (C4_poll_write_stop sama5d4 (.caller 0) ⟨500, 2⟩
      (exampleWorld .TWID_MODE_POLLING [256])).2.2 (by decide) (by decide)⟩⟩

/-- C5 as stated fails: a two-byte polling read refused after its first byte
issues no stop condition at all, and a three-byte polling read whose first
byte wait times out issues its stop condition before any byte is read and
still returns `TWID_SUCCESS`. -/
theorem C5_counterexample :
    observe sama5d4 (added (exampleWorld .TWID_MODE_POLLING [1, 0xAB, 256])
        (_twid_poll_read_sama5d4 sama5d4 (.caller 0) ⟨500, 2⟩
          (exampleWorld .TWID_MODE_POLLING [1, 0xAB, 256])).2)
      = [Obs.start_read, Obs.read 0xAB, Obs.nack]
    ∧ observe sama5d4 (added (exampleWorld .TWID_MODE_POLLING [0, 1, 0, 1, 0xAB, 1])
        (_twid_poll_read_sama5d4 sama5d4 (.caller 0) ⟨500, 3⟩
          (exampleWorld .TWID_MODE_POLLING [0, 1, 0, 1, 0xAB, 1])).2)
      = [Obs.start_read, Obs.expired, Obs.stop, Obs.read 0xAB]
    ∧ (_twid_poll_read_sama5d4 sama5d4 (.caller 0) ⟨500, 3⟩
          (exampleWorld .TWID_MODE_POLLING [0, 1, 0, 1, 0xAB, 1])).1
      = some Status.TWID_SUCCESS := by
  refine ⟨?_, ?_, ?_⟩ <;> rfl

/-- C5 (amended): in a polling read of one byte the stop condition is the call
right after start-read, before any byte is read.  In a polling read of two or
more bytes during which, up to the stop condition, no NACK is reported and no
byte wait reaches its deadline, the stop condition is issued after exactly
`size - 1` bytes have been read, and what follows it is at most the read of
the final byte. -/
theorem C5_poll_read_stop (chip : Chip) (desc : DescRef) (buffer : Buffer) (w : World) :
    (buffer.size = 1 →
      ∃ rest, added w (_twid_poll_read_sama5d4 chip desc buffer w).2
          = (Call.twi_start_read (w.getDesc desc).addr (w.getDesc desc).slave_addr
                (w.getDesc desc).iaddr (w.getDesc desc).isize, 0)
            :: (Call.twi_send_stop_condition (w.getDesc desc).addr, 0) :: rest
        ∧ Obs.stop ∉ observe chip rest)
    ∧ (2 ≤ buffer.size → buffer.size < 2 ^ 32 →
        faultBeforeStop (observe chip
          (added w (_twid_poll_read_sama5d4 chip desc buffer w).2)) = false →
      ∃ (bs : List Nat) (tail : List Obs), bs.length = buffer.size - 1
        ∧ observe chip (added w (_twid_poll_read_sama5d4 chip desc buffer w).2)
          = Obs.start_read :: (bs.map Obs.read ++ Obs.stop :: tail)
        ∧ (tail = [Obs.nack] ∨ tail = [Obs.expired]
          ∨ ∃ b, tail = [Obs.read b] ∨ tail = [Obs.read b, Obs.expired])) := by
  have hstart := obsd_cmd chip w (.twi_start_read (w.getDesc desc).addr
    (w.getDesc desc).slave_addr (w.getDesc desc).iaddr (w.getDesc desc).isize)
  constructor
  · intro h1
    simp only [_twid_poll_read_sama5d4, h1, ne_eq, not_true_eq_false, if_false]
    rw [if_neg (by decide)]
    obtain ⟨tail, ⟨evs, he, ho⟩, htail⟩ := poll_read_last_obs chip desc buffer
      (w.getDesc desc).addr 0 (w.cmd (.twi_start_read (w.getDesc desc).addr
        (w.getDesc desc).slave_addr (w.getDesc desc).iaddr (w.getDesc desc).isize))
    refine ⟨evs, added_eq ?_, ?_⟩
    · rw [he]
      simp [World.cmd]
    · rw [ho]
      rcases htail with ⟨_, h⟩ | ⟨_, h⟩ | ⟨b, ⟨_, h⟩ | ⟨_, h⟩⟩ <;> simp [h]
  · intro h2 h32 hf
    have hne : buffer.size ≠ 1 := by omega
    have hn : (buffer.size + 2 ^ 32 - 1) % 2 ^ 32 = buffer.size - 1 := by omega
    simp only [_twid_poll_read_sama5d4, if_pos hne, hn] at hf ⊢
    obtain ⟨bs, hb1, hb2, hb3, hb4⟩ := poll_read_loop_obs chip desc (w.getDesc desc).addr
      buffer.data (buffer.size - 1) 0 (w.cmd (.twi_start_read (w.getDesc desc).addr
        (w.getDesc desc).slave_addr (w.getDesc desc).iaddr (w.getDesc desc).isize))
    cases hl : (_twid_poll_read_loop chip desc (w.getDesc desc).addr
      buffer.data (buffer.size - 1) 0 (w.cmd (.twi_start_read (w.getDesc desc).addr
        (w.getDesc desc).slave_addr (w.getDesc desc).iaddr (w.getDesc desc).isize))).1 with
    | ret =>
      exfalso
      rw [hl] at hb2 hf
      rw [if_pos rfl] at hf
      rw [(hstart.seq hb2).observe_added] at hf
      simp [obs, exitObs, faultBeforeStop, faultBeforeStop_reads] at hf
    | brk =>
      exfalso
      rw [hl] at hb2 hf
      rw [if_neg (by decide)] at hf
      obtain ⟨tail, htl, _⟩ := poll_read_last_obs chip desc buffer (w.getDesc desc).addr
        (_twid_poll_read_loop chip desc (w.getDesc desc).addr
          buffer.data (buffer.size - 1) 0 (w.cmd (.twi_start_read (w.getDesc desc).addr
            (w.getDesc desc).slave_addr (w.getDesc desc).iaddr (w.getDesc desc).isize))).2.1
        (_twid_poll_read_loop chip desc (w.getDesc desc).addr
          buffer.data (buffer.size - 1) 0 (w.cmd (.twi_start_read (w.getDesc desc).addr
            (w.getDesc desc).slave_addr (w.getDesc desc).iaddr (w.getDesc desc).isize))).2.2
      rw [(((hstart.seq hb2).seq (obsd_cmd chip _ _)).seq htl).observe_added] at hf
      simp [obs, exitObs, faultBeforeStop, faultBeforeStop_reads] at hf
    | done =>
      rw [hl] at hb2
      rw [if_neg (by decide)]
      obtain ⟨tail, htl, htail⟩ := poll_read_last_obs chip desc buffer (w.getDesc desc).addr
        (_twid_poll_read_loop chip desc (w.getDesc desc).addr
          buffer.data (buffer.size - 1) 0 (w.cmd (.twi_start_read (w.getDesc desc).addr
            (w.getDesc desc).slave_addr (w.getDesc desc).iaddr (w.getDesc desc).isize))).2.1
        (_twid_poll_read_loop chip desc (w.getDesc desc).addr
          buffer.data (buffer.size - 1) 0 (w.cmd (.twi_start_read (w.getDesc desc).addr
            (w.getDesc desc).slave_addr (w.getDesc desc).iaddr (w.getDesc desc).isize))).2.2
      refine ⟨bs, tail, hb3 hl, ?_, ?_⟩
      · rw [(((hstart.seq hb2).seq (obsd_cmd chip _ _)).seq htl).observe_added]
        simp [obs, exitObs]
      · rcases htail with ⟨_, h⟩ | ⟨_, h⟩ | ⟨b, ⟨_, h⟩ | ⟨_, h⟩⟩
        · exact Or.inl h
        · exact Or.inr (Or.inl h)
        · exact Or.inr (Or.inr ⟨b, Or.inl h⟩)
        · exact Or.inr (Or.inr ⟨b, Or.inr h⟩)

/-- C5 (amended) at concrete inputs: a one-byte read, and a two-byte read that
is acknowledged and answered in time. -/
theorem C5_poll_read_stop_witness :
    ((⟨500, 1⟩ : Buffer).size = 1
      ∧ ∃ rest, added (exampleWorld .TWID_MODE_POLLING [0, 1, 0xAB, 1])
            (_twid_poll_read_sama5d4 sama5d4 (.caller 0) ⟨500, 1⟩
              (exampleWorld .TWID_MODE_POLLING [0, 1, 0xAB, 1])).2
          = (Call.twi_start_read
                ((exampleWorld .TWID_MODE_POLLING [0, 1, 0xAB, 1]).getDesc (.caller 0)).addr
                ((exampleWorld .TWID_MODE_POLLING [0, 1, 0xAB, 1]).getDesc (.caller 0)).slave_addr
                ((exampleWorld .TWID_MODE_POLLING [0, 1, 0xAB, 1]).getDesc (.caller 0)).iaddr
                ((exampleWorld .TWID_MODE_POLLING [0, 1, 0xAB, 1]).getDesc (.caller 0)).isize, 0)
            :: (Call.twi_send_stop_condition
                ((exampleWorld .TWID_MODE_POLLING [0, 1, 0xAB, 1]).getDesc (.caller 0)).addr, 0)
            :: rest
        ∧ Obs.stop ∉ observe sama5d4 rest)
    ∧ (2 ≤ (⟨500, 2⟩ : Buffer).size ∧ (⟨500, 2⟩ : Buffer).size < 2 ^ 32
      ∧ faultBeforeStop (observe sama5d4
          (added (exampleWorld .TWID_MODE_POLLING [1, 0xAA, 0, 0, 1, 0xBB, 1])
            (_twid_poll_read_sama5d4 sama5d4 (.caller 0) ⟨500, 2⟩
              (exampleWorld .TWID_MODE_POLLING [1, 0xAA, 0, 0, 1, 0xBB, 1])).2)) = false
      ∧ ∃ (bs : List Nat) (tail : List Obs), bs.length = (⟨500, 2⟩ : Buffer).size - 1
        ∧ observe sama5d4
            (added (exampleWorld .TWID_MODE_POLLING [1, 0xAA, 0, 0, 1, 0xBB, 1])
              (_twid_poll_read_sama5d4 sama5d4 (.caller 0) ⟨500, 2⟩
                (exampleWorld .TWID_MODE_POLLING [1, 0xAA, 0, 0, 1, 0xBB, 1])).2)
          = Obs.start_read :: (bs.map Obs.read ++ Obs.stop :: tail)
        ∧ (tail = [Obs.nack] ∨ tail = [Obs.expired]
          ∨ ∃ b, tail = [Obs.read b] ∨ tail = [Obs.read b, Obs.expired])) :=
  ⟨⟨rfl, (C5_poll_read_stop sama5d4 (.caller 0) ⟨500, 1⟩
      (exampleWorld .TWID_MODE_POLLING [0, 1, 0xAB, 1])).1 rfl⟩,
   ⟨by decide, by decide, rfl, (C5_poll_read_stop sama5d4 (.caller 0) ⟨500, 2⟩
      (exampleWorld .TWID_MODE_POLLING [1, 0xAA, 0, 0, 1, 0xBB, 1])).2
        (by decide) (by decide) rfl⟩⟩

/-! ## The polling path leaves the slot table and the interrupt controller alone -/

theorem PollStep.here (n : Nat) (w : World) : PollStep n w w :=
  ⟨rfl, rfl, rfl, [], by simp, by simp⟩

theorem PollStep.next {n : Nat} {w w1 w2 : World}
    (h1 : PollStep n w w1) (h2 : PollStep n w1 w2) : PollStep n w w2 := by
  obtain ⟨a1, i1, m1, e1, t1, c1⟩ := h1
  obtain ⟨a2, i2, m2, e2, t2, c2⟩ := h2
  refine ⟨a2.trans a1, i2.trans i1, m2.trans m1, e1 ++ e2,
    by rw [t2, t1, List.append_assoc], ?_⟩
  intro e he
  rcases List.mem_append.mp he with h | h
  · exact c1 e h
  · exact c2 e h

theorem pollStep_cmd (n : Nat) (w : World) (c : Call) (hc : isAicCall c = false) :
    PollStep n w (w.cmd c) :=
  ⟨rfl, rfl, rfl, [(c, 0)], rfl, by simpa using hc⟩

theorem pollStep_query (n : Nat) (w : World) (c : Call) (hc : isAicCall c = false) :
    PollStep n w (w.query c).2 := by
  refine ⟨?_, ?_, ?_, [(c, (w.query c).1)], query_trace w c, by simpa using hc⟩
  all_goals (unfold World.query; split <;> rfl)

theorem pollStep_pollUntil (n : Nat) (w : World) (c : Call) (hc : isAicCall c = false) :
    PollStep n w (w.pollUntil c).2 := by
  refine ⟨rfl, rfl, rfl, (pollUntil c w.script).2.2, rfl, ?_⟩
  intro e he
  rcases pollUntil_calls c w.script e he with h | h
  · rw [h]; exact hc
  · rw [h]; rfl

theorem pollStep_store (n : Nat) (w : World) (a v : Nat) : PollStep n w (w.store a v) :=
  ⟨rfl, rfl, rfl, [], by simp [World.store], by simp⟩

/-- An assignment to a field of the caller's descriptor other than the mode. -/
theorem pollStep_setDesc (n : Nat) (w : World) (d : TwiDesc)
    (hd : d.transfert_mode = (w.descs n).transfert_mode) :
    PollStep n w (w.setDesc (.caller n) d) :=
  ⟨rfl, rfl, by simp [World.setDesc, hd], [], by simp [World.setDesc], by simp⟩

theorem pollStep_mutex_free (n : Nat) (w : World) :
    PollStep n w (mutex_free (.caller n) w) :=
  pollStep_setDesc n w _ rfl

theorem pollStep_twid_configure (chip : Chip) (n : Nat) (w : World) :
    PollStep n w (twid_configure chip (.caller n) w).2 := by
  unfold twid_configure
  simp only
  split_ifs <;>
    repeat first
      | exact PollStep.here _ _
      | refine PollStep.next ?_ (pollStep_cmd _ _ _ rfl)
      | refine PollStep.next ?_ (pollStep_setDesc _ _ _ rfl)

theorem pollStep_wait (chip : Chip) (n : Nat) (w : World) :
    PollStep n w (_twid_wait_twi_transfer chip (.caller n) w).2 := by
  unfold _twid_wait_twi_transfer
  simp only
  have h1 := (pollStep_cmd n w (.timer_start_timeout (w.getDesc (.caller n)).timeout) rfl).next
    (pollStep_pollUntil n _ (.twi_is_transfer_complete
      ((w.cmd (.timer_start_timeout (w.getDesc (.caller n)).timeout)).getDesc
        (.caller n)).addr) rfl)
  split
  · have h2 := h1.next (pollStep_twid_configure chip n _)
    split <;> exact h2
  · exact h1

theorem pollStep_check_rx (n : Nat) (w : World) :
    PollStep n w (_check_rx_time_out (.caller n) w).2 := by
  unfold _check_rx_time_out
  simp only
  have h1 := (pollStep_cmd n w (.timer_start_timeout (w.getDesc (.caller n)).timeout) rfl).next
    (pollStep_pollUntil n _ (.twi_is_byte_received
      ((w.cmd (.timer_start_timeout (w.getDesc (.caller n)).timeout)).getDesc
        (.caller n)).addr) rfl)
  split <;> exact h1

theorem pollStep_check_tx (n : Nat) (w : World) :
    PollStep n w (_check_tx_time_out (.caller n) w).2 := by
  unfold _check_tx_time_out
  simp only
  have h1 := (pollStep_cmd n w (.timer_start_timeout (w.getDesc (.caller n)).timeout) rfl).next
    (pollStep_pollUntil n _ (.twi_is_byte_sent
      ((w.cmd (.timer_start_timeout (w.getDesc (.caller n)).timeout)).getDesc
        (.caller n)).addr) rfl)
  split <;> exact h1

theorem pollStep_check_nack (chip : Chip) (n addr : Nat) (w : World) :
    PollStep n w (_check_nack chip addr w).2 := by
  unfold _check_nack
  simp only
  split <;> exact pollStep_query n w _ rfl

theorem pollStep_read_loop (chip : Chip) (n addr data : Nat) (k : Nat) :
    ∀ (i : Nat) (w : World),
      PollStep n w (_twid_poll_read_loop chip (.caller n) addr data k i w).2.2 := by
  induction k with
  | zero => intro i w; exact PollStep.here n w
  | succ k ih =>
    intro i w
    simp only [_twid_poll_read_loop]
    have h1 := pollStep_check_rx n w
    split
    · exact h1
    · have h2 := ((h1.next (pollStep_query n _ (.twi_read_byte addr) rfl)).next
        (pollStep_store n _ (data + i)
          ((World.query (_check_rx_time_out (.caller n) w).2 (.twi_read_byte addr)).1 % 256))).next
        (pollStep_check_nack chip n addr _)
      split
      · exact h2
      · exact h2.next (ih _ _)

theorem pollStep_write_loop (chip : Chip) (n addr data : Nat) (k : Nat) :
    ∀ (i : Nat) (w : World),
      PollStep n w (_twid_poll_write_loop chip (.caller n) addr data k i w).2 := by
  induction k with
  | zero => intro i w; exact PollStep.here n w
  | succ k ih =>
    intro i w
    simp only [_twid_poll_write_loop]
    have h1 := pollStep_check_tx n w
    split
    · exact h1
    · have h2 := (h1.next (pollStep_cmd n _ (.twi_write_byte addr
        ((_check_tx_time_out (.caller n) w).2.mem (data + i))) rfl)).next
        (pollStep_check_nack chip n addr _)
      split
      · exact h2
      · exact h2.next (ih _ _)

theorem pollStep_ite_cmd (n : Nat) (p : Prop) [Decidable p] (w : World) (c : Call)
    (hc : isAicCall c = false) : PollStep n w (if p then w.cmd c else w) := by
  split
  · exact pollStep_cmd n w c hc
  · exact PollStep.here n w

theorem pollStep_ite {α : Type} (n : Nat) (w : World) (p : Prop) [Decidable p]
    (a b : α × World) (ha : PollStep n w a.2) (hb : PollStep n w b.2) :
    PollStep n w (if p then a else b).2 := by
  split <;> assumption

theorem pollStep_read_last (chip : Chip) (n : Nat) (buffer : Buffer) (addr i : Nat)
    (w : World) :
    PollStep n w (_twid_poll_read_last chip (.caller n) buffer addr i w).2 := by
  unfold _twid_poll_read_last
  simp only
  have h1 := (pollStep_cmd n w (.twi_send_stop_condition addr) rfl).next
    (pollStep_check_nack chip n addr _)
  refine pollStep_ite n w _ _ _ h1 ?_
  have h2 := h1.next (pollStep_check_rx n _)
  refine pollStep_ite n w _ _ _ h2 ?_
  exact ((h2.next (pollStep_query n _ (.twi_read_byte addr) rfl)).next
    (pollStep_store n _ _ _)).next (pollStep_wait chip n _)

theorem pollStep_write_rest (chip : Chip) (n : Nat) (buffer : Buffer) (addr : Nat)
    (w : World) :
    PollStep n w (_twid_poll_write_rest chip (.caller n) buffer addr w).2 := by
  unfold _twid_poll_write_rest
  simp only
  have h1 := pollStep_check_nack chip n addr w
  refine pollStep_ite n w _ _ _ h1 ?_
  have h2 := h1.next (pollStep_write_loop chip n addr buffer.data (buffer.size - 1) 1 _)
  refine pollStep_ite n w _ _ _ h2 ?_
  exact (h2.next (pollStep_ite_cmd n _ _ (.twi_send_stop_condition addr) rfl)).next
    (pollStep_wait chip n _)

theorem pollStep_read_sama5d4_core (chip : Chip) (n : Nat) (buffer : Buffer) (addr : Nat)
    (w : World) (l : LoopExit × Nat × World) (hl : PollStep n w l.2.2) :
    PollStep n w (if l.1 = LoopExit.ret then (some Status.TWID_ERROR_ACK, l.2.2)
      else _twid_poll_read_last chip (.caller n) buffer addr l.2.1 l.2.2).2 := by
  split
  · exact hl
  · exact hl.next (pollStep_read_last chip n buffer addr l.2.1 l.2.2)

theorem pollStep_poll_read_sama5d4 (chip : Chip) (n : Nat) (buffer : Buffer) (w : World) :
    PollStep n w (_twid_poll_read_sama5d4 chip (.caller n) buffer w).2 := by
  unfold _twid_poll_read_sama5d4
  simp only
  refine pollStep_read_sama5d4_core chip n buffer _ w _ ?_
  refine PollStep.next (pollStep_cmd n w (.twi_start_read (w.getDesc (.caller n)).addr
    (w.getDesc (.caller n)).slave_addr (w.getDesc (.caller n)).iaddr
    (w.getDesc (.caller n)).isize) rfl) ?_
  split
  · exact pollStep_read_loop chip n _ _ _ _ _
  · exact PollStep.here n _

theorem pollStep_poll_read_other (chip : Chip) (n : Nat) (buffer : Buffer) (w : World) :
    PollStep n w (_twid_poll_read_other chip (.caller n) buffer w).2 := by
  unfold _twid_poll_read_other
  simp only
  have h1 := (pollStep_ite_cmd n (chip.CONFIG_HAVE_TWI_ALTERNATE_CMD = true) w
    (.twi_init_read_transfert (w.getDesc (.caller n)).addr
      (w.getDesc (.caller n)).slave_addr (w.getDesc (.caller n)).iaddr
      (w.getDesc (.caller n)).isize buffer.size) rfl).next
    (pollStep_check_nack chip n (w.getDesc (.caller n)).addr _)
  refine pollStep_ite n w _ _ _ h1 ?_
  have h2 := h1.next (pollStep_read_loop chip n (w.getDesc (.caller n)).addr buffer.data
    buffer.size 0 _)
  exact pollStep_ite n w _ _ _ h2 (h2.next (pollStep_wait chip n _))

theorem pollStep_poll_read (chip : Chip) (n : Nat) (buffer : Buffer) (w : World) :
    PollStep n w (_twid_poll_read chip (.caller n) buffer w).2 := by
  unfold _twid_poll_read
  split
  · exact pollStep_poll_read_sama5d4 chip n buffer w
  · exact pollStep_poll_read_other chip n buffer w

theorem pollStep_poll_write_sama5d4 (chip : Chip) (n : Nat) (buffer : Buffer) (w : World) :
    PollStep n w (_twid_poll_write_sama5d4 chip (.caller n) buffer w).2 := by
  unfold _twid_poll_write_sama5d4
  simp only
  exact ((pollStep_cmd n w (.twi_start_write (w.getDesc (.caller n)).addr
      (w.getDesc (.caller n)).slave_addr (w.getDesc (.caller n)).iaddr
      (w.getDesc (.caller n)).isize (w.mem buffer.data)) rfl).next
    (pollStep_ite_cmd n _ _ (.twi_send_stop_condition (w.getDesc (.caller n)).addr) rfl)).next
    (pollStep_write_rest chip n buffer _ _)

theorem pollStep_poll_write_other (chip : Chip) (n : Nat) (buffer : Buffer) (w : World) :
    PollStep n w (_twid_poll_write_other chip (.caller n) buffer w).2 := by
  unfold _twid_poll_write_other
  simp only
  have h1 := (pollStep_ite_cmd n (chip.CONFIG_HAVE_TWI_ALTERNATE_CMD = true) w
    (.twi_init_write_transfert (w.getDesc (.caller n)).addr
      (w.getDesc (.caller n)).slave_addr (w.getDesc (.caller n)).iaddr
      (w.getDesc (.caller n)).isize buffer.size) rfl).next
    (pollStep_check_nack chip n (w.getDesc (.caller n)).addr _)
  refine pollStep_ite n w _ _ _ h1 ?_
  have h2 := h1.next (pollStep_write_loop chip n (w.getDesc (.caller n)).addr buffer.data
    buffer.size 0 _)
  exact pollStep_ite n w _ _ _ h2 (h2.next (pollStep_wait chip n _))

theorem pollStep_poll_write (chip : Chip) (n : Nat) (buffer : Buffer) (w : World) :
    PollStep n w (_twid_poll_write chip (.caller n) buffer w).2 := by
  unfold _twid_poll_write
  split
  · exact pollStep_poll_write_sama5d4 chip n buffer w
  · exact pollStep_poll_write_other chip n buffer w

theorem pollStep_invoke_callback (n : Nat) (cb : Callback) (args : Nat) (w : World) :
    PollStep n w (invoke_callback cb (.caller n) args w) := by
  cases cb with
  | null => exact PollStep.here n w
  | twid_finish_transfert_callback => exact pollStep_mutex_free n w
  | user m => exact pollStep_cmd n w _ rfl

/-- The completion of a polling arm: callback when there is one, then release
of the lock. -/
theorem pollStep_complete (n : Nat) (cb : Callback) (args : Nat) (w : World) :
    PollStep n w (mutex_free (.caller n)
      (if cb ≠ .null then invoke_callback cb (.caller n) args w else w)) := by
  refine PollStep.next ?_ (pollStep_mutex_free n _)
  split
  · exact pollStep_invoke_callback n cb args w
  · exact PollStep.here n w

theorem pollStep_transfert_polling (chip : Chip) (n : Nat) (rx tx : Option Buffer)
    (cb : Callback) (args : Nat) (w : World) :
    PollStep n w (twid_transfert_polling chip (.caller n) rx tx cb args w).2 := by
  unfold twid_transfert_polling
  simp only
  have key : ∀ (r : Option Status × World), PollStep n w r.2 →
      PollStep n w (match r with
        | (some Status.TWID_SUCCESS, w1) =>
          (some Status.TWID_SUCCESS, mutex_free (.caller n)
            (if cb ≠ .null then invoke_callback cb (.caller n) args w1 else w1))
        | r => r).2 := by
    intro r hr
    split
    · exact hr.next (pollStep_complete n cb args _)
    · exact hr
  apply key
  cases tx with
  | some t =>
    exact (pollStep_cmd n w (.twi_enable_it (w.getDesc (.caller n)).addr
      chip.TWI_IER_TXRDY) rfl).next (pollStep_poll_write chip n t _)
  | none =>
    cases rx with
    | some r =>
      exact (pollStep_cmd n w (.twi_enable_it (w.getDesc (.caller n)).addr
        chip.TWI_IER_RXRDY) rfl).next (pollStep_poll_read chip n r _)
    | none => exact PollStep.here n w

/-! ## The polling path does not depend on the configured mode -/

@[simp] theorem asPolling_trace (n k : Nat) (w : World) : (asPolling n k w).trace = w.trace := rfl

@[simp] theorem asPolling_script (n k : Nat) (w : World) :
    (asPolling n k w).script = w.script := rfl

@[simp] theorem asPolling_mem (n k : Nat) (w : World) : (asPolling n k w).mem = w.mem := rfl

theorem asPolling_cmd (n k : Nat) (w : World) (c : Call) :
    (asPolling n k w).cmd c = asPolling n k (w.cmd c) := rfl

theorem asPolling_query (n k : Nat) (w : World) (c : Call) :
    (asPolling n k w).query c = asPollingResult n k (w.query c) := by
  unfold World.query asPollingResult
  simp only [asPolling_script]
  split <;> rfl

theorem asPolling_pollUntil (n k : Nat) (w : World) (c : Call) :
    (asPolling n k w).pollUntil c = asPollingResult n k (w.pollUntil c) := rfl

theorem asPolling_store (n k : Nat) (w : World) (a v : Nat) :
    (asPolling n k w).store a v = asPolling n k (w.store a v) := rfl

theorem asPolling_getDesc (n k : Nat) (w : World) :
    (asPolling n k w).getDesc (.caller n)
      = { w.getDesc (.caller n) with transfert_mode := .TWID_MODE_POLLING } := by
  simp [asPolling, World.getDesc]

theorem asPolling_setDesc (n k : Nat) (w : World) (d : TwiDesc) :
    (asPolling n k w).setDesc (.caller n) { d with transfert_mode := .TWID_MODE_POLLING }
      = asPolling n k (w.setDesc (.caller n) d) := by
  simp [asPolling, World.setDesc]

theorem asPolling_check_nack (chip : Chip) (n k addr : Nat) (w : World) :
    _check_nack chip addr (asPolling n k w) = asPollingResult n k (_check_nack chip addr w) := by
  unfold _check_nack
  simp only [asPolling_query, asPollingResult]
  split <;> rfl

theorem asPolling_check_rx (n k : Nat) (w : World) :
    _check_rx_time_out (.caller n) (asPolling n k w)
      = asPollingResult n k (_check_rx_time_out (.caller n) w) := by
  unfold _check_rx_time_out
  simp only [asPolling_getDesc, asPolling_cmd, asPolling_pollUntil, asPollingResult]
  split <;> rfl

theorem asPolling_check_tx (n k : Nat) (w : World) :
    _check_tx_time_out (.caller n) (asPolling n k w)
      = asPollingResult n k (_check_tx_time_out (.caller n) w) := by
  unfold _check_tx_time_out
  simp only [asPolling_getDesc, asPolling_cmd, asPolling_pollUntil, asPollingResult]
  split <;> rfl

theorem asPolling_twid_configure (chip : Chip) (n k : Nat) (w : World)
    (hm : (w.descs n).transfert_mode ≠ .TWID_MODE_FIFO) :
    twid_configure chip (.caller n) (asPolling n k w)
      = asPollingResult n k (twid_configure chip (.caller n) w) := by
  unfold twid_configure asPollingResult
  simp only [asPolling_getDesc]
  split_ifs <;>
    simp_all [asPolling, World.setDesc, World.getDesc, World.cmd]

theorem asPolling_wait (chip : Chip) (n k : Nat) (w : World)
    (hm : (w.descs n).transfert_mode ≠ .TWID_MODE_FIFO) :
    _twid_wait_twi_transfer chip (.caller n) (asPolling n k w)
      = asPollingResult n k (_twid_wait_twi_transfer chip (.caller n) w) := by
  unfold _twid_wait_twi_transfer
  simp only [asPolling_getDesc, asPolling_cmd, asPolling_pollUntil, asPollingResult]
  split
  · rw [asPolling_twid_configure chip n k
      ((w.cmd (.timer_start_timeout (w.getDesc (.caller n)).timeout)).pollUntil
        (.twi_is_transfer_complete
          ((w.cmd (.timer_start_timeout (w.getDesc (.caller n)).timeout)).getDesc
            (.caller n)).addr)).2 hm]
    simp only [asPollingResult]
    split <;> rfl
  · rfl

theorem asPolling_read_loop (chip : Chip) (n k addr data : Nat) (m : Nat) :
    ∀ (i : Nat) (w : World),
      _twid_poll_read_loop chip (.caller n) addr data m i (asPolling n k w)
        = ((_twid_poll_read_loop chip (.caller n) addr data m i w).1,
           (_twid_poll_read_loop chip (.caller n) addr data m i w).2.1,
           asPolling n k (_twid_poll_read_loop chip (.caller n) addr data m i w).2.2) := by
  induction m with
  | zero => intro i w; rfl
  | succ m ih =>
    intro i w
    simp only [_twid_poll_read_loop, asPolling_check_rx, asPollingResult, asPolling_query,
      asPolling_store, asPolling_check_nack]
    split
    · rfl
    · split
      · rfl
      · exact ih _ _

theorem asPolling_write_loop (chip : Chip) (n k addr data : Nat) (m : Nat) :
    ∀ (i : Nat) (w : World),
      _twid_poll_write_loop chip (.caller n) addr data m i (asPolling n k w)
        = asPollingResult n k (_twid_poll_write_loop chip (.caller n) addr data m i w) := by
  induction m with
  | zero => intro i w; rfl
  | succ m ih =>
    intro i w
    simp only [_twid_poll_write_loop, asPolling_check_tx, asPollingResult, asPolling_cmd,
      asPolling_mem, asPolling_check_nack]
    split
    · rfl
    · split
      · rfl
      · exact ih _ _

theorem asPolling_read_last (chip : Chip) (n k : Nat) (buffer : Buffer) (addr i : Nat)
    (w : World) (hm : (w.descs n).transfert_mode ≠ .TWID_MODE_FIFO) :
    _twid_poll_read_last chip (.caller n) buffer addr i (asPolling n k w)
      = asPollingResult n k (_twid_poll_read_last chip (.caller n) buffer addr i w) := by
  unfold _twid_poll_read_last
  simp only [asPolling_cmd, asPolling_check_nack, asPollingResult, asPolling_check_rx,
    asPolling_query, asPolling_store]
  split
  · rfl
  · split
    · rfl
    · refine asPolling_wait chip n k _ ?_
      rw [(((((pollStep_cmd n w (.twi_send_stop_condition addr) rfl).next
        (pollStep_check_nack chip n addr _)).next (pollStep_check_rx n _)).next
        (pollStep_query n _ (.twi_read_byte addr) rfl)).next (pollStep_store n _ _ _)).mode]
      exact hm

theorem asPolling_write_rest (chip : Chip) (n k : Nat) (buffer : Buffer) (addr : Nat)
    (w : World) (hm : (w.descs n).transfert_mode ≠ .TWID_MODE_FIFO) :
    _twid_poll_write_rest chip (.caller n) buffer addr (asPolling n k w)
      = asPollingResult n k (_twid_poll_write_rest chip (.caller n) buffer addr w) := by
  unfold _twid_poll_write_rest
  simp only [asPolling_check_nack, asPollingResult, asPolling_write_loop]
  split
  · rfl
  · split
    · rfl
    · have hmode := ((pollStep_check_nack chip n addr w).next
        (pollStep_write_loop chip n addr buffer.data (buffer.size - 1) 1 _)).mode
      split
      · rw [asPolling_cmd]
        refine asPolling_wait chip n k _ ?_
        exact hmode ▸ hm
      · refine asPolling_wait chip n k _ ?_
        exact hmode ▸ hm

theorem asPolling_read_sama5d4_bytes (chip : Chip) (n k : Nat) (buffer : Buffer)
    (addr : Nat) (w : World) :
    (if buffer.size ≠ 1 then
        _twid_poll_read_loop chip (.caller n) addr buffer.data
          ((buffer.size + 2 ^ 32 - 1) % 2 ^ 32) 0 (asPolling n k w)
      else (LoopExit.done, 0, asPolling n k w))
    = ((if buffer.size ≠ 1 then
          _twid_poll_read_loop chip (.caller n) addr buffer.data
            ((buffer.size + 2 ^ 32 - 1) % 2 ^ 32) 0 w
        else (LoopExit.done, 0, w)).1,
       (if buffer.size ≠ 1 then
          _twid_poll_read_loop chip (.caller n) addr buffer.data
            ((buffer.size + 2 ^ 32 - 1) % 2 ^ 32) 0 w
        else (LoopExit.done, 0, w)).2.1,
       asPolling n k (if buffer.size ≠ 1 then
          _twid_poll_read_loop chip (.caller n) addr buffer.data
            ((buffer.size + 2 ^ 32 - 1) % 2 ^ 32) 0 w
        else (LoopExit.done, 0, w)).2.2) := by
  split
  · exact asPolling_read_loop chip n k addr buffer.data _ 0 w
  · rfl

theorem pollStep_read_sama5d4_bytes (chip : Chip) (n : Nat) (buffer : Buffer)
    (addr : Nat) (w : World) :
    PollStep n w (if buffer.size ≠ 1 then
        _twid_poll_read_loop chip (.caller n) addr buffer.data
          ((buffer.size + 2 ^ 32 - 1) % 2 ^ 32) 0 w
      else (LoopExit.done, 0, w)).2.2 := by
  split
  · exact pollStep_read_loop chip n _ _ _ _ _
  · exact PollStep.here n w

theorem asPolling_read_sama5d4_core (chip : Chip) (n k : Nat) (buffer : Buffer)
    (addr : Nat) (l : LoopExit × Nat × World)
    (hm : (l.2.2.descs n).transfert_mode ≠ .TWID_MODE_FIFO) :
    (if (l.1, l.2.1, asPolling n k l.2.2).1 = LoopExit.ret then
        (some Status.TWID_ERROR_ACK, (l.1, l.2.1, asPolling n k l.2.2).2.2)
      else _twid_poll_read_last chip (.caller n) buffer addr
        (l.1, l.2.1, asPolling n k l.2.2).2.1 (l.1, l.2.1, asPolling n k l.2.2).2.2)
    = asPollingResult n k (if l.1 = LoopExit.ret then (some Status.TWID_ERROR_ACK, l.2.2)
        else _twid_poll_read_last chip (.caller n) buffer addr l.2.1 l.2.2) := by
  simp only
  split
  · rfl
  · exact asPolling_read_last chip n k buffer addr l.2.1 l.2.2 hm

theorem asPolling_poll_read_sama5d4 (chip : Chip) (n k : Nat) (buffer : Buffer) (w : World)
    (hm : (w.descs n).transfert_mode ≠ .TWID_MODE_FIFO) :
    _twid_poll_read_sama5d4 chip (.caller n) buffer (asPolling n k w)
      = asPollingResult n k (_twid_poll_read_sama5d4 chip (.caller n) buffer w) := by
  unfold _twid_poll_read_sama5d4
  simp only [asPolling_getDesc, asPolling_cmd]
  rw [asPolling_read_sama5d4_bytes]
  refine asPolling_read_sama5d4_core chip n k buffer _ _ ?_
  rw [((pollStep_cmd n w (.twi_start_read (w.getDesc (.caller n)).addr
    (w.getDesc (.caller n)).slave_addr (w.getDesc (.caller n)).iaddr
    (w.getDesc (.caller n)).isize) rfl).next
    (pollStep_read_sama5d4_bytes chip n buffer _ _)).mode]
  exact hm

theorem asPolling_ite_cmd (n k : Nat) (p : Prop) [Decidable p] (w : World) (c : Call) :
    (if p then asPolling n k (w.cmd c) else asPolling n k w)
      = asPolling n k (if p then w.cmd c else w) := by
  split <;> rfl

theorem asPolling_poll_read_other (chip : Chip) (n k : Nat) (buffer : Buffer) (w : World)
    (hm : (w.descs n).transfert_mode ≠ .TWID_MODE_FIFO) :
    _twid_poll_read_other chip (.caller n) buffer (asPolling n k w)
      = asPollingResult n k (_twid_poll_read_other chip (.caller n) buffer w) := by
  unfold _twid_poll_read_other
  simp only [asPolling_getDesc, asPolling_cmd, asPolling_ite_cmd]
  have hW := (pollStep_ite_cmd n (chip.CONFIG_HAVE_TWI_ALTERNATE_CMD = true) w
    (.twi_init_read_transfert (w.getDesc (.caller n)).addr
      (w.getDesc (.caller n)).slave_addr (w.getDesc (.caller n)).iaddr
      (w.getDesc (.caller n)).isize buffer.size) rfl).mode
  generalize (if chip.CONFIG_HAVE_TWI_ALTERNATE_CMD = true then
      w.cmd (.twi_init_read_transfert (w.getDesc (.caller n)).addr
        (w.getDesc (.caller n)).slave_addr (w.getDesc (.caller n)).iaddr
        (w.getDesc (.caller n)).isize buffer.size)
    else w) = W at hW ⊢
  generalize (w.getDesc (.caller n)).addr = addr
  simp only [asPolling_check_nack, asPollingResult, asPolling_read_loop]
  split
  · rfl
  · split
    · rfl
    · refine asPolling_wait chip n k _ ?_
      rw [((pollStep_check_nack chip n addr W).next
        (pollStep_read_loop chip n addr buffer.data buffer.size 0 _)).mode, hW]
      exact hm

theorem asPolling_poll_read (chip : Chip) (n k : Nat) (buffer : Buffer) (w : World)
    (hm : (w.descs n).transfert_mode ≠ .TWID_MODE_FIFO) :
    _twid_poll_read chip (.caller n) buffer (asPolling n k w)
      = asPollingResult n k (_twid_poll_read chip (.caller n) buffer w) := by
  unfold _twid_poll_read
  split
  · exact asPolling_poll_read_sama5d4 chip n k buffer w hm
  · exact asPolling_poll_read_other chip n k buffer w hm

theorem asPolling_poll_write_sama5d4 (chip : Chip) (n k : Nat) (buffer : Buffer)
    (w : World) (hm : (w.descs n).transfert_mode ≠ .TWID_MODE_FIFO) :
    _twid_poll_write_sama5d4 chip (.caller n) buffer (asPolling n k w)
      = asPollingResult n k (_twid_poll_write_sama5d4 chip (.caller n) buffer w) := by
  unfold _twid_poll_write_sama5d4
  simp only [asPolling_getDesc, asPolling_cmd, asPolling_mem, asPolling_ite_cmd]
  refine asPolling_write_rest chip n k buffer _ _ ?_
  rw [((pollStep_cmd n w (.twi_start_write (w.getDesc (.caller n)).addr
    (w.getDesc (.caller n)).slave_addr (w.getDesc (.caller n)).iaddr
    (w.getDesc (.caller n)).isize (w.mem buffer.data)) rfl).next
    (pollStep_ite_cmd n (buffer.size = 1) _
      (.twi_send_stop_condition (w.getDesc (.caller n)).addr) rfl)).mode]
  exact hm

theorem asPolling_poll_write_other (chip : Chip) (n k : Nat) (buffer : Buffer) (w : World)
    (hm : (w.descs n).transfert_mode ≠ .TWID_MODE_FIFO) :
    _twid_poll_write_other chip (.caller n) buffer (asPolling n k w)
      = asPollingResult n k (_twid_poll_write_other chip (.caller n) buffer w) := by
  unfold _twid_poll_write_other
  simp only [asPolling_getDesc, asPolling_cmd, asPolling_ite_cmd]
  have hW := (pollStep_ite_cmd n (chip.CONFIG_HAVE_TWI_ALTERNATE_CMD = true) w
    (.twi_init_write_transfert (w.getDesc (.caller n)).addr
      (w.getDesc (.caller n)).slave_addr (w.getDesc (.caller n)).iaddr
      (w.getDesc (.caller n)).isize buffer.size) rfl).mode
  generalize (if chip.CONFIG_HAVE_TWI_ALTERNATE_CMD = true then
      w.cmd (.twi_init_write_transfert (w.getDesc (.caller n)).addr
        (w.getDesc (.caller n)).slave_addr (w.getDesc (.caller n)).iaddr
        (w.getDesc (.caller n)).isize buffer.size)
    else w) = W at hW ⊢
  generalize (w.getDesc (.caller n)).addr = addr
  simp only [asPolling_check_nack, asPollingResult, asPolling_write_loop]
  split
  · rfl
  · split
    · rfl
    · refine asPolling_wait chip n k _ ?_
      rw [((pollStep_check_nack chip n addr W).next
        (pollStep_write_loop chip n addr buffer.data buffer.size 0 _)).mode, hW]
      exact hm

theorem asPolling_poll_write (chip : Chip) (n k : Nat) (buffer : Buffer) (w : World)
    (hm : (w.descs n).transfert_mode ≠ .TWID_MODE_FIFO) :
    _twid_poll_write chip (.caller n) buffer (asPolling n k w)
      = asPollingResult n k (_twid_poll_write chip (.caller n) buffer w) := by
  unfold _twid_poll_write
  split
  · exact asPolling_poll_write_sama5d4 chip n k buffer w hm
  · exact asPolling_poll_write_other chip n k buffer w hm

theorem asPolling_mutex_free (n k : Nat) (w : World) :
    mutex_free (.caller n) (asPolling n k w) = asPolling n k (mutex_free (.caller n) w) := by
  unfold mutex_free
  rw [asPolling_getDesc]
  exact asPolling_setDesc n k w { w.getDesc (.caller n) with mutex := false }

theorem asPolling_invoke_callback (n k : Nat) (cb : Callback) (args : Nat) (w : World) :
    invoke_callback cb (.caller n) args (asPolling n k w)
      = asPolling n k (invoke_callback cb (.caller n) args w) := by
  cases cb with
  | null => rfl
  | twid_finish_transfert_callback => exact asPolling_mutex_free n k w
  | user m => rfl

theorem asPolling_transfert_polling (chip : Chip) (n k : Nat) (rx tx : Option Buffer)
    (cb : Callback) (args : Nat) (w : World)
    (hm : (w.descs n).transfert_mode ≠ .TWID_MODE_FIFO) :
    twid_transfert_polling chip (.caller n) rx tx cb args (asPolling n k w)
      = asPollingResult n k (twid_transfert_polling chip (.caller n) rx tx cb args w) := by
  unfold twid_transfert_polling
  have key : ∀ (r : Option Status × World),
      (match asPollingResult n k r with
        | (some Status.TWID_SUCCESS, w1) =>
          (some Status.TWID_SUCCESS, mutex_free (.caller n)
            (if cb ≠ .null then invoke_callback cb (.caller n) args w1 else w1))
        | r => r)
      = asPollingResult n k (match r with
        | (some Status.TWID_SUCCESS, w1) =>
          (some Status.TWID_SUCCESS, mutex_free (.caller n)
            (if cb ≠ .null then invoke_callback cb (.caller n) args w1 else w1))
        | r => r) := by
    intro r
    rcases r with ⟨st, w1⟩
    rcases st with _ | st
    · rfl
    · cases st <;> simp only [asPollingResult]
      split
      · rw [asPolling_invoke_callback, asPolling_mutex_free]
      · rw [asPolling_mutex_free]
  cases tx with
  | some t =>
    simp only [asPolling_getDesc, asPolling_cmd]
    rw [asPolling_poll_write chip n k t
      (w.cmd (.twi_enable_it (w.getDesc (.caller n)).addr chip.TWI_IER_TXRDY)) hm]
    exact key _
  | none =>
    cases rx with
    | some r =>
      simp only [asPolling_getDesc, asPolling_cmd]
      rw [asPolling_poll_read chip n k r
        (w.cmd (.twi_enable_it (w.getDesc (.caller n)).addr chip.TWI_IER_RXRDY)) hm]
      exact key _
    | none => exact key (some Status.TWID_SUCCESS, w)

/-- The mode test of `twid_transfert` for an asynchronous descriptor and one
buffer of one byte: the effective mode is polling; the world is unchanged but
for the count of null reads. -/
theorem tmode_one_byte (n : Nat) (rx tx : Option Buffer) (b : Buffer) (w : World)
    (hmode : (w.descs n).transfert_mode = .TWID_MODE_ASYNC)
    (hbuf : (tx = some b ∧ rx = none) ∨ (tx = none ∧ rx = some b))
    (hsize : b.size = 1) :
    (twid_transfert_tmode (.caller n) rx tx w).1 = .TWID_MODE_POLLING
    ∧ ∃ j, (twid_transfert_tmode (.caller n) rx tx w).2 = { w with null_reads := j } := by
  have hm : (w.getDesc (.caller n)).transfert_mode = .TWID_MODE_ASYNC := hmode
  rcases hbuf with ⟨ht, hr⟩ | ⟨ht, hr⟩
  · subst ht hr
    have h : twid_transfert_tmode (.caller n) none (some b) w
        = (.TWID_MODE_POLLING, w) := by
      unfold twid_transfert_tmode
      rw [if_pos hm]
      simp only [World.bufSize]
      rw [if_pos hsize]
    rw [h]
    exact ⟨rfl, w.null_reads, rfl⟩
  · subst ht hr
    have h : twid_transfert_tmode (.caller n) (some b) none w
        = (.TWID_MODE_POLLING, { w with null_reads := w.null_reads + 1 }) := by
      unfold twid_transfert_tmode
      rw [if_pos hm]
      simp only [World.bufSize]
      split <;> rfl
    rw [h]
    exact ⟨rfl, w.null_reads + 1, rfl⟩

theorem pollStep_null_reads (n : Nat) (w : World) (j : Nat) :
    PollStep n w { w with null_reads := j } :=
  ⟨rfl, rfl, rfl, [], by simp, by simp⟩

theorem pollStep_transfert_locked (chip : Chip) (n : Nat) (rx tx : Option Buffer)
    (b : Buffer) (cb : Callback) (args : Nat) (w : World)
    (hmode : (w.descs n).transfert_mode = .TWID_MODE_ASYNC)
    (hbuf : (tx = some b ∧ rx = none) ∨ (tx = none ∧ rx = some b))
    (hsize : b.size = 1) :
    PollStep n w (twid_transfert_locked chip (.caller n) rx tx cb args w).2 := by
  obtain ⟨h1, j, h2⟩ := tmode_one_byte n rx tx b w hmode hbuf hsize
  unfold twid_transfert_locked
  simp only [h1, h2, twid_transfert_switch]
  have hp := (pollStep_null_reads n w j).next
    (pollStep_transfert_polling chip n rx tx cb args { w with null_reads := j })
  split
  · rename_i w1 heq
    rw [heq] at hp
    exact hp
  · rename_i st w1 heq
    rw [heq] at hp
    split
    · exact hp.next (pollStep_mutex_free n w1)
    · exact hp

theorem asPolling_transfert_locked (chip : Chip) (n k : Nat) (rx tx : Option Buffer)
    (b : Buffer) (cb : Callback) (args : Nat) (w : World)
    (hmode : (w.descs n).transfert_mode = .TWID_MODE_ASYNC)
    (hbuf : (tx = some b ∧ rx = none) ∨ (tx = none ∧ rx = some b))
    (hsize : b.size = 1) :
    twid_transfert_locked chip (.caller n) rx tx cb args (asPolling n k w)
      = asPollingResult n k (twid_transfert_locked chip (.caller n) rx tx cb args w) := by
  obtain ⟨h1, j, h2⟩ := tmode_one_byte n rx tx b w hmode hbuf hsize
  have hp : twid_transfert_tmode (.caller n) rx tx (asPolling n k w)
      = (.TWID_MODE_POLLING, asPolling n k w) := by
    unfold twid_transfert_tmode
    rw [asPolling_getDesc]
    rfl
  have hc := asPolling_transfert_polling chip n k rx tx cb args { w with null_reads := j }
    (by rw [show ({ w with null_reads := j } : World).descs n = w.descs n from rfl, hmode]
        decide)
  have hk : asPolling n k { w with null_reads := j } = asPolling n k w := rfl
  rw [hk] at hc
  unfold twid_transfert_locked
  simp only [h1, h2, hp, twid_transfert_switch, hc]
  rcases twid_transfert_polling chip (.caller n) rx tx cb args { w with null_reads := j }
    with ⟨st, w1⟩
  rcases st with _ | st
  · rfl
  · simp only [asPollingResult]
    split
    · rw [asPolling_mutex_free]
    · rfl

theorem asPolling_twid_transfert (chip : Chip) (n k : Nat) (rx tx : Option Buffer)
    (b : Buffer) (cb : Callback) (args : Nat) (w : World)
    (hmode : (w.descs n).transfert_mode = .TWID_MODE_ASYNC)
    (hbuf : (tx = some b ∧ rx = none) ∨ (tx = none ∧ rx = some b))
    (hsize : b.size = 1) :
    twid_transfert chip (.caller n) rx tx cb args (asPolling n k w)
      = asPollingResult n k (twid_transfert chip (.caller n) rx tx cb args w) := by
  have e1 : (asPolling n k w).setDesc (.caller n)
        { (asPolling n k w).getDesc (.caller n) with callback := cb }
      = asPolling n k (w.setDesc (.caller n) { w.getDesc (.caller n) with callback := cb }) := by
    rw [asPolling_getDesc]
    exact asPolling_setDesc n k w { w.getDesc (.caller n) with callback := cb }
  have e2 : ∀ v : World, (asPolling n k v).setDesc (.caller n)
        { (asPolling n k v).getDesc (.caller n) with cb_args := args }
      = asPolling n k (v.setDesc (.caller n) { v.getDesc (.caller n) with cb_args := args }) := by
    intro v
    rw [asPolling_getDesc]
    exact asPolling_setDesc n k v { v.getDesc (.caller n) with cb_args := args }
  have e3 : ∀ v : World, mutex_try_lock (.caller n) (asPolling n k v)
      = asPollingResult n k (mutex_try_lock (.caller n) v) := by
    intro v
    unfold mutex_try_lock asPollingResult
    rw [asPolling_getDesc]
    exact Prod.ext rfl
      (asPolling_setDesc n k v { v.getDesc (.caller n) with mutex := true })
  unfold twid_transfert
  simp only [e1, e2, e3, asPollingResult]
  split
  · rfl
  · refine asPolling_transfert_locked chip n k rx tx b cb args _ ?_ hbuf hsize
    simpa [mutex_try_lock, World.setDesc, World.getDesc] using hmode

/-- An update of the caller's descriptor that keeps its mode. -/
theorem pollStep_update (n : Nat) (w : World) (g : TwiDesc → TwiDesc)
    (hg : ∀ d, (g d).transfert_mode = d.transfert_mode) :
    PollStep n w (w.setDesc (.caller n) (g (w.getDesc (.caller n)))) :=
  pollStep_setDesc n w _ (hg _)

theorem pollStep_twid_transfert (chip : Chip) (n : Nat) (rx tx : Option Buffer)
    (b : Buffer) (cb : Callback) (args : Nat) (w : World)
    (hmode : (w.descs n).transfert_mode = .TWID_MODE_ASYNC)
    (hbuf : (tx = some b ∧ rx = none) ∨ (tx = none ∧ rx = some b))
    (hsize : b.size = 1) :
    PollStep n w (twid_transfert chip (.caller n) rx tx cb args w).2 := by
  have h3 : PollStep n w (mutex_try_lock (.caller n)
      ((w.setDesc (.caller n) { w.getDesc (.caller n) with callback := cb }).setDesc
        (.caller n) { (w.setDesc (.caller n) { w.getDesc (.caller n) with
          callback := cb }).getDesc (.caller n) with cb_args := args })).2 :=
    ((pollStep_update n w (fun d => { d with callback := cb }) (fun _ => rfl)).next
      (pollStep_update n _ (fun d => { d with cb_args := args }) (fun _ => rfl))).next
      (pollStep_update n _ (fun d => { d with mutex := true }) (fun _ => rfl))
  unfold twid_transfert
  simp only
  split
  · exact h3
  · refine h3.next (pollStep_transfert_locked chip n rx tx b cb args _ ?_ hbuf hsize)
    rw [h3.mode]
    exact hmode

/-! ## Asynchronous mode with a one-byte buffer -/

/-- C6 as stated fails: the sequence the hardware receives for an asynchronous
one-byte write starts with the interrupt-enable call `twi_enable_it` for
transmit-ready, which the polling arm itself issues. -/
theorem C6_counterexample :
    (twid_transfert sama5d4 (.caller 0) none (some ⟨500, 1⟩) (.user 1) 0
        (exampleWorld .TWID_MODE_ASYNC [0, 1])).2.trace
      = [(Call.twi_enable_it 1000 sama5d4.TWI_IER_TXRDY, 0),
         (Call.twi_start_write 1000 80 0 0 0x12, 0),
         (Call.twi_send_stop_condition 1000, 0),
         (Call.twi_get_status 1000, 0),
         (Call.timer_start_timeout 100, 0),
         (Call.twi_is_transfer_complete 1000, 1),
         (Call.callback 1 (.caller 0) 0, 0)] := by
  rfl

/-- C6 (amended): a submit on a caller's descriptor configured for the
asynchronous mode, with exactly one buffer and that buffer one byte long, takes
the polling path: status, recorded calls, memory and remaining hardware
answers are those of the same submit on the descriptor configured for polling
(the calls include the `twi_enable_it` of the polling arm); the slot table and
the round-robin index are unchanged; no call to the interrupt controller is
made. -/
theorem C6_async_one_byte_takes_polling_path (chip : Chip) (n : Nat)
    (rx tx : Option Buffer) (b : Buffer) (cb : Callback) (user_args : Nat) (w : World)
    (hmode : (w.getDesc (.caller n)).transfert_mode = .TWID_MODE_ASYNC)
    (hbuf : (tx = some b ∧ rx = none) ∨ (tx = none ∧ rx = some b))
    (hsize : b.size = 1) :
    (twid_transfert chip (.caller n) rx tx cb user_args w).1
        = (twid_transfert chip (.caller n) rx tx cb user_args
            (w.setDesc (.caller n)
              { w.getDesc (.caller n) with transfert_mode := .TWID_MODE_POLLING })).1
    ∧ (twid_transfert chip (.caller n) rx tx cb user_args w).2.trace
        = (twid_transfert chip (.caller n) rx tx cb user_args
            (w.setDesc (.caller n)
              { w.getDesc (.caller n) with transfert_mode := .TWID_MODE_POLLING })).2.trace
    ∧ (twid_transfert chip (.caller n) rx tx cb user_args w).2.mem
        = (twid_transfert chip (.caller n) rx tx cb user_args
            (w.setDesc (.caller n)
              { w.getDesc (.caller n) with transfert_mode := .TWID_MODE_POLLING })).2.mem
    ∧ (twid_transfert chip (.caller n) rx tx cb user_args w).2.script
        = (twid_transfert chip (.caller n) rx tx cb user_args
            (w.setDesc (.caller n)
              { w.getDesc (.caller n) with transfert_mode := .TWID_MODE_POLLING })).2.script
    ∧ (twid_transfert chip (.caller n) rx tx cb user_args w).2.asyncdesc = w.asyncdesc
    ∧ (twid_transfert chip (.caller n) rx tx cb user_args w).2.adesc_index = w.adesc_index
    ∧ ∀ e ∈ added w (twid_transfert chip (.caller n) rx tx cb user_args w).2,
        isAicCall e.1 = false := by
  have hw : w.setDesc (.caller n)
      { w.getDesc (.caller n) with transfert_mode := .TWID_MODE_POLLING }
      = asPolling n w.null_reads w := rfl
  have hc := asPolling_twid_transfert chip n w.null_reads rx tx b cb user_args w hmode
    hbuf hsize
  have hp := pollStep_twid_transfert chip n rx tx b cb user_args w hmode hbuf hsize
  rw [hw, hc]
  refine ⟨rfl, rfl, rfl, rfl, hp.asyncdesc, hp.adesc_index, ?_⟩
  obtain ⟨evs, ht, he⟩ := hp.calls
  rw [added_eq ht]
  exact he

/-- C6 (amended) at a concrete input: an asynchronous write of one byte. -/
theorem C6_async_one_byte_takes_polling_path_witness :
    ((exampleWorld .TWID_MODE_ASYNC [0, 1]).getDesc (.caller 0)).transfert_mode = .TWID_MODE_ASYNC
    ∧ (((some ⟨500, 1⟩ : Option Buffer) = some ⟨500, 1⟩ ∧ (none : Option Buffer) = none)
      ∨ ((some ⟨500, 1⟩ : Option Buffer) = none ∧ (none : Option Buffer) = some ⟨500, 1⟩))
    ∧ (⟨500, 1⟩ : Buffer).size = 1
    ∧ ((twid_transfert sama5d4 (.caller 0) none (some ⟨500, 1⟩) (.user 1) 0 (exampleWorld .TWID_MODE_ASYNC [0, 1])).1
        = (twid_transfert sama5d4 (.caller 0) none (some ⟨500, 1⟩) (.user 1) 0
            (((exampleWorld .TWID_MODE_ASYNC [0, 1])).setDesc (.caller 0)
              { ((exampleWorld .TWID_MODE_ASYNC [0, 1])).getDesc (.caller 0) with transfert_mode := .TWID_MODE_POLLING })).1
      ∧ (twid_transfert sama5d4 (.caller 0) none (some ⟨500, 1⟩) (.user 1) 0 (exampleWorld .TWID_MODE_ASYNC [0, 1])).2.trace
        = (twid_transfert sama5d4 (.caller 0) none (some ⟨500, 1⟩) (.user 1) 0
            (((exampleWorld .TWID_MODE_ASYNC [0, 1])).setDesc (.caller 0)
              { ((exampleWorld .TWID_MODE_ASYNC [0, 1])).getDesc (.caller 0) with transfert_mode := .TWID_MODE_POLLING })).2.trace
      ∧ (twid_transfert sama5d4 (.caller 0) none (some ⟨500, 1⟩) (.user 1) 0 (exampleWorld .TWID_MODE_ASYNC [0, 1])).2.mem
        = (twid_transfert sama5d4 (.caller 0) none (some ⟨500, 1⟩) (.user 1) 0
            (((exampleWorld .TWID_MODE_ASYNC [0, 1])).setDesc (.caller 0)
              { ((exampleWorld .TWID_MODE_ASYNC [0, 1])).getDesc (.caller 0) with transfert_mode := .TWID_MODE_POLLING })).2.mem
      ∧ (twid_transfert sama5d4 (.caller 0) none (some ⟨500, 1⟩) (.user 1) 0 (exampleWorld .TWID_MODE_ASYNC [0, 1])).2.script
        = (twid_transfert sama5d4 (.caller 0) none (some ⟨500, 1⟩) (.user 1) 0
            (((exampleWorld .TWID_MODE_ASYNC [0, 1])).setDesc (.caller 0)
              { ((exampleWorld .TWID_MODE_ASYNC [0, 1])).getDesc (.caller 0) with transfert_mode := .TWID_MODE_POLLING })).2.script
      ∧ (twid_transfert sama5d4 (.caller 0) none (some ⟨500, 1⟩) (.user 1) 0 (exampleWorld .TWID_MODE_ASYNC [0, 1])).2.asyncdesc = (exampleWorld .TWID_MODE_ASYNC [0, 1]).asyncdesc
      ∧ (twid_transfert sama5d4 (.caller 0) none (some ⟨500, 1⟩) (.user 1) 0 (exampleWorld .TWID_MODE_ASYNC [0, 1])).2.adesc_index = (exampleWorld .TWID_MODE_ASYNC [0, 1]).adesc_index
      ∧ ∀ e ∈ added (exampleWorld .TWID_MODE_ASYNC [0, 1]) (twid_transfert sama5d4 (.caller 0) none (some ⟨500, 1⟩) (.user 1) 0 (exampleWorld .TWID_MODE_ASYNC [0, 1])).2,
          isAicCall e.1 = false) :=
  ⟨rfl, Or.inl ⟨rfl, rfl⟩, rfl,
    C6_async_one_byte_takes_polling_path sama5d4 0 none (some ⟨500, 1⟩) ⟨500, 1⟩ (.user 1) 0
      (exampleWorld .TWID_MODE_ASYNC [0, 1]) rfl (Or.inl ⟨rfl, rfl⟩) rfl⟩

/-! ## The concrete scenario: polling write of the single byte `0x12` -/

theorem query_cons (w : World) (c : Call) (r : Nat) (rest : List Nat)
    (h : w.script = r :: rest) :
    w.query c = (r, { w with script := rest, trace := w.trace ++ [(c, r)] }) := by
  unfold World.query
  rw [h]

theorem pollUntil_idle (cond : Call) (c : Nat) (rest : List Nat) (hc : c ≠ 0) (j : Nat) :
    pollUntil cond (List.replicate (2 * j) 0 ++ c :: rest)
      = (false, rest, idlePolls cond j ++ [(cond, c)]) := by
  induction j with
  | zero =>
    cases rest with
    | nil => simp [pollUntil, hc, idlePolls]
    | cons t rest => simp [pollUntil, hc, idlePolls]
  | succ j ih =>
    have h2 : 2 * (j + 1) = (2 * j + 1) + 1 := by omega
    rw [h2, List.replicate_succ, List.replicate_succ]
    simp only [List.cons_append, pollUntil, ne_eq, not_true_eq_false, if_false]
    have ih2 : pollUntil cond ((List.replicate (2 * j) 0).append (c :: rest))
        = (false, rest, idlePolls cond j ++ [(cond, c)]) := ih
    rw [ih2]
    simp [idlePolls]

theorem wait_completes (chip : Chip) (desc : DescRef) (w : World) (c j : Nat)
    (rest : List Nat) (hs : w.script = List.replicate (2 * j) 0 ++ c :: rest) (hc : c ≠ 0) :
    _twid_wait_twi_transfer chip desc w
      = (some Status.TWID_SUCCESS,
         { w with
           script := rest
           trace := w.trace ++ ((Call.timer_start_timeout (w.getDesc desc).timeout, 0)
             :: (idlePolls (Call.twi_is_transfer_complete (w.getDesc desc).addr) j
               ++ [(Call.twi_is_transfer_complete (w.getDesc desc).addr, c)])) }) := by
  unfold _twid_wait_twi_transfer
  simp only [World.pollUntil, World.cmd, hs, pollUntil_idle _ c rest hc j]
  simp [World.getDesc]

theorem check_nack_acked (chip : Chip) (addr : Nat) (w : World) (v : Nat) (rest : List Nat)
    (hs : w.script = v :: rest) (hv : v &&& chip.TWI_SR_NACK = 0) :
    _check_nack chip addr w
      = (Status.TWID_SUCCESS,
         { w with script := rest, trace := w.trace ++ [(Call.twi_get_status addr, v)] }) := by
  unfold _check_nack
  simp [query_cons w _ v rest hs, hv]

theorem poll_write_one_byte (chip : Chip) (hsoc : chip.CONFIG_SOC_SAMA5D4 = true)
    (desc : DescRef) (a : Nat) (w : World) (v c j : Nat) (rest : List Nat)
    (hs : w.script = v :: (List.replicate (2 * j) 0 ++ c :: rest))
    (hv : v &&& chip.TWI_SR_NACK = 0) (hc : c ≠ 0) :
    _twid_poll_write chip desc ⟨a, 1⟩ w
      = (some Status.TWID_SUCCESS,
         { w with
           script := rest
           trace := w.trace ++
             ([(Call.twi_start_write (w.getDesc desc).addr (w.getDesc desc).slave_addr
                  (w.getDesc desc).iaddr (w.getDesc desc).isize (w.mem a), 0),
               (Call.twi_send_stop_condition (w.getDesc desc).addr, 0),
               (Call.twi_get_status (w.getDesc desc).addr, v),
               (Call.timer_start_timeout (w.getDesc desc).timeout, 0)]
              ++ idlePolls (Call.twi_is_transfer_complete (w.getDesc desc).addr) j
              ++ [(Call.twi_is_transfer_complete (w.getDesc desc).addr, c)]) }) := by
  unfold _twid_poll_write
  rw [if_pos hsoc]
  unfold _twid_poll_write_sama5d4 _twid_poll_write_rest
  simp only [if_true]
  rw [check_nack_acked chip (w.getDesc desc).addr
    ((w.cmd (.twi_start_write (w.getDesc desc).addr (w.getDesc desc).slave_addr
      (w.getDesc desc).iaddr (w.getDesc desc).isize (w.mem a))).cmd
        (.twi_send_stop_condition (w.getDesc desc).addr)) v _ hs hv]
  simp only [ne_eq, not_true_eq_false, if_false, Nat.sub_self, _twid_poll_write_loop]
  rw [if_neg (by decide)]
  rw [wait_completes chip desc _ c j rest rfl hc]
  simp [World.cmd, World.getDesc]

theorem transfert_locked_polling_write_one_byte (chip : Chip)
    (hsoc : chip.CONFIG_SOC_SAMA5D4 = true) (n a m user_args v c j : Nat)
    (rest : List Nat) (w : World)
    (hmode : (w.getDesc (.caller n)).transfert_mode = .TWID_MODE_POLLING)
    (hscript : w.script = v :: (List.replicate (2 * j) 0 ++ c :: rest))
    (hack : v &&& chip.TWI_SR_NACK = 0) (hdone : c ≠ 0) :
    twid_transfert_locked chip (.caller n) none (some ⟨a, 1⟩) (.user m) user_args w
      = (some Status.TWID_SUCCESS,
         mutex_free (.caller n)
          { w with
            script := rest
            trace := w.trace ++
              ([(Call.twi_enable_it (w.getDesc (.caller n)).addr chip.TWI_IER_TXRDY, 0),
                (Call.twi_start_write (w.getDesc (.caller n)).addr
                  (w.getDesc (.caller n)).slave_addr (w.getDesc (.caller n)).iaddr
                  (w.getDesc (.caller n)).isize (w.mem a), 0),
                (Call.twi_send_stop_condition (w.getDesc (.caller n)).addr, 0),
                (Call.twi_get_status (w.getDesc (.caller n)).addr, v),
                (Call.timer_start_timeout (w.getDesc (.caller n)).timeout, 0)]
              ++ idlePolls (Call.twi_is_transfer_complete (w.getDesc (.caller n)).addr) j
              ++ [(Call.twi_is_transfer_complete (w.getDesc (.caller n)).addr, c),
                  (Call.callback m (.caller n) user_args, 0)]) }) := by
  unfold twid_transfert_locked twid_transfert_tmode
  rw [if_neg (by rw [hmode]; decide)]
  simp only [hmode, twid_transfert_switch, twid_transfert_polling]
  rw [poll_write_one_byte chip hsoc (.caller n) a
    (w.cmd (.twi_enable_it (w.getDesc (.caller n)).addr chip.TWI_IER_TXRDY))
    v c j rest hscript hack hdone]
  simp [invoke_callback, World.cmd, World.getDesc]

/-- C7 as stated fails: the calls made for the polling write of `[0x12]` begin
with `twi_enable_it` for transmit-ready, a hardware operation that is not in
the claimed sequence. -/
theorem C7_counterexample :
    (twid_transfert sama5d4 (.caller 0) none (some ⟨500, 1⟩) (.user 1) 0
        (exampleWorld .TWID_MODE_POLLING [0, 1])).2.trace
      = [(Call.twi_enable_it 1000 sama5d4.TWI_IER_TXRDY, 0),
         (Call.twi_start_write 1000 80 0 0 0x12, 0),
         (Call.twi_send_stop_condition 1000, 0),
         (Call.twi_get_status 1000, 0),
         (Call.timer_start_timeout 100, 0),
         (Call.twi_is_transfer_complete 1000, 1),
         (Call.callback 1 (.caller 0) 0, 0)] := by
  rfl

/-- C7 (amended): a polling-mode submit of the one-byte write buffer `[0x12]`
on a free descriptor, with no NACK and transfer-complete reached after `j`
unsuccessful polls, makes exactly these calls, in this order: the enable of the
transmit-ready interrupt, one start-write carrying slave address, internal
address and the byte `0x12`, one stop condition, one NACK check, the
transfer-complete wait, and the callback; the lock is then free and the
status is `TWID_SUCCESS`. -/
theorem C7_polling_write_of_one_byte (chip : Chip) (hsoc : chip.CONFIG_SOC_SAMA5D4 = true)
    (n a m user_args v c j : Nat) (rest : List Nat) (w : World)
    (hmode : (w.getDesc (.caller n)).transfert_mode = .TWID_MODE_POLLING)
    (hfree : mutex_is_locked (.caller n) w = false)
    (hbyte : w.mem a = 0x12)
    (hscript : w.script = v :: (List.replicate (2 * j) 0 ++ c :: rest))
    (hack : v &&& chip.TWI_SR_NACK = 0) (hdone : c ≠ 0) :
    (twid_transfert chip (.caller n) none (some ⟨a, 1⟩) (.user m) user_args w).1
        = some Status.TWID_SUCCESS
    ∧ added w (twid_transfert chip (.caller n) none (some ⟨a, 1⟩) (.user m) user_args w).2
        = [(Call.twi_enable_it (w.getDesc (.caller n)).addr chip.TWI_IER_TXRDY, 0),
           (Call.twi_start_write (w.getDesc (.caller n)).addr
              (w.getDesc (.caller n)).slave_addr (w.getDesc (.caller n)).iaddr
              (w.getDesc (.caller n)).isize 0x12, 0),
           (Call.twi_send_stop_condition (w.getDesc (.caller n)).addr, 0),
           (Call.twi_get_status (w.getDesc (.caller n)).addr, v),
           (Call.timer_start_timeout (w.getDesc (.caller n)).timeout, 0)]
          ++ idlePolls (Call.twi_is_transfer_complete (w.getDesc (.caller n)).addr) j
          ++ [(Call.twi_is_transfer_complete (w.getDesc (.caller n)).addr, c),
              (Call.callback m (.caller n) user_args, 0)]
    ∧ mutex_is_locked (.caller n)
        (twid_transfert chip (.caller n) none (some ⟨a, 1⟩) (.user m) user_args w).2 = false := by
  have hf : (w.getDesc (.caller n)).mutex = false := hfree
  have hr := transfert_locked_polling_write_one_byte chip hsoc n a m user_args v c j rest
    (mutex_try_lock (.caller n)
      ((w.setDesc (.caller n) { w.getDesc (.caller n) with callback := .user m }).setDesc
        (.caller n) { (w.setDesc (.caller n) { w.getDesc (.caller n) with
          callback := .user m }).getDesc (.caller n) with cb_args := user_args })).2
    (by simpa [mutex_try_lock] using hmode) (by simpa [mutex_try_lock] using hscript)
    hack hdone
  unfold twid_transfert
  simp only
  rw [if_neg (by simp [mutex_try_lock, hf]), hr]
  refine ⟨rfl, ?_, ?_⟩
  · simp [added, mutex_free, mutex_try_lock, World.setDesc, World.getDesc, hbyte]
  · simp [mutex_is_locked]

/-- C7 (amended) at the concrete input: byte `0x12` at address 500, the slave
acknowledges and the transfer is complete at the first poll. -/
theorem C7_polling_write_of_one_byte_witness :
    sama5d4.CONFIG_SOC_SAMA5D4 = true
    ∧ ((exampleWorld .TWID_MODE_POLLING [0, 1]).getDesc (.caller 0)).transfert_mode = .TWID_MODE_POLLING
    ∧ mutex_is_locked (.caller 0) (exampleWorld .TWID_MODE_POLLING [0, 1]) = false
    ∧ (exampleWorld .TWID_MODE_POLLING [0, 1]).mem 500 = 0x12
    ∧ (exampleWorld .TWID_MODE_POLLING [0, 1]).script = 0 :: (List.replicate (2 * 0) 0 ++ 1 :: [])
    ∧ 0 &&& sama5d4.TWI_SR_NACK = 0
    ∧ 1 ≠ 0
    ∧ ((twid_transfert sama5d4 (.caller 0) none (some ⟨500, 1⟩) (.user 1) 0
          (exampleWorld .TWID_MODE_POLLING [0, 1])).1
        = some Status.TWID_SUCCESS
      ∧ added (exampleWorld .TWID_MODE_POLLING [0, 1])
          (twid_transfert sama5d4 (.caller 0) none (some ⟨500, 1⟩) (.user 1) 0
          (exampleWorld .TWID_MODE_POLLING [0, 1])).2
        = [(Call.twi_enable_it ((exampleWorld .TWID_MODE_POLLING [0, 1]).getDesc (.caller 0)).addr sama5d4.TWI_IER_TXRDY, 0),
           (Call.twi_start_write ((exampleWorld .TWID_MODE_POLLING [0, 1]).getDesc (.caller 0)).addr
              ((exampleWorld .TWID_MODE_POLLING [0, 1]).getDesc (.caller 0)).slave_addr
              ((exampleWorld .TWID_MODE_POLLING [0, 1]).getDesc (.caller 0)).iaddr
              ((exampleWorld .TWID_MODE_POLLING [0, 1]).getDesc (.caller 0)).isize 0x12, 0),
           (Call.twi_send_stop_condition ((exampleWorld .TWID_MODE_POLLING [0, 1]).getDesc (.caller 0)).addr, 0),
           (Call.twi_get_status ((exampleWorld .TWID_MODE_POLLING [0, 1]).getDesc (.caller 0)).addr, 0),
           (Call.timer_start_timeout ((exampleWorld .TWID_MODE_POLLING [0, 1]).getDesc (.caller 0)).timeout, 0)]
          ++ idlePolls (Call.twi_is_transfer_complete
              ((exampleWorld .TWID_MODE_POLLING [0, 1]).getDesc (.caller 0)).addr) 0
          ++ [(Call.twi_is_transfer_complete ((exampleWorld .TWID_MODE_POLLING [0, 1]).getDesc (.caller 0)).addr, 1),
              (Call.callback 1 (.caller 0) 0, 0)]
      ∧ mutex_is_locked (.caller 0)
          (twid_transfert sama5d4 (.caller 0) none (some ⟨500, 1⟩) (.user 1) 0
          (exampleWorld .TWID_MODE_POLLING [0, 1])).2 = false) :=
  ⟨rfl, rfl, rfl, rfl, rfl, rfl, by decide,
    C7_polling_write_of_one_byte sama5d4 rfl 0 500 1 0 0 1 0 [] (exampleWorld .TWID_MODE_POLLING [0, 1])
      rfl rfl rfl rfl rfl (by decide)⟩

/-! ## Asynchronous write driven to completion -/

theorem handler_find_first (tbl : Nat → AsyncDesc) (id j : Nat) (n : Nat) :
    ∀ i, i ≤ j → j < i + n → (tbl j).twi_id = id →
      (∀ x, i ≤ x → x < j → (tbl x).twi_id ≠ id) →
      _twid_handler_find tbl id n i = some j := by
  induction n with
  | zero => intro i h1 h2; omega
  | succ n ih =>
    intro i h1 h2 hj hbefore
    unfold _twid_handler_find
    by_cases hij : i = j
    · subst hij
      rw [if_pos hj]
    · rw [if_neg (hbefore i (le_refl i) (by omega))]
      exact ih (i + 1) (by omega) (by omega) hj
        (fun x hx1 hx2 => hbefore x (by omega) hx2)

theorem handler_txrdy (chip : Chip) (w : World) (id s j : Nat) (rest : List Nat)
    (hs : w.script = id :: s :: rest)
    (hfind : _twid_handler_find w.asyncdesc id MAX_ADESC 0 = some j)
    (hrx : chip.TWI_STATUS_RXRDY s = false) (htx : chip.TWI_STATUS_TXRDY s = true) :
    (_twid_handler chip w).script = rest
    ∧ (∀ i, ((_twid_handler chip w).asyncdesc i).twi_id = (w.asyncdesc i).twi_id)
    ∧ (∀ i, ((_twid_handler chip w).asyncdesc i).twi_desc = (w.asyncdesc i).twi_desc)
    ∧ (_twid_handler chip w).descs = w.descs
    ∧ (_twid_handler chip w).trace.filter isCallbackEv = w.trace.filter isCallbackEv := by
  unfold _twid_handler
  simp only [query_cons w _ id (s :: rest) hs, hfind]
  rw [query_cons _ _ s rest rfl]
  simp only [hrx, htx, Bool.false_eq_true, if_false, if_true]
  split
  · refine ⟨rfl, fun i => rfl, fun i => rfl, rfl, ?_⟩
    simp [World.cmd, List.filter_append, isCallbackEv]
  · refine ⟨rfl, ?_, ?_, rfl, ?_⟩
    · intro i
      by_cases h : i = j
      · subst h; simp [World.setSlot, World.cmd]
      · simp [World.setSlot, World.cmd, Function.update_noteq h]
    · intro i
      by_cases h : i = j
      · subst h; simp [World.setSlot, World.cmd]
      · simp [World.setSlot, World.cmd, Function.update_noteq h]
    · simp [World.cmd, World.setSlot, List.filter_append, isCallbackEv]

theorem handler_txcomp (chip : Chip) (w : World) (id s j m : Nat) (rest : List Nat)
    (hs : w.script = id :: s :: rest)
    (hfind : _twid_handler_find w.asyncdesc id MAX_ADESC 0 = some j)
    (hrx : chip.TWI_STATUS_RXRDY s = false) (htx : chip.TWI_STATUS_TXRDY s = false)
    (hcomp : chip.TWI_STATUS_TXCOMP s = true)
    (hcb : (w.asyncdesc j).twi_desc.callback = .user m) :
    (_twid_handler chip w).script = rest
    ∧ ((_twid_handler chip w).asyncdesc j).twi_id = 0
    ∧ ((_twid_handler chip w).asyncdesc j).pdata = 0
    ∧ (_twid_handler chip w).descs = w.descs
    ∧ (_twid_handler chip w).trace.filter isCallbackEv
        = w.trace.filter isCallbackEv
          ++ [(Call.callback m (.slot j) (w.asyncdesc j).twi_desc.cb_args, 0)] := by
  unfold _twid_handler
  simp only [query_cons w _ id (s :: rest) hs, hfind]
  rw [query_cons _ _ s rest rfl]
  simp only [hrx, htx, hcomp, Bool.false_eq_true, if_false, if_true]
  simp [World.cmd, World.setSlot, hcb, invoke_callback, List.filter_append, isCallbackEv]

theorem run_handler_add (chip : Chip) (a b : Nat) :
    ∀ w, run_handler chip (a + b) w = run_handler chip b (run_handler chip a w) := by
  induction a with
  | zero => intro w; simp [run_handler]
  | succ a ih =>
    intro w
    rw [Nat.succ_add]
    simp only [run_handler]
    exact ih _

/-- Slot `j` is bound to `id` with the application callback `m`, and no slot
before it is bound to `id`: the handler serving `id` finds slot `j`. -/
theorem handler_find_bound (w : World) (id j : Nat) (hj : j < MAX_ADESC)
    (hid : (w.asyncdesc j).twi_id = id)
    (hbefore : ∀ x, x < j → (w.asyncdesc x).twi_id ≠ id) :
    _twid_handler_find w.asyncdesc id MAX_ADESC 0 = some j :=
  handler_find_first w.asyncdesc id j MAX_ADESC 0 (Nat.zero_le j) (by omega) hid
    (fun x _ hx => hbefore x hx)

theorem txrdy_run (chip : Chip) (id j m args : Nat) (hj : j < MAX_ADESC) (tail : List Nat)
    (ss : List Nat) :
    ∀ w : World,
      (w.asyncdesc j).twi_id = id →
      (∀ x, x < j → (w.asyncdesc x).twi_id ≠ id) →
      (w.asyncdesc j).twi_desc.callback = .user m →
      (w.asyncdesc j).twi_desc.cb_args = args →
      w.script = handlerScript id ss ++ tail →
      (∀ s ∈ ss, chip.TWI_STATUS_RXRDY s = false ∧ chip.TWI_STATUS_TXRDY s = true) →
      ((run_handler chip ss.length w).asyncdesc j).twi_id = id
      ∧ (∀ x, x < j → ((run_handler chip ss.length w).asyncdesc x).twi_id ≠ id)
      ∧ ((run_handler chip ss.length w).asyncdesc j).twi_desc.callback = .user m
      ∧ ((run_handler chip ss.length w).asyncdesc j).twi_desc.cb_args = args
      ∧ (run_handler chip ss.length w).script = tail
      ∧ (run_handler chip ss.length w).descs = w.descs
      ∧ (run_handler chip ss.length w).trace.filter isCallbackEv
          = w.trace.filter isCallbackEv := by
  induction ss with
  | nil =>
    intro w h1 h2 h3 h4 h5 _
    exact ⟨h1, h2, h3, h4, by simpa [handlerScript] using h5, rfl, rfl⟩
  | cons s ss ih =>
    intro w h1 h2 h3 h4 h5 h6
    obtain ⟨hrx, htx⟩ := h6 s (List.mem_cons_self s ss)
    obtain ⟨e1, e2, e3, e4, e5⟩ := handler_txrdy chip w id s j (handlerScript id ss ++ tail)
      (by simpa [handlerScript] using h5) (handler_find_bound w id j hj h1 h2) hrx htx
    obtain ⟨r1, r2, r3, r4, r5, r6, r7⟩ := ih (_twid_handler chip w)
      (by rw [e2]; exact h1) (fun x hx => by rw [e2]; exact h2 x hx)
      (by rw [e3]; exact h3) (by rw [e3]; exact h4) e1
      (fun s1 hs1 => h6 s1 (List.mem_cons_of_mem s hs1))
    simp only [List.length_cons, run_handler]
    exact ⟨r1, r2, r3, r4, r5, r6.trans e4, r7.trans e5⟩

/-- An asynchronous submit of a write buffer that is not one byte long runs the
asynchronous arm: it returns `TWID_SUCCESS`, consumes no hardware answer,
binds the slot at the round-robin index, and makes four calls. -/
theorem async_write_submit (chip : Chip) (n : Nat) (t : Buffer) (cb : Callback)
    (user_args : Nat) (w : World)
    (hmode : (w.getDesc (.caller n)).transfert_mode = .TWID_MODE_ASYNC)
    (hfree : mutex_is_locked (.caller n) w = false)
    (hN : t.size ≠ 1) (hnull : w.null_size ≠ 1) :
    (twid_transfert chip (.caller n) none (some t) cb user_args w).1
        = some Status.TWID_SUCCESS
    ∧ (twid_transfert chip (.caller n) none (some t) cb user_args w).2.script = w.script
    ∧ ((twid_transfert chip (.caller n) none (some t) cb user_args w).2.asyncdesc
          w.adesc_index).twi_id = chip.get_twi_id_from_addr (w.getDesc (.caller n)).addr
    ∧ ((twid_transfert chip (.caller n) none (some t) cb user_args w).2.asyncdesc
          w.adesc_index).twi_desc
        = { w.getDesc (.caller n) with callback := cb, cb_args := user_args, mutex := true }
    ∧ (∀ i, i ≠ w.adesc_index →
        (twid_transfert chip (.caller n) none (some t) cb user_args w).2.asyncdesc i
          = w.asyncdesc i)
    ∧ (twid_transfert chip (.caller n) none (some t) cb user_args w).2.trace
        = w.trace ++
          [(Call.aic_set_source_vector
              (chip.get_twi_id_from_addr (w.getDesc (.caller n)).addr), 0),
           (Call.aic_enable (chip.get_twi_id_from_addr (w.getDesc (.caller n)).addr), 0),
           (Call.twi_start_write (w.getDesc (.caller n)).addr
              (w.getDesc (.caller n)).slave_addr (w.getDesc (.caller n)).iaddr
              (w.getDesc (.caller n)).isize (w.mem t.data), 0),
           (Call.twi_enable_it (w.getDesc (.caller n)).addr chip.TWI_IER_TXRDY, 0)] := by
  have hf : (w.getDesc (.caller n)).mutex = false := hfree
  have hm : (w.descs n).transfert_mode = .TWID_MODE_ASYNC := hmode
  have hf2 : (w.descs n).mutex = false := hfree
  have hr : twid_transfert chip (.caller n) none (some t) cb user_args w
      = twid_transfert_async chip (.caller n) none (some t)
          { (w.setDesc (.caller n)
              { w.getDesc (.caller n) with
                callback := cb, cb_args := user_args, mutex := true }) with
            null_reads := w.null_reads + 1 } := by
    unfold twid_transfert
    simp only [mutex_try_lock, getDesc_setDesc, hf, Bool.false_eq_true, if_false]
    unfold twid_transfert_locked twid_transfert_tmode
    simp only [getDesc_setDesc, hmode, if_true, World.bufSize, hN, if_false]
    simp only [World.setDesc, hnull, if_false, twid_transfert_switch]
    simp [twid_transfert_async, World.setSlot, World.cmd, World.getDesc]
  rw [hr]
  refine ⟨rfl, rfl, ?_, ?_, ?_, ?_⟩
  · simp [twid_transfert_async, World.setSlot, World.cmd, World.getDesc, World.setDesc]
  · simp [twid_transfert_async, World.setSlot, World.cmd, World.getDesc, World.setDesc]
  · intro i hi
    simp [twid_transfert_async, World.setSlot, World.cmd, World.getDesc, World.setDesc,
      Function.update_noteq hi]
  · simp [twid_transfert_async, World.setSlot, World.cmd, World.getDesc, World.setDesc]

/-- The asynchronous write driven to completion, when the word the mode test
reads through the null `rx` pointer is not 1.  A write of more than one byte,
submitted on a free descriptor while every slot is free, returns
`TWID_SUCCESS` and enables the transmit-ready interrupt; when the handler is
then invoked for that peripheral identifier with `size - 1` transmit-ready
statuses followed by one transfer-complete status, the application callback
is invoked exactly once (on the descriptor held in the slot, with the user
data of the submit), and the slot is free afterwards: identifier cleared,
buffer pointer null. -/
theorem async_write_completion (chip : Chip) (n m user_args : Nat) (t : Buffer)
    (w : World) (ss : List Nat) (sc : Nat) (rest : List Nat)
    (hmode : (w.getDesc (.caller n)).transfert_mode = .TWID_MODE_ASYNC)
    (hfree : mutex_is_locked (.caller n) w = false)
    (hN : 1 < t.size) (hnull : w.null_size ≠ 1)
    (hidx : w.adesc_index < MAX_ADESC)
    (hempty : ∀ i, (w.asyncdesc i).twi_id = 0 ∧ (w.asyncdesc i).pdata = 0)
    (hid : (chip.get_twi_id_from_addr (w.getDesc (.caller n)).addr) ≠ 0)
    (hscript : w.script = handlerScript (chip.get_twi_id_from_addr (w.getDesc (.caller n)).addr) ss
        ++ (chip.get_twi_id_from_addr (w.getDesc (.caller n)).addr) :: sc :: rest)
    (hlen : ss.length = t.size - 1)
    (hss : ∀ s ∈ ss, chip.TWI_STATUS_RXRDY s = false ∧ chip.TWI_STATUS_TXRDY s = true)
    (hsc : chip.TWI_STATUS_RXRDY sc = false ∧ chip.TWI_STATUS_TXRDY sc = false
      ∧ chip.TWI_STATUS_TXCOMP sc = true) :
    (twid_transfert chip (.caller n) none (some t) (.user m) user_args w).1
        = some Status.TWID_SUCCESS
    ∧ (Call.twi_enable_it (w.getDesc (.caller n)).addr chip.TWI_IER_TXRDY, 0)
        ∈ added w (twid_transfert chip (.caller n) none (some t) (.user m) user_args w).2
    ∧ (run_handler chip (t.size - 1 + 1)
          (twid_transfert chip (.caller n) none (some t) (.user m) user_args w).2).trace.filter
          isCallbackEv
        = (twid_transfert chip (.caller n) none (some t) (.user m) user_args w).2.trace.filter
            isCallbackEv
          ++ [(Call.callback m (.slot w.adesc_index) user_args, 0)]
    ∧ ((run_handler chip (t.size - 1 + 1)
          (twid_transfert chip (.caller n) none (some t) (.user m) user_args w).2).asyncdesc
            w.adesc_index).twi_id = 0
    ∧ ((run_handler chip (t.size - 1 + 1)
          (twid_transfert chip (.caller n) none (some t) (.user m) user_args w).2).asyncdesc
            w.adesc_index).pdata = 0 := by
  obtain ⟨s1, s2, s3, s4, s5, s6⟩ := async_write_submit chip n t (.user m) user_args w
    hmode hfree (by omega) hnull
  have hbefore : ∀ x, x < w.adesc_index →
      ((twid_transfert chip (.caller n) none (some t) (.user m) user_args w).2.asyncdesc x).twi_id
        ≠ (chip.get_twi_id_from_addr (w.getDesc (.caller n)).addr) := by
    intro x hx
    rw [s5 x (by omega), (hempty x).1]
    exact fun h => hid h.symm
  obtain ⟨r1, r2, r3, r4, r5, _, r7⟩ := txrdy_run chip
    (chip.get_twi_id_from_addr (w.getDesc (.caller n)).addr) w.adesc_index m user_args hidx
    ((chip.get_twi_id_from_addr (w.getDesc (.caller n)).addr) :: sc :: rest) ss
    (twid_transfert chip (.caller n) none (some t) (.user m) user_args w).2
    s3 hbefore (by rw [s4]) (by rw [s4]) (by rw [s2]; exact hscript) hss
  obtain ⟨c1, c2, c3, _, c5⟩ := handler_txcomp chip
    (run_handler chip ss.length (twid_transfert chip (.caller n) none (some t) (.user m) user_args w).2)
    (chip.get_twi_id_from_addr (w.getDesc (.caller n)).addr) sc w.adesc_index m rest r5
    (handler_find_bound _ _ _ hidx r1 r2) hsc.1 hsc.2.1 hsc.2.2 r3
  have hrun : run_handler chip (t.size - 1 + 1) (twid_transfert chip (.caller n) none (some t) (.user m) user_args w).2
      = _twid_handler chip (run_handler chip ss.length (twid_transfert chip (.caller n) none (some t) (.user m) user_args w).2) := by
    rw [← hlen, run_handler_add]
    rfl
  rw [hrun]
  refine ⟨s1, ?_, ?_, c2, c3⟩
  · rw [added_eq s6]
    simp
  · rw [c5, r7, r4]

/-- The completion of an asynchronous write at a concrete input: a two-byte
write on controller 1000 (identifier 32), one transmit-ready status, then
transfer complete. -/
theorem async_write_completion_example :
    ((exampleWorld .TWID_MODE_ASYNC [32, 4, 32, 1]).getDesc (.caller 0)).transfert_mode = .TWID_MODE_ASYNC
    ∧ mutex_is_locked (.caller 0) (exampleWorld .TWID_MODE_ASYNC [32, 4, 32, 1]) = false
    ∧ 1 < (⟨500, 2⟩ : Buffer).size
    ∧ (exampleWorld .TWID_MODE_ASYNC [32, 4, 32, 1]).null_size ≠ 1
    ∧ (exampleWorld .TWID_MODE_ASYNC [32, 4, 32, 1]).adesc_index < MAX_ADESC
    ∧ (∀ i, ((exampleWorld .TWID_MODE_ASYNC [32, 4, 32, 1]).asyncdesc i).twi_id = 0
        ∧ ((exampleWorld .TWID_MODE_ASYNC [32, 4, 32, 1]).asyncdesc i).pdata = 0)
    ∧ (sama5d4.get_twi_id_from_addr ((exampleWorld .TWID_MODE_ASYNC [32, 4, 32, 1]).getDesc (.caller 0)).addr) ≠ 0
    ∧ (exampleWorld .TWID_MODE_ASYNC [32, 4, 32, 1]).script
        = handlerScript (sama5d4.get_twi_id_from_addr ((exampleWorld .TWID_MODE_ASYNC [32, 4, 32, 1]).getDesc (.caller 0)).addr) [4]
          ++ (sama5d4.get_twi_id_from_addr ((exampleWorld .TWID_MODE_ASYNC [32, 4, 32, 1]).getDesc (.caller 0)).addr) :: 1 :: []
    ∧ [4].length = (⟨500, 2⟩ : Buffer).size - 1
    ∧ (∀ s ∈ [4], sama5d4.TWI_STATUS_RXRDY s = false ∧ sama5d4.TWI_STATUS_TXRDY s = true)
    ∧ (sama5d4.TWI_STATUS_RXRDY 1 = false ∧ sama5d4.TWI_STATUS_TXRDY 1 = false
        ∧ sama5d4.TWI_STATUS_TXCOMP 1 = true)
    ∧ ((twid_transfert sama5d4 (.caller 0) none (some ⟨500, 2⟩) (.user 1) 0
          (exampleWorld .TWID_MODE_ASYNC [32, 4, 32, 1])).1
        = some Status.TWID_SUCCESS
      ∧ (Call.twi_enable_it ((exampleWorld .TWID_MODE_ASYNC [32, 4, 32, 1]).getDesc (.caller 0)).addr sama5d4.TWI_IER_TXRDY, 0)
          ∈ added (exampleWorld .TWID_MODE_ASYNC [32, 4, 32, 1])
              (twid_transfert sama5d4 (.caller 0) none (some ⟨500, 2⟩) (.user 1) 0
          (exampleWorld .TWID_MODE_ASYNC [32, 4, 32, 1])).2
      ∧ (run_handler sama5d4 ((⟨500, 2⟩ : Buffer).size - 1 + 1)
          (twid_transfert sama5d4 (.caller 0) none (some ⟨500, 2⟩) (.user 1) 0
          (exampleWorld .TWID_MODE_ASYNC [32, 4, 32, 1])).2).trace.filter isCallbackEv
        = (twid_transfert sama5d4 (.caller 0) none (some ⟨500, 2⟩) (.user 1) 0
          (exampleWorld .TWID_MODE_ASYNC [32, 4, 32, 1])).2.trace.filter isCallbackEv
          ++ [(Call.callback 1 (.slot (exampleWorld .TWID_MODE_ASYNC [32, 4, 32, 1]).adesc_index) 0, 0)]
      ∧ ((run_handler sama5d4 ((⟨500, 2⟩ : Buffer).size - 1 + 1)
          (twid_transfert sama5d4 (.caller 0) none (some ⟨500, 2⟩) (.user 1) 0
          (exampleWorld .TWID_MODE_ASYNC [32, 4, 32, 1])).2).asyncdesc (exampleWorld .TWID_MODE_ASYNC [32, 4, 32, 1]).adesc_index).twi_id = 0
      ∧ ((run_handler sama5d4 ((⟨500, 2⟩ : Buffer).size - 1 + 1)
          (twid_transfert sama5d4 (.caller 0) none (some ⟨500, 2⟩) (.user 1) 0
          (exampleWorld .TWID_MODE_ASYNC [32, 4, 32, 1])).2).asyncdesc (exampleWorld .TWID_MODE_ASYNC [32, 4, 32, 1]).adesc_index).pdata = 0) :=
  ⟨rfl, rfl, by decide, by decide, by decide, fun _ => ⟨rfl, rfl⟩, by decide, rfl, rfl,
    by decide, by decide,
    async_write_completion sama5d4 0 1 0 ⟨500, 2⟩ (exampleWorld .TWID_MODE_ASYNC [32, 4, 32, 1]) [4] 1 []
      rfl rfl (by decide) (by decide) (by decide) (fun _ => ⟨rfl, rfl⟩) (by decide) rfl rfl
      (by decide) (by decide)⟩

/-- C9 fails on the code: after eight completed asynchronous two-byte writes
the round-robin index is back at slot 0, which the handler released with its
transferred count still at 1.  The ninth submit, a write of the three bytes
`0x12 0x34 0x56`, binds slot 0 without resetting the count: at the first
interrupt of the new transfer the count is 1, not 0, and the handler sends
the byte `0x56` at index 2, so the byte `0x34` at index 1 is never sent. -/
theorem C9_stale_transferred_count :
    ((asyncCycles sama5d4 ⟨500, 2⟩ 8
        (exampleWorld .TWID_MODE_ASYNC nineWritesScript)).asyncdesc 0).twi_id = 0
    ∧ ((asyncCycles sama5d4 ⟨500, 2⟩ 8
        (exampleWorld .TWID_MODE_ASYNC nineWritesScript)).asyncdesc 0).pdata = 0
    ∧ (asyncCycles sama5d4 ⟨500, 2⟩ 8
        (exampleWorld .TWID_MODE_ASYNC nineWritesScript)).adesc_index = 0
    ∧ (afterNinthSubmit.asyncdesc 0).twi_id = 32
    ∧ (afterNinthSubmit.asyncdesc 0).pdata = 501
    ∧ (afterNinthSubmit.asyncdesc 0).size = 2
    ∧ (afterNinthSubmit.asyncdesc 0).transferred = 1
    ∧ (_twid_handler sama5d4 afterNinthSubmit).trace.getLast?
        = some (Call.twi_write_byte 1000 0x56, 0) := by
  decide!

/-- C10 fails on the code: after an asynchronous two-byte write submitted with
the default callback has been driven to completion, the handler has released
the slot and the callback has freed the lock of the copy held in the slot,
but the descriptor the caller passed is still busy and a new submit on it
returns `TWID_ERROR_LOCK`. -/
theorem C10_caller_lock_still_held :
    (afterDefaultCallback.asyncdesc 0).twi_id = 0
    ∧ (afterDefaultCallback.asyncdesc 0).twi_desc.mutex = false
    ∧ twid_is_busy (.caller 0) afterDefaultCallback = true
    ∧ (twid_transfert sama5d4 (.caller 0) none (some ⟨500, 2⟩)
        .twid_finish_transfert_callback 0 afterDefaultCallback).1
        = some Status.TWID_ERROR_LOCK := by
  decide!

/-! ## `twid_configure` and the final wait -/

@[simp] theorem getDesc_cmd (w : World) (c : Call) (r : DescRef) :
    (w.cmd c).getDesc r = w.getDesc r := by
  cases r <;> rfl

@[simp] theorem cmd_trace (w : World) (c : Call) : (w.cmd c).trace = w.trace ++ [(c, 0)] := rfl

theorem twid_configure_ok (chip : Chip) (desc : DescRef) (w : World) :
    (twid_configure chip desc w).1
      = decide (chip.get_twi_id_from_addr (w.getDesc desc).addr < chip.ID_PERIPH_COUNT) := by
  unfold twid_configure
  simp only
  split <;> simp_all

theorem twid_configure_aborted (chip : Chip) (desc : DescRef) (w : World)
    (h : ¬ chip.get_twi_id_from_addr (w.getDesc desc).addr < chip.ID_PERIPH_COUNT) :
    twid_configure chip desc w = (false, w) := by
  unfold twid_configure
  simp only
  rw [if_pos h]

theorem twid_configure_desc (chip : Chip) (desc : DescRef) (w : World)
    (h : chip.get_twi_id_from_addr (w.getDesc desc).addr < chip.ID_PERIPH_COUNT) :
    (twid_configure chip desc w).2.getDesc desc
      = { w.getDesc desc with
          timeout := if (w.getDesc desc).timeout = 0 then TWID_TIMEOUT
            else (w.getDesc desc).timeout } := by
  unfold twid_configure
  simp only
  rw [if_neg (not_not.mpr h)]
  by_cases ht : (w.getDesc desc).timeout = 0
  · simp only [ht, if_true]
    split_ifs <;> simp
  · simp only [ht, if_false]
    split_ifs <;> simp

theorem twid_configure_trace (chip : Chip) (desc : DescRef) (w : World)
    (h : chip.get_twi_id_from_addr (w.getDesc desc).addr < chip.ID_PERIPH_COUNT) :
    (twid_configure chip desc w).2.trace = w.trace ++ configCalls chip (w.getDesc desc) := by
  unfold twid_configure configCalls
  simp only
  rw [if_neg (not_not.mpr h)]
  split_ifs <;> simp_all

theorem configCalls_timeout (chip : Chip) (d : TwiDesc) (t : Nat) :
    configCalls chip { d with timeout := t } = configCalls chip d := rfl

theorem configCalls_isConfig (chip : Chip) (d : TwiDesc) :
    ∀ e ∈ configCalls chip d, isConfigCall e.1 = true := by
  intro e he
  unfold configCalls at he
  split_ifs at he <;> simp at he <;> rcases he with h | h | h | h <;> (try subst h) <;> try rfl
theorem pollUntil_shape (cond : Call) (s : List Nat) :
    ∃ j, (∃ c, c ≠ 0 ∧ (pollUntil cond s).1 = false
          ∧ (pollUntil cond s).2.2 = idlePolls cond j ++ [(cond, c)])
      ∨ (∃ t, t ≠ 0 ∧ (pollUntil cond s).1 = true
          ∧ (pollUntil cond s).2.2
              = idlePolls cond j ++ [(cond, 0), (Call.timer_timeout_reached, t)]) := by
  induction s using pollUntil.induct cond with
  | case1 => exact ⟨0, Or.inl ⟨1, by decide, rfl, rfl⟩⟩
  | case2 r hr =>
    refine ⟨0, Or.inl ⟨r, hr, ?_, ?_⟩⟩ <;> simp [pollUntil, hr, idlePolls]
  | case3 r hr =>
    have hr0 : r = 0 := not_not.mp hr
    subst hr0
    refine ⟨0, Or.inr ⟨1, by decide, ?_, ?_⟩⟩ <;> simp [pollUntil, idlePolls]
  | case4 r t rest hr =>
    refine ⟨0, Or.inl ⟨r, hr, ?_, ?_⟩⟩ <;> simp [pollUntil, hr, idlePolls]
  | case5 r t rest hr ht =>
    have hr0 : r = 0 := not_not.mp hr
    subst hr0
    refine ⟨0, Or.inr ⟨t, ht, ?_, ?_⟩⟩ <;> simp [pollUntil, ht, idlePolls]
  | case6 r t rest hr ht ih =>
    have hr0 : r = 0 := not_not.mp hr
    have ht0 : t = 0 := not_not.mp ht
    subst hr0 ht0
    obtain ⟨j, h⟩ := ih
    refine ⟨j + 1, ?_⟩
    rcases h with ⟨c, hc, h1, h2⟩ | ⟨t, ht1, h1, h2⟩
    · refine Or.inl ⟨c, hc, ?_, ?_⟩
      · simpa [pollUntil] using h1
      · simp only [pollUntil, idlePolls]
        simpa using h2
    · refine Or.inr ⟨t, ht1, ?_, ?_⟩
      · simpa [pollUntil] using h1
      · simp only [pollUntil, idlePolls]
        simpa using h2

theorem added_self (w : World) : added w w = [] := by
  simp [added]

/-- C14: `twid_configure` is idempotent.  Called a second time right after a
first call on the same descriptor it passes or fails its assertion as the
first call did, records exactly the calls the first call recorded (same calls,
same arguments, same order), and leaves the descriptor as the first call left
it. -/
theorem C14_configure_idempotent (chip : Chip) (desc : DescRef) (w : World) :
    (twid_configure chip desc (twid_configure chip desc w).2).1
        = (twid_configure chip desc w).1
    ∧ added (twid_configure chip desc w).2
          (twid_configure chip desc (twid_configure chip desc w).2).2
        = added w (twid_configure chip desc w).2
    ∧ (twid_configure chip desc (twid_configure chip desc w).2).2.getDesc desc
        = (twid_configure chip desc w).2.getDesc desc := by
  by_cases h : chip.get_twi_id_from_addr (w.getDesc desc).addr < chip.ID_PERIPH_COUNT
  · have hd := twid_configure_desc chip desc w h
    have ht := twid_configure_trace chip desc w h
    have h2 : chip.get_twi_id_from_addr ((twid_configure chip desc w).2.getDesc desc).addr
        < chip.ID_PERIPH_COUNT := by rw [hd]; exact h
    have hd2 := twid_configure_desc chip desc _ h2
    have ht2 := twid_configure_trace chip desc _ h2
    refine ⟨?_, ?_, ?_⟩
    · rw [twid_configure_ok, twid_configure_ok, hd]
    · rw [added_eq ht2, added_eq ht, hd]
      rfl
    · rw [hd2, hd]
      by_cases h0 : (w.getDesc desc).timeout = 0
      · simp [h0, TWID_TIMEOUT]
      · simp [h0]
  · rw [twid_configure_aborted chip desc w h]
    simp only
    rw [twid_configure_aborted chip desc w h]
    exact ⟨rfl, rfl, rfl⟩

/-- C15: when `twid_configure` passes its assertion, the descriptor it leaves
is the descriptor it was given with the timeout replaced by the default `100`
(`TWID_TIMEOUT`) if the timeout was `0`; a non-zero timeout and every other
field are unchanged. -/
theorem C15_configure_frame (chip : Chip) (desc : DescRef) (w : World)
    (hok : (twid_configure chip desc w).1 = true) :
    TWID_TIMEOUT = 100
    ∧ (twid_configure chip desc w).2.getDesc desc
        = { w.getDesc desc with
            timeout := if (w.getDesc desc).timeout = 0 then 100
              else (w.getDesc desc).timeout }
    ∧ ((w.getDesc desc).timeout ≠ 0 →
        (twid_configure chip desc w).2.getDesc desc = w.getDesc desc) := by
  rw [twid_configure_ok] at hok
  have h := of_decide_eq_true hok
  have hd := twid_configure_desc chip desc w h
  refine ⟨rfl, hd, ?_⟩
  intro h0
  rw [hd, if_neg h0]

/-- C15 at a concrete input: a descriptor of controller 1000 with timeout 0. -/
theorem C15_configure_frame_witness :
    (twid_configure sama5d4 (.caller 0)
        (initWorld { mkDesc 1000 .TWID_MODE_POLLING with timeout := 0 } (fun _ => 0) [])).1 = true
    ∧ (TWID_TIMEOUT = 100
      ∧ (twid_configure sama5d4 (.caller 0)
          (initWorld { mkDesc 1000 .TWID_MODE_POLLING with timeout := 0 } (fun _ => 0) [])).2.getDesc
            (.caller 0)
        = { (initWorld { mkDesc 1000 .TWID_MODE_POLLING with timeout := 0 } (fun _ => 0) []).getDesc
              (.caller 0) with
            timeout := if ((initWorld { mkDesc 1000 .TWID_MODE_POLLING with timeout := 0 }
                (fun _ => 0) []).getDesc (.caller 0)).timeout = 0 then 100
              else ((initWorld { mkDesc 1000 .TWID_MODE_POLLING with timeout := 0 }
                (fun _ => 0) []).getDesc (.caller 0)).timeout }
      ∧ (((initWorld { mkDesc 1000 .TWID_MODE_POLLING with timeout := 0 } (fun _ => 0) []).getDesc
            (.caller 0)).timeout ≠ 0 →
          (twid_configure sama5d4 (.caller 0)
            (initWorld { mkDesc 1000 .TWID_MODE_POLLING with timeout := 0 } (fun _ => 0) [])).2.getDesc
              (.caller 0)
          = (initWorld { mkDesc 1000 .TWID_MODE_POLLING with timeout := 0 } (fun _ => 0) []).getDesc
              (.caller 0))) :=
  ⟨rfl, C15_configure_frame sama5d4 (.caller 0)
    (initWorld { mkDesc 1000 .TWID_MODE_POLLING with timeout := 0 } (fun _ => 0) []) rfl⟩

theorem pollUntil_world (w : World) (cond : Call) :
    (w.pollUntil cond).1 = (pollUntil cond w.script).1
    ∧ (w.pollUntil cond).2.trace = w.trace ++ (pollUntil cond w.script).2.2
    ∧ ∀ r, (w.pollUntil cond).2.getDesc r = w.getDesc r := by
  refine ⟨rfl, rfl, ?_⟩
  intro r
  cases r <;> rfl

/-- C16: the final wait `_twid_wait_twi_transfer`, on a descriptor whose
peripheral identifier passes the assertion of `twid_configure`.  After starting
the timer the wait polls transfer-complete.  Either a poll finds the transfer
complete before the deadline: then `TWID_SUCCESS` is returned and nothing but
the timer start and the polls was called (no configuration call).  Or a
deadline check finds the deadline reached: then, before `TWID_ERROR_TRANSFER`
is returned, exactly the calls of `twid_configure` on that descriptor are made,
the enable of the peripheral clock followed by the bus timing among them. -/
theorem C16_wait_reconfigures (chip : Chip) (desc : DescRef) (w : World)
    (hid : chip.get_twi_id_from_addr (w.getDesc desc).addr < chip.ID_PERIPH_COUNT) :
    (∃ j,
      (∃ c, c ≠ 0
        ∧ (_twid_wait_twi_transfer chip desc w).1 = some Status.TWID_SUCCESS
        ∧ added w (_twid_wait_twi_transfer chip desc w).2
            = (Call.timer_start_timeout (w.getDesc desc).timeout, 0)
              :: (idlePolls (.twi_is_transfer_complete (w.getDesc desc).addr) j
                ++ [(Call.twi_is_transfer_complete (w.getDesc desc).addr, c)])
        ∧ ∀ e ∈ added w (_twid_wait_twi_transfer chip desc w).2, isConfigCall e.1 = false)
      ∨ (∃ t, t ≠ 0
        ∧ (_twid_wait_twi_transfer chip desc w).1 = some Status.TWID_ERROR_TRANSFER
        ∧ added w (_twid_wait_twi_transfer chip desc w).2
            = (Call.timer_start_timeout (w.getDesc desc).timeout, 0)
              :: (idlePolls (.twi_is_transfer_complete (w.getDesc desc).addr) j
                ++ [(Call.twi_is_transfer_complete (w.getDesc desc).addr, 0),
                    (Call.timer_timeout_reached, t)])
              ++ added w (twid_configure chip desc w).2))
    ∧ (∃ a b, added w (twid_configure chip desc w).2
        = a ++ [(Call.pmc_enable_peripheral (chip.get_twi_id_from_addr (w.getDesc desc).addr), 0),
                (Call.twi_configure_master (w.getDesc desc).addr (w.getDesc desc).freq, 0)]
            ++ b) := by
  constructor
  · obtain ⟨p1, p2, p3⟩ := pollUntil_world
      (w.cmd (.timer_start_timeout (w.getDesc desc).timeout))
      (.twi_is_transfer_complete (w.getDesc desc).addr)
    obtain ⟨j, hj⟩ := pollUntil_shape (.twi_is_transfer_complete (w.getDesc desc).addr)
      (w.cmd (.timer_start_timeout (w.getDesc desc).timeout)).script
    refine ⟨j, ?_⟩
    rcases hj with ⟨c, hc, h1, h2⟩ | ⟨t, ht, h1, h2⟩
    · left
      have hres : _twid_wait_twi_transfer chip desc w
          = (some Status.TWID_SUCCESS,
              ((w.cmd (.timer_start_timeout (w.getDesc desc).timeout)).pollUntil
                (.twi_is_transfer_complete (w.getDesc desc).addr)).2) := by
        unfold _twid_wait_twi_transfer
        simp only [getDesc_cmd]
        rw [p1, h1]
        rfl
      rw [hres]
      have htr : ((w.cmd (.timer_start_timeout (w.getDesc desc).timeout)).pollUntil
          (.twi_is_transfer_complete (w.getDesc desc).addr)).2.trace
          = w.trace ++ ((Call.timer_start_timeout (w.getDesc desc).timeout, 0)
              :: (idlePolls (.twi_is_transfer_complete (w.getDesc desc).addr) j
                ++ [(Call.twi_is_transfer_complete (w.getDesc desc).addr, c)])) := by
        rw [p2, h2]
        simp
      refine ⟨c, hc, rfl, added_eq htr, ?_⟩
      show ∀ e ∈ added w _, isConfigCall e.1 = false
      rw [added_eq htr]
      intro e he
      simp only [List.mem_cons, List.mem_append, List.mem_singleton, List.not_mem_nil,
        or_false] at he
      rcases he with h | h | h
      · subst h; rfl
      · have : ∀ k, ∀ x ∈ idlePolls (Call.twi_is_transfer_complete (w.getDesc desc).addr) k,
            isConfigCall x.1 = false := by
          intro k
          induction k with
          | zero => intro x hx; simp [idlePolls] at hx
          | succ k ih =>
            intro x hx
            simp only [idlePolls, List.mem_cons] at hx
            rcases hx with h | h | h
            · subst h; rfl
            · subst h; rfl
            · exact ih x h
        exact this j e h
      · subst h; rfl
    · right
      have hid2 : chip.get_twi_id_from_addr
          (((w.cmd (.timer_start_timeout (w.getDesc desc).timeout)).pollUntil
            (.twi_is_transfer_complete (w.getDesc desc).addr)).2.getDesc desc).addr
          < chip.ID_PERIPH_COUNT := by
        rw [p3, getDesc_cmd]; exact hid
      have hok := twid_configure_ok chip desc
        ((w.cmd (.timer_start_timeout (w.getDesc desc).timeout)).pollUntil
            (.twi_is_transfer_complete (w.getDesc desc).addr)).2
      rw [decide_eq_true hid2] at hok
      have hres : _twid_wait_twi_transfer chip desc w
          = (some Status.TWID_ERROR_TRANSFER,
              (twid_configure chip desc
                ((w.cmd (.timer_start_timeout (w.getDesc desc).timeout)).pollUntil
                  (.twi_is_transfer_complete (w.getDesc desc).addr)).2).2) := by
        unfold _twid_wait_twi_transfer
        simp only [getDesc_cmd]
        rw [p1, h1, if_pos rfl, hok, if_pos rfl]
      rw [hres]
      have htr := twid_configure_trace chip desc _ hid2
      rw [p3, getDesc_cmd, p2, h2] at htr
      refine ⟨t, ht, rfl, ?_⟩
      rw [added_eq (twid_configure_trace chip desc w hid)]
      apply added_eq
      show (twid_configure chip desc _).2.trace = _
      rw [htr]
      simp
  · rw [added_eq (twid_configure_trace chip desc w hid)]
    unfold configCalls
    exact ⟨_, _, rfl⟩

/-- C16 at a concrete input: the transfer-complete poll answers 0 and the
deadline check answers 1. -/
theorem C16_wait_reconfigures_witness :
    sama5d4.get_twi_id_from_addr
        ((exampleWorld .TWID_MODE_POLLING [0, 1]).getDesc (.caller 0)).addr
      < sama5d4.ID_PERIPH_COUNT
    ∧ (_twid_wait_twi_transfer sama5d4 (.caller 0)
        (exampleWorld .TWID_MODE_POLLING [0, 1])).1 = some Status.TWID_ERROR_TRANSFER
    ∧ (_twid_wait_twi_transfer sama5d4 (.caller 0)
        (exampleWorld .TWID_MODE_POLLING [0, 1])).2.trace
        = [(Call.timer_start_timeout 100, 0), (Call.twi_is_transfer_complete 1000, 0),
           (Call.timer_timeout_reached, 1), (Call.pmc_enable_peripheral 32, 0),
           (Call.twi_configure_master 1000 400000, 0)]
    ∧ ((∃ j,
        (∃ c, c ≠ 0
          ∧ (_twid_wait_twi_transfer sama5d4 (.caller 0)
              (exampleWorld .TWID_MODE_POLLING [0, 1])).1 = some Status.TWID_SUCCESS
          ∧ added (exampleWorld .TWID_MODE_POLLING [0, 1])
              (_twid_wait_twi_transfer sama5d4 (.caller 0)
                (exampleWorld .TWID_MODE_POLLING [0, 1])).2
              = (Call.timer_start_timeout
                  ((exampleWorld .TWID_MODE_POLLING [0, 1]).getDesc (.caller 0)).timeout, 0)
                :: (idlePolls (.twi_is_transfer_complete
                    ((exampleWorld .TWID_MODE_POLLING [0, 1]).getDesc (.caller 0)).addr) j
                  ++ [(Call.twi_is_transfer_complete
                    ((exampleWorld .TWID_MODE_POLLING [0, 1]).getDesc (.caller 0)).addr, c)])
          ∧ ∀ e ∈ added (exampleWorld .TWID_MODE_POLLING [0, 1])
              (_twid_wait_twi_transfer sama5d4 (.caller 0)
                (exampleWorld .TWID_MODE_POLLING [0, 1])).2, isConfigCall e.1 = false)
        ∨ (∃ t, t ≠ 0
          ∧ (_twid_wait_twi_transfer sama5d4 (.caller 0)
              (exampleWorld .TWID_MODE_POLLING [0, 1])).1 = some Status.TWID_ERROR_TRANSFER
          ∧ added (exampleWorld .TWID_MODE_POLLING [0, 1])
              (_twid_wait_twi_transfer sama5d4 (.caller 0)
                (exampleWorld .TWID_MODE_POLLING [0, 1])).2
              = (Call.timer_start_timeout
                  ((exampleWorld .TWID_MODE_POLLING [0, 1]).getDesc (.caller 0)).timeout, 0)
                :: (idlePolls (.twi_is_transfer_complete
                    ((exampleWorld .TWID_MODE_POLLING [0, 1]).getDesc (.caller 0)).addr) j
                  ++ [(Call.twi_is_transfer_complete
                    ((exampleWorld .TWID_MODE_POLLING [0, 1]).getDesc (.caller 0)).addr, 0),
                      (Call.timer_timeout_reached, t)])
                ++ added (exampleWorld .TWID_MODE_POLLING [0, 1])
                    (twid_configure sama5d4 (.caller 0)
                      (exampleWorld .TWID_MODE_POLLING [0, 1])).2))
      ∧ (∃ a b, added (exampleWorld .TWID_MODE_POLLING [0, 1])
          (twid_configure sama5d4 (.caller 0) (exampleWorld .TWID_MODE_POLLING [0, 1])).2
          = a ++ [(Call.pmc_enable_peripheral (sama5d4.get_twi_id_from_addr
                    ((exampleWorld .TWID_MODE_POLLING [0, 1]).getDesc (.caller 0)).addr), 0),
                  (Call.twi_configure_master
                    ((exampleWorld .TWID_MODE_POLLING [0, 1]).getDesc (.caller 0)).addr
                    ((exampleWorld .TWID_MODE_POLLING [0, 1]).getDesc (.caller 0)).freq, 0)]
              ++ b)) :=
  ⟨by decide, rfl, rfl,
    C16_wait_reconfigures sama5d4 (.caller 0) (exampleWorld .TWID_MODE_POLLING [0, 1])
      (by decide)⟩

/-! ## Submits that the DMA strategy should refuse, null buffers, unknown modes -/

/-- C11 fails on the code: in DMA mode only the submit with neither buffer is
refused with `TWID_ERROR_DUPLEX`.  With both buffers supplied the write path
runs: a two-byte write buffer is sent by the polling engine and the call
returns `TWID_SUCCESS`; a sixteen-byte write buffer starts a DMA transfer and
the call returns `TWID_SUCCESS` with the lock held. -/
theorem C11_dma_both_buffers_not_refused :
    (twid_transfert sama5d4 (.caller 0) none none .null 0
        (exampleWorld .TWID_MODE_DMA [])).1 = some Status.TWID_ERROR_DUPLEX
    ∧ (twid_transfert sama5d4 (.caller 0) (some ⟨600, 2⟩) (some ⟨500, 2⟩) .null 0
        (exampleWorld .TWID_MODE_DMA [0, 1, 0, 1])).1 = some Status.TWID_SUCCESS
    ∧ (twid_transfert sama5d4 (.caller 0) (some ⟨600, 2⟩) (some ⟨500, 2⟩) .null 0
        (exampleWorld .TWID_MODE_DMA [0, 1, 0, 1])).2.trace
        = [(Call.twi_start_write 1000 80 0 0 0x12, 0), (Call.twi_get_status 1000, 0),
           (Call.timer_start_timeout 100, 0), (Call.twi_is_byte_sent 1000, 1),
           (Call.twi_write_byte 1000 0x34, 0), (Call.twi_get_status 1000, 0),
           (Call.twi_send_stop_condition 1000, 0), (Call.timer_start_timeout 100, 0),
           (Call.twi_is_transfer_complete 1000, 1)]
    ∧ (twid_transfert sama5d4 (.caller 0) (some ⟨600, 16⟩) (some ⟨500, 16⟩) .null 0
        (exampleWorld .TWID_MODE_DMA [5])).1 = some Status.TWID_SUCCESS
    ∧ (twid_transfert sama5d4 (.caller 0) (some ⟨600, 16⟩) (some ⟨500, 16⟩) .null 0
        (exampleWorld .TWID_MODE_DMA [5])).2.trace.getLast?
        = some (Call.xdmad_start_transfer 5, 0)
    ∧ twid_is_busy (.caller 0)
        (twid_transfert sama5d4 (.caller 0) (some ⟨600, 16⟩) (some ⟨500, 16⟩) .null 0
          (exampleWorld .TWID_MODE_DMA [5])).2 = true := by
  decide!

/-- C23 fails on the code: serving transfer complete, the handler disables the
interrupt line of the peripheral, then disables receive-ready (mask
`TWI_IDR_RXRDY | TWI_IDR_RXRDY`, which is receive-ready alone) and
transfer-complete, and invokes the callback; no call disables
transmit-ready. -/
theorem C23_txrdy_not_disabled :
    (beforeTxcomp.asyncdesc 0).twi_id = 32
    ∧ added beforeTxcomp (_twid_handler sama5d4 beforeTxcomp)
        = [(Call.aic_get_current_interrupt_identifier, 32),
           (Call.twi_get_masked_status 1000, 1),
           (Call.aic_disable 32, 0),
           (Call.twi_disable_it 1000 sama5d4.TWI_IDR_RXRDY, 0),
           (Call.twi_disable_it 1000 sama5d4.TWI_IDR_TXCOMP, 0),
           (Call.callback 7 (.slot 0) 0, 0)]
    ∧ sama5d4.TWI_IDR_TXRDY ≠ sama5d4.TWI_IDR_RXRDY
    ∧ sama5d4.TWI_IDR_TXRDY ≠ sama5d4.TWI_IDR_TXCOMP
    ∧ ((_twid_handler sama5d4 beforeTxcomp).asyncdesc 0).twi_id = 0
    ∧ ((_twid_handler sama5d4 beforeTxcomp).asyncdesc 0).pdata = 0 := by
  decide!

/-- C27 fails on the code: the mode test of an asynchronous submit evaluates
`(tx->size == 1) || (rx->size == 1)` through the pointers as passed.  With
only a read buffer the size is first read through the null `tx`; with only a
write buffer of more than one byte the size is read through the null `rx`. -/
theorem C27_size_read_through_null :
    (exampleWorld .TWID_MODE_ASYNC []).null_reads = 0
    ∧ (twid_transfert sama5d4 (.caller 0) (some ⟨600, 2⟩) none .null 0
        (exampleWorld .TWID_MODE_ASYNC [])).2.null_reads = 1
    ∧ (twid_transfert sama5d4 (.caller 0) none (some ⟨500, 2⟩) .null 0
        (exampleWorld .TWID_MODE_ASYNC [])).2.null_reads = 1 := by
  decide!

theorem transfert_on_locked (chip : Chip) (desc : DescRef) (rx tx : Option Buffer)
    (cb : Callback) (user_args : Nat) (w : World)
    (hlock : mutex_is_locked desc w = true) :
    (twid_transfert chip desc rx tx cb user_args w).1 = some Status.TWID_ERROR_LOCK := by
  simp only [mutex_is_locked] at hlock
  simp [twid_transfert, mutex_try_lock, hlock]

/-- C30: a submit on a free descriptor whose mode is none of the handled
strategies (a value other than the four named modes, or the FIFO mode in a
build without FIFO support) returns `TWID_SUCCESS`, makes no call at all (no
hardware call, no callback), consumes no hardware answer and leaves the lock
held: every submit made next on that descriptor returns `TWID_ERROR_LOCK`. -/
theorem C30_unhandled_mode (chip : Chip) (desc : DescRef) (rx tx : Option Buffer)
    (cb : Callback) (user_args : Nat) (w : World)
    (hfree : mutex_is_locked desc w = false)
    (hmode : (∃ k, (w.getDesc desc).transfert_mode = .other k)
      ∨ ((w.getDesc desc).transfert_mode = .TWID_MODE_FIFO
          ∧ chip.CONFIG_HAVE_TWI_FIFO = false)) :
    (twid_transfert chip desc rx tx cb user_args w).1 = some Status.TWID_SUCCESS
    ∧ (twid_transfert chip desc rx tx cb user_args w).2.trace = w.trace
    ∧ (twid_transfert chip desc rx tx cb user_args w).2.script = w.script
    ∧ twid_is_busy desc (twid_transfert chip desc rx tx cb user_args w).2 = true
    ∧ ∀ rx2 tx2 cb2 args2,
        (twid_transfert chip desc rx2 tx2 cb2 args2
          (twid_transfert chip desc rx tx cb user_args w).2).1
          = some Status.TWID_ERROR_LOCK := by
  have hf : (w.getDesc desc).mutex = false := hfree
  have hr : twid_transfert chip desc rx tx cb user_args w
      = (some Status.TWID_SUCCESS,
          w.setDesc desc { w.getDesc desc with
            callback := cb, cb_args := user_args, mutex := true }) := by
    unfold twid_transfert
    simp only [mutex_try_lock, getDesc_setDesc, hf, Bool.false_eq_true, if_false]
    unfold twid_transfert_locked twid_transfert_tmode
    rcases hmode with ⟨k, hk⟩ | ⟨hk, hc⟩
    · simp [getDesc_setDesc, hk, twid_transfert_switch]
      cases desc <;> simp [World.setDesc, World.setSlot, World.getDesc]
    · simp [getDesc_setDesc, hk, hc, twid_transfert_switch]
      cases desc <;> simp [World.setDesc, World.setSlot, World.getDesc]
  rw [hr]
  have hb : twid_is_busy desc (w.setDesc desc { w.getDesc desc with
      callback := cb, cb_args := user_args, mutex := true }) = true := by
    simp [twid_is_busy, mutex_is_locked]
  refine ⟨rfl, by simp, by simp, hb, ?_⟩
  intro rx2 tx2 cb2 args2
  exact transfert_on_locked chip desc rx2 tx2 cb2 args2 _ hb

/-- C30 at a concrete input: a descriptor whose mode field holds the value 9. -/
theorem C30_unhandled_mode_witness :
    mutex_is_locked (.caller 0) (exampleWorld (.other 9) [1, 2]) = false
    ∧ ((∃ k, ((exampleWorld (.other 9) [1, 2]).getDesc (.caller 0)).transfert_mode = .other k)
      ∨ (((exampleWorld (.other 9) [1, 2]).getDesc (.caller 0)).transfert_mode
            = .TWID_MODE_FIFO
          ∧ sama5d4.CONFIG_HAVE_TWI_FIFO = false))
    ∧ ((twid_transfert sama5d4 (.caller 0) none (some ⟨500, 3⟩) (.user 1) 0
          (exampleWorld (.other 9) [1, 2])).1 = some Status.TWID_SUCCESS
      ∧ (twid_transfert sama5d4 (.caller 0) none (some ⟨500, 3⟩) (.user 1) 0
          (exampleWorld (.other 9) [1, 2])).2.trace = (exampleWorld (.other 9) [1, 2]).trace
      ∧ (twid_transfert sama5d4 (.caller 0) none (some ⟨500, 3⟩) (.user 1) 0
          (exampleWorld (.other 9) [1, 2])).2.script = (exampleWorld (.other 9) [1, 2]).script
      ∧ twid_is_busy (.caller 0)
          (twid_transfert sama5d4 (.caller 0) none (some ⟨500, 3⟩) (.user 1) 0
            (exampleWorld (.other 9) [1, 2])).2 = true
      ∧ ∀ rx2 tx2 cb2 args2,
          (twid_transfert sama5d4 (.caller 0) rx2 tx2 cb2 args2
            (twid_transfert sama5d4 (.caller 0) none (some ⟨500, 3⟩) (.user 1) 0
              (exampleWorld (.other 9) [1, 2])).2).1
            = some Status.TWID_ERROR_LOCK) :=
  ⟨rfl, Or.inl ⟨9, rfl⟩,
    C30_unhandled_mode sama5d4 (.caller 0) none (some ⟨500, 3⟩) (.user 1) 0
      (exampleWorld (.other 9) [1, 2]) rfl (Or.inl ⟨9, rfl⟩)⟩

/-! ## The asynchronous arm of `twid_transfert` -/

theorem submit_async_eq (chip : Chip) (s : Submission) (w : World) (h : s.Async w) :
    submit chip s w
      = twid_transfert_async chip (.caller s.n) s.rx s.tx
          { (w.setDesc (.caller s.n)
              { w.getDesc (.caller s.n) with
                callback := s.cb, cb_args := s.args, mutex := true }) with
            null_reads := w.null_reads + 1 } := by
  obtain ⟨hmode, hfree, hN, hnull⟩ := h
  have hf : (w.getDesc (.caller s.n)).mutex = false := hfree
  unfold submit twid_transfert
  simp only [mutex_try_lock, getDesc_setDesc, hf, Bool.false_eq_true, if_false]
  unfold twid_transfert_locked twid_transfert_tmode
  cases hw : s.write
  · simp only [Submission.rx, Submission.tx, hw, Bool.false_eq_true, if_false,
      getDesc_setDesc, hmode, if_true, World.bufSize, hN]
    simp only [World.setDesc, hnull, if_false, twid_transfert_switch]
    simp [twid_transfert_async, World.setSlot, World.cmd, World.getDesc]
  · simp only [Submission.rx, Submission.tx, hw, if_true,
      getDesc_setDesc, hmode, World.bufSize, hN, if_false]
    simp only [World.setDesc, hnull, if_false, twid_transfert_switch]
    simp [twid_transfert_async, World.setSlot, World.cmd, World.getDesc]

/-- What an asynchronous submission does: it returns `TWID_SUCCESS`, consumes
no hardware answer, binds the slot at the round-robin index to the peripheral
identifier with a copy of the locked descriptor, leaves the transferred count
of that slot and every other slot alone, advances the index, locks the
caller's descriptor and makes four calls. -/
theorem submit_async (chip : Chip) (s : Submission) (w : World) (h : s.Async w) :
    (submit chip s w).1 = some Status.TWID_SUCCESS
    ∧ (submit chip s w).2.script = w.script
    ∧ (submit chip s w).2.mem = w.mem
    ∧ (submit chip s w).2.adesc_index = (w.adesc_index + 1) % MAX_ADESC
    ∧ ((submit chip s w).2.asyncdesc w.adesc_index).twi_id
        = chip.get_twi_id_from_addr (w.getDesc (.caller s.n)).addr
    ∧ ((submit chip s w).2.asyncdesc w.adesc_index).twi_desc
        = { w.getDesc (.caller s.n) with
            callback := s.cb, cb_args := s.args, mutex := true }
    ∧ ((submit chip s w).2.asyncdesc w.adesc_index).transferred
        = (w.asyncdesc w.adesc_index).transferred
    ∧ ((submit chip s w).2.asyncdesc w.adesc_index).pdata
        = (if s.write then s.buf.data + 1 else s.buf.data)
    ∧ ((submit chip s w).2.asyncdesc w.adesc_index).size
        = (if s.write then (s.buf.size + 2 ^ 32 - 1) % 2 ^ 32 else s.buf.size)
    ∧ (∀ i, i ≠ w.adesc_index → (submit chip s w).2.asyncdesc i = w.asyncdesc i)
    ∧ (submit chip s w).2.getDesc (.caller s.n)
        = { w.getDesc (.caller s.n) with
            callback := s.cb, cb_args := s.args, mutex := true }
    ∧ (submit chip s w).2.trace
        = w.trace ++ asyncSubmitCalls chip (w.getDesc (.caller s.n)) s w.mem := by
  rw [submit_async_eq chip s w h]
  cases hw : s.write
  · simp only [Submission.rx, Submission.tx, hw, Bool.false_eq_true, if_false]
    refine ⟨rfl, rfl, rfl, rfl, ?_, ?_, ?_, ?_, ?_, ?_, ?_, ?_⟩
    · simp [twid_transfert_async, World.setSlot, World.cmd, World.getDesc, World.setDesc]
    · simp [twid_transfert_async, World.setSlot, World.cmd, World.getDesc, World.setDesc]
    · simp [twid_transfert_async, World.setSlot, World.cmd, World.getDesc, World.setDesc]
    · simp [twid_transfert_async, World.setSlot, World.cmd, World.getDesc, World.setDesc]
    · simp [twid_transfert_async, World.setSlot, World.cmd, World.getDesc, World.setDesc]
    · intro i hi
      simp [twid_transfert_async, World.setSlot, World.cmd, World.getDesc, World.setDesc,
        Function.update_noteq hi]
    · simp [twid_transfert_async, World.setSlot, World.cmd, World.getDesc, World.setDesc]
    · simp [twid_transfert_async, World.setSlot, World.cmd, World.getDesc, World.setDesc,
        asyncSubmitCalls, hw]
  · simp only [Submission.rx, Submission.tx, hw, if_true]
    refine ⟨rfl, rfl, rfl, rfl, ?_, ?_, ?_, ?_, ?_, ?_, ?_, ?_⟩
    · simp [twid_transfert_async, World.setSlot, World.cmd, World.getDesc, World.setDesc]
    · simp [twid_transfert_async, World.setSlot, World.cmd, World.getDesc, World.setDesc]
    · simp [twid_transfert_async, World.setSlot, World.cmd, World.getDesc, World.setDesc]
    · simp [twid_transfert_async, World.setSlot, World.cmd, World.getDesc, World.setDesc]
    · simp only [twid_transfert_async, World.setSlot, World.cmd, World.getDesc, World.setDesc,
        Function.update_same]
    · intro i hi
      simp [twid_transfert_async, World.setSlot, World.cmd, World.getDesc, World.setDesc,
        Function.update_noteq hi]
    · simp [twid_transfert_async, World.setSlot, World.cmd, World.getDesc, World.setDesc]
    · simp [twid_transfert_async, World.setSlot, World.cmd, World.getDesc, World.setDesc,
        asyncSubmitCalls, hw]

@[simp] theorem query_asyncdesc (w : World) (c : Call) : (w.query c).2.asyncdesc = w.asyncdesc := by
  unfold World.query; split <;> rfl

@[simp] theorem query_adesc_index (w : World) (c : Call) :
    (w.query c).2.adesc_index = w.adesc_index := by
  unfold World.query; split <;> rfl

@[simp] theorem query_descs (w : World) (c : Call) : (w.query c).2.descs = w.descs := by
  unfold World.query; split <;> rfl

theorem invoke_callback_slot (cb : Callback) (i args : Nat) (w : World) :
    (invoke_callback cb (.slot i) args w).adesc_index = w.adesc_index
    ∧ (invoke_callback cb (.slot i) args w).descs = w.descs
    ∧ ∀ j, ((invoke_callback cb (.slot i) args w).asyncdesc j).twi_id = (w.asyncdesc j).twi_id
      ∧ ((invoke_callback cb (.slot i) args w).asyncdesc j).pdata = (w.asyncdesc j).pdata := by
  cases cb with
  | null => exact ⟨rfl, rfl, fun j => ⟨rfl, rfl⟩⟩
  | user m => exact ⟨rfl, rfl, fun j => ⟨rfl, rfl⟩⟩
  | twid_finish_transfert_callback =>
    refine ⟨rfl, rfl, ?_⟩
    intro j
    by_cases h : j = i
    · subst h
      simp [invoke_callback, twid_finish_transfert_callback, twid_finish_transfert, mutex_free,
        World.setDesc, World.setSlot]
    · simp [invoke_callback, twid_finish_transfert_callback, twid_finish_transfert, mutex_free,
        World.setDesc, World.setSlot, Function.update_noteq h]

/-- One invocation of the handler leaves the round-robin index and the
descriptors of the callers alone; in every slot it leaves the identifier and
the buffer pointer alone or clears both. -/
theorem handler_frame (chip : Chip) (w : World) :
    (_twid_handler chip w).adesc_index = w.adesc_index
    ∧ ∀ j, (((_twid_handler chip w).asyncdesc j).twi_id = (w.asyncdesc j).twi_id
          ∧ ((_twid_handler chip w).asyncdesc j).pdata = (w.asyncdesc j).pdata)
        ∨ (((_twid_handler chip w).asyncdesc j).twi_id = 0
          ∧ ((_twid_handler chip w).asyncdesc j).pdata = 0) := by
  unfold _twid_handler
  simp only
  split
  · exact ⟨by simp [World.cmd], fun j => Or.inl ⟨by simp [World.cmd], by simp [World.cmd]⟩⟩
  · rename_i i _
    split_ifs
    all_goals
      refine ⟨?_, ?_⟩
    all_goals first
      | (simp [World.cmd, World.setSlot, World.store, (invoke_callback_slot _ _ _ _).1]; done)
      | (intro j
         by_cases h : j = i
         · subst h
           first
             | (left; simp [World.cmd, World.setSlot, World.store]; done)
             | (right; simp [World.cmd, World.setSlot, World.store])
         · left
           simp [World.cmd, World.setSlot, World.store, Function.update_noteq h,
             (invoke_callback_slot _ _ _ _).2.2])

/-! ## Asynchronous submissions and the slot table -/

/-- A submit that runs the asynchronous arm (free descriptor configured for
the asynchronous strategy, exactly one buffer that is not one byte long, the
word read through the null pointer of the other buffer not 1) returns
`TWID_SUCCESS`; it consumes no hardware answer and records exactly the four
calls of the asynchronous arm, none of which is a wait on a status or the
callback; the descriptor is busy on return. -/
theorem async_submit_returns_at_once (chip : Chip) (s : Submission) (w : World)
    (h : s.Async w) :
    (submit chip s w).1 = some Status.TWID_SUCCESS
    ∧ (submit chip s w).2.script = w.script
    ∧ added w (submit chip s w).2 = asyncSubmitCalls chip (w.getDesc (.caller s.n)) s w.mem
    ∧ (submit chip s w).2.trace.filter isCallbackEv = w.trace.filter isCallbackEv
    ∧ twid_is_busy (.caller s.n) (submit chip s w).2 = true := by
  obtain ⟨h1, h2, _, _, _, _, _, _, _, _, h11, h12⟩ := submit_async chip s w h
  refine ⟨h1, h2, added_eq h12, ?_, ?_⟩
  · rw [h12]
    unfold asyncSubmitCalls
    cases s.write <;> simp [List.filter_append, isCallbackEv]
  · simp [twid_is_busy, mutex_is_locked, h11]

/-- The asynchronous arm at a concrete input: a read of two bytes. -/
theorem async_submit_returns_at_once_example :
    (⟨0, false, ⟨600, 2⟩, .user 1, 0⟩ : Submission).Async (exampleWorld .TWID_MODE_ASYNC [7])
    ∧ ((submit sama5d4 ⟨0, false, ⟨600, 2⟩, .user 1, 0⟩
          (exampleWorld .TWID_MODE_ASYNC [7])).1 = some Status.TWID_SUCCESS
      ∧ (submit sama5d4 ⟨0, false, ⟨600, 2⟩, .user 1, 0⟩
          (exampleWorld .TWID_MODE_ASYNC [7])).2.script = (exampleWorld .TWID_MODE_ASYNC [7]).script
      ∧ added (exampleWorld .TWID_MODE_ASYNC [7])
          (submit sama5d4 ⟨0, false, ⟨600, 2⟩, .user 1, 0⟩
            (exampleWorld .TWID_MODE_ASYNC [7])).2
          = asyncSubmitCalls sama5d4
              ((exampleWorld .TWID_MODE_ASYNC [7]).getDesc
                (.caller (⟨0, false, ⟨600, 2⟩, .user 1, 0⟩ : Submission).n))
              ⟨0, false, ⟨600, 2⟩, .user 1, 0⟩ (exampleWorld .TWID_MODE_ASYNC [7]).mem
      ∧ (submit sama5d4 ⟨0, false, ⟨600, 2⟩, .user 1, 0⟩
          (exampleWorld .TWID_MODE_ASYNC [7])).2.trace.filter isCallbackEv
          = (exampleWorld .TWID_MODE_ASYNC [7]).trace.filter isCallbackEv
      ∧ twid_is_busy (.caller (⟨0, false, ⟨600, 2⟩, .user 1, 0⟩ : Submission).n)
          (submit sama5d4 ⟨0, false, ⟨600, 2⟩, .user 1, 0⟩
            (exampleWorld .TWID_MODE_ASYNC [7])).2 = true) :=
  ⟨⟨rfl, rfl, by decide, by decide⟩,
    async_submit_returns_at_once sama5d4 ⟨0, false, ⟨600, 2⟩, .user 1, 0⟩
      (exampleWorld .TWID_MODE_ASYNC [7]) ⟨rfl, rfl, by decide, by decide⟩⟩

theorem asyncReach_index (chip : Chip) (k : Nat) (w : World) (hr : AsyncReach chip k w) :
    w.adesc_index = k % MAX_ADESC := by
  induction hr with
  | start w h => rw [h]; rfl
  | submitted s _ hs ih =>
    rw [(submit_async chip s _ hs).2.2.2.1, ih]
    simp [MAX_ADESC, Nat.add_mod]
  | handled _ ih => rw [(handler_frame chip _).1, ih]

/-- C25: round-robin allocation.  After `k` asynchronous submissions counted
from a state with index 0 (whatever the handler did in between and whatever
the slots hold) the index is `k mod 8`; the next asynchronous submission is
stored in slot `k mod 8`: the slot receives the peripheral identifier and a
copy of the caller's descriptor with the callback and user data of the submit
and the lock held, every other slot is left as it was, and the index becomes
`(k + 1) mod 8`, which is below 8. -/
theorem C25_round_robin (chip : Chip) (k : Nat) (w : World) (s : Submission)
    (hr : AsyncReach chip k w) (hs : s.Async w) :
    MAX_ADESC = 8
    ∧ w.adesc_index = k % 8
    ∧ ((submit chip s w).2.asyncdesc (k % 8)).twi_id
        = chip.get_twi_id_from_addr (w.getDesc (.caller s.n)).addr
    ∧ ((submit chip s w).2.asyncdesc (k % 8)).twi_desc
        = { w.getDesc (.caller s.n) with
            callback := s.cb, cb_args := s.args, mutex := true }
    ∧ (∀ i, i ≠ k % 8 → (submit chip s w).2.asyncdesc i = w.asyncdesc i)
    ∧ (submit chip s w).2.adesc_index = (k + 1) % 8
    ∧ (submit chip s w).2.adesc_index < 8 := by
  have hi : w.adesc_index = k % 8 := asyncReach_index chip k w hr
  obtain ⟨_, _, _, h4, h5, h6, _, _, _, h10, _, _⟩ := submit_async chip s w hs
  rw [hi] at h5 h6 h10
  have h4a : (submit chip s w).2.adesc_index = (k + 1) % 8 := by
    rw [h4, hi]
    simp [MAX_ADESC, Nat.add_mod]
  refine ⟨rfl, hi, h5, h6, h10, h4a, ?_⟩
  rw [h4a]
  exact Nat.mod_lt _ (by decide)

/-- C25 at a concrete input: the second submission, after a first one and an
invocation of the handler. -/
theorem C25_round_robin_witness :
    AsyncReach sama5d4 1
      (_twid_handler sama5d4
        (submit sama5d4 ⟨0, true, ⟨500, 2⟩, .null, 0⟩
          (exampleWorld .TWID_MODE_ASYNC [32, 4])).2)
    ∧ (⟨1, true, ⟨500, 3⟩, .user 2, 5⟩ : Submission).Async
        (_twid_handler sama5d4
          (submit sama5d4 ⟨0, true, ⟨500, 2⟩, .null, 0⟩
            (exampleWorld .TWID_MODE_ASYNC [32, 4])).2)
    ∧ ((submit sama5d4 ⟨1, true, ⟨500, 3⟩, .user 2, 5⟩
          (_twid_handler sama5d4
            (submit sama5d4 ⟨0, true, ⟨500, 2⟩, .null, 0⟩
              (exampleWorld .TWID_MODE_ASYNC [32, 4])).2)).2.asyncdesc 1).twi_id = 32
    ∧ (submit sama5d4 ⟨1, true, ⟨500, 3⟩, .user 2, 5⟩
          (_twid_handler sama5d4
            (submit sama5d4 ⟨0, true, ⟨500, 2⟩, .null, 0⟩
              (exampleWorld .TWID_MODE_ASYNC [32, 4])).2)).2.adesc_index = 2 :=
  have hr : AsyncReach sama5d4 1
      (_twid_handler sama5d4
        (submit sama5d4 ⟨0, true, ⟨500, 2⟩, .null, 0⟩
          (exampleWorld .TWID_MODE_ASYNC [32, 4])).2) :=
    AsyncReach.handled (AsyncReach.submitted ⟨0, true, ⟨500, 2⟩, .null, 0⟩
      (AsyncReach.start (exampleWorld .TWID_MODE_ASYNC [32, 4]) rfl)
      ⟨rfl, rfl, by decide, by decide⟩)
  have hs : (⟨1, true, ⟨500, 3⟩, .user 2, 5⟩ : Submission).Async
      (_twid_handler sama5d4
        (submit sama5d4 ⟨0, true, ⟨500, 2⟩, .null, 0⟩
          (exampleWorld .TWID_MODE_ASYNC [32, 4])).2) :=
    ⟨by decide!, by decide!, by decide, by decide!⟩
  ⟨hr, hs,
    (C25_round_robin sama5d4 1 _ ⟨1, true, ⟨500, 3⟩, .user 2, 5⟩ hr hs).2.2.1,
    (C25_round_robin sama5d4 1 _ ⟨1, true, ⟨500, 3⟩, .user 2, 5⟩ hr hs).2.2.2.2.2.1⟩

/-- C24 fails as stated: two asynchronous writes submitted on two free
descriptors that name the same controller bind the slots 0 and 1 to the same
peripheral identifier 32. -/
theorem C24_counterexample :
    (∀ i, ((exampleWorld .TWID_MODE_ASYNC []).asyncdesc i).twi_id = 0
        ∧ ((exampleWorld .TWID_MODE_ASYNC []).asyncdesc i).pdata = 0)
    ∧ (⟨0, true, ⟨500, 2⟩, .null, 0⟩ : Submission).Async (exampleWorld .TWID_MODE_ASYNC [])
    ∧ (⟨1, true, ⟨500, 2⟩, .null, 0⟩ : Submission).Async
        (submit sama5d4 ⟨0, true, ⟨500, 2⟩, .null, 0⟩ (exampleWorld .TWID_MODE_ASYNC [])).2
    ∧ (twoSubmitsOneController.asyncdesc 0).twi_id = 32
    ∧ (twoSubmitsOneController.asyncdesc 1).twi_id = 32
    ∧ ¬ SlotInv twoSubmitsOneController := by
  have h0 : (twoSubmitsOneController.asyncdesc 0).twi_id = 32 := by decide!
  have h1 : (twoSubmitsOneController.asyncdesc 1).twi_id = 32 := by decide!
  refine ⟨fun _ => ⟨rfl, rfl⟩, ⟨rfl, rfl, by decide, by decide⟩,
    ⟨by decide!, by decide!, by decide, by decide!⟩, h0, h1, ?_⟩
  intro hinv
  exact hinv.2 0 1 (by decide) (by decide) (by decide) (by rw [h0]; decide) (by rw [h0, h1])

theorem slotReach_inv (chip : Chip) (w : World) (hr : SlotReach chip w) :
    w.adesc_index < MAX_ADESC ∧ SlotInv w := by
  induction hr with
  | start w hidx hfree =>
    refine ⟨hidx, fun i _ => Or.inl (hfree i), ?_⟩
    intro i j _ _ _ hi
    exact absurd (hfree i).1 hi
  | @submitted w s _ hs hid hnew ih =>
    obtain ⟨hidx, hfb, huniq⟩ := ih
    obtain ⟨_, _, _, h4, h5, _, _, _, _, h10, _, _⟩ := submit_async chip s w hs
    refine ⟨by rw [h4]; exact Nat.mod_lt _ (by decide), ?_, ?_⟩
    · intro i hi
      by_cases hix : i = w.adesc_index
      · subst hix
        right
        rw [h5]
        exact hid
      · rw [h10 i hix]
        exact hfb i hi
    · intro i j hi hj hij hne
      by_cases hix : i = w.adesc_index
      · subst hix
        have hjx : j ≠ w.adesc_index := fun h => hij h.symm
        rw [h5, h10 j hjx]
        exact fun h => hnew j hj h.symm
      · rw [h10 i hix] at hne ⊢
        by_cases hjx : j = w.adesc_index
        · subst hjx
          rw [h5]
          exact hnew i hi
        · rw [h10 j hjx]
          exact huniq i j hi hj hij hne
  | @handled w _ ih =>
    obtain ⟨hidx, hfb, huniq⟩ := ih
    obtain ⟨f1, f2⟩ := handler_frame chip w
    refine ⟨by rw [f1]; exact hidx, ?_, ?_⟩
    · intro i hi
      rcases f2 i with ⟨e1, e2⟩ | ⟨e1, e2⟩
      · rw [e1, e2]
        exact hfb i hi
      · exact Or.inl ⟨e1, e2⟩
    · intro i j hi hj hij hne
      rcases f2 i with ⟨e1, _⟩ | ⟨e1, _⟩
      · rw [e1] at hne ⊢
        rcases f2 j with ⟨d1, _⟩ | ⟨d1, _⟩
        · rw [d1]
          exact huniq i j hi hj hij hne
        · rw [d1]
          exact hne
      · exact absurd e1 hne

/-- C24, amended: in every state reached from the all-free table by
asynchronous submissions, each made on a free descriptor for a peripheral
whose identifier is not 0 and is bound in no slot at that moment, and by
invocations of the handler, every slot is free (identifier cleared and buffer
pointer null) or bound to an identifier, no two slots are bound to the same
identifier, and the round-robin index is below the capacity of the table. -/
theorem C24_slot_table_invariant (chip : Chip) (w : World) (hr : SlotReach chip w) :
    SlotInv w ∧ w.adesc_index < MAX_ADESC :=
  ⟨(slotReach_inv chip w hr).2, (slotReach_inv chip w hr).1⟩

/-- C24 at a concrete input: one submission on the all-free table followed by
an invocation of the handler. -/
theorem C24_slot_table_invariant_witness :
    SlotReach sama5d4
      (_twid_handler sama5d4
        (submit sama5d4 ⟨0, true, ⟨500, 2⟩, .null, 0⟩
          (exampleWorld .TWID_MODE_ASYNC [32, 4])).2)
    ∧ SlotInv
      (_twid_handler sama5d4
        (submit sama5d4 ⟨0, true, ⟨500, 2⟩, .null, 0⟩
          (exampleWorld .TWID_MODE_ASYNC [32, 4])).2) :=
  have hr : SlotReach sama5d4
      (_twid_handler sama5d4
        (submit sama5d4 ⟨0, true, ⟨500, 2⟩, .null, 0⟩
          (exampleWorld .TWID_MODE_ASYNC [32, 4])).2) :=
    SlotReach.handled (SlotReach.submitted ⟨0, true, ⟨500, 2⟩, .null, 0⟩
      (SlotReach.start (exampleWorld .TWID_MODE_ASYNC [32, 4]) (by decide)
        (fun _ => ⟨rfl, rfl⟩))
      ⟨rfl, rfl, by decide, by decide⟩ (by decide)
      (fun i _ => by show (0 : Nat) ≠ 32; decide))
  ⟨hr, (C24_slot_table_invariant sama5d4 _ hr).1⟩

/-! ## The calls of the polling engine -/

theorem EngineExt.stay (w : World) : EngineExt w w :=
  ⟨[], by simp, by simp⟩

theorem EngineExt.more {w w1 w2 : World}
    (h1 : EngineExt w w1) (h2 : EngineExt w1 w2) : EngineExt w w2 := by
  obtain ⟨e1, t1, c1⟩ := h1
  obtain ⟨e2, t2, c2⟩ := h2
  refine ⟨e1 ++ e2, by rw [t2, t1, List.append_assoc], ?_⟩
  intro e he
  rcases List.mem_append.mp he with h | h
  · exact c1 e h
  · exact c2 e h

theorem engineExt_cmd (w : World) (c : Call) (hc : isEngineCall c = true) :
    EngineExt w (w.cmd c) :=
  ⟨[(c, 0)], rfl, by simpa using hc⟩

theorem engineExt_query (w : World) (c : Call) (hc : isEngineCall c = true) :
    EngineExt w (w.query c).2 :=
  ⟨[(c, (w.query c).1)], query_trace w c, by simpa using hc⟩

theorem engineExt_pollUntil (w : World) (c : Call) (hc : isEngineCall c = true) :
    EngineExt w (w.pollUntil c).2 := by
  refine ⟨(pollUntil c w.script).2.2, rfl, ?_⟩
  intro e he
  rcases pollUntil_calls c w.script e he with h | h
  · rw [h]; exact hc
  · rw [h]; rfl

theorem engineExt_of_trace {w w1 : World} (h : w1.trace = w.trace) : EngineExt w w1 :=
  ⟨[], by simp [h], by simp⟩

theorem engineExt_store (w : World) (a v : Nat) : EngineExt w (w.store a v) :=
  engineExt_of_trace rfl

theorem engineExt_twid_configure (chip : Chip) (desc : DescRef) (w : World) :
    EngineExt w (twid_configure chip desc w).2 := by
  unfold twid_configure
  simp only
  split_ifs <;>
    repeat first
      | exact EngineExt.stay _
      | refine EngineExt.more ?_ (engineExt_cmd _ _ rfl)
      | refine EngineExt.more ?_ (engineExt_of_trace (setDesc_trace _ _ _))

theorem engineExt_wait (chip : Chip) (desc : DescRef) (w : World) :
    EngineExt w (_twid_wait_twi_transfer chip desc w).2 := by
  unfold _twid_wait_twi_transfer
  simp only
  have h1 := (engineExt_cmd w (.timer_start_timeout (w.getDesc desc).timeout) rfl).more
    (engineExt_pollUntil _ (.twi_is_transfer_complete
      ((w.cmd (.timer_start_timeout (w.getDesc desc).timeout)).getDesc desc).addr) rfl)
  split
  · have h2 := h1.more (engineExt_twid_configure chip desc _)
    split <;> exact h2
  · exact h1

theorem engineExt_check_rx (desc : DescRef) (w : World) :
    EngineExt w (_check_rx_time_out desc w).2 := by
  unfold _check_rx_time_out
  simp only
  have h1 := (engineExt_cmd w (.timer_start_timeout (w.getDesc desc).timeout) rfl).more
    (engineExt_pollUntil _ (.twi_is_byte_received
      ((w.cmd (.timer_start_timeout (w.getDesc desc).timeout)).getDesc desc).addr) rfl)
  split <;> exact h1

theorem engineExt_check_tx (desc : DescRef) (w : World) :
    EngineExt w (_check_tx_time_out desc w).2 := by
  unfold _check_tx_time_out
  simp only
  have h1 := (engineExt_cmd w (.timer_start_timeout (w.getDesc desc).timeout) rfl).more
    (engineExt_pollUntil _ (.twi_is_byte_sent
      ((w.cmd (.timer_start_timeout (w.getDesc desc).timeout)).getDesc desc).addr) rfl)
  split <;> exact h1

theorem engineExt_check_nack (chip : Chip) (addr : Nat) (w : World) :
    EngineExt w (_check_nack chip addr w).2 := by
  unfold _check_nack
  simp only
  split <;> exact engineExt_query w _ rfl

theorem engineExt_read_loop (chip : Chip) (desc : DescRef) (addr data : Nat) (k : Nat) :
    ∀ (i : Nat) (w : World),
      EngineExt w (_twid_poll_read_loop chip desc addr data k i w).2.2 := by
  induction k with
  | zero => intro i w; exact EngineExt.stay w
  | succ k ih =>
    intro i w
    simp only [_twid_poll_read_loop]
    have h1 := engineExt_check_rx desc w
    split
    · exact h1
    · have h2 := ((h1.more (engineExt_query _ (.twi_read_byte addr) rfl)).more
        (engineExt_store _ (data + i)
          ((World.query (_check_rx_time_out desc w).2 (.twi_read_byte addr)).1 % 256))).more
        (engineExt_check_nack chip addr _)
      split
      · exact h2
      · exact h2.more (ih _ _)

theorem engineExt_write_loop (chip : Chip) (desc : DescRef) (addr data : Nat) (k : Nat) :
    ∀ (i : Nat) (w : World),
      EngineExt w (_twid_poll_write_loop chip desc addr data k i w).2 := by
  induction k with
  | zero => intro i w; exact EngineExt.stay w
  | succ k ih =>
    intro i w
    simp only [_twid_poll_write_loop]
    have h1 := engineExt_check_tx desc w
    split
    · exact h1
    · have h2 := (h1.more (engineExt_cmd _ (.twi_write_byte addr
        ((_check_tx_time_out desc w).2.mem (data + i))) rfl)).more
        (engineExt_check_nack chip addr _)
      split
      · exact h2
      · exact h2.more (ih _ _)

theorem engineExt_ite_cmd (p : Prop) [Decidable p] (w : World) (c : Call)
    (hc : isEngineCall c = true) : EngineExt w (if p then w.cmd c else w) := by
  split
  · exact engineExt_cmd w c hc
  · exact EngineExt.stay w

theorem engineExt_ite {α : Type} (w : World) (p : Prop) [Decidable p]
    (a b : α × World) (ha : EngineExt w a.2) (hb : EngineExt w b.2) :
    EngineExt w (if p then a else b).2 := by
  split <;> assumption

theorem engineExt_read_last (chip : Chip) (desc : DescRef) (buffer : Buffer) (addr i : Nat)
    (w : World) :
    EngineExt w (_twid_poll_read_last chip desc buffer addr i w).2 := by
  unfold _twid_poll_read_last
  simp only
  have h1 := (engineExt_cmd w (.twi_send_stop_condition addr) rfl).more
    (engineExt_check_nack chip addr _)
  refine engineExt_ite w _ _ _ h1 ?_
  have h2 := h1.more (engineExt_check_rx desc _)
  refine engineExt_ite w _ _ _ h2 ?_
  exact ((h2.more (engineExt_query _ (.twi_read_byte addr) rfl)).more
    (engineExt_store _ _ _)).more (engineExt_wait chip desc _)

theorem engineExt_write_rest (chip : Chip) (desc : DescRef) (buffer : Buffer) (addr : Nat)
    (w : World) :
    EngineExt w (_twid_poll_write_rest chip desc buffer addr w).2 := by
  unfold _twid_poll_write_rest
  simp only
  have h1 := engineExt_check_nack chip addr w
  refine engineExt_ite w _ _ _ h1 ?_
  have h2 := h1.more (engineExt_write_loop chip desc addr buffer.data (buffer.size - 1) 1 _)
  refine engineExt_ite w _ _ _ h2 ?_
  exact (h2.more (engineExt_ite_cmd _ _ (.twi_send_stop_condition addr) rfl)).more
    (engineExt_wait chip desc _)

theorem engineExt_read_sama5d4_core (chip : Chip) (desc : DescRef) (buffer : Buffer)
    (addr : Nat) (w : World) (l : LoopExit × Nat × World) (hl : EngineExt w l.2.2) :
    EngineExt w (if l.1 = LoopExit.ret then (some Status.TWID_ERROR_ACK, l.2.2)
      else _twid_poll_read_last chip desc buffer addr l.2.1 l.2.2).2 := by
  split
  · exact hl
  · exact hl.more (engineExt_read_last chip desc buffer addr l.2.1 l.2.2)

theorem engineExt_poll_read_sama5d4 (chip : Chip) (desc : DescRef) (buffer : Buffer)
    (w : World) :
    EngineExt w (_twid_poll_read_sama5d4 chip desc buffer w).2 := by
  unfold _twid_poll_read_sama5d4
  simp only
  refine engineExt_read_sama5d4_core chip desc buffer _ w _ ?_
  refine EngineExt.more (engineExt_cmd w (.twi_start_read (w.getDesc desc).addr
    (w.getDesc desc).slave_addr (w.getDesc desc).iaddr
    (w.getDesc desc).isize) rfl) ?_
  split
  · exact engineExt_read_loop chip desc _ _ _ _ _
  · exact EngineExt.stay _

theorem engineExt_poll_read_other (chip : Chip) (desc : DescRef) (buffer : Buffer)
    (w : World) :
    EngineExt w (_twid_poll_read_other chip desc buffer w).2 := by
  unfold _twid_poll_read_other
  simp only
  have h1 := (engineExt_ite_cmd (chip.CONFIG_HAVE_TWI_ALTERNATE_CMD = true) w
    (.twi_init_read_transfert (w.getDesc desc).addr
      (w.getDesc desc).slave_addr (w.getDesc desc).iaddr
      (w.getDesc desc).isize buffer.size) rfl).more
    (engineExt_check_nack chip (w.getDesc desc).addr _)
  refine engineExt_ite w _ _ _ h1 ?_
  have h2 := h1.more (engineExt_read_loop chip desc (w.getDesc desc).addr buffer.data
    buffer.size 0 _)
  exact engineExt_ite w _ _ _ h2 (h2.more (engineExt_wait chip desc _))

theorem engineExt_poll_read (chip : Chip) (desc : DescRef) (buffer : Buffer) (w : World) :
    EngineExt w (_twid_poll_read chip desc buffer w).2 := by
  unfold _twid_poll_read
  split
  · exact engineExt_poll_read_sama5d4 chip desc buffer w
  · exact engineExt_poll_read_other chip desc buffer w

theorem engineExt_poll_write_sama5d4 (chip : Chip) (desc : DescRef) (buffer : Buffer)
    (w : World) :
    EngineExt w (_twid_poll_write_sama5d4 chip desc buffer w).2 := by
  unfold _twid_poll_write_sama5d4
  simp only
  exact ((engineExt_cmd w (.twi_start_write (w.getDesc desc).addr
      (w.getDesc desc).slave_addr (w.getDesc desc).iaddr
      (w.getDesc desc).isize (w.mem buffer.data)) rfl).more
    (engineExt_ite_cmd _ _ (.twi_send_stop_condition (w.getDesc desc).addr) rfl)).more
    (engineExt_write_rest chip desc buffer _ _)

theorem engineExt_poll_write_other (chip : Chip) (desc : DescRef) (buffer : Buffer)
    (w : World) :
    EngineExt w (_twid_poll_write_other chip desc buffer w).2 := by
  unfold _twid_poll_write_other
  simp only
  have h1 := (engineExt_ite_cmd (chip.CONFIG_HAVE_TWI_ALTERNATE_CMD = true) w
    (.twi_init_write_transfert (w.getDesc desc).addr
      (w.getDesc desc).slave_addr (w.getDesc desc).iaddr
      (w.getDesc desc).isize buffer.size) rfl).more
    (engineExt_check_nack chip (w.getDesc desc).addr _)
  refine engineExt_ite w _ _ _ h1 ?_
  have h2 := h1.more (engineExt_write_loop chip desc (w.getDesc desc).addr buffer.data
    buffer.size 0 _)
  exact engineExt_ite w _ _ _ h2 (h2.more (engineExt_wait chip desc _))

theorem engineExt_poll_write (chip : Chip) (desc : DescRef) (buffer : Buffer) (w : World) :
    EngineExt w (_twid_poll_write chip desc buffer w).2 := by
  unfold _twid_poll_write
  split
  · exact engineExt_poll_write_sama5d4 chip desc buffer w
  · exact engineExt_poll_write_other chip desc buffer w

/-! ## The arms of the switch seen from the caller -/

@[simp] theorem lockedWorld_trace (desc : DescRef) (cb : Callback) (args : Nat) (w : World) :
    (lockedWorld desc cb args w).trace = w.trace := by
  simp [lockedWorld, mutex_try_lock]

@[simp] theorem lockedWorld_script (desc : DescRef) (cb : Callback) (args : Nat) (w : World) :
    (lockedWorld desc cb args w).script = w.script := by
  simp [lockedWorld, mutex_try_lock]

@[simp] theorem lockedWorld_mem (desc : DescRef) (cb : Callback) (args : Nat) (w : World) :
    (lockedWorld desc cb args w).mem = w.mem := by
  simp [lockedWorld, mutex_try_lock]

@[simp] theorem lockedWorld_getDesc (desc : DescRef) (cb : Callback) (args : Nat) (w : World) :
    (lockedWorld desc cb args w).getDesc desc
      = { w.getDesc desc with callback := cb, cb_args := args, mutex := true } := by
  simp [lockedWorld, mutex_try_lock]

theorem transfert_free (chip : Chip) (desc : DescRef) (rx tx : Option Buffer)
    (cb : Callback) (args : Nat) (w : World)
    (hfree : mutex_is_locked desc w = false) :
    twid_transfert chip desc rx tx cb args w
      = twid_transfert_locked chip desc rx tx cb args (lockedWorld desc cb args w) := by
  have hf : (w.getDesc desc).mutex = false := hfree
  unfold twid_transfert lockedWorld
  simp [mutex_try_lock, hf]

/-- The end of `twid_transfert` after the switch: the status and the calls are
those of the switch, and so is the world when the status is `TWID_SUCCESS`. -/
theorem transfert_locked_of_switch (chip : Chip) (desc : DescRef) (rx tx : Option Buffer)
    (cb : Callback) (args : Nat) (w : World)
    (hmode : (w.getDesc desc).transfert_mode ≠ .TWID_MODE_ASYNC) :
    (twid_transfert_locked chip desc rx tx cb args w).1
        = (twid_transfert_switch chip (w.getDesc desc).transfert_mode desc rx tx cb args w).1
    ∧ (twid_transfert_locked chip desc rx tx cb args w).2.trace
        = (twid_transfert_switch chip (w.getDesc desc).transfert_mode desc rx tx cb args w).2.trace
    ∧ ((twid_transfert_switch chip (w.getDesc desc).transfert_mode desc rx tx cb args w).1
          = some Status.TWID_SUCCESS →
        (twid_transfert_locked chip desc rx tx cb args w).2
          = (twid_transfert_switch chip (w.getDesc desc).transfert_mode desc rx tx cb args w).2) := by
  unfold twid_transfert_locked twid_transfert_tmode
  simp only [if_neg hmode]
  generalize twid_transfert_switch chip (w.getDesc desc).transfert_mode desc rx tx cb args w = sw
  obtain ⟨st, w1⟩ := sw
  cases st with
  | none => exact ⟨rfl, rfl, fun _ => rfl⟩
  | some s =>
    by_cases hs : s = Status.TWID_SUCCESS
    · subst hs; simp
    · simp [hs]

/-- The completion of a synchronous arm: on `TWID_SUCCESS` of the engine the
callback is invoked and the lock released; otherwise nothing is done. -/
theorem arm_finish (desc : DescRef) (cb : Callback) (args : Nat)
    (e : Option Status × World) :
    (match e with
      | (some Status.TWID_SUCCESS, w1) =>
        (some Status.TWID_SUCCESS, mutex_free desc
          (if cb ≠ .null then invoke_callback cb desc args w1 else w1))
      | r => r).1 = e.1
    ∧ (match e with
      | (some Status.TWID_SUCCESS, w1) =>
        (some Status.TWID_SUCCESS, mutex_free desc
          (if cb ≠ .null then invoke_callback cb desc args w1 else w1))
      | r => r).2.trace
        = e.2.trace ++ (if e.1 = some Status.TWID_SUCCESS then callbackCalls cb desc args else [])
    ∧ (e.1 = some Status.TWID_SUCCESS →
        ((match e with
          | (some Status.TWID_SUCCESS, w1) =>
            (some Status.TWID_SUCCESS, mutex_free desc
              (if cb ≠ .null then invoke_callback cb desc args w1 else w1))
          | r => r).2.getDesc desc).mutex = false) := by
  obtain ⟨st, w1⟩ := e
  split
  · rename_i w2 heq
    simp only [Prod.mk.injEq] at heq
    obtain ⟨h1, h2⟩ := heq
    subst h1 h2
    refine ⟨rfl, ?_, fun _ => mutex_free_mutex _ _⟩
    cases cb <;>
      simp [invoke_callback, callbackCalls, twid_finish_transfert_callback,
        twid_finish_transfert, mutex_free]
  · rename_i hne
    have hst : st ≠ some Status.TWID_SUCCESS := by
      intro h
      exact hne w1 (by rw [h])
    refine ⟨rfl, by simp [hst], fun h => absurd h hst⟩

theorem engineRun_ext {chip : Chip} {desc : DescRef} {w0 : World}
    {e : Option Status × World} (h : EngineRun chip desc w0 e) : EngineExt w0 e.2 := by
  rcases h with ⟨b, rfl⟩ | ⟨b, rfl⟩
  · exact engineExt_poll_write chip desc b w0
  · exact engineExt_poll_read chip desc b w0

/-- A submit in polling mode on a free descriptor with at least one buffer
runs the polling engine once, after one enable of a ready interrupt, and
finishes the arm on the result: the status is that of the engine and the only
call added to those of the engine is the callback after `TWID_SUCCESS`. -/
theorem polling_submit_engine (chip : Chip) (desc : DescRef) (rx tx : Option Buffer)
    (cb : Callback) (args : Nat) (w : World)
    (hmode : (w.getDesc desc).transfert_mode = .TWID_MODE_POLLING)
    (hfree : mutex_is_locked desc w = false)
    (hbuf : rx ≠ none ∨ tx ≠ none) :
    ∃ (mask : Nat) (e : Option Status × World),
      EngineRun chip desc
        ((lockedWorld desc cb args w).cmd (.twi_enable_it (w.getDesc desc).addr mask)) e
      ∧ (twid_transfert chip desc rx tx cb args w).1 = e.1
      ∧ (twid_transfert chip desc rx tx cb args w).2.trace
          = e.2.trace
            ++ (if e.1 = some Status.TWID_SUCCESS then callbackCalls cb desc args else [])
      ∧ (e.1 = some Status.TWID_SUCCESS →
          mutex_is_locked desc (twid_transfert chip desc rx tx cb args w).2 = false) := by
  have hm : ((lockedWorld desc cb args w).getDesc desc).transfert_mode
      = .TWID_MODE_POLLING := by
    rw [lockedWorld_getDesc]; exact hmode
  have hne : ((lockedWorld desc cb args w).getDesc desc).transfert_mode
      ≠ .TWID_MODE_ASYNC := by rw [hm]; decide
  obtain ⟨s1, s2, s3⟩ := transfert_locked_of_switch chip desc rx tx cb args
    (lockedWorld desc cb args w) hne
  rw [transfert_free chip desc rx tx cb args w hfree, s1, s2]
  rw [hm] at s3 ⊢
  have haddr : ((lockedWorld desc cb args w).getDesc desc).addr = (w.getDesc desc).addr := by
    rw [lockedWorld_getDesc]
  simp only [twid_transfert_switch] at s3 ⊢
  cases tx with
  | some t =>
    obtain ⟨a1, a2, a3⟩ := arm_finish desc cb args
      (_twid_poll_write chip desc t ((lockedWorld desc cb args w).cmd
        (.twi_enable_it ((lockedWorld desc cb args w).getDesc desc).addr chip.TWI_IER_TXRDY)))
    refine ⟨chip.TWI_IER_TXRDY, _, Or.inl ⟨t, rfl⟩, ?_, ?_, ?_⟩
    · rw [← haddr]; exact a1
    · rw [← haddr]; exact a2
    · rw [← haddr]
      intro hs
      have h3 := s3 (by unfold twid_transfert_polling; exact a1.trans hs)
      rw [h3]
      exact a3 hs
  | none =>
    cases rx with
    | some r =>
      obtain ⟨a1, a2, a3⟩ := arm_finish desc cb args
        (_twid_poll_read chip desc r ((lockedWorld desc cb args w).cmd
          (.twi_enable_it ((lockedWorld desc cb args w).getDesc desc).addr chip.TWI_IER_RXRDY)))
      refine ⟨chip.TWI_IER_RXRDY, _, Or.inr ⟨r, rfl⟩, ?_, ?_, ?_⟩
      · rw [← haddr]; exact a1
      · rw [← haddr]; exact a2
      · rw [← haddr]
        intro hs
        have h3 := s3 (by unfold twid_transfert_polling; exact a1.trans hs)
        rw [h3]
        exact a3 hs
    | none => simp at hbuf

/-- A submit in DMA mode on a free descriptor with a write buffer, or with a
read buffer alone, shorter than the threshold: the polling engine runs in the
world of the switch and the arm is finished on its result. -/
theorem dma_small_engine (chip : Chip) (desc : DescRef) (rx tx : Option Buffer)
    (cb : Callback) (args : Nat) (w : World)
    (hmode : (w.getDesc desc).transfert_mode = .TWID_MODE_DMA)
    (hfree : mutex_is_locked desc w = false)
    (hbuf : (∃ t, tx = some t ∧ t.size < TWID_DMA_THRESHOLD)
      ∨ (tx = none ∧ ∃ r, rx = some r ∧ r.size < TWID_DMA_THRESHOLD)) :
    ∃ e : Option Status × World,
      ((∃ t, tx = some t ∧ e = _twid_poll_write chip desc t (lockedWorld desc cb args w))
        ∨ (∃ r, tx = none ∧ rx = some r
            ∧ e = _twid_poll_read chip desc r (lockedWorld desc cb args w)))
      ∧ (twid_transfert chip desc rx tx cb args w).1 = e.1
      ∧ (twid_transfert chip desc rx tx cb args w).2.trace
          = e.2.trace
            ++ (if e.1 = some Status.TWID_SUCCESS then callbackCalls cb desc args else [])
      ∧ (e.1 = some Status.TWID_SUCCESS →
          mutex_is_locked desc (twid_transfert chip desc rx tx cb args w).2 = false) := by
  have hm : ((lockedWorld desc cb args w).getDesc desc).transfert_mode
      = .TWID_MODE_DMA := by
    rw [lockedWorld_getDesc]; exact hmode
  have hne : ((lockedWorld desc cb args w).getDesc desc).transfert_mode
      ≠ .TWID_MODE_ASYNC := by rw [hm]; decide
  obtain ⟨s1, s2, s3⟩ := transfert_locked_of_switch chip desc rx tx cb args
    (lockedWorld desc cb args w) hne
  rw [transfert_free chip desc rx tx cb args w hfree, s1, s2]
  rw [hm] at s3 ⊢
  simp only [twid_transfert_switch] at s3 ⊢
  rcases hbuf with ⟨t, rfl, ht⟩ | ⟨rfl, r, rfl, hr⟩
  · obtain ⟨a1, a2, a3⟩ := arm_finish desc cb args
      (_twid_poll_write chip desc t (lockedWorld desc cb args w))
    have hd : twid_transfert_dma chip desc rx (some t) cb args (lockedWorld desc cb args w)
        = (match _twid_poll_write chip desc t (lockedWorld desc cb args w) with
          | (some Status.TWID_SUCCESS, w1) =>
            (some Status.TWID_SUCCESS, mutex_free desc
              (if cb ≠ .null then invoke_callback cb desc args w1 else w1))
          | r => r) := by
      unfold twid_transfert_dma
      simp only [if_pos ht]
    rw [hd] at s3 ⊢
    refine ⟨_, Or.inl ⟨t, rfl, rfl⟩, a1, a2, ?_⟩
    intro hs
    rw [s3 (a1.trans hs)]
    exact a3 hs
  · obtain ⟨a1, a2, a3⟩ := arm_finish desc cb args
      (_twid_poll_read chip desc r (lockedWorld desc cb args w))
    have hd : twid_transfert_dma chip desc (some r) none cb args (lockedWorld desc cb args w)
        = (match _twid_poll_read chip desc r (lockedWorld desc cb args w) with
          | (some Status.TWID_SUCCESS, w1) =>
            (some Status.TWID_SUCCESS, mutex_free desc
              (if cb ≠ .null then invoke_callback cb desc args w1 else w1))
          | r => r) := by
      unfold twid_transfert_dma
      simp only [if_pos hr]
    rw [hd] at s3 ⊢
    refine ⟨_, Or.inr ⟨r, rfl, rfl, rfl⟩, a1, a2, ?_⟩
    intro hs
    rw [s3 (a1.trans hs)]
    exact a3 hs

theorem engineCall_not_callback (e : Ev) (h : isEngineCall e.1 = true) :
    isCallbackEv e = false := by
  obtain ⟨c, v⟩ := e
  cases c <;> simp_all [isEngineCall, isCallbackEv]

theorem engineCall_not_dma (e : Ev) (h : isEngineCall e.1 = true) :
    isDmaCall e.1 = false := by
  obtain ⟨c, v⟩ := e
  cases c <;> simp_all [isEngineCall, isDmaCall]

theorem filter_none {α : Type} (p : α → Bool) (l : List α) (h : ∀ x ∈ l, p x = false) :
    l.filter p = [] := by
  rw [List.filter_eq_nil_iff]
  intro x hx
  simp [h x hx]

/-- C19: a submit in polling mode on a free descriptor with at least one
buffer returns the status of the polling engine it runs.  When that status is
`TWID_SUCCESS`, an application callback is invoked exactly once, as the last
call made before the submit returns, on the descriptor of the caller and with
the user data of the submit, and the lock is free on return.  When the status
is anything else, no callback is invoked. -/
theorem C19_polling_submit_callback (chip : Chip) (desc : DescRef) (rx tx : Option Buffer)
    (cb : Callback) (args : Nat) (w : World)
    (hmode : (w.getDesc desc).transfert_mode = .TWID_MODE_POLLING)
    (hfree : mutex_is_locked desc w = false)
    (hbuf : rx ≠ none ∨ tx ≠ none) :
    (∃ (mask : Nat) (e : Option Status × World),
      EngineRun chip desc
        ((lockedWorld desc cb args w).cmd (.twi_enable_it (w.getDesc desc).addr mask)) e
      ∧ (twid_transfert chip desc rx tx cb args w).1 = e.1)
    ∧ ((twid_transfert chip desc rx tx cb args w).1 = some Status.TWID_SUCCESS →
        mutex_is_locked desc (twid_transfert chip desc rx tx cb args w).2 = false
        ∧ ∀ m, cb = .user m →
          (added w (twid_transfert chip desc rx tx cb args w).2).filter isCallbackEv
              = [(Call.callback m desc args, 0)]
          ∧ (added w (twid_transfert chip desc rx tx cb args w).2).getLast?
              = some (Call.callback m desc args, 0))
    ∧ ((twid_transfert chip desc rx tx cb args w).1 ≠ some Status.TWID_SUCCESS →
        (added w (twid_transfert chip desc rx tx cb args w).2).filter isCallbackEv = []) := by
  obtain ⟨mask, e, hrun, h1, h2, h3⟩ :=
    polling_submit_engine chip desc rx tx cb args w hmode hfree hbuf
  obtain ⟨evs, ht, hc⟩ := engineRun_ext hrun
  have hadd : added w (twid_transfert chip desc rx tx cb args w).2
      = (Call.twi_enable_it (w.getDesc desc).addr mask, 0) :: evs
        ++ (if e.1 = some Status.TWID_SUCCESS then callbackCalls cb desc args else []) := by
    apply added_eq
    rw [h2, ht]
    simp
  have hpre : ((Call.twi_enable_it (w.getDesc desc).addr mask, 0) :: evs).filter isCallbackEv
      = [] := by
    apply filter_none
    intro x hx
    rcases List.mem_cons.mp hx with h | h
    · subst h; rfl
    · exact engineCall_not_callback x (hc x h)
  refine ⟨⟨mask, e, hrun, h1⟩, ?_, ?_⟩
  · intro hs
    rw [h1] at hs
    refine ⟨h3 hs, ?_⟩
    intro m hm
    subst hm
    rw [hadd, if_pos hs]
    refine ⟨?_, ?_⟩
    · rw [List.filter_append, hpre]
      rfl
    · show (((Call.twi_enable_it (w.getDesc desc).addr mask, 0) :: evs)
          ++ [(Call.callback m desc args, 0)]).getLast? = _
      rw [List.getLast?_append]
      rfl
  · intro hs
    rw [h1] at hs
    rw [hadd, if_neg hs, List.append_nil]
    exact hpre

/-- C19 at a concrete input: a one-byte polling write that succeeds. -/
theorem C19_polling_submit_callback_witness :
    ((exampleWorld .TWID_MODE_POLLING [0, 1]).getDesc (.caller 0)).transfert_mode
        = .TWID_MODE_POLLING
    ∧ mutex_is_locked (.caller 0) (exampleWorld .TWID_MODE_POLLING [0, 1]) = false
    ∧ (twid_transfert sama5d4 (.caller 0) none (some ⟨500, 1⟩) (.user 4) 9
        (exampleWorld .TWID_MODE_POLLING [0, 1])).1 = some Status.TWID_SUCCESS
    ∧ (added (exampleWorld .TWID_MODE_POLLING [0, 1])
        (twid_transfert sama5d4 (.caller 0) none (some ⟨500, 1⟩) (.user 4) 9
          (exampleWorld .TWID_MODE_POLLING [0, 1])).2).filter isCallbackEv
        = [(Call.callback 4 (.caller 0) 9, 0)] :=
  ⟨rfl, rfl, by decide!,
    ((C19_polling_submit_callback sama5d4 (.caller 0) none (some ⟨500, 1⟩) (.user 4) 9
      (exampleWorld .TWID_MODE_POLLING [0, 1]) rfl rfl (Or.inr (by simp))).2.1
        (by decide!)).2 4 rfl |>.1⟩

theorem getDesc_script_trace (w : World) (s : List Nat) (tr : List Ev) (r : DescRef) :
    ({ w with script := s, trace := tr } : World).getDesc r = w.getDesc r := by
  cases r <;> rfl

theorem dma_write_run (chip : Chip) (desc : DescRef) (t : Buffer) (w : World)
    (ch : Nat) (rest : List Nat)
    (hid : chip.get_twi_id_from_addr (w.getDesc desc).addr < chip.ID_PERIPH_COUNT)
    (hs : w.script = ch :: rest) (hch : ch ≠ 0) :
    _twid_dma_write chip desc t w
      = (true, { w with script := rest,
                        trace := w.trace ++ dmaWriteCalls chip (w.getDesc desc) desc t ch }) := by
  unfold _twid_dma_write _twid_init_dma_write_channel
  simp only [if_neg (not_not.mpr hid), query_cons w _ ch rest hs, if_neg hch]
  simp [dmaWriteCalls, World.cmd, getDesc_script_trace]

theorem dma_read_run (chip : Chip) (desc : DescRef) (r : Buffer) (w : World)
    (ch : Nat) (rest : List Nat)
    (hid : chip.get_twi_id_from_addr (w.getDesc desc).addr < chip.ID_PERIPH_COUNT)
    (hs : w.script = ch :: rest) (hch : ch ≠ 0) :
    _twid_dma_read chip desc r w
      = (true, { w with script := rest,
                        trace := w.trace ++ dmaReadCalls chip (w.getDesc desc) desc r ch }) := by
  unfold _twid_dma_read _twid_init_dma_read_channel
  simp only [if_neg (not_not.mpr hid), query_cons w _ ch rest hs, if_neg hch]
  simp [dmaReadCalls, World.cmd, getDesc_script_trace]

/-- The record of the optional `twi_init_write_transfert` of builds with the
alternate command. -/
theorem ite_cmd_trace (p : Prop) [Decidable p] (w : World) (c : Call) :
    (if p then w.cmd c else w).trace = w.trace ++ (if p then [(c, 0)] else [])
    ∧ (if p then w.cmd c else w).script = w.script
    ∧ ∀ r, (if p then w.cmd c else w).getDesc r = w.getDesc r := by
  split
  · exact ⟨rfl, rfl, fun r => getDesc_cmd w c r⟩
  · exact ⟨by simp, rfl, fun _ => rfl⟩

/-- The arm `case TWID_MODE_DMA` for a write buffer of at least the threshold,
when the DMA engine hands out a channel. -/
theorem dma_arm_write (chip : Chip) (desc : DescRef) (rx : Option Buffer)
    (t : Buffer) (cb : Callback) (args : Nat) (w : World) (ch : Nat) (rest : List Nat)
    (hsize : TWID_DMA_THRESHOLD ≤ t.size)
    (hid : chip.get_twi_id_from_addr (w.getDesc desc).addr < chip.ID_PERIPH_COUNT)
    (hs : w.script = ch :: rest) (hch : ch ≠ 0) :
    (twid_transfert_dma chip desc rx (some t) cb args w).1 = some Status.TWID_SUCCESS
    ∧ (twid_transfert_dma chip desc rx (some t) cb args w).2.trace
        = w.trace
          ++ (if chip.CONFIG_HAVE_TWI_ALTERNATE_CMD = true then
              [(Call.twi_init_write_transfert (w.getDesc desc).addr (w.getDesc desc).slave_addr
                (w.getDesc desc).iaddr (w.getDesc desc).isize t.size, 0)]
            else [])
          ++ dmaWriteCalls chip
              { w.getDesc desc with region_start := t.data, region_length := t.size } desc t ch
    ∧ (twid_transfert_dma chip desc rx (some t) cb args w).2.getDesc desc
        = { w.getDesc desc with region_start := t.data, region_length := t.size } := by
  unfold twid_transfert_dma
  simp only [if_neg (Nat.not_lt.mpr hsize)]
  obtain ⟨i1, i2, i3⟩ := ite_cmd_trace (chip.CONFIG_HAVE_TWI_ALTERNATE_CMD = true) w
    (.twi_init_write_transfert (w.getDesc desc).addr (w.getDesc desc).slave_addr
      (w.getDesc desc).iaddr (w.getDesc desc).isize t.size)
  generalize (if chip.CONFIG_HAVE_TWI_ALTERNATE_CMD = true then
      w.cmd (.twi_init_write_transfert (w.getDesc desc).addr (w.getDesc desc).slave_addr
        (w.getDesc desc).iaddr (w.getDesc desc).isize t.size)
    else w) = w1 at i1 i2 i3 ⊢
  have h := dma_write_run chip desc t
    ((w1.setDesc desc { w1.getDesc desc with region_start := t.data }).setDesc desc
      { (w1.setDesc desc { w1.getDesc desc with region_start := t.data }).getDesc desc with
        region_length := t.size }) ch rest
    (by simp [i3]; exact hid) (by simp [i2]; exact hs) hch
  rw [h]
  refine ⟨by simp, ?_, ?_⟩
  · simp only [getDesc_script_trace, getDesc_setDesc, setDesc_trace, i1, i3,
      List.append_assoc, if_true]
  · simp only [getDesc_script_trace, getDesc_setDesc, i3, if_true]

/-- The arm `case TWID_MODE_DMA` for a read buffer alone of at least the
threshold, when the status read reports no NACK and the DMA engine hands out
a channel. -/
theorem dma_arm_read (chip : Chip) (desc : DescRef)
    (r : Buffer) (cb : Callback) (args : Nat) (w : World) (v ch : Nat) (rest : List Nat)
    (hsize : TWID_DMA_THRESHOLD ≤ r.size)
    (hid : chip.get_twi_id_from_addr (w.getDesc desc).addr < chip.ID_PERIPH_COUNT)
    (hs : w.script = v :: ch :: rest) (hv : v &&& chip.TWI_SR_NACK = 0) (hch : ch ≠ 0) :
    (twid_transfert_dma chip desc (some r) none cb args w).1 = some Status.TWID_SUCCESS
    ∧ (twid_transfert_dma chip desc (some r) none cb args w).2.trace
        = w.trace
          ++ (if chip.CONFIG_HAVE_TWI_ALTERNATE_CMD = true then
              [(Call.twi_init_read_transfert (w.getDesc desc).addr (w.getDesc desc).slave_addr
                (w.getDesc desc).iaddr (w.getDesc desc).isize r.size, 0)]
            else [])
          ++ [(Call.twi_get_status (w.getDesc desc).addr, v)]
          ++ dmaReadCalls chip
              { w.getDesc desc with region_start := r.data, region_length := r.size } desc r ch
    ∧ (twid_transfert_dma chip desc (some r) none cb args w).2.getDesc desc
        = { w.getDesc desc with region_start := r.data, region_length := r.size } := by
  unfold twid_transfert_dma
  simp only [if_neg (Nat.not_lt.mpr hsize)]
  obtain ⟨i1, i2, i3⟩ := ite_cmd_trace (chip.CONFIG_HAVE_TWI_ALTERNATE_CMD = true) w
    (.twi_init_read_transfert (w.getDesc desc).addr (w.getDesc desc).slave_addr
      (w.getDesc desc).iaddr (w.getDesc desc).isize r.size)
  generalize (if chip.CONFIG_HAVE_TWI_ALTERNATE_CMD = true then
      w.cmd (.twi_init_read_transfert (w.getDesc desc).addr (w.getDesc desc).slave_addr
        (w.getDesc desc).iaddr (w.getDesc desc).isize r.size)
    else w) = w1 at i1 i2 i3 ⊢
  have hq := query_cons
    ((w1.setDesc desc { w1.getDesc desc with region_start := r.data }).setDesc desc
      { (w1.setDesc desc { w1.getDesc desc with region_start := r.data }).getDesc desc with
        region_length := r.size })
    (.twi_get_status (((w1.setDesc desc { w1.getDesc desc with region_start := r.data }).setDesc
      desc { (w1.setDesc desc { w1.getDesc desc with region_start := r.data }).getDesc desc with
        region_length := r.size }).getDesc desc).addr) v (ch :: rest)
    (by simp [i2]; exact hs)
  rw [hq]
  simp only [hv, ne_eq, not_true_eq_false, if_false]
  have h := dma_read_run chip desc r
    { ((w1.setDesc desc { w1.getDesc desc with region_start := r.data }).setDesc desc
      { (w1.setDesc desc { w1.getDesc desc with region_start := r.data }).getDesc desc with
        region_length := r.size }) with
      script := ch :: rest,
      trace := ((w1.setDesc desc { w1.getDesc desc with region_start := r.data }).setDesc desc
        { (w1.setDesc desc { w1.getDesc desc with region_start := r.data }).getDesc desc with
          region_length := r.size }).trace
        ++ [(Call.twi_get_status (((w1.setDesc desc
            { w1.getDesc desc with region_start := r.data }).setDesc
          desc { (w1.setDesc desc { w1.getDesc desc with region_start := r.data }).getDesc desc
            with region_length := r.size }).getDesc desc).addr, v)] } ch rest
    (by simp only [getDesc_script_trace, getDesc_setDesc, i3]; exact hid) rfl hch
  rw [h]
  refine ⟨by simp, ?_, ?_⟩
  · simp only [getDesc_script_trace, getDesc_setDesc, setDesc_trace, i1, i3,
      List.append_assoc, if_true]
  · simp only [getDesc_script_trace, getDesc_setDesc, i3, if_true]

/-- A submit in a mode other than the asynchronous one on a free descriptor:
the status and the calls are those of the arm run in the world of the switch,
and so is the descriptor when the arm returns `TWID_SUCCESS`. -/
theorem transfert_of_arm (chip : Chip) (desc : DescRef) (rx tx : Option Buffer)
    (cb : Callback) (args : Nat) (w : World)
    (hmode : (w.getDesc desc).transfert_mode ≠ .TWID_MODE_ASYNC)
    (hfree : mutex_is_locked desc w = false) :
    (twid_transfert chip desc rx tx cb args w).1
        = (twid_transfert_switch chip (w.getDesc desc).transfert_mode desc rx tx cb args
            (lockedWorld desc cb args w)).1
    ∧ (twid_transfert chip desc rx tx cb args w).2.trace
        = (twid_transfert_switch chip (w.getDesc desc).transfert_mode desc rx tx cb args
            (lockedWorld desc cb args w)).2.trace
    ∧ ((twid_transfert_switch chip (w.getDesc desc).transfert_mode desc rx tx cb args
            (lockedWorld desc cb args w)).1 = some Status.TWID_SUCCESS →
        (twid_transfert chip desc rx tx cb args w).2
          = (twid_transfert_switch chip (w.getDesc desc).transfert_mode desc rx tx cb args
              (lockedWorld desc cb args w)).2) := by
  have hm : ((lockedWorld desc cb args w).getDesc desc).transfert_mode
      = (w.getDesc desc).transfert_mode := by
    rw [lockedWorld_getDesc]
  have hne : ((lockedWorld desc cb args w).getDesc desc).transfert_mode
      ≠ .TWID_MODE_ASYNC := by rw [hm]; exact hmode
  have h := transfert_locked_of_switch chip desc rx tx cb args (lockedWorld desc cb args w) hne
  rw [hm] at h
  rw [transfert_free chip desc rx tx cb args w hfree]
  exact h

theorem dma_big_write_submit (chip : Chip) (desc : DescRef) (rx : Option Buffer)
    (t : Buffer) (cb : Callback) (args : Nat) (w : World) (ch : Nat) (rest : List Nat)
    (hmode : (w.getDesc desc).transfert_mode = .TWID_MODE_DMA)
    (hfree : mutex_is_locked desc w = false)
    (hsize : TWID_DMA_THRESHOLD ≤ t.size)
    (hid : chip.get_twi_id_from_addr (w.getDesc desc).addr < chip.ID_PERIPH_COUNT)
    (hs : w.script = ch :: rest) (hch : ch ≠ 0) :
    (twid_transfert chip desc rx (some t) cb args w).1 = some Status.TWID_SUCCESS
    ∧ added w (twid_transfert chip desc rx (some t) cb args w).2
        = (if chip.CONFIG_HAVE_TWI_ALTERNATE_CMD = true then
              [(Call.twi_init_write_transfert (w.getDesc desc).addr (w.getDesc desc).slave_addr
                (w.getDesc desc).iaddr (w.getDesc desc).isize t.size, 0)]
            else [])
          ++ dmaWriteCalls chip
              { w.getDesc desc with region_start := t.data, region_length := t.size } desc t ch
    ∧ (twid_transfert chip desc rx (some t) cb args w).2.getDesc desc
        = { w.getDesc desc with
            callback := cb, cb_args := args, mutex := true,
            region_start := t.data, region_length := t.size } := by
  obtain ⟨s1, s2, s3⟩ := transfert_of_arm chip desc rx (some t) cb args w
    (by rw [hmode]; decide) hfree
  rw [hmode] at s1 s2 s3
  simp only [twid_transfert_switch] at s1 s2 s3
  obtain ⟨a1, a2, a3⟩ := dma_arm_write chip desc rx t cb args (lockedWorld desc cb args w)
    ch rest hsize (by rw [lockedWorld_getDesc]; exact hid) (by simp [hs]) hch
  refine ⟨s1.trans a1, ?_, ?_⟩
  · apply added_eq
    rw [s2, a2]
    simp only [lockedWorld_trace, lockedWorld_getDesc, List.append_assoc, dmaWriteCalls]
  · rw [s3 a1, a3, lockedWorld_getDesc]

theorem dma_big_read_submit (chip : Chip) (desc : DescRef)
    (r : Buffer) (cb : Callback) (args : Nat) (w : World) (v ch : Nat) (rest : List Nat)
    (hmode : (w.getDesc desc).transfert_mode = .TWID_MODE_DMA)
    (hfree : mutex_is_locked desc w = false)
    (hsize : TWID_DMA_THRESHOLD ≤ r.size)
    (hid : chip.get_twi_id_from_addr (w.getDesc desc).addr < chip.ID_PERIPH_COUNT)
    (hs : w.script = v :: ch :: rest) (hv : v &&& chip.TWI_SR_NACK = 0) (hch : ch ≠ 0) :
    (twid_transfert chip desc (some r) none cb args w).1 = some Status.TWID_SUCCESS
    ∧ added w (twid_transfert chip desc (some r) none cb args w).2
        = (if chip.CONFIG_HAVE_TWI_ALTERNATE_CMD = true then
              [(Call.twi_init_read_transfert (w.getDesc desc).addr (w.getDesc desc).slave_addr
                (w.getDesc desc).iaddr (w.getDesc desc).isize r.size, 0)]
            else [])
          ++ [(Call.twi_get_status (w.getDesc desc).addr, v)]
          ++ dmaReadCalls chip
              { w.getDesc desc with region_start := r.data, region_length := r.size } desc r ch
    ∧ (twid_transfert chip desc (some r) none cb args w).2.getDesc desc
        = { w.getDesc desc with
            callback := cb, cb_args := args, mutex := true,
            region_start := r.data, region_length := r.size } := by
  obtain ⟨s1, s2, s3⟩ := transfert_of_arm chip desc (some r) none cb args w
    (by rw [hmode]; decide) hfree
  rw [hmode] at s1 s2 s3
  simp only [twid_transfert_switch] at s1 s2 s3
  obtain ⟨a1, a2, a3⟩ := dma_arm_read chip desc r cb args (lockedWorld desc cb args w)
    v ch rest hsize (by rw [lockedWorld_getDesc]; exact hid) (by simp [hs]) hv hch
  refine ⟨s1.trans a1, ?_, ?_⟩
  · apply added_eq
    rw [s2, a2]
    simp only [lockedWorld_trace, lockedWorld_getDesc, List.append_assoc, dmaReadCalls]
  · rw [s3 a1, a3, lockedWorld_getDesc]

/-- A submit in DMA mode with a buffer shorter than the threshold: status and
calls are those of the polling engine, followed by the callback on success;
no call to the DMA engine is made. -/
theorem dma_small_submit (chip : Chip) (desc : DescRef) (rx tx : Option Buffer)
    (cb : Callback) (args : Nat) (w : World)
    (hmode : (w.getDesc desc).transfert_mode = .TWID_MODE_DMA)
    (hfree : mutex_is_locked desc w = false)
    (hbuf : (∃ t, tx = some t ∧ t.size < TWID_DMA_THRESHOLD)
      ∨ (tx = none ∧ ∃ r, rx = some r ∧ r.size < TWID_DMA_THRESHOLD)) :
    ∃ e : Option Status × World,
      ((∃ t, tx = some t ∧ e = _twid_poll_write chip desc t (lockedWorld desc cb args w))
        ∨ (∃ r, tx = none ∧ rx = some r
            ∧ e = _twid_poll_read chip desc r (lockedWorld desc cb args w)))
      ∧ (twid_transfert chip desc rx tx cb args w).1 = e.1
      ∧ added w (twid_transfert chip desc rx tx cb args w).2
          = added (lockedWorld desc cb args w) e.2
            ++ (if e.1 = some Status.TWID_SUCCESS then callbackCalls cb desc args else [])
      ∧ (∀ x ∈ added w (twid_transfert chip desc rx tx cb args w).2, isDmaCall x.1 = false)
      ∧ (e.1 = some Status.TWID_SUCCESS →
          mutex_is_locked desc (twid_transfert chip desc rx tx cb args w).2 = false) := by
  obtain ⟨e, he, h1, h2, h3⟩ := dma_small_engine chip desc rx tx cb args w hmode hfree hbuf
  have hext : EngineExt (lockedWorld desc cb args w) e.2 := by
    rcases he with ⟨t, _, rfl⟩ | ⟨r, _, _, rfl⟩
    · exact engineExt_poll_write chip desc t _
    · exact engineExt_poll_read chip desc r _
  obtain ⟨evs, ht, hc⟩ := hext
  have hadd : added w (twid_transfert chip desc rx tx cb args w).2
      = evs ++ (if e.1 = some Status.TWID_SUCCESS then callbackCalls cb desc args else []) := by
    apply added_eq
    rw [h2, ht]
    simp
  refine ⟨e, he, h1, ?_, ?_, h3⟩
  · rw [hadd, added_eq ht]
  · rw [hadd]
    intro x hx
    rcases List.mem_append.mp hx with h | h
    · exact engineCall_not_dma x (hc x h)
    · split at h
      · cases cb <;> simp [callbackCalls] at h
        subst h
        rfl
      · simp at h

/-- C12: a submit in DMA mode on a free descriptor with exactly one buffer
`b`, the threshold being 16.  If `b` is shorter than 16 bytes the status and
the calls are those of the polling engine run on `b` (followed by the callback
on success) and no call to the DMA engine is made.  If `b` has 16 bytes or
more, the assertion on the peripheral identifier holds and the DMA engine
hands out a channel (and, for a read, the status read reports no NACK), the
recorded calls are those of `_twid_dma_write` (`_twid_dma_read`): a transfer
of `b.size` bytes is configured and started on that channel; the submit
returns `TWID_SUCCESS`, the descriptor is busy and no callback was invoked. -/
theorem C12_dma_submit (chip : Chip) (desc : DescRef) (b : Buffer)
    (cb : Callback) (args : Nat) (w : World)
    (hmode : (w.getDesc desc).transfert_mode = .TWID_MODE_DMA)
    (hfree : mutex_is_locked desc w = false) :
    TWID_DMA_THRESHOLD = 16
    ∧ (b.size < 16 →
        ((twid_transfert chip desc none (some b) cb args w).1
            = (_twid_poll_write chip desc b (lockedWorld desc cb args w)).1
          ∧ added w (twid_transfert chip desc none (some b) cb args w).2
            = added (lockedWorld desc cb args w)
                (_twid_poll_write chip desc b (lockedWorld desc cb args w)).2
              ++ (if (_twid_poll_write chip desc b (lockedWorld desc cb args w)).1
                    = some Status.TWID_SUCCESS then callbackCalls cb desc args else [])
          ∧ ∀ x ∈ added w (twid_transfert chip desc none (some b) cb args w).2,
              isDmaCall x.1 = false)
        ∧ ((twid_transfert chip desc (some b) none cb args w).1
            = (_twid_poll_read chip desc b (lockedWorld desc cb args w)).1
          ∧ added w (twid_transfert chip desc (some b) none cb args w).2
            = added (lockedWorld desc cb args w)
                (_twid_poll_read chip desc b (lockedWorld desc cb args w)).2
              ++ (if (_twid_poll_read chip desc b (lockedWorld desc cb args w)).1
                    = some Status.TWID_SUCCESS then callbackCalls cb desc args else [])
          ∧ ∀ x ∈ added w (twid_transfert chip desc (some b) none cb args w).2,
              isDmaCall x.1 = false))
    ∧ (16 ≤ b.size →
        chip.get_twi_id_from_addr (w.getDesc desc).addr < chip.ID_PERIPH_COUNT →
        (∀ ch rest, w.script = ch :: rest → ch ≠ 0 →
          (twid_transfert chip desc none (some b) cb args w).1 = some Status.TWID_SUCCESS
          ∧ added w (twid_transfert chip desc none (some b) cb args w).2
            = (if chip.CONFIG_HAVE_TWI_ALTERNATE_CMD = true then
                  [(Call.twi_init_write_transfert (w.getDesc desc).addr
                    (w.getDesc desc).slave_addr (w.getDesc desc).iaddr
                    (w.getDesc desc).isize b.size, 0)]
                else [])
              ++ dmaWriteCalls chip
                  { w.getDesc desc with region_start := b.data, region_length := b.size }
                  desc b ch
          ∧ twid_is_busy desc (twid_transfert chip desc none (some b) cb args w).2 = true
          ∧ (added w (twid_transfert chip desc none (some b) cb args w).2).filter
              isCallbackEv = [])
        ∧ (∀ v ch rest, w.script = v :: ch :: rest → v &&& chip.TWI_SR_NACK = 0 → ch ≠ 0 →
          (twid_transfert chip desc (some b) none cb args w).1 = some Status.TWID_SUCCESS
          ∧ added w (twid_transfert chip desc (some b) none cb args w).2
            = (if chip.CONFIG_HAVE_TWI_ALTERNATE_CMD = true then
                  [(Call.twi_init_read_transfert (w.getDesc desc).addr
                    (w.getDesc desc).slave_addr (w.getDesc desc).iaddr
                    (w.getDesc desc).isize b.size, 0)]
                else [])
              ++ [(Call.twi_get_status (w.getDesc desc).addr, v)]
              ++ dmaReadCalls chip
                  { w.getDesc desc with region_start := b.data, region_length := b.size }
                  desc b ch
          ∧ twid_is_busy desc (twid_transfert chip desc (some b) none cb args w).2 = true
          ∧ (added w (twid_transfert chip desc (some b) none cb args w).2).filter
              isCallbackEv = [])) := by
  refine ⟨rfl, ?_, ?_⟩
  · intro hsmall
    constructor
    · obtain ⟨e, he, h1, h2, h3, _⟩ := dma_small_submit chip desc none (some b) cb args w
        hmode hfree (Or.inl ⟨b, rfl, hsmall⟩)
      rcases he with ⟨t, ht, rfl⟩ | ⟨r, ht, _, _⟩
      · cases ht
        exact ⟨h1, h2, h3⟩
      · cases ht
    · obtain ⟨e, he, h1, h2, h3, _⟩ := dma_small_submit chip desc (some b) none cb args w
        hmode hfree (Or.inr ⟨rfl, b, rfl, hsmall⟩)
      rcases he with ⟨t, ht, _⟩ | ⟨r, _, hr, rfl⟩
      · cases ht
      · cases hr
        exact ⟨h1, h2, h3⟩
  · intro hbig hid
    constructor
    · intro ch rest hs hch
      obtain ⟨d1, d2, d3⟩ := dma_big_write_submit chip desc none b cb args w ch rest
        hmode hfree hbig hid hs hch
      refine ⟨d1, d2, by simp [twid_is_busy, mutex_is_locked, d3], ?_⟩
      rw [d2]
      apply filter_none
      intro x hx
      simp only [dmaWriteCalls, List.mem_append, List.mem_cons, List.mem_singleton,
        List.not_mem_nil, or_false] at hx
      rcases hx with h | h
      · split at h
        · simp only [List.mem_singleton] at h
          subst h; rfl
        · simp at h
      · rcases h with h | h | h | h | h | h <;> (subst h; rfl)
    · intro v ch rest hs hv hch
      obtain ⟨d1, d2, d3⟩ := dma_big_read_submit chip desc b cb args w v ch rest
        hmode hfree hbig hid hs hv hch
      refine ⟨d1, d2, by simp [twid_is_busy, mutex_is_locked, d3], ?_⟩
      rw [d2]
      apply filter_none
      intro x hx
      simp only [dmaReadCalls, List.mem_append, List.mem_cons, List.mem_singleton,
        List.not_mem_nil, or_false] at hx
      rcases hx with (h | h) | h
      · split at h
        · simp only [List.mem_singleton] at h
          subst h; rfl
        · simp at h
      · subst h; rfl
      · rcases h with h | h | h | h | h | h <;> (subst h; rfl)

/-- C12 at a concrete input: a write of 16 bytes on controller 1000, the DMA
engine handing out channel 5. -/
theorem C12_dma_submit_witness :
    ((exampleWorld .TWID_MODE_DMA [5]).getDesc (.caller 0)).transfert_mode = .TWID_MODE_DMA
    ∧ mutex_is_locked (.caller 0) (exampleWorld .TWID_MODE_DMA [5]) = false
    ∧ (twid_transfert sama5d4 (.caller 0) none (some ⟨500, 16⟩) (.user 1) 0
        (exampleWorld .TWID_MODE_DMA [5])).1 = some Status.TWID_SUCCESS
    ∧ twid_is_busy (.caller 0)
        (twid_transfert sama5d4 (.caller 0) none (some ⟨500, 16⟩) (.user 1) 0
          (exampleWorld .TWID_MODE_DMA [5])).2 = true :=
  ⟨rfl, rfl,
    (((C12_dma_submit sama5d4 (.caller 0) ⟨500, 16⟩ (.user 1) 0
      (exampleWorld .TWID_MODE_DMA [5]) rfl rfl).2.2 (by decide) (by decide)).1
        5 [] rfl (by decide)).1,
    (((C12_dma_submit sama5d4 (.caller 0) ⟨500, 16⟩ (.user 1) 0
      (exampleWorld .TWID_MODE_DMA [5]) rfl rfl).2.2 (by decide) (by decide)).1
        5 [] rfl (by decide)).2.2.1⟩

/-- C13: DMA mode, a buffer `b` of at least 16 bytes, the assertion on the
peripheral identifier holding and the DMA engine handing out a channel.  For a
write, the last two calls of the submit are the cache clean of exactly
`(b.data, b.size)` and then the start of the DMA transfer, and no earlier call
of the submit is a cache clean or a start.  For a read (no NACK reported) with
an application callback and a non-null data pointer, the completion wrapper
`_twid_xdmad_callback_wrapper`, run on the descriptor as the submit left it,
frees the channel, invalidates the cache over exactly `(b.data, b.size)` and
then invokes the callback, in this order and nothing else. -/
theorem C13_dma_cache_maintenance (chip : Chip) (desc : DescRef) (b : Buffer)
    (cb : Callback) (args : Nat) (w : World)
    (hmode : (w.getDesc desc).transfert_mode = .TWID_MODE_DMA)
    (hfree : mutex_is_locked desc w = false)
    (hsize : 16 ≤ b.size)
    (hid : chip.get_twi_id_from_addr (w.getDesc desc).addr < chip.ID_PERIPH_COUNT) :
    (∀ ch rest, w.script = ch :: rest → ch ≠ 0 →
      ∃ pre, added w (twid_transfert chip desc none (some b) cb args w).2
          = pre ++ [(Call.cache_clean_region b.data b.size, 0),
                    (Call.xdmad_start_transfer ch, 0)]
        ∧ ∀ e ∈ pre, (∀ a l, e.1 ≠ Call.cache_clean_region a l)
            ∧ ∀ c, e.1 ≠ Call.xdmad_start_transfer c)
    ∧ (∀ v ch rest m (w2 : World), w.script = v :: ch :: rest → v &&& chip.TWI_SR_NACK = 0 →
        ch ≠ 0 → cb = .user m → b.data ≠ 0 →
        w2.getDesc desc
          = (twid_transfert chip desc (some b) none cb args w).2.getDesc desc →
        added w2 (_twid_xdmad_callback_wrapper ch desc w2)
          = [(Call.xdmad_free_channel ch, 0),
             (Call.cache_invalidate_region b.data b.size, 0),
             (Call.callback m desc args, 0)]) := by
  constructor
  · intro ch rest hs hch
    obtain ⟨_, d2, _⟩ := dma_big_write_submit chip desc none b cb args w ch rest
      hmode hfree hsize hid hs hch
    refine ⟨(if chip.CONFIG_HAVE_TWI_ALTERNATE_CMD = true then
                  [(Call.twi_init_write_transfert (w.getDesc desc).addr
                    (w.getDesc desc).slave_addr (w.getDesc desc).iaddr
                    (w.getDesc desc).isize b.size, 0)]
                else [])
        ++ (dmaWriteCalls chip
              { w.getDesc desc with region_start := b.data, region_length := b.size }
              desc b ch).take 4, ?_, ?_⟩
    · rw [d2]
      simp [dmaWriteCalls]
    · intro e he
      simp only [dmaWriteCalls, List.take, List.mem_append, List.mem_cons,
        List.not_mem_nil, or_false] at he
      rcases he with h | h
      · split at h
        · simp only [List.mem_singleton] at h
          subst h
          exact ⟨fun _ _ => by simp, fun _ => by simp⟩
        · simp at h
      · rcases h with h | h | h | h <;>
          (subst h; exact ⟨fun _ _ => by simp, fun _ => by simp⟩)
  · intro v ch rest m w2 hs hv hch hcb hdata hw2
    subst hcb
    obtain ⟨_, _, d3⟩ := dma_big_read_submit chip desc b (.user m) args w v ch rest
      hmode hfree hsize hid hs hv hch
    rw [d3] at hw2
    have hlen : b.size ≠ 0 := by omega
    apply added_eq
    unfold _twid_xdmad_callback_wrapper
    simp [getDesc_cmd, hw2, hdata, hlen, invoke_callback]

/-- C13 at a concrete input: a read of 16 bytes into the buffer at 600. -/
theorem C13_dma_cache_maintenance_witness :
    ((exampleWorld .TWID_MODE_DMA [0, 5]).getDesc (.caller 0)).transfert_mode = .TWID_MODE_DMA
    ∧ mutex_is_locked (.caller 0) (exampleWorld .TWID_MODE_DMA [0, 5]) = false
    ∧ 16 ≤ (⟨600, 16⟩ : Buffer).size
    ∧ sama5d4.get_twi_id_from_addr
        ((exampleWorld .TWID_MODE_DMA [0, 5]).getDesc (.caller 0)).addr < sama5d4.ID_PERIPH_COUNT
    ∧ added (twid_transfert sama5d4 (.caller 0) (some ⟨600, 16⟩) none (.user 3) 8
          (exampleWorld .TWID_MODE_DMA [0, 5])).2
        (_twid_xdmad_callback_wrapper 5 (.caller 0)
          (twid_transfert sama5d4 (.caller 0) (some ⟨600, 16⟩) none (.user 3) 8
            (exampleWorld .TWID_MODE_DMA [0, 5])).2)
        = [(Call.xdmad_free_channel 5, 0),
           (Call.cache_invalidate_region 600 16, 0),
           (Call.callback 3 (.caller 0) 8, 0)] :=
  ⟨rfl, rfl, by decide, by decide,
    (C13_dma_cache_maintenance sama5d4 (.caller 0) ⟨600, 16⟩ (.user 3) 8
      (exampleWorld .TWID_MODE_DMA [0, 5]) rfl rfl (by decide) (by decide)).2
        0 5 [] 3 _ rfl (by decide) (by decide) rfl (by decide) rfl⟩

/-! ## Bytes moved by a polling transfer that succeeds -/

theorem obsWrites_no_expired (mem : Nat → Nat) (k : Nat) :
    ∀ a, Obs.expired ∉ obsWrites mem a k := by
  induction k with
  | zero => intro a; simp [obsWrites]
  | succ k ih => intro a; simpa [obsWrites] using ih (a + 1)

/-- C29 fails as stated: a three-byte polling write whose first byte wait
reaches its deadline stops after byte 0 and still returns `TWID_SUCCESS`,
because the final wait finds the transfer complete; the bytes `0x34` and
`0x56` are never handed to the controller. -/
theorem C29_counterexample :
    (_twid_poll_write sama5d4 (.caller 0) ⟨500, 3⟩
        (exampleWorld .TWID_MODE_POLLING [0, 0, 1, 1])).1 = some Status.TWID_SUCCESS
    ∧ observe sama5d4 (added (exampleWorld .TWID_MODE_POLLING [0, 0, 1, 1])
        (_twid_poll_write sama5d4 (.caller 0) ⟨500, 3⟩
          (exampleWorld .TWID_MODE_POLLING [0, 0, 1, 1])).2)
      = [Obs.start_write 0x12, Obs.expired, Obs.stop] := by
  constructor <;> rfl

/-- C29 (amended): when a polling write (the build with explicit stop
conditions) returns `TWID_SUCCESS` and no wait of the run found its deadline
reached, the bytes handed to the controller are exactly the bytes of the
buffer, each once and in buffer order: byte 0 by start-write, then the bytes
`1 .. size - 1` by write-byte, then the stop condition (for a one-byte buffer
the stop condition directly follows start-write). -/
theorem C29_poll_write_bytes (chip : Chip) (desc : DescRef) (buffer : Buffer) (w : World)
    (hs : (_twid_poll_write_sama5d4 chip desc buffer w).1 = some Status.TWID_SUCCESS)
    (hno : Obs.expired ∉ observe chip
      (added w (_twid_poll_write_sama5d4 chip desc buffer w).2)) :
    observe chip (added w (_twid_poll_write_sama5d4 chip desc buffer w).2)
      = Obs.start_write (w.mem buffer.data)
        :: (obsWrites w.mem (buffer.data + 1) (buffer.size - 1) ++ [Obs.stop]) := by
  simp only [_twid_poll_write_sama5d4] at hs hno ⊢
  have hstart := obsd_cmd chip w (.twi_start_write (w.getDesc desc).addr
    (w.getDesc desc).slave_addr (w.getDesc desc).iaddr (w.getDesc desc).isize
    (w.mem buffer.data))
  have hstop : Obsd chip
      (w.cmd (.twi_start_write (w.getDesc desc).addr
        (w.getDesc desc).slave_addr (w.getDesc desc).iaddr (w.getDesc desc).isize
        (w.mem buffer.data)))
      (if buffer.size = 1 then
        (w.cmd (.twi_start_write (w.getDesc desc).addr
          (w.getDesc desc).slave_addr (w.getDesc desc).iaddr (w.getDesc desc).isize
          (w.mem buffer.data))).cmd (.twi_send_stop_condition (w.getDesc desc).addr)
       else w.cmd (.twi_start_write (w.getDesc desc).addr
          (w.getDesc desc).slave_addr (w.getDesc desc).iaddr (w.getDesc desc).isize
          (w.mem buffer.data)))
      (if buffer.size = 1 then [Obs.stop] else []) := by
    split
    · exact obsd_cmd chip _ _
    · exact Obsd.nil chip _
  have hmem : (if buffer.size = 1 then
        (w.cmd (.twi_start_write (w.getDesc desc).addr
          (w.getDesc desc).slave_addr (w.getDesc desc).iaddr (w.getDesc desc).isize
          (w.mem buffer.data))).cmd (.twi_send_stop_condition (w.getDesc desc).addr)
       else w.cmd (.twi_start_write (w.getDesc desc).addr
          (w.getDesc desc).slave_addr (w.getDesc desc).iaddr (w.getDesc desc).isize
          (w.mem buffer.data))).mem = w.mem := by
    split <;> rfl
  generalize (if buffer.size = 1 then
        (w.cmd (.twi_start_write (w.getDesc desc).addr
          (w.getDesc desc).slave_addr (w.getDesc desc).iaddr (w.getDesc desc).isize
          (w.mem buffer.data))).cmd (.twi_send_stop_condition (w.getDesc desc).addr)
       else w.cmd (.twi_start_write (w.getDesc desc).addr
          (w.getDesc desc).slave_addr (w.getDesc desc).iaddr (w.getDesc desc).isize
          (w.mem buffer.data))) = W1 at hs hno hstop hmem ⊢
  rcases poll_write_rest_obs chip desc buffer (w.getDesc desc).addr W1
    with ⟨hack, _⟩ | ⟨k, tail, hk, ho, htail⟩
  · rw [hack] at hs
    cases hs
  · have htl : tail = [] := by
      rcases htail with ⟨_, h⟩ | ⟨h, _⟩
      · exact h
      · rw [hs] at h
        rcases h with h | h <;> cases h
    subst htl
    rw [hmem] at ho
    have hall := ((hstart.seq hstop).seq ho).observe_added
    rw [hall] at hno ⊢
    have hkk : k = buffer.size - 1 := by
      by_contra hne
      apply hno
      simp [hne]
    subst hkk
    by_cases h1 : buffer.size = 1
    · simp [obs, h1, obsWrites]
    · simp [obs, h1]

/-- C29 (amended) at a concrete input: a two-byte write answered in time. -/
theorem C29_poll_write_bytes_witness :
    (_twid_poll_write_sama5d4 sama5d4 (.caller 0) ⟨500, 2⟩
        (exampleWorld .TWID_MODE_POLLING [0, 1, 0, 1])).1 = some Status.TWID_SUCCESS
    ∧ Obs.expired ∉ observe sama5d4
        (added (exampleWorld .TWID_MODE_POLLING [0, 1, 0, 1])
          (_twid_poll_write_sama5d4 sama5d4 (.caller 0) ⟨500, 2⟩
            (exampleWorld .TWID_MODE_POLLING [0, 1, 0, 1])).2)
    ∧ observe sama5d4
        (added (exampleWorld .TWID_MODE_POLLING [0, 1, 0, 1])
          (_twid_poll_write_sama5d4 sama5d4 (.caller 0) ⟨500, 2⟩
            (exampleWorld .TWID_MODE_POLLING [0, 1, 0, 1])).2)
      = [Obs.start_write 0x12, Obs.write 0x34, Obs.stop] :=
  ⟨rfl, by decide,
    C29_poll_write_bytes sama5d4 (.caller 0) ⟨500, 2⟩
      (exampleWorld .TWID_MODE_POLLING [0, 1, 0, 1]) rfl (by decide)⟩

theorem twid_configure_mem (chip : Chip) (desc : DescRef) (w : World) :
    (twid_configure chip desc w).2.mem = w.mem := by
  unfold twid_configure
  simp only
  split_ifs <;> simp

theorem wait_mem (chip : Chip) (desc : DescRef) (w : World) :
    (_twid_wait_twi_transfer chip desc w).2.mem = w.mem := by
  unfold _twid_wait_twi_transfer
  simp only
  split_ifs <;> simp [twid_configure_mem]

/-- The byte loop of a polling read: the bytes it reads are stored, in the
order received, from index `i` on, and no other byte of memory changes. -/
theorem poll_read_loop_store (chip : Chip) (desc : DescRef) (addr data : Nat) (n : Nat) :
    ∀ (i : Nat) (w : World),
      ∃ bs : List Nat, bs.length ≤ n
        ∧ Obsd chip w (_twid_poll_read_loop chip desc addr data n i w).2.2
            (bs.map Obs.read
              ++ exitObs (_twid_poll_read_loop chip desc addr data n i w).1)
        ∧ ((_twid_poll_read_loop chip desc addr data n i w).1 = LoopExit.done
            → bs.length = n
              ∧ (_twid_poll_read_loop chip desc addr data n i w).2.1 = i + n)
        ∧ (∀ j, j < bs.length →
            (_twid_poll_read_loop chip desc addr data n i w).2.2.mem (data + i + j)
              = bs.getD j 0 % 256)
        ∧ (∀ a, a < data + i →
            (_twid_poll_read_loop chip desc addr data n i w).2.2.mem a = w.mem a) := by
  induction n with
  | zero =>
    intro i w
    have h0 : Obsd chip w (_twid_poll_read_loop chip desc addr data 0 i w).2.2
        (([] : List Nat).map Obs.read
          ++ exitObs (_twid_poll_read_loop chip desc addr data 0 i w).1) := by
      simpa [_twid_poll_read_loop, exitObs] using Obsd.nil chip w
    exact ⟨[], le_refl 0, h0, fun _ => ⟨rfl, rfl⟩, by simp, fun _ _ => rfl⟩
  | succ n ih =>
    intro i w
    simp only [_twid_poll_read_loop]
    obtain ⟨hm1, ht⟩ := check_rx_obs chip desc w
    rcases ht with ⟨hs, ho⟩ | ⟨hs, ho⟩
    · rw [if_neg (by rw [hs]; decide)]
      have hq := obsd_query chip (_check_rx_time_out desc w).2 (.twi_read_byte addr)
      have hst : Obsd chip ((_check_rx_time_out desc w).2.query (.twi_read_byte addr)).2
          ((((_check_rx_time_out desc w).2.query (.twi_read_byte addr)).2).store (data + i)
            (((_check_rx_time_out desc w).2.query (.twi_read_byte addr)).1 % 256)) [] :=
        Obsd.of_trace rfl
      have hmst : ((((_check_rx_time_out desc w).2.query (.twi_read_byte addr)).2).store
          (data + i) (((_check_rx_time_out desc w).2.query (.twi_read_byte addr)).1 % 256)).mem
          = Function.update w.mem (data + i)
              (((_check_rx_time_out desc w).2.query (.twi_read_byte addr)).1 % 256) := by
        simp [World.store, hm1]
      obtain ⟨hm2, hk⟩ := check_nack_obs chip addr
        ((((_check_rx_time_out desc w).2.query (.twi_read_byte addr)).2).store (data + i)
            (((_check_rx_time_out desc w).2.query (.twi_read_byte addr)).1 % 256))
      rw [hmst] at hm2
      rcases hk with ⟨hks, hko⟩ | ⟨hks, hko⟩
      · rw [if_neg (by rw [hks]; decide)]
        obtain ⟨bs, hb1, hb2, hb3, hb4, hb5⟩ := ih (i + 1) (_check_nack chip addr
          ((((_check_rx_time_out desc w).2.query (.twi_read_byte addr)).2).store (data + i)
            (((_check_rx_time_out desc w).2.query (.twi_read_byte addr)).1 % 256))).2
        refine ⟨((_check_rx_time_out desc w).2.query (.twi_read_byte addr)).1 :: bs,
          by simpa using hb1, ?_, ?_, ?_, ?_⟩
        · refine ((((ho.seq hq).seq hst).seq hko).seq hb2).congr ?_
          simp [obs]
        · intro h
          obtain ⟨e1, e2⟩ := hb3 h
          exact ⟨by simp [e1], by rw [e2]; omega⟩
        · intro j hj
          cases j with
          | zero =>
            have h := hb5 (data + i) (by omega)
            rw [hm2] at h
            simpa using h
          | succ j =>
            have h := hb4 j (by simpa using hj)
            have e : data + i + (j + 1) = data + (i + 1) + j := by omega
            rw [e, h]
            simp
        · intro a ha
          rw [hb5 a (by omega), hm2, Function.update_noteq (by omega)]
      · rw [if_pos (by rw [hks]; decide)]
        refine ⟨[((_check_rx_time_out desc w).2.query (.twi_read_byte addr)).1],
          by simp, ?_, by simp, ?_, ?_⟩
        · refine (((ho.seq hq).seq hst).seq hko).congr ?_
          simp [obs, exitObs]
        · intro j hj
          have hj0 : j = 0 := by simpa using hj
          subst hj0
          simp [hm2]
        · intro a ha
          rw [hm2, Function.update_noteq (by omega)]
    · rw [if_pos (by rw [hs]; decide)]
      refine ⟨[], Nat.zero_le _, ?_, by simp, by simp, fun a _ => by rw [hm1]⟩
      simpa [exitObs] using ho

/-- The end of a polling read (the build with explicit stop conditions) when
it returns `TWID_SUCCESS`: after the stop condition exactly one byte is read
and stored at index `i`. -/
theorem poll_read_last_store (chip : Chip) (desc : DescRef) (buffer : Buffer)
    (addr i : Nat) (w : World)
    (hs : (_twid_poll_read_last chip desc buffer addr i w).1 = some Status.TWID_SUCCESS) :
    ∃ b, Obsd chip w (_twid_poll_read_last chip desc buffer addr i w).2
          [Obs.stop, Obs.read b]
      ∧ (_twid_poll_read_last chip desc buffer addr i w).2.mem
          = Function.update w.mem (buffer.data + i) (b % 256) := by
  unfold _twid_poll_read_last at hs ⊢
  simp only at hs ⊢
  have hstop := obsd_cmd chip w (.twi_send_stop_condition addr)
  obtain ⟨hm1, hk⟩ := check_nack_obs chip addr (w.cmd (.twi_send_stop_condition addr))
  rcases hk with ⟨hks, hko⟩ | ⟨hks, hko⟩
  · rw [if_neg (by rw [hks]; decide)] at hs ⊢
    obtain ⟨hm2, ht⟩ := check_rx_obs chip desc
      (_check_nack chip addr (w.cmd (.twi_send_stop_condition addr))).2
    rcases ht with ⟨hts, hto⟩ | ⟨hts, hto⟩
    · rw [if_neg (by rw [hts]; decide)] at hs ⊢
      have hq := obsd_query chip (_check_rx_time_out desc
        (_check_nack chip addr (w.cmd (.twi_send_stop_condition addr))).2).2
        (.twi_read_byte addr)
      have hst : Obsd chip ((_check_rx_time_out desc
            (_check_nack chip addr (w.cmd (.twi_send_stop_condition addr))).2).2.query
              (.twi_read_byte addr)).2
          (((_check_rx_time_out desc
            (_check_nack chip addr (w.cmd (.twi_send_stop_condition addr))).2).2.query
              (.twi_read_byte addr)).2.store (buffer.data + i)
            (((_check_rx_time_out desc
              (_check_nack chip addr (w.cmd (.twi_send_stop_condition addr))).2).2.query
                (.twi_read_byte addr)).1 % 256)) [] :=
        Obsd.of_trace rfl
      have h4 := (((hstop.seq hko).seq hto).seq hq).seq hst
      rcases wait_obs chip desc (((_check_rx_time_out desc
            (_check_nack chip addr (w.cmd (.twi_send_stop_condition addr))).2).2.query
              (.twi_read_byte addr)).2.store (buffer.data + i)
            (((_check_rx_time_out desc
              (_check_nack chip addr (w.cmd (.twi_send_stop_condition addr))).2).2.query
                (.twi_read_byte addr)).1 % 256)) with ⟨_, hwo⟩ | ⟨hws, _⟩
      · refine ⟨((_check_rx_time_out desc
            (_check_nack chip addr (w.cmd (.twi_send_stop_condition addr))).2).2.query
              (.twi_read_byte addr)).1, ?_, ?_⟩
        · refine (h4.seq hwo).congr ?_
          simp [obs]
        · rw [wait_mem]
          simp [World.store, hm2, hm1]
      · rw [hs] at hws
        rcases hws with h | h <;> cases h
    · rw [if_pos (by rw [hts]; decide)] at hs
      cases hs
  · rw [if_pos (by rw [hks]; decide)] at hs
    cases hs

/-- C28 fails as stated: a three-byte polling read whose first byte wait
reaches its deadline leaves the loop, reads a single byte after the stop
condition, stores it at index 0 and returns `TWID_SUCCESS`; the bytes at the
indices 1 and 2 of the buffer are left as they were. -/
theorem C28_counterexample :
    (_twid_poll_read sama5d4 (.caller 0) ⟨500, 3⟩
        (exampleWorld .TWID_MODE_POLLING [0, 1, 0, 1, 0xAB, 1])).1 = some Status.TWID_SUCCESS
    ∧ observe sama5d4 (added (exampleWorld .TWID_MODE_POLLING [0, 1, 0, 1, 0xAB, 1])
        (_twid_poll_read sama5d4 (.caller 0) ⟨500, 3⟩
          (exampleWorld .TWID_MODE_POLLING [0, 1, 0, 1, 0xAB, 1])).2)
      = [Obs.start_read, Obs.expired, Obs.stop, Obs.read 0xAB]
    ∧ (_twid_poll_read sama5d4 (.caller 0) ⟨500, 3⟩
        (exampleWorld .TWID_MODE_POLLING [0, 1, 0, 1, 0xAB, 1])).2.mem 500 = 0xAB
    ∧ (_twid_poll_read sama5d4 (.caller 0) ⟨500, 3⟩
        (exampleWorld .TWID_MODE_POLLING [0, 1, 0, 1, 0xAB, 1])).2.mem 501 = 0x34
    ∧ (_twid_poll_read sama5d4 (.caller 0) ⟨500, 3⟩
        (exampleWorld .TWID_MODE_POLLING [0, 1, 0, 1, 0xAB, 1])).2.mem 502 = 0x56 := by
  decide!

/-- The tail of a polling read after its byte loop, for a loop that did not
return from the function. -/
theorem poll_read_after_loop (chip : Chip) (desc : DescRef) (buffer : Buffer) (addr : Nat)
    (w0 : World) (l : LoopExit × Nat × World) (bs : List Nat)
    (hobs : Obsd chip w0 l.2.2 (bs.map Obs.read ++ exitObs l.1))
    (hdone : l.1 = LoopExit.done → bs.length = buffer.size - 1 ∧ l.2.1 = buffer.size - 1)
    (hmem : ∀ j, j < bs.length → l.2.2.mem (buffer.data + j) = bs.getD j 0 % 256)
    (hsize : 1 ≤ buffer.size)
    (hs : (if l.1 = LoopExit.ret then (some Status.TWID_ERROR_ACK, l.2.2)
        else _twid_poll_read_last chip desc buffer addr l.2.1 l.2.2).1
          = some Status.TWID_SUCCESS)
    (hno : ∀ tail evs,
      (if l.1 = LoopExit.ret then (some Status.TWID_ERROR_ACK, l.2.2)
        else _twid_poll_read_last chip desc buffer addr l.2.1 l.2.2).2.trace
          = l.2.2.trace ++ evs →
      observe chip evs = tail → l.1 ≠ LoopExit.brk) :
    ∃ bs2 : List Nat, bs2.length = buffer.size
      ∧ Obsd chip w0
          (if l.1 = LoopExit.ret then (some Status.TWID_ERROR_ACK, l.2.2)
            else _twid_poll_read_last chip desc buffer addr l.2.1 l.2.2).2
          ((bs2.take (buffer.size - 1)).map Obs.read
            ++ Obs.stop :: (bs2.drop (buffer.size - 1)).map Obs.read)
      ∧ ∀ j, j < buffer.size →
          (if l.1 = LoopExit.ret then (some Status.TWID_ERROR_ACK, l.2.2)
            else _twid_poll_read_last chip desc buffer addr l.2.1 l.2.2).2.mem
              (buffer.data + j) = bs2.getD j 0 % 256 := by
  obtain ⟨e, i, w1⟩ := l
  cases e with
  | ret =>
    rw [if_pos rfl] at hs
    cases hs
  | brk =>
    exfalso
    simp only at hno
    rw [if_neg (by decide)] at hno
    obtain ⟨tail, ⟨evs, he, ho⟩, _⟩ := poll_read_last_obs chip desc buffer addr i w1
    exact hno (Obs.stop :: tail) ((Call.twi_send_stop_condition addr, 0) :: evs)
      (by rw [he]; simp) (by simp [observe, obs] at ho ⊢; exact ho) rfl
  | done =>
    simp only at hs hobs hdone hmem ⊢
    rw [if_neg (by decide)] at hs ⊢
    obtain ⟨hlen, hi⟩ := hdone trivial
    subst hi
    obtain ⟨b, hb, hbm⟩ := poll_read_last_store chip desc buffer addr (buffer.size - 1) w1 hs
    refine ⟨bs ++ [b], by simp [hlen]; omega, ?_, ?_⟩
    · refine (hobs.seq hb).congr ?_
      rw [← hlen]
      simp [exitObs]
    · intro j hj
      rw [hbm]
      by_cases hjl : j = buffer.size - 1
      · subst hjl
        rw [Function.update_same, ← hlen]
        simp
      · rw [Function.update_noteq (by omega), hmem j (by omega)]
        rw [List.getD_append _ _ _ _ (by omega)]

/-- C28 (amended): when a polling read (the build with explicit stop
conditions) of a buffer of `size` bytes, `1 ≤ size < 2 ^ 32`, returns
`TWID_SUCCESS` and no wait of the run found its deadline reached, exactly
`size` bytes were read from the controller, the last one after the stop
condition, and they are stored at the indices `0 .. size - 1` of the buffer
in the order received. -/
theorem C28_poll_read_bytes (chip : Chip) (desc : DescRef) (buffer : Buffer) (w : World)
    (h1 : 1 ≤ buffer.size) (h32 : buffer.size < 2 ^ 32)
    (hs : (_twid_poll_read_sama5d4 chip desc buffer w).1 = some Status.TWID_SUCCESS)
    (hno : Obs.expired ∉ observe chip
      (added w (_twid_poll_read_sama5d4 chip desc buffer w).2)) :
    ∃ bs : List Nat, bs.length = buffer.size
      ∧ observe chip (added w (_twid_poll_read_sama5d4 chip desc buffer w).2)
          = Obs.start_read
            :: ((bs.take (buffer.size - 1)).map Obs.read
              ++ Obs.stop :: (bs.drop (buffer.size - 1)).map Obs.read)
      ∧ ∀ j, j < buffer.size →
          (_twid_poll_read_sama5d4 chip desc buffer w).2.mem (buffer.data + j)
            = bs.getD j 0 % 256 := by
  have hstart := obsd_cmd chip w (.twi_start_read (w.getDesc desc).addr
    (w.getDesc desc).slave_addr (w.getDesc desc).iaddr (w.getDesc desc).isize)
  have hn : (buffer.size + 2 ^ 32 - 1) % 2 ^ 32 = buffer.size - 1 := by omega
  simp only [_twid_poll_read_sama5d4, hn] at hs hno ⊢
  obtain ⟨bs, _, hb2, hb3, hb4, _⟩ := poll_read_loop_store chip desc (w.getDesc desc).addr
    buffer.data (buffer.size - 1) 0 (w.cmd (.twi_start_read (w.getDesc desc).addr
      (w.getDesc desc).slave_addr (w.getDesc desc).iaddr (w.getDesc desc).isize))
  have key : ∀ l : LoopExit × Nat × World,
      (∃ bs : List Nat, Obsd chip (w.cmd (.twi_start_read (w.getDesc desc).addr
          (w.getDesc desc).slave_addr (w.getDesc desc).iaddr (w.getDesc desc).isize)) l.2.2
            (bs.map Obs.read ++ exitObs l.1)
        ∧ (l.1 = LoopExit.done → bs.length = buffer.size - 1 ∧ l.2.1 = buffer.size - 1)
        ∧ (∀ j, j < bs.length → l.2.2.mem (buffer.data + j) = bs.getD j 0 % 256)) →
      (if l.1 = LoopExit.ret then (some Status.TWID_ERROR_ACK, l.2.2)
        else _twid_poll_read_last chip desc buffer (w.getDesc desc).addr l.2.1 l.2.2).1
          = some Status.TWID_SUCCESS →
      Obs.expired ∉ observe chip (added w
        (if l.1 = LoopExit.ret then (some Status.TWID_ERROR_ACK, l.2.2)
          else _twid_poll_read_last chip desc buffer (w.getDesc desc).addr l.2.1 l.2.2).2) →
      ∃ bs : List Nat, bs.length = buffer.size
        ∧ observe chip (added w
            (if l.1 = LoopExit.ret then (some Status.TWID_ERROR_ACK, l.2.2)
              else _twid_poll_read_last chip desc buffer (w.getDesc desc).addr l.2.1 l.2.2).2)
            = Obs.start_read
              :: ((bs.take (buffer.size - 1)).map Obs.read
                ++ Obs.stop :: (bs.drop (buffer.size - 1)).map Obs.read)
        ∧ ∀ j, j < buffer.size →
            (if l.1 = LoopExit.ret then (some Status.TWID_ERROR_ACK, l.2.2)
              else _twid_poll_read_last chip desc buffer (w.getDesc desc).addr l.2.1 l.2.2).2.mem
                (buffer.data + j) = bs.getD j 0 % 256 := by
    intro l ⟨bs, hobs, hdone, hmem⟩ hs hno
    obtain ⟨bs2, hl2, ho2, hm2⟩ := poll_read_after_loop chip desc buffer (w.getDesc desc).addr
      _ l bs hobs hdone hmem h1 hs (by
        intro tail evs he ho hbrk
        apply hno
        obtain ⟨evs0, he0, ho0⟩ := hobs
        have htr : (if l.1 = LoopExit.ret then (some Status.TWID_ERROR_ACK, l.2.2)
            else _twid_poll_read_last chip desc buffer (w.getDesc desc).addr l.2.1 l.2.2).2.trace
            = w.trace ++ ((Call.twi_start_read (w.getDesc desc).addr
                (w.getDesc desc).slave_addr (w.getDesc desc).iaddr (w.getDesc desc).isize, 0)
              :: (evs0 ++ evs)) := by
          rw [he, he0]
          simp
        rw [added_eq htr]
        have : Obs.expired ∈ observe chip evs0 := by
          rw [ho0, hbrk]
          simp [exitObs]
        simp only [observe, List.filterMap_cons, List.filterMap_append] at this ⊢
        simp [obs, this])
    refine ⟨bs2, hl2, ?_, hm2⟩
    rw [(hstart.seq ho2).observe_added]
    simp [obs]
  by_cases hne : buffer.size ≠ 1
  · rw [if_pos hne] at hs hno ⊢
    refine key _ ⟨bs, hb2, ?_, ?_⟩ hs hno
    · intro hd
      obtain ⟨e1, e2⟩ := hb3 hd
      exact ⟨e1, by rw [e2]; omega⟩
    · intro j hj
      have := hb4 j hj
      rwa [Nat.add_zero] at this
  · rw [if_neg hne] at hs hno ⊢
    have h1s : buffer.size = 1 := not_not.mp hne
    refine key (LoopExit.done, 0, _) ⟨[], ?_, ?_, ?_⟩ hs hno
    · simpa [exitObs] using Obsd.nil chip _
    · intro _
      exact ⟨by simp [h1s], by simp [h1s]⟩
    · intro j hj
      simp at hj

/-- C28 (amended) at a concrete input: a two-byte read answered in time. -/
theorem C28_poll_read_bytes_witness :
    1 ≤ (⟨600, 2⟩ : Buffer).size ∧ (⟨600, 2⟩ : Buffer).size < 2 ^ 32
    ∧ (_twid_poll_read_sama5d4 sama5d4 (.caller 0) ⟨600, 2⟩
        (exampleWorld .TWID_MODE_POLLING [1, 0xAB, 0, 0, 1, 0xCD, 1])).1
          = some Status.TWID_SUCCESS
    ∧ Obs.expired ∉ observe sama5d4
        (added (exampleWorld .TWID_MODE_POLLING [1, 0xAB, 0, 0, 1, 0xCD, 1])
          (_twid_poll_read_sama5d4 sama5d4 (.caller 0) ⟨600, 2⟩
            (exampleWorld .TWID_MODE_POLLING [1, 0xAB, 0, 0, 1, 0xCD, 1])).2)
    ∧ (_twid_poll_read_sama5d4 sama5d4 (.caller 0) ⟨600, 2⟩
        (exampleWorld .TWID_MODE_POLLING [1, 0xAB, 0, 0, 1, 0xCD, 1])).2.mem 600 = 0xAB
    ∧ (_twid_poll_read_sama5d4 sama5d4 (.caller 0) ⟨600, 2⟩
        (exampleWorld .TWID_MODE_POLLING [1, 0xAB, 0, 0, 1, 0xCD, 1])).2.mem 601 = 0xCD
    ∧ ∃ bs : List Nat, bs.length = (⟨600, 2⟩ : Buffer).size
      ∧ observe sama5d4
          (added (exampleWorld .TWID_MODE_POLLING [1, 0xAB, 0, 0, 1, 0xCD, 1])
            (_twid_poll_read_sama5d4 sama5d4 (.caller 0) ⟨600, 2⟩
              (exampleWorld .TWID_MODE_POLLING [1, 0xAB, 0, 0, 1, 0xCD, 1])).2)
          = Obs.start_read
            :: ((bs.take ((⟨600, 2⟩ : Buffer).size - 1)).map Obs.read
              ++ Obs.stop :: (bs.drop ((⟨600, 2⟩ : Buffer).size - 1)).map Obs.read)
      ∧ ∀ j, j < (⟨600, 2⟩ : Buffer).size →
          (_twid_poll_read_sama5d4 sama5d4 (.caller 0) ⟨600, 2⟩
            (exampleWorld .TWID_MODE_POLLING [1, 0xAB, 0, 0, 1, 0xCD, 1])).2.mem
              ((⟨600, 2⟩ : Buffer).data + j) = bs.getD j 0 % 256 :=
  ⟨by decide, by decide, by decide!, by decide!, by decide!, by decide!,
    C28_poll_read_bytes sama5d4 (.caller 0) ⟨600, 2⟩
      (exampleWorld .TWID_MODE_POLLING [1, 0xAB, 0, 0, 1, 0xCD, 1])
      (by decide) (by decide) (by decide!) (by decide!)⟩

/-! ## How a run of the polling engine ends -/

theorem ending_prepend (p : List Ev) (st : Option Status) (evs : List Ev)
    (h : Ending st evs) : Ending st (p ++ evs) := by
  unfold Ending at h ⊢
  split at h
  · obtain ⟨pre, a, c, he, hc⟩ := h
    exact ⟨p ++ pre, a, c, by rw [he, List.append_assoc], hc⟩
  · obtain ⟨pre, a, t, he⟩ := h
    exact ⟨p ++ pre, a, t, by rw [he, List.append_assoc]⟩
  · obtain ⟨pre, a, t, cfg, he, ht, hc⟩ := h
    exact ⟨p ++ pre, a, t, cfg, by rw [he, List.append_assoc], ht, hc⟩
  · obtain ⟨pre, a, t, cfg, he, ht, hc⟩ := h
    exact ⟨p ++ pre, a, t, cfg, by rw [he, List.append_assoc], ht, hc⟩
  · trivial
  · exact h

theorem Ends.following {w w1 : World} {r : Option Status × World}
    (h1 : EngineExt w w1) (h2 : Ends w1 r) : Ends w r := by
  obtain ⟨e1, t1, _⟩ := h1
  obtain ⟨e2, t2, hend⟩ := h2
  exact ⟨e1 ++ e2, by rw [t2, t1, List.append_assoc], ending_prepend e1 _ e2 hend⟩

theorem ends_ack {w w1 : World} (h : EngineExt w w1) :
    Ends w (some Status.TWID_ERROR_ACK, w1) := by
  obtain ⟨e1, t1, _⟩ := h
  exact ⟨e1, t1, trivial⟩

theorem ends_wait (chip : Chip) (desc : DescRef) (w : World) :
    Ends w (_twid_wait_twi_transfer chip desc w) := by
  obtain ⟨p1, p2, p3⟩ := pollUntil_world
    (w.cmd (.timer_start_timeout (w.getDesc desc).timeout))
    (.twi_is_transfer_complete (w.getDesc desc).addr)
  obtain ⟨j, hj⟩ := pollUntil_shape (.twi_is_transfer_complete (w.getDesc desc).addr)
    (w.cmd (.timer_start_timeout (w.getDesc desc).timeout)).script
  rcases hj with ⟨c, hc, h1, h2⟩ | ⟨t, ht, h1, h2⟩
  · have hres : _twid_wait_twi_transfer chip desc w
        = (some Status.TWID_SUCCESS,
            ((w.cmd (.timer_start_timeout (w.getDesc desc).timeout)).pollUntil
              (.twi_is_transfer_complete (w.getDesc desc).addr)).2) := by
      unfold _twid_wait_twi_transfer
      simp only [getDesc_cmd]
      rw [p1, h1]
      rfl
    rw [hres]
    refine ⟨(Call.timer_start_timeout (w.getDesc desc).timeout, 0)
        :: (idlePolls (.twi_is_transfer_complete (w.getDesc desc).addr) j
          ++ [(Call.twi_is_transfer_complete (w.getDesc desc).addr, c)]), ?_, ?_⟩
    · show (World.pollUntil _ _).2.trace = _
      rw [p2, h2]
      simp
    · exact ⟨(Call.timer_start_timeout (w.getDesc desc).timeout, 0)
        :: idlePolls (.twi_is_transfer_complete (w.getDesc desc).addr) j,
        (w.getDesc desc).addr, c, by simp, hc⟩
  · by_cases hid : chip.get_twi_id_from_addr (w.getDesc desc).addr < chip.ID_PERIPH_COUNT
    · have hid2 : chip.get_twi_id_from_addr
          (((w.cmd (.timer_start_timeout (w.getDesc desc).timeout)).pollUntil
            (.twi_is_transfer_complete (w.getDesc desc).addr)).2.getDesc desc).addr
          < chip.ID_PERIPH_COUNT := by
        rw [p3, getDesc_cmd]; exact hid
      have hok := twid_configure_ok chip desc
        ((w.cmd (.timer_start_timeout (w.getDesc desc).timeout)).pollUntil
            (.twi_is_transfer_complete (w.getDesc desc).addr)).2
      rw [decide_eq_true hid2] at hok
      have hres : _twid_wait_twi_transfer chip desc w
          = (some Status.TWID_ERROR_TRANSFER,
              (twid_configure chip desc
                ((w.cmd (.timer_start_timeout (w.getDesc desc).timeout)).pollUntil
                  (.twi_is_transfer_complete (w.getDesc desc).addr)).2).2) := by
        unfold _twid_wait_twi_transfer
        simp only [getDesc_cmd]
        rw [p1, h1, if_pos rfl, hok, if_pos rfl]
      rw [hres]
      have htr := twid_configure_trace chip desc _ hid2
      rw [p3, getDesc_cmd, p2, h2] at htr
      refine ⟨(Call.timer_start_timeout (w.getDesc desc).timeout, 0)
          :: (idlePolls (.twi_is_transfer_complete (w.getDesc desc).addr) j
            ++ [(Call.twi_is_transfer_complete (w.getDesc desc).addr, 0),
                (Call.timer_timeout_reached, t)])
          ++ configCalls chip (w.getDesc desc), ?_, ?_⟩
      · show (twid_configure chip desc _).2.trace = _
        rw [htr]
        simp
      · exact ⟨(Call.timer_start_timeout (w.getDesc desc).timeout, 0)
          :: idlePolls (.twi_is_transfer_complete (w.getDesc desc).addr) j,
          (w.getDesc desc).addr, t,
          configCalls chip (w.getDesc desc), by simp, ht, configCalls_isConfig chip _⟩
    · have hid2 : ¬ chip.get_twi_id_from_addr
          (((w.cmd (.timer_start_timeout (w.getDesc desc).timeout)).pollUntil
            (.twi_is_transfer_complete (w.getDesc desc).addr)).2.getDesc desc).addr
          < chip.ID_PERIPH_COUNT := by
        rw [p3, getDesc_cmd]; exact hid
      have hres : _twid_wait_twi_transfer chip desc w
          = (none,
              ((w.cmd (.timer_start_timeout (w.getDesc desc).timeout)).pollUntil
                  (.twi_is_transfer_complete (w.getDesc desc).addr)).2) := by
        unfold _twid_wait_twi_transfer
        simp only [getDesc_cmd]
        rw [p1, h1, if_pos rfl, twid_configure_aborted chip desc _ hid2]
        rfl
      rw [hres]
      refine ⟨(Call.timer_start_timeout (w.getDesc desc).timeout, 0)
          :: (idlePolls (.twi_is_transfer_complete (w.getDesc desc).addr) j
            ++ [(Call.twi_is_transfer_complete (w.getDesc desc).addr, 0),
                (Call.timer_timeout_reached, t)]), ?_, ?_⟩
      · show (World.pollUntil _ _).2.trace = _
        rw [p2, h2]
        simp
      · exact ⟨(Call.timer_start_timeout (w.getDesc desc).timeout, 0)
          :: idlePolls (.twi_is_transfer_complete (w.getDesc desc).addr) j,
          (w.getDesc desc).addr, t, [],
          by simp, ht, by simp⟩

theorem ends_check_rx (desc : DescRef) (w : World)
    (h : (_check_rx_time_out desc w).1 ≠ Status.TWID_SUCCESS) :
    Ends w (some Status.TWID_ERROR_TIMEOUT, (_check_rx_time_out desc w).2) := by
  obtain ⟨p1, p2, _⟩ := pollUntil_world
    (w.cmd (.timer_start_timeout (w.getDesc desc).timeout))
    (.twi_is_byte_received (w.getDesc desc).addr)
  obtain ⟨j, hj⟩ := pollUntil_shape (.twi_is_byte_received (w.getDesc desc).addr)
    (w.cmd (.timer_start_timeout (w.getDesc desc).timeout)).script
  unfold _check_rx_time_out at h ⊢
  simp only [getDesc_cmd] at h ⊢
  rcases hj with ⟨c, hc, h1, h2⟩ | ⟨t, ht, h1, h2⟩
  · rw [p1, h1] at h
    simp at h
  · rw [p1, h1]
    simp only [if_true]
    refine ⟨(Call.timer_start_timeout (w.getDesc desc).timeout, 0)
        :: (idlePolls (.twi_is_byte_received (w.getDesc desc).addr) j
          ++ [(Call.twi_is_byte_received (w.getDesc desc).addr, 0),
              (Call.timer_timeout_reached, t)]), ?_, ?_⟩
    · show (World.pollUntil _ _).2.trace = _
      rw [p2, h2]
      simp
    · exact ⟨(Call.timer_start_timeout (w.getDesc desc).timeout, 0)
        :: idlePolls (.twi_is_byte_received (w.getDesc desc).addr) j,
        (w.getDesc desc).addr, t, by simp⟩

theorem ends_read_last (chip : Chip) (desc : DescRef) (buffer : Buffer) (addr i : Nat)
    (w : World) :
    Ends w (_twid_poll_read_last chip desc buffer addr i w) := by
  unfold _twid_poll_read_last
  simp only
  have h1 := (engineExt_cmd w (.twi_send_stop_condition addr) rfl).more
    (engineExt_check_nack chip addr _)
  split
  · exact ends_ack h1
  · split
    · rename_i ht
      exact Ends.following h1 (ends_check_rx desc _ ht)
    · have h2 := h1.more (engineExt_check_rx desc _)
      exact Ends.following (((h2.more (engineExt_query _ (.twi_read_byte addr) rfl)).more
        (engineExt_store _ _ _))) (ends_wait chip desc _)

theorem ends_write_rest (chip : Chip) (desc : DescRef) (buffer : Buffer) (addr : Nat)
    (w : World) :
    Ends w (_twid_poll_write_rest chip desc buffer addr w) := by
  unfold _twid_poll_write_rest
  simp only
  have h1 := engineExt_check_nack chip addr w
  split
  · exact ends_ack h1
  · have h2 := h1.more (engineExt_write_loop chip desc addr buffer.data (buffer.size - 1) 1 _)
    split
    · exact ends_ack h2
    · exact Ends.following (h2.more (engineExt_ite_cmd _ _ (.twi_send_stop_condition addr) rfl))
        (ends_wait chip desc _)

theorem ends_read_sama5d4_core (chip : Chip) (desc : DescRef) (buffer : Buffer)
    (addr : Nat) (w : World) (l : LoopExit × Nat × World) (hl : EngineExt w l.2.2) :
    Ends w (if l.1 = LoopExit.ret then (some Status.TWID_ERROR_ACK, l.2.2)
      else _twid_poll_read_last chip desc buffer addr l.2.1 l.2.2) := by
  split
  · exact ends_ack hl
  · exact Ends.following hl (ends_read_last chip desc buffer addr l.2.1 l.2.2)

theorem ends_poll_read_sama5d4 (chip : Chip) (desc : DescRef) (buffer : Buffer)
    (w : World) :
    Ends w (_twid_poll_read_sama5d4 chip desc buffer w) := by
  unfold _twid_poll_read_sama5d4
  simp only
  refine ends_read_sama5d4_core chip desc buffer _ w _ ?_
  refine EngineExt.more (engineExt_cmd w (.twi_start_read (w.getDesc desc).addr
    (w.getDesc desc).slave_addr (w.getDesc desc).iaddr
    (w.getDesc desc).isize) rfl) ?_
  split
  · exact engineExt_read_loop chip desc _ _ _ _ _
  · exact EngineExt.stay _

theorem ends_ite (w : World) (p : Prop) [Decidable p]
    (a b : Option Status × World) (ha : Ends w a) (hb : Ends w b) :
    Ends w (if p then a else b) := by
  split <;> assumption

theorem ends_poll_read_other (chip : Chip) (desc : DescRef) (buffer : Buffer)
    (w : World) :
    Ends w (_twid_poll_read_other chip desc buffer w) := by
  unfold _twid_poll_read_other
  simp only
  have h1 := (engineExt_ite_cmd (chip.CONFIG_HAVE_TWI_ALTERNATE_CMD = true) w
    (.twi_init_read_transfert (w.getDesc desc).addr
      (w.getDesc desc).slave_addr (w.getDesc desc).iaddr
      (w.getDesc desc).isize buffer.size) rfl).more
    (engineExt_check_nack chip (w.getDesc desc).addr _)
  refine ends_ite w _ _ _ (ends_ack h1) ?_
  have h2 := h1.more (engineExt_read_loop chip desc (w.getDesc desc).addr buffer.data
    buffer.size 0 _)
  exact ends_ite w _ _ _ (ends_ack h2) (Ends.following h2 (ends_wait chip desc _))

theorem ends_poll_read (chip : Chip) (desc : DescRef) (buffer : Buffer) (w : World) :
    Ends w (_twid_poll_read chip desc buffer w) := by
  unfold _twid_poll_read
  split
  · exact ends_poll_read_sama5d4 chip desc buffer w
  · exact ends_poll_read_other chip desc buffer w

theorem ends_poll_write_sama5d4 (chip : Chip) (desc : DescRef) (buffer : Buffer)
    (w : World) :
    Ends w (_twid_poll_write_sama5d4 chip desc buffer w) := by
  unfold _twid_poll_write_sama5d4
  simp only
  exact Ends.following ((engineExt_cmd w (.twi_start_write (w.getDesc desc).addr
      (w.getDesc desc).slave_addr (w.getDesc desc).iaddr
      (w.getDesc desc).isize (w.mem buffer.data)) rfl).more
    (engineExt_ite_cmd _ _ (.twi_send_stop_condition (w.getDesc desc).addr) rfl))
    (ends_write_rest chip desc buffer _ _)

theorem ends_poll_write_other (chip : Chip) (desc : DescRef) (buffer : Buffer)
    (w : World) :
    Ends w (_twid_poll_write_other chip desc buffer w) := by
  unfold _twid_poll_write_other
  simp only
  have h1 := (engineExt_ite_cmd (chip.CONFIG_HAVE_TWI_ALTERNATE_CMD = true) w
    (.twi_init_write_transfert (w.getDesc desc).addr
      (w.getDesc desc).slave_addr (w.getDesc desc).iaddr
      (w.getDesc desc).isize buffer.size) rfl).more
    (engineExt_check_nack chip (w.getDesc desc).addr _)
  refine ends_ite w _ _ _ (ends_ack h1) ?_
  have h2 := h1.more (engineExt_write_loop chip desc (w.getDesc desc).addr buffer.data
    buffer.size 0 _)
  exact ends_ite w _ _ _ (ends_ack h2) (Ends.following h2 (ends_wait chip desc _))

theorem ends_poll_write (chip : Chip) (desc : DescRef) (buffer : Buffer) (w : World) :
    Ends w (_twid_poll_write chip desc buffer w) := by
  unfold _twid_poll_write
  split
  · exact ends_poll_write_sama5d4 chip desc buffer w
  · exact ends_poll_write_other chip desc buffer w

theorem engineRun_ends {chip : Chip} {desc : DescRef} {w0 : World}
    {e : Option Status × World} (h : EngineRun chip desc w0 e) : Ends w0 e := by
  rcases h with ⟨b, rfl⟩ | ⟨b, rfl⟩
  · exact ends_poll_write chip desc b w0
  · exact ends_poll_read chip desc b w0

theorem dropWhile_append_all {α : Type} (p : α → Bool) (l r : List α)
    (h : ∀ x ∈ l, p x = true) : (l ++ r).dropWhile p = r.dropWhile p := by
  induction l with
  | nil => rfl
  | cons a l ih =>
    have ha := h a (List.mem_cons_self a l)
    simp only [List.cons_append, List.dropWhile_cons, ha, if_true]
    exact ih (fun x hx => h x (List.mem_cons_of_mem a hx))

theorem finalWaitExpired_transfer (pre cfg : List Ev) (a t : Nat) (ht : t ≠ 0)
    (hc : ∀ e ∈ cfg, isConfigCall e.1 = true) :
    finalWaitExpired (pre ++ (Call.twi_is_transfer_complete a, 0)
      :: (Call.timer_timeout_reached, t) :: cfg) = true := by
  unfold finalWaitExpired
  have hrev : (pre ++ (Call.twi_is_transfer_complete a, 0)
      :: (Call.timer_timeout_reached, t) :: cfg).reverse
      = cfg.reverse ++ ((Call.timer_timeout_reached, t)
          :: (Call.twi_is_transfer_complete a, 0) :: pre.reverse) := by
    simp
  rw [hrev, dropWhile_append_all _ _ _ (by
    intro x hx
    exact hc x (List.mem_reverse.mp hx))]
  simp [List.dropWhile, isConfigCall, ht]

theorem finalWaitExpired_last (pre : List Ev) (x : Ev) (h1 : isConfigCall x.1 = false)
    (h2 : x.1 ≠ Call.timer_timeout_reached) :
    finalWaitExpired (pre ++ [x]) = false := by
  unfold finalWaitExpired
  simp only [List.reverse_append, List.reverse_cons, List.reverse_nil, List.nil_append,
    List.singleton_append, List.dropWhile_cons, h1, Bool.false_eq_true, if_false]
  split
  · rename_i t _ _ _ heq
    simp only [List.cons.injEq] at heq
    exact absurd (by rw [heq.1]) h2
  · rfl

theorem finalWaitExpired_byte_wait (pre : List Ev) (a t : Nat) :
    finalWaitExpired (pre ++ [(Call.twi_is_byte_received a, 0),
      (Call.timer_timeout_reached, t)]) = false := by
  unfold finalWaitExpired
  simp [List.dropWhile, isConfigCall]

theorem engineRun_nack {chip : Chip} {desc : DescRef} {w0 : World}
    {e : Option Status × World} (h : EngineRun chip desc w0 e) : NackOutcome chip w0 e := by
  rcases h with ⟨b, rfl⟩ | ⟨b, rfl⟩
  · unfold _twid_poll_write
    split
    · exact nackOutcome_poll_write_sama5d4 chip desc b w0
    · exact nackOutcome_poll_write_other chip desc b w0
  · unfold _twid_poll_read
    split
    · exact nackOutcome_poll_read_sama5d4 chip desc b w0
    · exact nackOutcome_poll_read_other chip desc b w0

theorem nackEv_shape (chip : Chip) (e : Ev) (h : isNackEv chip e = true) :
    isConfigCall e.1 = false ∧ e.1 ≠ Call.timer_timeout_reached
    ∧ obs chip e = some Obs.nack := by
  obtain ⟨c, v⟩ := e
  cases c <;> simp_all [isNackEv, isConfigCall, obs]

theorem callbackEv_shape (x : Ev) (h : isCallbackEv x = true) :
    isConfigCall x.1 = false ∧ x.1 ≠ Call.timer_timeout_reached := by
  obtain ⟨c, v⟩ := x
  cases c <;> simp_all [isCallbackEv, isConfigCall]

theorem finalWaitExpired_callbacks (cbs : List Ev) (hcb : ∀ x ∈ cbs, isCallbackEv x = true) :
    ∀ (l : List Ev), cbs ≠ [] → finalWaitExpired (l ++ cbs) = false := by
  intro l hne
  obtain ⟨cs, x, hx⟩ := (List.eq_nil_or_concat cbs).resolve_left hne
  have hxc := hcb x (by rw [hx]; simp)
  obtain ⟨c1, c2⟩ := callbackEv_shape x hxc
  rw [hx, List.concat_eq_append, ← List.append_assoc]
  exact finalWaitExpired_last _ _ c1 c2

/-- Whether the final wait of a run of the polling engine timed out, against
the status of the run. -/
theorem engineRun_finalWait {chip : Chip} {desc : DescRef} {w0 : World}
    {e : Option Status × World} (h : EngineRun chip desc w0 e)
    (p cbs : List Ev) (hcb : ∀ x ∈ cbs, isCallbackEv x = true)
    (hcbs : e.1 ≠ some Status.TWID_SUCCESS → cbs = []) :
    finalWaitExpired (p ++ added w0 e.2 ++ cbs) = true
      ↔ (e.1 = some Status.TWID_ERROR_TRANSFER ∨ e.1 = none) := by
  obtain ⟨evs, ht, hend⟩ := engineRun_ends h
  have hnack := engineRun_nack h
  rw [added_eq ht]
  have hlastcb := finalWaitExpired_callbacks cbs hcb
  obtain ⟨st, w1⟩ := e
  simp only at ht hend hnack hcbs ⊢
  cases st with
  | none =>
    rw [hcbs (by simp), List.append_nil]
    obtain ⟨pre, a, t, cfg, he, ht0, hc⟩ := hend
    rw [he, ← List.append_assoc, finalWaitExpired_transfer _ cfg a t ht0 hc]
    simp
  | some s =>
    cases s with
    | TWID_SUCCESS =>
      have hf : finalWaitExpired (p ++ evs ++ cbs) = false := by
        by_cases hne : cbs = []
        · obtain ⟨pre, a, c, he, _⟩ := hend
          rw [hne, List.append_nil, he, ← List.append_assoc]
          exact finalWaitExpired_last _ _ rfl (by simp)
        · exact hlastcb _ hne
      rw [hf]
      simp
    | TWID_ERROR_LOCK => exact absurd hend (by simp [Ending])
    | TWID_ERROR_DUPLEX => exact absurd hend (by simp [Ending])
    | TWID_ERROR_ACK =>
      rw [hcbs (by simp), List.append_nil]
      rcases hnack with ⟨_, pre, x, hx, _, hn⟩ | ⟨hne, _⟩
      · have hev : evs = pre ++ [x] := by
          have := ht.symm.trans hx
          exact List.append_cancel_left this
        obtain ⟨n1, n2, _⟩ := nackEv_shape chip x hn
        rw [hev, ← List.append_assoc, finalWaitExpired_last _ _ n1 n2]
        simp
      · exact absurd rfl hne
    | TWID_ERROR_TIMEOUT =>
      rw [hcbs (by simp), List.append_nil]
      obtain ⟨pre, a, t, he⟩ := hend
      rw [he, ← List.append_assoc, finalWaitExpired_byte_wait]
      simp
    | TWID_ERROR_TRANSFER =>
      rw [hcbs (by simp), List.append_nil]
      obtain ⟨pre, a, t, cfg, he, ht0, hc⟩ := hend
      rw [he, ← List.append_assoc, finalWaitExpired_transfer _ cfg a t ht0 hc]
      simp

/-- C17 fails as stated: a one-byte polling write whose final
transfer-complete wait reaches its deadline returns `TWID_ERROR_TRANSFER` to
the caller, a status distinct from `TWID_ERROR_TIMEOUT`. -/
theorem C17_counterexample :
    finalWaitExpired (added (exampleWorld .TWID_MODE_POLLING [0, 0, 1])
        (twid_transfert sama5d4 (.caller 0) none (some ⟨500, 1⟩) .null 0
          (exampleWorld .TWID_MODE_POLLING [0, 0, 1])).2) = true
    ∧ (twid_transfert sama5d4 (.caller 0) none (some ⟨500, 1⟩) .null 0
        (exampleWorld .TWID_MODE_POLLING [0, 0, 1])).1 = some Status.TWID_ERROR_TRANSFER
    ∧ some Status.TWID_ERROR_TRANSFER ≠ some Status.TWID_ERROR_TIMEOUT := by
  decide!

/-- C17 (amended): for a submit in polling mode on a free descriptor with at
least one buffer, the final transfer-complete wait times out if and only if
the call ends with the status `TWID_ERROR_TRANSFER`, or with the abort of the
program by the assertion of the reconfiguration.  The status returned to the
caller is then `TWID_ERROR_TRANSFER`, never `TWID_ERROR_TIMEOUT`. -/
theorem C17_final_wait_timeout_status (chip : Chip) (desc : DescRef)
    (rx tx : Option Buffer) (cb : Callback) (args : Nat) (w : World)
    (hmode : (w.getDesc desc).transfert_mode = .TWID_MODE_POLLING)
    (hfree : mutex_is_locked desc w = false)
    (hbuf : rx ≠ none ∨ tx ≠ none) :
    (finalWaitExpired (added w (twid_transfert chip desc rx tx cb args w).2) = true
      ↔ ((twid_transfert chip desc rx tx cb args w).1 = some Status.TWID_ERROR_TRANSFER
        ∨ (twid_transfert chip desc rx tx cb args w).1 = none))
    ∧ (finalWaitExpired (added w (twid_transfert chip desc rx tx cb args w).2) = true →
        (twid_transfert chip desc rx tx cb args w).1 ≠ some Status.TWID_ERROR_TIMEOUT) := by
  obtain ⟨mask, e, hrun, h1, h2, _⟩ :=
    polling_submit_engine chip desc rx tx cb args w hmode hfree hbuf
  obtain ⟨evs, ht, _⟩ := engineRun_ext hrun
  have hadd : added w (twid_transfert chip desc rx tx cb args w).2
      = [(Call.twi_enable_it (w.getDesc desc).addr mask, 0)]
        ++ added ((lockedWorld desc cb args w).cmd
            (.twi_enable_it (w.getDesc desc).addr mask)) e.2
        ++ (if e.1 = some Status.TWID_SUCCESS then callbackCalls cb desc args else []) := by
    rw [added_eq ht]
    apply added_eq
    rw [h2, ht]
    simp
  have key := engineRun_finalWait hrun [(Call.twi_enable_it (w.getDesc desc).addr mask, 0)]
    (if e.1 = some Status.TWID_SUCCESS then callbackCalls cb desc args else [])
    (by
      intro x hx
      split at hx
      · cases cb <;> simp [callbackCalls] at hx
        subst hx
        rfl
      · simp at hx)
    (by intro hne; rw [if_neg hne])
  rw [hadd, h1]
  refine ⟨key, ?_⟩
  intro hf
  rcases key.mp hf with h | h <;> rw [h] <;> simp

/-- C17 (amended) at a concrete input: the one-byte write of the
counterexample. -/
theorem C17_final_wait_timeout_status_witness :
    ((exampleWorld .TWID_MODE_POLLING [0, 0, 1]).getDesc (.caller 0)).transfert_mode
        = .TWID_MODE_POLLING
    ∧ mutex_is_locked (.caller 0) (exampleWorld .TWID_MODE_POLLING [0, 0, 1]) = false
    ∧ finalWaitExpired (added (exampleWorld .TWID_MODE_POLLING [0, 0, 1])
        (twid_transfert sama5d4 (.caller 0) none (some ⟨500, 1⟩) (.user 1) 0
          (exampleWorld .TWID_MODE_POLLING [0, 0, 1])).2) = true
    ∧ (twid_transfert sama5d4 (.caller 0) none (some ⟨500, 1⟩) (.user 1) 0
        (exampleWorld .TWID_MODE_POLLING [0, 0, 1])).1 ≠ some Status.TWID_ERROR_TIMEOUT :=
  ⟨rfl, rfl, by decide!,
    (C17_final_wait_timeout_status sama5d4 (.caller 0) none (some ⟨500, 1⟩) (.user 1) 0
      (exampleWorld .TWID_MODE_POLLING [0, 0, 1]) rfl rfl (Or.inr (by simp))).2
        (by decide!)⟩

theorem wait_status (chip : Chip) (desc : DescRef) (w : World) :
    (_twid_wait_twi_transfer chip desc w).1 ≠ some Status.TWID_ERROR_TIMEOUT := by
  rcases wait_obs chip desc w with ⟨h, _⟩ | ⟨h | h, _⟩ <;> rw [h] <;> simp

theorem noFinalWait_refl (w : World) : NoFinalWait w w :=
  ⟨[], by simp, rfl⟩

theorem noFinalWait_trans {w w1 w2 : World}
    (h1 : NoFinalWait w w1) (h2 : NoFinalWait w1 w2) : NoFinalWait w w2 := by
  obtain ⟨e1, t1, c1⟩ := h1
  obtain ⟨e2, t2, c2⟩ := h2
  exact ⟨e1 ++ e2, by rw [t2, t1, List.append_assoc], by rw [List.filter_append, c1, c2]; rfl⟩

theorem noFinalWait_cmd (w : World) (c : Call) (hc : isCompletePoll (c, 0) = false) :
    NoFinalWait w (w.cmd c) :=
  ⟨[(c, 0)], rfl, by simp [List.filter, hc]⟩

theorem noFinalWait_query (w : World) (c : Call) (hc : ∀ v, isCompletePoll (c, v) = false) :
    NoFinalWait w (w.query c).2 :=
  ⟨[(c, (w.query c).1)], query_trace w c, by simp [List.filter, hc]⟩

theorem noFinalWait_pollUntil (w : World) (c : Call)
    (hc : ∀ v, isCompletePoll (c, v) = false) : NoFinalWait w (w.pollUntil c).2 := by
  refine ⟨(pollUntil c w.script).2.2, rfl, ?_⟩
  rw [List.filter_eq_nil_iff]
  intro e he
  obtain ⟨x, v⟩ := e
  rcases pollUntil_calls c w.script (x, v) he with h | h
  · simp only at h
    subst h
    simp [hc]
  · simp only at h
    subst h
    simp [isCompletePoll]

theorem noFinalWait_check_rx (desc : DescRef) (w : World) :
    NoFinalWait w (_check_rx_time_out desc w).2 := by
  unfold _check_rx_time_out
  simp only
  have h1 := noFinalWait_trans
    (noFinalWait_cmd w (.timer_start_timeout (w.getDesc desc).timeout) rfl)
    (noFinalWait_pollUntil _ (.twi_is_byte_received
      ((w.cmd (.timer_start_timeout (w.getDesc desc).timeout)).getDesc desc).addr)
      (fun _ => rfl))
  split <;> exact h1

theorem noFinalWait_check_nack (chip : Chip) (addr : Nat) (w : World) :
    NoFinalWait w (_check_nack chip addr w).2 := by
  unfold _check_nack
  simp only
  split <;> exact noFinalWait_query w _ (fun _ => rfl)

theorem noFinalWait_read_loop (chip : Chip) (desc : DescRef) (addr data : Nat) (k : Nat) :
    ∀ (i : Nat) (w : World),
      NoFinalWait w (_twid_poll_read_loop chip desc addr data k i w).2.2 := by
  induction k with
  | zero => intro i w; exact noFinalWait_refl w
  | succ k ih =>
    intro i w
    simp only [_twid_poll_read_loop]
    have h1 := noFinalWait_check_rx desc w
    split
    · exact h1
    · have h2 := noFinalWait_trans (noFinalWait_trans h1
        (noFinalWait_query _ (.twi_read_byte addr) (fun _ => rfl)))
        (noFinalWait_check_nack chip addr
          (((_check_rx_time_out desc w).2.query (.twi_read_byte addr)).2.store (data + i)
            (((_check_rx_time_out desc w).2.query (.twi_read_byte addr)).1 % 256)))
      split
      · exact h2
      · exact noFinalWait_trans h2 (ih _ _)

/-- A last-byte phase that returns `TWID_ERROR_TIMEOUT` has made no
transfer-complete poll. -/
theorem noFinalWait_read_last (chip : Chip) (desc : DescRef) (buffer : Buffer)
    (addr i : Nat) (w : World)
    (h : (_twid_poll_read_last chip desc buffer addr i w).1
      = some Status.TWID_ERROR_TIMEOUT) :
    NoFinalWait w (_twid_poll_read_last chip desc buffer addr i w).2 := by
  unfold _twid_poll_read_last at h ⊢
  simp only at h ⊢
  have h1 := noFinalWait_trans (noFinalWait_cmd w (.twi_send_stop_condition addr) rfl)
    (noFinalWait_check_nack chip addr _)
  split
  · exact h1
  · rename_i h2
    rw [if_neg h2] at h
    split
    · exact noFinalWait_trans h1 (noFinalWait_check_rx desc _)
    · rename_i h3
      rw [if_neg h3] at h
      exact absurd h (wait_status chip desc _)

theorem NoFinalWait.filter_added {w w1 : World} (h : NoFinalWait w w1) :
    (added w w1).filter isCompletePoll = [] := by
  obtain ⟨evs, ht, hf⟩ := h
  rw [added_eq ht, hf]

/-- A run that ends with the status of a final wait has made a
transfer-complete poll. -/
theorem ends_has_final_wait {w : World} {r : Option Status × World} (hend : Ends w r)
    (hs : r.1 = some Status.TWID_SUCCESS ∨ r.1 = some Status.TWID_ERROR_TRANSFER
      ∨ r.1 = none) :
    ∃ a c, (Call.twi_is_transfer_complete a, c) ∈ added w r.2 := by
  obtain ⟨evs, ht, he⟩ := hend
  rw [added_eq ht]
  obtain ⟨st, w1⟩ := r
  simp only at hs he ⊢
  rcases hs with h | h | h
  · subst h
    obtain ⟨pre, a, c, h, _⟩ := he
    exact ⟨a, c, by rw [h]; simp⟩
  · subst h
    obtain ⟨pre, a, t, cfg, h, _, _⟩ := he
    exact ⟨a, 0, by rw [h]; simp⟩
  · subst h
    obtain ⟨pre, a, t, cfg, h, _, _⟩ := he
    exact ⟨a, 0, by rw [h]; simp⟩

/-- The byte loop of the polling read as `_twid_poll_read` runs it: the bytes
read, then how the loop ended; no transfer-complete poll. -/
theorem read_loop_part (chip : Chip) (desc : DescRef) (addr data size : Nat) (w : World) :
    ∃ bs : List Nat,
      Obsd chip w
        (if size ≠ 1 then
          _twid_poll_read_loop chip desc addr data ((size + 2 ^ 32 - 1) % 2 ^ 32) 0 w
        else (LoopExit.done, 0, w)).2.2
        (bs.map Obs.read
          ++ exitObs (if size ≠ 1 then
              _twid_poll_read_loop chip desc addr data ((size + 2 ^ 32 - 1) % 2 ^ 32) 0 w
            else (LoopExit.done, 0, w)).1)
      ∧ NoFinalWait w
        (if size ≠ 1 then
          _twid_poll_read_loop chip desc addr data ((size + 2 ^ 32 - 1) % 2 ^ 32) 0 w
        else (LoopExit.done, 0, w)).2.2 := by
  split
  · obtain ⟨bs, _, hb, _, _⟩ := poll_read_loop_obs chip desc addr data _ 0 w
    exact ⟨bs, hb, noFinalWait_read_loop chip desc addr data _ 0 w⟩
  · exact ⟨[], by simpa [exitObs] using Obsd.nil chip w, noFinalWait_refl w⟩

/-- What a polling read that observes no NACK does after its byte loop. -/
theorem read_outcome_core (chip : Chip) (desc : DescRef) (buffer : Buffer) (addr : Nat)
    (w w0 : World) (l : LoopExit × Nat × World)
    (hstart : Obsd chip w w0 [Obs.start_read]) (hq0 : NoFinalWait w w0)
    (hl : ∃ bs : List Nat, Obsd chip w0 l.2.2 (bs.map Obs.read ++ exitObs l.1)
      ∧ NoFinalWait w0 l.2.2)
    (hends : Ends w (if l.1 = LoopExit.ret then (some Status.TWID_ERROR_ACK, l.2.2)
      else _twid_poll_read_last chip desc buffer addr l.2.1 l.2.2))
    (hno : Obs.nack ∉ observe chip (added w
      (if l.1 = LoopExit.ret then (some Status.TWID_ERROR_ACK, l.2.2)
        else _twid_poll_read_last chip desc buffer addr l.2.1 l.2.2).2)) :
    ∃ (bs : List Nat) (x tail : List Obs),
      observe chip (added w
          (if l.1 = LoopExit.ret then (some Status.TWID_ERROR_ACK, l.2.2)
            else _twid_poll_read_last chip desc buffer addr l.2.1 l.2.2).2)
        = Obs.start_read :: (bs.map Obs.read ++ x ++ Obs.stop :: tail)
      ∧ (x = [] ∨ x = [Obs.expired])
      ∧ (((if l.1 = LoopExit.ret then (some Status.TWID_ERROR_ACK, l.2.2)
            else _twid_poll_read_last chip desc buffer addr l.2.1 l.2.2).1
              = some Status.TWID_ERROR_TIMEOUT
          ∧ tail = [Obs.expired]
          ∧ (added w (if l.1 = LoopExit.ret then (some Status.TWID_ERROR_ACK, l.2.2)
              else _twid_poll_read_last chip desc buffer addr l.2.1 l.2.2).2).filter
                isCompletePoll = [])
        ∨ ((∃ a c, (Call.twi_is_transfer_complete a, c) ∈ added w
              (if l.1 = LoopExit.ret then (some Status.TWID_ERROR_ACK, l.2.2)
                else _twid_poll_read_last chip desc buffer addr l.2.1 l.2.2).2)
          ∧ ∃ b, ((if l.1 = LoopExit.ret then (some Status.TWID_ERROR_ACK, l.2.2)
                else _twid_poll_read_last chip desc buffer addr l.2.1 l.2.2).1
                  = some Status.TWID_SUCCESS ∧ tail = [Obs.read b])
            ∨ (((if l.1 = LoopExit.ret then (some Status.TWID_ERROR_ACK, l.2.2)
                  else _twid_poll_read_last chip desc buffer addr l.2.1 l.2.2).1
                    = some Status.TWID_ERROR_TRANSFER
                ∨ (if l.1 = LoopExit.ret then (some Status.TWID_ERROR_ACK, l.2.2)
                  else _twid_poll_read_last chip desc buffer addr l.2.1 l.2.2).1 = none)
              ∧ tail = [Obs.read b, Obs.expired]))) := by
  obtain ⟨bs, hobs, hq⟩ := hl
  obtain ⟨e, i, w1⟩ := l
  simp only at hobs hq hends hno ⊢
  by_cases hret : e = LoopExit.ret
  · exfalso
    subst hret
    rw [if_pos rfl] at hno
    apply hno
    rw [(hstart.seq hobs).observe_added]
    simp [exitObs]
  · rw [if_neg hret] at hends hno ⊢
    have hx2 : exitObs e = [] ∨ exitObs e = [Obs.expired] := by
      cases e
      · exact Or.inl rfl
      · exact Or.inr rfl
      · exact absurd rfl hret
    obtain ⟨tail, htl, htail⟩ := poll_read_last_obs chip desc buffer addr i w1
    have hall := ((hstart.seq hobs).seq (obsd_cmd chip w1 (.twi_send_stop_condition addr))).seq htl
    have hO : observe chip (added w (_twid_poll_read_last chip desc buffer addr i w1).2)
        = Obs.start_read :: (bs.map Obs.read ++ exitObs e ++ Obs.stop :: tail) := by
      rw [hall.observe_added]
      simp [obs]
    rw [hO] at hno ⊢
    refine ⟨bs, exitObs e, tail, rfl, hx2, ?_⟩
    rcases htail with ⟨_, h⟩ | ⟨hs, h⟩ | ⟨b, ⟨hs, h⟩ | ⟨hs, h⟩⟩
    · exfalso
      apply hno
      rw [h]
      simp
    · refine Or.inl ⟨hs, h, ?_⟩
      exact (noFinalWait_trans (noFinalWait_trans hq0 hq)
        (noFinalWait_read_last chip desc buffer addr i w1 hs)).filter_added
    · exact Or.inr ⟨ends_has_final_wait hends (Or.inl hs), b, Or.inl ⟨hs, h⟩⟩
    · exact Or.inr ⟨ends_has_final_wait hends (Or.inr hs), b, Or.inr ⟨hs, h⟩⟩

/-- A polling read (the build with explicit stop conditions) during which no
NACK is observed: the bytes of the loop, the deadline that ended the loop if
one did, the stop condition, and then either the deadline of the wait for the
last byte, or the last byte and the final wait. -/
theorem poll_read_sama5d4_outcome (chip : Chip) (desc : DescRef) (buffer : Buffer)
    (w : World)
    (hno : Obs.nack ∉ observe chip (added w (_twid_poll_read_sama5d4 chip desc buffer w).2)) :
    ∃ (bs : List Nat) (x tail : List Obs),
      observe chip (added w (_twid_poll_read_sama5d4 chip desc buffer w).2)
        = Obs.start_read :: (bs.map Obs.read ++ x ++ Obs.stop :: tail)
      ∧ (x = [] ∨ x = [Obs.expired])
      ∧ (((_twid_poll_read_sama5d4 chip desc buffer w).1 = some Status.TWID_ERROR_TIMEOUT
          ∧ tail = [Obs.expired]
          ∧ (added w (_twid_poll_read_sama5d4 chip desc buffer w).2).filter
                isCompletePoll = [])
        ∨ ((∃ a c, (Call.twi_is_transfer_complete a, c)
              ∈ added w (_twid_poll_read_sama5d4 chip desc buffer w).2)
          ∧ ∃ b, ((_twid_poll_read_sama5d4 chip desc buffer w).1 = some Status.TWID_SUCCESS
                ∧ tail = [Obs.read b])
            ∨ (((_twid_poll_read_sama5d4 chip desc buffer w).1
                    = some Status.TWID_ERROR_TRANSFER
                ∨ (_twid_poll_read_sama5d4 chip desc buffer w).1 = none)
              ∧ tail = [Obs.read b, Obs.expired]))) := by
  have hends := ends_poll_read_sama5d4 chip desc buffer w
  unfold _twid_poll_read_sama5d4 at hno hends ⊢
  simp only at hno hends ⊢
  exact read_outcome_core chip desc buffer (w.getDesc desc).addr w
    (w.cmd (.twi_start_read (w.getDesc desc).addr (w.getDesc desc).slave_addr
      (w.getDesc desc).iaddr (w.getDesc desc).isize)) _
    ((obsd_cmd chip w _).congr (by simp [obs]))
    (noFinalWait_cmd w _ rfl)
    (read_loop_part chip desc (w.getDesc desc).addr buffer.data buffer.size _)
    hends hno

/-- A polling write (the build with explicit stop conditions) during which no
NACK is observed: the first byte, the stop condition of a one-byte buffer, the
bytes of the loop, the deadline that ended the loop if one did, the stop
condition of a longer buffer, and the final wait. -/
theorem poll_write_sama5d4_outcome (chip : Chip) (desc : DescRef) (buffer : Buffer)
    (w : World)
    (hno : Obs.nack ∉ observe chip (added w (_twid_poll_write_sama5d4 chip desc buffer w).2)) :
    ∃ (k : Nat) (tail : List Obs), k ≤ buffer.size - 1
      ∧ observe chip (added w (_twid_poll_write_sama5d4 chip desc buffer w).2)
        = Obs.start_write (w.mem buffer.data)
          :: ((if buffer.size = 1 then [Obs.stop] else [])
            ++ obsWrites w.mem (buffer.data + 1) k
            ++ (if k = buffer.size - 1 then [] else [Obs.expired])
            ++ (if buffer.size ≠ 1 then [Obs.stop] else []) ++ tail)
      ∧ (∃ a c, (Call.twi_is_transfer_complete a, c)
            ∈ added w (_twid_poll_write_sama5d4 chip desc buffer w).2)
      ∧ (((_twid_poll_write_sama5d4 chip desc buffer w).1 = some Status.TWID_SUCCESS
            ∧ tail = [])
        ∨ (((_twid_poll_write_sama5d4 chip desc buffer w).1
                = some Status.TWID_ERROR_TRANSFER
              ∨ (_twid_poll_write_sama5d4 chip desc buffer w).1 = none)
            ∧ tail = [Obs.expired])) := by
  have hends := ends_poll_write_sama5d4 chip desc buffer w
  unfold _twid_poll_write_sama5d4 at hno hends ⊢
  simp only at hno hends ⊢
  have hstart : Obsd chip w
      (if buffer.size = 1 then
        (w.cmd (.twi_start_write (w.getDesc desc).addr (w.getDesc desc).slave_addr
          (w.getDesc desc).iaddr (w.getDesc desc).isize (w.mem buffer.data))).cmd
            (.twi_send_stop_condition (w.getDesc desc).addr)
      else w.cmd (.twi_start_write (w.getDesc desc).addr (w.getDesc desc).slave_addr
          (w.getDesc desc).iaddr (w.getDesc desc).isize (w.mem buffer.data)))
      (Obs.start_write (w.mem buffer.data) :: (if buffer.size = 1 then [Obs.stop] else [])) := by
    split
    · exact ((obsd_cmd chip w _).seq (obsd_cmd chip _ _)).congr (by simp [obs])
    · exact (obsd_cmd chip w _).congr (by simp [obs])
  have hmem : (if buffer.size = 1 then
        (w.cmd (.twi_start_write (w.getDesc desc).addr (w.getDesc desc).slave_addr
          (w.getDesc desc).iaddr (w.getDesc desc).isize (w.mem buffer.data))).cmd
            (.twi_send_stop_condition (w.getDesc desc).addr)
      else w.cmd (.twi_start_write (w.getDesc desc).addr (w.getDesc desc).slave_addr
          (w.getDesc desc).iaddr (w.getDesc desc).isize (w.mem buffer.data))).mem = w.mem := by
    split <;> rfl
  rcases poll_write_rest_obs chip desc buffer (w.getDesc desc).addr
      (if buffer.size = 1 then
        (w.cmd (.twi_start_write (w.getDesc desc).addr (w.getDesc desc).slave_addr
          (w.getDesc desc).iaddr (w.getDesc desc).isize (w.mem buffer.data))).cmd
            (.twi_send_stop_condition (w.getDesc desc).addr)
      else w.cmd (.twi_start_write (w.getDesc desc).addr (w.getDesc desc).slave_addr
          (w.getDesc desc).iaddr (w.getDesc desc).isize (w.mem buffer.data)))
    with ⟨_, k, _, ho⟩ | ⟨k, tail, hk, ho, htail⟩
  · exfalso
    apply hno
    rw [(hstart.seq ho).observe_added]
    simp
  · rw [hmem] at ho
    refine ⟨k, tail, hk, ?_, ?_, htail⟩
    · rw [(hstart.seq ho).observe_added]
      simp [List.append_assoc]
    · refine ends_has_final_wait hends ?_
      rcases htail with ⟨h, _⟩ | ⟨h | h, _⟩
      · exact Or.inl h
      · exact Or.inr (Or.inl h)
      · exact Or.inr (Or.inr h)

/-- C18 fails as stated for reads: in a one-byte polling read the wait for the
byte, which follows the stop condition, reaches its deadline with no NACK
observed, and the engine returns `TWID_ERROR_TIMEOUT` at that point, without
any transfer-complete poll.  The same happens in a two-byte read after the
wait inside the loop has timed out and the loop has been left. -/
theorem C18_counterexample :
    (_twid_poll_read sama5d4 (.caller 0) ⟨600, 1⟩
        (exampleWorld .TWID_MODE_POLLING [0, 0, 1])).1 = some Status.TWID_ERROR_TIMEOUT
    ∧ observe sama5d4 (added (exampleWorld .TWID_MODE_POLLING [0, 0, 1])
        (_twid_poll_read sama5d4 (.caller 0) ⟨600, 1⟩
          (exampleWorld .TWID_MODE_POLLING [0, 0, 1])).2)
        = [Obs.start_read, Obs.stop, Obs.expired]
    ∧ (added (exampleWorld .TWID_MODE_POLLING [0, 0, 1])
        (_twid_poll_read sama5d4 (.caller 0) ⟨600, 1⟩
          (exampleWorld .TWID_MODE_POLLING [0, 0, 1])).2).filter isCompletePoll = []
    ∧ (_twid_poll_read sama5d4 (.caller 0) ⟨600, 2⟩
        (exampleWorld .TWID_MODE_POLLING [0, 1, 0, 0, 1])).1 = some Status.TWID_ERROR_TIMEOUT
    ∧ observe sama5d4 (added (exampleWorld .TWID_MODE_POLLING [0, 1, 0, 0, 1])
        (_twid_poll_read sama5d4 (.caller 0) ⟨600, 2⟩
          (exampleWorld .TWID_MODE_POLLING [0, 1, 0, 0, 1])).2)
        = [Obs.start_read, Obs.expired, Obs.stop, Obs.expired]
    ∧ (added (exampleWorld .TWID_MODE_POLLING [0, 1, 0, 0, 1])
        (_twid_poll_read sama5d4 (.caller 0) ⟨600, 2⟩
          (exampleWorld .TWID_MODE_POLLING [0, 1, 0, 0, 1])).2).filter isCompletePoll = [] := by
  decide!

/-- C18 (amended), for the build with explicit stop conditions.  In a polling
write during which no NACK is observed, a byte-sent wait that reaches its
deadline ends the byte loop and nothing else: what is observed after it is the
stop condition and then the final wait, a transfer-complete poll is made, and
the status is that of the final wait (`TWID_SUCCESS`, or
`TWID_ERROR_TRANSFER` or the abort of the reconfiguration when the final wait
reaches its deadline too).  In a polling read during which no NACK is
observed, a byte-received wait of the loop that reaches its deadline ends the
loop and nothing else: what is observed after it is the stop condition.  The
wait for the last byte follows the stop condition; if it reaches its
deadline, whether or not the loop was ended by a deadline, the engine returns
`TWID_ERROR_TIMEOUT` there and has made no transfer-complete poll; otherwise
the last byte is read, the final wait is executed and its status returned. -/
theorem C18_byte_timeout_falls_through (chip : Chip) (desc : DescRef) (buffer : Buffer)
    (w : World) :
    (Obs.nack ∉ observe chip (added w (_twid_poll_write_sama5d4 chip desc buffer w).2) →
      ∃ (k : Nat) (tail : List Obs), k ≤ buffer.size - 1
        ∧ observe chip (added w (_twid_poll_write_sama5d4 chip desc buffer w).2)
          = Obs.start_write (w.mem buffer.data)
            :: ((if buffer.size = 1 then [Obs.stop] else [])
              ++ obsWrites w.mem (buffer.data + 1) k
              ++ (if k = buffer.size - 1 then [] else [Obs.expired])
              ++ (if buffer.size ≠ 1 then [Obs.stop] else []) ++ tail)
        ∧ (∃ a c, (Call.twi_is_transfer_complete a, c)
              ∈ added w (_twid_poll_write_sama5d4 chip desc buffer w).2)
        ∧ (((_twid_poll_write_sama5d4 chip desc buffer w).1 = some Status.TWID_SUCCESS
              ∧ tail = [])
          ∨ (((_twid_poll_write_sama5d4 chip desc buffer w).1
                  = some Status.TWID_ERROR_TRANSFER
                ∨ (_twid_poll_write_sama5d4 chip desc buffer w).1 = none)
              ∧ tail = [Obs.expired])))
    ∧ (Obs.nack ∉ observe chip (added w (_twid_poll_read_sama5d4 chip desc buffer w).2) →
      ∃ (bs : List Nat) (x tail : List Obs),
        observe chip (added w (_twid_poll_read_sama5d4 chip desc buffer w).2)
          = Obs.start_read :: (bs.map Obs.read ++ x ++ Obs.stop :: tail)
        ∧ (x = [] ∨ x = [Obs.expired])
        ∧ (((_twid_poll_read_sama5d4 chip desc buffer w).1 = some Status.TWID_ERROR_TIMEOUT
            ∧ tail = [Obs.expired]
            ∧ (added w (_twid_poll_read_sama5d4 chip desc buffer w).2).filter
                  isCompletePoll = [])
          ∨ ((∃ a c, (Call.twi_is_transfer_complete a, c)
                ∈ added w (_twid_poll_read_sama5d4 chip desc buffer w).2)
            ∧ ∃ b, ((_twid_poll_read_sama5d4 chip desc buffer w).1
                    = some Status.TWID_SUCCESS ∧ tail = [Obs.read b])
              ∨ (((_twid_poll_read_sama5d4 chip desc buffer w).1
                      = some Status.TWID_ERROR_TRANSFER
                  ∨ (_twid_poll_read_sama5d4 chip desc buffer w).1 = none)
                ∧ tail = [Obs.read b, Obs.expired])))) :=
  ⟨poll_write_sama5d4_outcome chip desc buffer w,
   poll_read_sama5d4_outcome chip desc buffer w⟩

/-- C18 (amended) at concrete inputs: a three-byte write whose first byte-sent
wait reaches its deadline (the stop condition and the final wait follow, the
status is `TWID_SUCCESS`); a three-byte read whose first byte-received wait
reaches its deadline (the stop condition, the last byte and the final wait
follow); and a two-byte read in which the wait of the loop and the wait that
follows the stop condition both reach their deadline (the status is
`TWID_ERROR_TIMEOUT`). -/
theorem C18_byte_timeout_falls_through_witness :
    (Obs.nack ∉ observe sama5d4 (added (exampleWorld .TWID_MODE_POLLING [0, 0, 1, 1])
        (_twid_poll_write_sama5d4 sama5d4 (.caller 0) ⟨500, 3⟩
          (exampleWorld .TWID_MODE_POLLING [0, 0, 1, 1])).2)
      ∧ observe sama5d4 (added (exampleWorld .TWID_MODE_POLLING [0, 0, 1, 1])
          (_twid_poll_write_sama5d4 sama5d4 (.caller 0) ⟨500, 3⟩
            (exampleWorld .TWID_MODE_POLLING [0, 0, 1, 1])).2)
        = [Obs.start_write 0x12, Obs.expired, Obs.stop]
      ∧ ∃ (k : Nat) (tail : List Obs), k ≤ (⟨500, 3⟩ : Buffer).size - 1
        ∧ observe sama5d4 (added (exampleWorld .TWID_MODE_POLLING [0, 0, 1, 1])
            (_twid_poll_write_sama5d4 sama5d4 (.caller 0) ⟨500, 3⟩
              (exampleWorld .TWID_MODE_POLLING [0, 0, 1, 1])).2)
          = Obs.start_write ((exampleWorld .TWID_MODE_POLLING [0, 0, 1, 1]).mem
              (⟨500, 3⟩ : Buffer).data)
            :: ((if (⟨500, 3⟩ : Buffer).size = 1 then [Obs.stop] else [])
              ++ obsWrites (exampleWorld .TWID_MODE_POLLING [0, 0, 1, 1]).mem
                  ((⟨500, 3⟩ : Buffer).data + 1) k
              ++ (if k = (⟨500, 3⟩ : Buffer).size - 1 then [] else [Obs.expired])
              ++ (if (⟨500, 3⟩ : Buffer).size ≠ 1 then [Obs.stop] else []) ++ tail)
        ∧ (∃ a c, (Call.twi_is_transfer_complete a, c)
              ∈ added (exampleWorld .TWID_MODE_POLLING [0, 0, 1, 1])
                (_twid_poll_write_sama5d4 sama5d4 (.caller 0) ⟨500, 3⟩
                  (exampleWorld .TWID_MODE_POLLING [0, 0, 1, 1])).2)
        ∧ (((_twid_poll_write_sama5d4 sama5d4 (.caller 0) ⟨500, 3⟩
                (exampleWorld .TWID_MODE_POLLING [0, 0, 1, 1])).1 = some Status.TWID_SUCCESS
              ∧ tail = [])
          ∨ (((_twid_poll_write_sama5d4 sama5d4 (.caller 0) ⟨500, 3⟩
                  (exampleWorld .TWID_MODE_POLLING [0, 0, 1, 1])).1
                  = some Status.TWID_ERROR_TRANSFER
                ∨ (_twid_poll_write_sama5d4 sama5d4 (.caller 0) ⟨500, 3⟩
                  (exampleWorld .TWID_MODE_POLLING [0, 0, 1, 1])).1 = none)
              ∧ tail = [Obs.expired])))
    ∧ (Obs.nack ∉ observe sama5d4
          (added (exampleWorld .TWID_MODE_POLLING [0, 1, 0, 1, 0xAB, 1])
            (_twid_poll_read_sama5d4 sama5d4 (.caller 0) ⟨600, 3⟩
              (exampleWorld .TWID_MODE_POLLING [0, 1, 0, 1, 0xAB, 1])).2)
      ∧ observe sama5d4 (added (exampleWorld .TWID_MODE_POLLING [0, 1, 0, 1, 0xAB, 1])
          (_twid_poll_read_sama5d4 sama5d4 (.caller 0) ⟨600, 3⟩
            (exampleWorld .TWID_MODE_POLLING [0, 1, 0, 1, 0xAB, 1])).2)
        = [Obs.start_read, Obs.expired, Obs.stop, Obs.read 0xAB]
      ∧ ∃ (bs : List Nat) (x tail : List Obs),
        observe sama5d4 (added (exampleWorld .TWID_MODE_POLLING [0, 1, 0, 1, 0xAB, 1])
            (_twid_poll_read_sama5d4 sama5d4 (.caller 0) ⟨600, 3⟩
              (exampleWorld .TWID_MODE_POLLING [0, 1, 0, 1, 0xAB, 1])).2)
          = Obs.start_read :: (bs.map Obs.read ++ x ++ Obs.stop :: tail)
        ∧ (x = [] ∨ x = [Obs.expired])
        ∧ (((_twid_poll_read_sama5d4 sama5d4 (.caller 0) ⟨600, 3⟩
                (exampleWorld .TWID_MODE_POLLING [0, 1, 0, 1, 0xAB, 1])).1
                = some Status.TWID_ERROR_TIMEOUT
            ∧ tail = [Obs.expired]
            ∧ (added (exampleWorld .TWID_MODE_POLLING [0, 1, 0, 1, 0xAB, 1])
                (_twid_poll_read_sama5d4 sama5d4 (.caller 0) ⟨600, 3⟩
                  (exampleWorld .TWID_MODE_POLLING [0, 1, 0, 1, 0xAB, 1])).2).filter
                  isCompletePoll = [])
          ∨ ((∃ a c, (Call.twi_is_transfer_complete a, c)
                ∈ added (exampleWorld .TWID_MODE_POLLING [0, 1, 0, 1, 0xAB, 1])
                  (_twid_poll_read_sama5d4 sama5d4 (.caller 0) ⟨600, 3⟩
                    (exampleWorld .TWID_MODE_POLLING [0, 1, 0, 1, 0xAB, 1])).2)
            ∧ ∃ b, ((_twid_poll_read_sama5d4 sama5d4 (.caller 0) ⟨600, 3⟩
                    (exampleWorld .TWID_MODE_POLLING [0, 1, 0, 1, 0xAB, 1])).1
                    = some Status.TWID_SUCCESS ∧ tail = [Obs.read b])
              ∨ (((_twid_poll_read_sama5d4 sama5d4 (.caller 0) ⟨600, 3⟩
                      (exampleWorld .TWID_MODE_POLLING [0, 1, 0, 1, 0xAB, 1])).1
                      = some Status.TWID_ERROR_TRANSFER
                  ∨ (_twid_poll_read_sama5d4 sama5d4 (.caller 0) ⟨600, 3⟩
                      (exampleWorld .TWID_MODE_POLLING [0, 1, 0, 1, 0xAB, 1])).1 = none)
                ∧ tail = [Obs.read b, Obs.expired]))))
    ∧ (Obs.nack ∉ observe sama5d4
          (added (exampleWorld .TWID_MODE_POLLING [0, 1, 0, 0, 1])
            (_twid_poll_read_sama5d4 sama5d4 (.caller 0) ⟨600, 2⟩
              (exampleWorld .TWID_MODE_POLLING [0, 1, 0, 0, 1])).2)
      ∧ observe sama5d4 (added (exampleWorld .TWID_MODE_POLLING [0, 1, 0, 0, 1])
          (_twid_poll_read_sama5d4 sama5d4 (.caller 0) ⟨600, 2⟩
              (exampleWorld .TWID_MODE_POLLING [0, 1, 0, 0, 1])).2)
        = [Obs.start_read, Obs.expired, Obs.stop, Obs.expired]
      ∧ (_twid_poll_read_sama5d4 sama5d4 (.caller 0) ⟨600, 2⟩
              (exampleWorld .TWID_MODE_POLLING [0, 1, 0, 0, 1])).1
          = some Status.TWID_ERROR_TIMEOUT
      ∧ ∃ (bs : List Nat) (x tail : List Obs),
        observe sama5d4 (added (exampleWorld .TWID_MODE_POLLING [0, 1, 0, 0, 1])
            (_twid_poll_read_sama5d4 sama5d4 (.caller 0) ⟨600, 2⟩
              (exampleWorld .TWID_MODE_POLLING [0, 1, 0, 0, 1])).2)
          = Obs.start_read :: (bs.map Obs.read ++ x ++ Obs.stop :: tail)
        ∧ (x = [] ∨ x = [Obs.expired])
        ∧ (((_twid_poll_read_sama5d4 sama5d4 (.caller 0) ⟨600, 2⟩
              (exampleWorld .TWID_MODE_POLLING [0, 1, 0, 0, 1])).1
                = some Status.TWID_ERROR_TIMEOUT
            ∧ tail = [Obs.expired]
            ∧ (added (exampleWorld .TWID_MODE_POLLING [0, 1, 0, 0, 1])
                (_twid_poll_read_sama5d4 sama5d4 (.caller 0) ⟨600, 2⟩
              (exampleWorld .TWID_MODE_POLLING [0, 1, 0, 0, 1])).2).filter
                  isCompletePoll = [])
          ∨ ((∃ a c, (Call.twi_is_transfer_complete a, c)
                ∈ added (exampleWorld .TWID_MODE_POLLING [0, 1, 0, 0, 1])
                  (_twid_poll_read_sama5d4 sama5d4 (.caller 0) ⟨600, 2⟩
              (exampleWorld .TWID_MODE_POLLING [0, 1, 0, 0, 1])).2)
            ∧ ∃ b, ((_twid_poll_read_sama5d4 sama5d4 (.caller 0) ⟨600, 2⟩
              (exampleWorld .TWID_MODE_POLLING [0, 1, 0, 0, 1])).1
                    = some Status.TWID_SUCCESS ∧ tail = [Obs.read b])
              ∨ (((_twid_poll_read_sama5d4 sama5d4 (.caller 0) ⟨600, 2⟩
              (exampleWorld .TWID_MODE_POLLING [0, 1, 0, 0, 1])).1
                      = some Status.TWID_ERROR_TRANSFER
                  ∨ (_twid_poll_read_sama5d4 sama5d4 (.caller 0) ⟨600, 2⟩
              (exampleWorld .TWID_MODE_POLLING [0, 1, 0, 0, 1])).1 = none)
                ∧ tail = [Obs.read b, Obs.expired])))) :=
  ⟨⟨by decide!, by decide!,
      (C18_byte_timeout_falls_through sama5d4 (.caller 0) ⟨500, 3⟩
        (exampleWorld .TWID_MODE_POLLING [0, 0, 1, 1])).1 (by decide!)⟩,
   ⟨by decide!, by decide!,
      (C18_byte_timeout_falls_through sama5d4 (.caller 0) ⟨600, 3⟩
        (exampleWorld .TWID_MODE_POLLING [0, 1, 0, 1, 0xAB, 1])).2 (by decide!)⟩,
   ⟨by decide!, by decide!, by decide!,
      (C18_byte_timeout_falls_through sama5d4 (.caller 0) ⟨600, 2⟩
        (exampleWorld .TWID_MODE_POLLING [0, 1, 0, 0, 1])).2 (by decide!)⟩⟩

/-! ## The handler, one interrupt at a time -/

theorem bound_find {w : World} {j id addr pdata size count : Nat}
    (h : Bound w j id addr pdata size count) :
    _twid_handler_find w.asyncdesc id MAX_ADESC 0 = some j :=
  handler_find_bound w id j h.1 h.2.1 h.2.2.1

/-- The handler serving transmit-ready while bytes remain: it writes the byte
at the count and advances the count. -/
theorem handler_tx_byte (chip : Chip) (w : World) (j id addr pdata size count s : Nat)
    (rest : List Nat)
    (hb : Bound w j id addr pdata size count)
    (hs : w.script = id :: s :: rest)
    (hrx : chip.TWI_STATUS_RXRDY s = false) (htx : chip.TWI_STATUS_TXRDY s = true)
    (hc : count ≠ size) (h32 : count + 1 < 2 ^ 32) :
    Bound (_twid_handler chip w) j id addr pdata size (count + 1)
    ∧ (_twid_handler chip w).script = rest
    ∧ (_twid_handler chip w).mem = w.mem
    ∧ (_twid_handler chip w).trace
        = w.trace ++ [(Call.aic_get_current_interrupt_identifier, id),
                      (Call.twi_get_masked_status addr, s),
                      (Call.twi_write_byte addr (w.mem (pdata + count)), 0)] := by
  have hfind := bound_find hb
  obtain ⟨b1, b2, b3, b4, b5, b6, b7⟩ := hb
  have hmod : (count + 1) % 2 ^ 32 = count + 1 := Nat.mod_eq_of_lt h32
  unfold _twid_handler
  simp only [query_cons w _ id (s :: rest) hs, hfind]
  rw [query_cons _ _ s rest rfl]
  simp only [hrx, htx, Bool.false_eq_true, if_false, if_true, b7, b6, if_neg hc]
  refine ⟨⟨b1, ?_, ?_, ?_, ?_, ?_, ?_⟩, rfl, rfl, ?_⟩
  · simp [World.setSlot, World.cmd, b2]
  · intro x hx
    have hxj : x ≠ j := by omega
    simp only [World.setSlot, World.cmd, Function.update_noteq hxj]
    exact b3 x hx
  · simp [World.setSlot, World.cmd, b4]
  · simp [World.setSlot, World.cmd, b5]
  · simp [World.setSlot, World.cmd, b6]
  · simp only [World.setSlot, World.cmd, Function.update_same, b7]
    exact hmod
  · simp [World.setSlot, World.cmd, b4, b5, b7]

/-- The handler serving transmit-ready when the count has reached the size:
no byte is written; transmit-ready is disabled, transfer-complete enabled and
the stop condition issued. -/
theorem handler_tx_last (chip : Chip) (w : World) (j id addr pdata size s : Nat)
    (rest : List Nat)
    (hb : Bound w j id addr pdata size size)
    (hs : w.script = id :: s :: rest)
    (hrx : chip.TWI_STATUS_RXRDY s = false) (htx : chip.TWI_STATUS_TXRDY s = true) :
    (_twid_handler chip w).script = rest
    ∧ (_twid_handler chip w).mem = w.mem
    ∧ (_twid_handler chip w).trace
        = w.trace ++ [(Call.aic_get_current_interrupt_identifier, id),
                      (Call.twi_get_masked_status addr, s),
                      (Call.twi_disable_it addr chip.TWI_IDR_TXRDY, 0),
                      (Call.twi_enable_it addr chip.TWI_IER_TXCOMP, 0),
                      (Call.twi_send_stop_condition addr, 0)] := by
  have hfind := bound_find hb
  obtain ⟨b1, b2, b3, b4, b5, b6, b7⟩ := hb
  unfold _twid_handler
  simp only [query_cons w _ id (s :: rest) hs, hfind]
  rw [query_cons _ _ s rest rfl]
  simp only [hrx, htx, Bool.false_eq_true, if_false, if_true, b7, b6]
  refine ⟨rfl, rfl, ?_⟩
  simp [World.cmd, b4]

/-- The transmit-ready interrupts that find bytes remaining: each writes the
next byte of the buffer. -/
theorem tx_run (chip : Chip) (j id addr pdata size : Nat) (tail : List Nat) (ss : List Nat) :
    ∀ (count : Nat) (w : World),
      Bound w j id addr pdata size count →
      w.script = handlerScript id ss ++ tail →
      (∀ s ∈ ss, chip.TWI_STATUS_RXRDY s = false ∧ chip.TWI_STATUS_TXRDY s = true) →
      count + ss.length ≤ size → size < 2 ^ 32 →
      Bound (run_handler chip ss.length w) j id addr pdata size (count + ss.length)
      ∧ (run_handler chip ss.length w).script = tail
      ∧ (run_handler chip ss.length w).mem = w.mem
      ∧ Obsd chip w (run_handler chip ss.length w) (obsWrites w.mem (pdata + count) ss.length) := by
  induction ss with
  | nil =>
    intro count w hb hs _ _ _
    exact ⟨hb, by simpa [handlerScript] using hs, rfl, Obsd.nil chip w⟩
  | cons s ss ih =>
    intro count w hb hs hss hle h32
    obtain ⟨hrx, htx⟩ := hss s (List.mem_cons_self s ss)
    simp only [List.length_cons] at hle ⊢
    obtain ⟨e1, e2, e3, e4⟩ := handler_tx_byte chip w j id addr pdata size count s
      (handlerScript id ss ++ tail) hb (by simpa [handlerScript] using hs) hrx htx
      (by omega) (by omega)
    obtain ⟨r1, r2, r3, r4⟩ := ih (count + 1) (_twid_handler chip w) e1 e2
      (fun s1 hs1 => hss s1 (List.mem_cons_of_mem s hs1)) (by omega) h32
    simp only [run_handler]
    refine ⟨by rw [show count + (ss.length + 1) = count + 1 + ss.length by omega]; exact r1,
      r2, r3.trans e3, ?_⟩
    have hstep : Obsd chip w (_twid_handler chip w) [Obs.write (w.mem (pdata + count))] :=
      ⟨_, e4, by simp [observe, obs]⟩
    rw [e3] at r4
    refine (hstep.seq r4).congr ?_
    simp [obsWrites, Nat.add_assoc]

theorem submit_bound (chip : Chip) (s : Submission) (w : World) (hs : s.Async w)
    (hidx : w.adesc_index < MAX_ADESC)
    (hfirst : ∀ x, x < w.adesc_index →
      (w.asyncdesc x).twi_id ≠ chip.get_twi_id_from_addr (w.getDesc (.caller s.n)).addr) :
    Bound (submit chip s w).2 w.adesc_index
      (chip.get_twi_id_from_addr (w.getDesc (.caller s.n)).addr)
      (w.getDesc (.caller s.n)).addr
      (if s.write then s.buf.data + 1 else s.buf.data)
      (if s.write then (s.buf.size + 2 ^ 32 - 1) % 2 ^ 32 else s.buf.size)
      (w.asyncdesc w.adesc_index).transferred := by
  obtain ⟨_, _, _, _, h5, h6, h7, h8, h9, h10, _, _⟩ := submit_async chip s w hs
  refine ⟨hidx, h5, ?_, by rw [h6], h8, h9, h7⟩
  intro x hx
  rw [h10 x (by omega)]
  exact hfirst x hx

/-- C22 fails as stated: caller 0 has an asynchronous write of three bytes
pending in slot 0 when caller 1, whose descriptor names the same controller,
submits an asynchronous write of the two bytes `0x34 0x56`; it is placed in
slot 1, whose transferred count is 0.  The search of the handler stops at the
first slot bound to the identifier, slot 0: the two transmit-ready interrupts
that follow write the bytes 1 and 2 of the buffer of caller 0, so `0x34`
reaches the controller twice, no stop condition is issued, and the count of
slot 1 stays 0. -/
theorem C22_counterexample :
    (⟨1, true, ⟨501, 2⟩, .null, 0⟩ : Submission).Async afterFirstWrite
    ∧ afterFirstWrite.adesc_index = 1
    ∧ (afterFirstWrite.asyncdesc 0).twi_id = 32
    ∧ sama5d4.get_twi_id_from_addr (afterFirstWrite.getDesc (.caller 1)).addr = 32
    ∧ (afterFirstWrite.asyncdesc 1).transferred = 0
    ∧ (submit sama5d4 ⟨1, true, ⟨501, 2⟩, .null, 0⟩ afterFirstWrite).1
        = some Status.TWID_SUCCESS
    ∧ ((submit sama5d4 ⟨1, true, ⟨501, 2⟩, .null, 0⟩ afterFirstWrite).2.asyncdesc 1).pdata
        = 502
    ∧ ((submit sama5d4 ⟨1, true, ⟨501, 2⟩, .null, 0⟩ afterFirstWrite).2.asyncdesc 1).size = 1
    ∧ observe sama5d4 (added afterFirstWrite secondWriteDriven)
        = [Obs.start_write 0x34, Obs.write 0x34, Obs.write 0x56]
    ∧ added (submit sama5d4 ⟨1, true, ⟨501, 2⟩, .null, 0⟩ afterFirstWrite).2 secondWriteDriven
        = [(Call.aic_get_current_interrupt_identifier, 32),
           (Call.twi_get_masked_status 1000, 4),
           (Call.twi_write_byte 1000 0x34, 0),
           (Call.aic_get_current_interrupt_identifier, 32),
           (Call.twi_get_masked_status 1000, 4),
           (Call.twi_write_byte 1000 0x56, 0)]
    ∧ (secondWriteDriven.asyncdesc 1).transferred = 0
    ∧ (secondWriteDriven.asyncdesc 0).transferred = 2 := by
  refine ⟨⟨rfl, rfl, by decide, by decide⟩, ?_⟩
  decide!

/-- C22 (amended): an asynchronous write of `N` bytes, `2 ≤ N < 2 ^ 32`, placed
in a slot whose transferred count is 0 and which is the first slot bound to the
peripheral.  The submit sends byte 0 by start-write and records the size
`N - 1` and the buffer pointer at byte 1.  The next `N - 1` transmit-ready
interrupts write the bytes `1 .. N - 1` in buffer order, one each.  The
transmit-ready interrupt after them finds the count equal to the size: it
writes no byte, disables transmit-ready, enables transfer-complete and issues
the stop condition.  Over the whole run every byte of the buffer reaches the
controller exactly once, in order, followed by one stop condition. -/
theorem C22_async_write_bytes (chip : Chip) (s : Submission) (w : World)
    (ss : List Nat) (sl : Nat) (tail : List Nat)
    (hs : s.Async w) (hw : s.write = true)
    (hN : 2 ≤ s.buf.size) (h32 : s.buf.size < 2 ^ 32)
    (hidx : w.adesc_index < MAX_ADESC)
    (hcount : (w.asyncdesc w.adesc_index).transferred = 0)
    (hfirst : ∀ x, x < w.adesc_index →
      (w.asyncdesc x).twi_id ≠ chip.get_twi_id_from_addr (w.getDesc (.caller s.n)).addr)
    (hscript : w.script
      = handlerScript (chip.get_twi_id_from_addr (w.getDesc (.caller s.n)).addr) ss
        ++ chip.get_twi_id_from_addr (w.getDesc (.caller s.n)).addr :: sl :: tail)
    (hlen : ss.length = s.buf.size - 1)
    (hss : ∀ x ∈ sl :: ss, chip.TWI_STATUS_RXRDY x = false ∧ chip.TWI_STATUS_TXRDY x = true) :
    (Call.twi_start_write (w.getDesc (.caller s.n)).addr (w.getDesc (.caller s.n)).slave_addr
        (w.getDesc (.caller s.n)).iaddr (w.getDesc (.caller s.n)).isize (w.mem s.buf.data), 0)
      ∈ added w (submit chip s w).2
    ∧ ((submit chip s w).2.asyncdesc w.adesc_index).size = s.buf.size - 1
    ∧ ((submit chip s w).2.asyncdesc w.adesc_index).pdata = s.buf.data + 1
    ∧ observe chip (added (submit chip s w).2
          (run_handler chip (s.buf.size - 1) (submit chip s w).2))
        = obsWrites w.mem (s.buf.data + 1) (s.buf.size - 1)
    ∧ added (run_handler chip (s.buf.size - 1) (submit chip s w).2)
          (run_handler chip (s.buf.size - 1 + 1) (submit chip s w).2)
        = [(Call.aic_get_current_interrupt_identifier,
              chip.get_twi_id_from_addr (w.getDesc (.caller s.n)).addr),
           (Call.twi_get_masked_status (w.getDesc (.caller s.n)).addr, sl),
           (Call.twi_disable_it (w.getDesc (.caller s.n)).addr chip.TWI_IDR_TXRDY, 0),
           (Call.twi_enable_it (w.getDesc (.caller s.n)).addr chip.TWI_IER_TXCOMP, 0),
           (Call.twi_send_stop_condition (w.getDesc (.caller s.n)).addr, 0)]
    ∧ observe chip (added w (run_handler chip (s.buf.size - 1 + 1) (submit chip s w).2))
        = Obs.start_write (w.mem s.buf.data)
          :: (obsWrites w.mem (s.buf.data + 1) (s.buf.size - 1) ++ [Obs.stop]) := by
  obtain ⟨_, a2, a3, _, _, _, _, a8, a9, _, _, a12⟩ := submit_async chip s w hs
  have hb := submit_bound chip s w hs hidx hfirst
  have hsz : (s.buf.size + 2 ^ 32 - 1) % 2 ^ 32 = s.buf.size - 1 := by omega
  rw [hw, hcount] at hb
  simp only [if_true] at hb
  rw [hsz] at hb
  rw [hw] at a8 a9
  simp only [if_true] at a8 a9
  rw [hsz] at a9
  obtain ⟨r1, r2, r3, r4⟩ := tx_run chip w.adesc_index
    (chip.get_twi_id_from_addr (w.getDesc (.caller s.n)).addr)
    (w.getDesc (.caller s.n)).addr (s.buf.data + 1) (s.buf.size - 1)
    (chip.get_twi_id_from_addr (w.getDesc (.caller s.n)).addr :: sl :: tail) ss 0
    (submit chip s w).2 hb (by rw [a2]; exact hscript)
    (fun x hx => hss x (List.mem_cons_of_mem sl hx)) (by omega) (by omega)
  rw [hlen] at r1 r2 r3 r4
  rw [Nat.zero_add] at r1
  rw [Nat.add_zero, a3] at r4
  obtain ⟨l1, l2, l3⟩ := handler_tx_last chip (run_handler chip (s.buf.size - 1) (submit chip s w).2)
    w.adesc_index (chip.get_twi_id_from_addr (w.getDesc (.caller s.n)).addr)
    (w.getDesc (.caller s.n)).addr (s.buf.data + 1) (s.buf.size - 1) sl tail r1 r2
    (hss sl (List.mem_cons_self sl ss)).1 (hss sl (List.mem_cons_self sl ss)).2
  have hrun : run_handler chip (s.buf.size - 1 + 1) (submit chip s w).2
      = _twid_handler chip (run_handler chip (s.buf.size - 1) (submit chip s w).2) := by
    rw [run_handler_add]
    rfl
  have hsub : Obsd chip w (submit chip s w).2 [Obs.start_write (w.mem s.buf.data)] := by
    refine ⟨_, a12, ?_⟩
    simp [asyncSubmitCalls, hw, observe, obs]
  have hlast : Obsd chip (run_handler chip (s.buf.size - 1) (submit chip s w).2)
      (_twid_handler chip (run_handler chip (s.buf.size - 1) (submit chip s w).2))
      [Obs.stop] := ⟨_, l3, by simp [observe, obs]⟩
  refine ⟨?_, a9, a8, r4.observe_added, ?_, ?_⟩
  · rw [added_eq a12]
    simp [asyncSubmitCalls, hw]
  · rw [hrun]
    exact added_eq l3
  · rw [hrun, ((hsub.seq r4).seq hlast).observe_added]
    simp

/-- C22 (amended) at a concrete input: an asynchronous write of the three bytes
`0x12 0x34 0x56`. -/
theorem C22_async_write_bytes_witness :
    (⟨0, true, ⟨500, 3⟩, .null, 0⟩ : Submission).Async
        (exampleWorld .TWID_MODE_ASYNC [32, 4, 32, 4, 32, 4])
    ∧ observe sama5d4 (added (exampleWorld .TWID_MODE_ASYNC [32, 4, 32, 4, 32, 4])
        (run_handler sama5d4 ((⟨0, true, ⟨500, 3⟩, .null, 0⟩ : Submission).buf.size - 1 + 1)
          (submit sama5d4 ⟨0, true, ⟨500, 3⟩, .null, 0⟩
            (exampleWorld .TWID_MODE_ASYNC [32, 4, 32, 4, 32, 4])).2))
        = [Obs.start_write 0x12, Obs.write 0x34, Obs.write 0x56, Obs.stop] :=
  ⟨⟨rfl, rfl, by decide, by decide⟩,
    (C22_async_write_bytes sama5d4 ⟨0, true, ⟨500, 3⟩, .null, 0⟩
      (exampleWorld .TWID_MODE_ASYNC [32, 4, 32, 4, 32, 4]) [4, 4] 4 []
      ⟨rfl, rfl, by decide, by decide⟩ rfl (by decide) (by decide) (by decide) rfl
      (fun x hx => absurd hx (Nat.not_lt_zero x)) rfl rfl (by decide)).2.2.2.2.2⟩

/-- The handler serving receive-ready: it reads a byte, stores it at the
count, advances the count, and then disables receive-ready and enables
transfer-complete if the count has reached the size, or issues the stop
condition if the count is one less than the size. -/
theorem handler_rx (chip : Chip) (w : World) (j id addr pdata size count : Nat)
    (p : Nat × Nat) (rest : List Nat)
    (hb : Bound w j id addr pdata size count)
    (hs : w.script = id :: p.1 :: p.2 :: rest)
    (hrx : chip.TWI_STATUS_RXRDY p.1 = true) (h32 : count + 1 < 2 ^ 32) :
    Bound (_twid_handler chip w) j id addr pdata size (count + 1)
    ∧ (_twid_handler chip w).script = rest
    ∧ (_twid_handler chip w).mem = Function.update w.mem (pdata + count) (p.2 % 256)
    ∧ (_twid_handler chip w).trace
        = w.trace ++ rxEventCalls chip id addr size (count + 1) p := by
  have hfind := bound_find hb
  obtain ⟨b1, b2, b3, b4, b5, b6, b7⟩ := hb
  have hmod : (count + 1) % 2 ^ 32 = count + 1 := Nat.mod_eq_of_lt h32
  unfold _twid_handler
  simp only [query_cons w _ id (p.1 :: p.2 :: rest) hs, hfind]
  rw [query_cons _ _ p.1 (p.2 :: rest) rfl]
  simp only [hrx, if_true]
  rw [query_cons _ _ p.2 rest rfl]
  simp only [World.store, World.setSlot, Function.update_same, b7, b6, b5, b4, hmod]
  unfold rxEventCalls
  by_cases h1 : count + 1 = size
  · simp only [if_pos h1]
    refine ⟨⟨b1, ?_, ?_, ?_, ?_, ?_, ?_⟩, rfl, rfl, ?_⟩
    · simp [World.cmd, b2]
    · intro x hx
      have hxj : x ≠ j := by omega
      simp only [World.cmd, Function.update_noteq hxj]
      exact b3 x hx
    · simp [World.cmd, b4]
    · simp [World.cmd, b5]
    · simp [World.cmd, b6]
    · simp [World.cmd]
    · simp [World.cmd]
  · simp only [if_neg h1]
    by_cases h2 : count + 1 = (size + 2 ^ 32 - 1) % 2 ^ 32
    · simp only [if_pos h2]
      refine ⟨⟨b1, ?_, ?_, ?_, ?_, ?_, ?_⟩, rfl, rfl, ?_⟩
      · simp [World.cmd, b2]
      · intro x hx
        have hxj : x ≠ j := by omega
        simp only [World.cmd, Function.update_noteq hxj]
        exact b3 x hx
      · simp [World.cmd, b4]
      · simp [World.cmd, b5]
      · simp [World.cmd, b6]
      · simp [World.cmd]
      · simp [World.cmd]
    · simp only [if_neg h2]
      refine ⟨⟨b1, ?_, ?_, ?_, ?_, ?_, ?_⟩, trivial, trivial, ?_⟩
      · simp [b2]
      · intro x hx
        have hxj : x ≠ j := by omega
        simp only [Function.update_noteq hxj]
        exact b3 x hx
      · simp [b4]
      · simp [b5]
      · simp [b6]
      · simp
      · simp

/-- The receive-ready interrupts after which the count is still below
`size - 1`: each reads one byte and stores it at the next index; nothing else
is observed. -/
theorem rx_run (chip : Chip) (j id addr pdata size : Nat) (tail : List Nat)
    (ps : List (Nat × Nat)) :
    ∀ (count : Nat) (w : World),
      Bound w j id addr pdata size count →
      w.script = rxScript id ps ++ tail →
      (∀ p ∈ ps, chip.TWI_STATUS_RXRDY p.1 = true) →
      count + ps.length + 1 < size → size < 2 ^ 32 →
      Bound (run_handler chip ps.length w) j id addr pdata size (count + ps.length)
      ∧ (run_handler chip ps.length w).script = tail
      ∧ Obsd chip w (run_handler chip ps.length w) (ps.map (fun p => Obs.read p.2))
      ∧ (∀ i, i < ps.length →
          (run_handler chip ps.length w).mem (pdata + count + i)
            = (ps.getD i (0, 0)).2 % 256)
      ∧ (∀ a, a < pdata + count → (run_handler chip ps.length w).mem a = w.mem a) := by
  induction ps with
  | nil =>
    intro count w hb hs _ _ _
    exact ⟨hb, by simpa [rxScript] using hs, Obsd.nil chip w, by simp, fun _ _ => rfl⟩
  | cons p ps ih =>
    intro count w hb hs hps hle h32
    have hrx := hps p (List.mem_cons_self p ps)
    simp only [List.length_cons] at hle ⊢
    obtain ⟨e1, e2, e3, e4⟩ := handler_rx chip w j id addr pdata size count p
      (rxScript id ps ++ tail) hb (by simpa [rxScript] using hs) hrx (by omega)
    obtain ⟨r1, r2, r3, r4, r5⟩ := ih (count + 1) (_twid_handler chip w) e1 e2
      (fun p1 hp1 => hps p1 (List.mem_cons_of_mem p hp1)) (by omega) h32
    simp only [run_handler]
    have hn1 : count + 1 ≠ size := by omega
    have hn2 : count + 1 ≠ (size + 2 ^ 32 - 1) % 2 ^ 32 := by omega
    have hstep : Obsd chip w (_twid_handler chip w) [Obs.read p.2] := by
      refine ⟨_, e4, ?_⟩
      unfold rxEventCalls
      rw [if_neg hn1, if_neg hn2]
      simp [observe, obs]
    refine ⟨by rw [show count + (ps.length + 1) = count + 1 + ps.length by omega]; exact r1,
      r2, ?_, ?_, ?_⟩
    · refine (hstep.seq r3).congr ?_
      simp
    · intro i hi
      cases i with
      | zero =>
        rw [Nat.add_zero, r5 (pdata + count) (by omega), e3]
        simp
      | succ i =>
        have h := r4 i (by omega)
        have e : pdata + count + (i + 1) = pdata + (count + 1) + i := by omega
        rw [e, h]
        simp
    · intro a ha
      rw [r5 a (by omega), e3, Function.update_noteq (by omega)]

theorem run_handler_succ (chip : Chip) (a : Nat) (w : World) :
    run_handler chip (a + 1) w = _twid_handler chip (run_handler chip a w) := by
  rw [run_handler_add]
  rfl

/-- C21 fails as stated: caller 0 has an asynchronous read of three bytes
pending in slot 0 when caller 1, whose descriptor names the same controller,
submits an asynchronous read of two bytes to address 700; it is placed in
slot 1, whose transferred count is 0.  The search of the handler stops at the
first slot bound to the identifier, slot 0: the two receive-ready interrupts
that follow store their bytes in the buffer of caller 0, the stop condition is
issued at the second one, receive-ready is not disabled, and nothing is stored
in the buffer of caller 1, whose count stays 0. -/
theorem C21_counterexample :
    (⟨1, false, ⟨700, 2⟩, .null, 0⟩ : Submission).Async afterFirstRead
    ∧ afterFirstRead.adesc_index = 1
    ∧ (afterFirstRead.asyncdesc 0).twi_id = 32
    ∧ sama5d4.get_twi_id_from_addr (afterFirstRead.getDesc (.caller 1)).addr = 32
    ∧ (afterFirstRead.asyncdesc 1).transferred = 0
    ∧ (submit sama5d4 ⟨1, false, ⟨700, 2⟩, .null, 0⟩ afterFirstRead).1
        = some Status.TWID_SUCCESS
    ∧ ((submit sama5d4 ⟨1, false, ⟨700, 2⟩, .null, 0⟩ afterFirstRead).2.asyncdesc 1).pdata
        = 700
    ∧ ((submit sama5d4 ⟨1, false, ⟨700, 2⟩, .null, 0⟩ afterFirstRead).2.asyncdesc 1).size = 2
    ∧ added (submit sama5d4 ⟨1, false, ⟨700, 2⟩, .null, 0⟩ afterFirstRead).2 secondReadDriven
        = [(Call.aic_get_current_interrupt_identifier, 32),
           (Call.twi_get_masked_status 1000, 2),
           (Call.twi_read_byte 1000, 0xA1),
           (Call.aic_get_current_interrupt_identifier, 32),
           (Call.twi_get_masked_status 1000, 2),
           (Call.twi_read_byte 1000, 0xA2),
           (Call.twi_send_stop_condition 1000, 0)]
    ∧ secondReadDriven.mem 700 = 0 ∧ secondReadDriven.mem 701 = 0
    ∧ secondReadDriven.mem 600 = 0xA1 ∧ secondReadDriven.mem 601 = 0xA2
    ∧ (secondReadDriven.asyncdesc 1).transferred = 0
    ∧ (secondReadDriven.asyncdesc 0).transferred = 2 := by
  refine ⟨⟨rfl, rfl, by decide, by decide⟩, ?_⟩
  decide!

/-- C21 (amended): an asynchronous read of `N` bytes, `2 ≤ N < 2 ^ 32`, placed
in a slot whose transferred count is 0 and which is the first slot bound to the
peripheral, followed by `N` receive-ready interrupts.  The `N` bytes read from
the controller are stored at the indices `0 .. N - 1` of the buffer in the
order of arrival.  The stop condition is issued once, by the interrupt after
which the count is `N - 1`, right after its byte is read.  The `N`-th
interrupt reads the last byte, disables receive-ready and enables
transfer-complete, and issues no stop condition. -/
theorem C21_async_read_bytes (chip : Chip) (s : Submission) (w : World)
    (ps : List (Nat × Nat)) (p1 p2 : Nat × Nat) (tail : List Nat)
    (hs : s.Async w) (hw : s.write = false)
    (hN : 2 ≤ s.buf.size) (h32 : s.buf.size < 2 ^ 32)
    (hidx : w.adesc_index < MAX_ADESC)
    (hcount : (w.asyncdesc w.adesc_index).transferred = 0)
    (hfirst : ∀ x, x < w.adesc_index →
      (w.asyncdesc x).twi_id ≠ chip.get_twi_id_from_addr (w.getDesc (.caller s.n)).addr)
    (hscript : w.script
      = rxScript (chip.get_twi_id_from_addr (w.getDesc (.caller s.n)).addr) ps
        ++ chip.get_twi_id_from_addr (w.getDesc (.caller s.n)).addr :: p1.1 :: p1.2
        :: chip.get_twi_id_from_addr (w.getDesc (.caller s.n)).addr :: p2.1 :: p2.2 :: tail)
    (hlen : ps.length = s.buf.size - 2)
    (hps : ∀ p ∈ p1 :: p2 :: ps, chip.TWI_STATUS_RXRDY p.1 = true) :
    observe chip (added (submit chip s w).2
        (run_handler chip (s.buf.size - 2 + 1 + 1) (submit chip s w).2))
      = ps.map (fun p => Obs.read p.2) ++ [Obs.read p1.2, Obs.stop, Obs.read p2.2]
    ∧ (∀ i, i < s.buf.size - 2 →
        (run_handler chip (s.buf.size - 2 + 1 + 1) (submit chip s w).2).mem (s.buf.data + i)
          = (ps.getD i (0, 0)).2 % 256)
    ∧ (run_handler chip (s.buf.size - 2 + 1 + 1) (submit chip s w).2).mem
        (s.buf.data + (s.buf.size - 2)) = p1.2 % 256
    ∧ (run_handler chip (s.buf.size - 2 + 1 + 1) (submit chip s w).2).mem
        (s.buf.data + (s.buf.size - 1)) = p2.2 % 256
    ∧ added (run_handler chip (s.buf.size - 2) (submit chip s w).2)
          (run_handler chip (s.buf.size - 2 + 1) (submit chip s w).2)
        = [(Call.aic_get_current_interrupt_identifier,
              chip.get_twi_id_from_addr (w.getDesc (.caller s.n)).addr),
           (Call.twi_get_masked_status (w.getDesc (.caller s.n)).addr, p1.1),
           (Call.twi_read_byte (w.getDesc (.caller s.n)).addr, p1.2),
           (Call.twi_send_stop_condition (w.getDesc (.caller s.n)).addr, 0)]
    ∧ added (run_handler chip (s.buf.size - 2 + 1) (submit chip s w).2)
          (run_handler chip (s.buf.size - 2 + 1 + 1) (submit chip s w).2)
        = [(Call.aic_get_current_interrupt_identifier,
              chip.get_twi_id_from_addr (w.getDesc (.caller s.n)).addr),
           (Call.twi_get_masked_status (w.getDesc (.caller s.n)).addr, p2.1),
           (Call.twi_read_byte (w.getDesc (.caller s.n)).addr, p2.2),
           (Call.twi_disable_it (w.getDesc (.caller s.n)).addr chip.TWI_IDR_RXRDY, 0),
           (Call.twi_enable_it (w.getDesc (.caller s.n)).addr chip.TWI_IER_TXCOMP, 0)] := by
  obtain ⟨_, a2, _, _, _, _, _, _, _, _, _, _⟩ := submit_async chip s w hs
  have hb := submit_bound chip s w hs hidx hfirst
  rw [hw, hcount] at hb
  simp only [Bool.false_eq_true, if_false] at hb
  obtain ⟨r1, r2, r3, r4, _⟩ := rx_run chip w.adesc_index
    (chip.get_twi_id_from_addr (w.getDesc (.caller s.n)).addr)
    (w.getDesc (.caller s.n)).addr s.buf.data s.buf.size
    (chip.get_twi_id_from_addr (w.getDesc (.caller s.n)).addr :: p1.1 :: p1.2
        :: chip.get_twi_id_from_addr (w.getDesc (.caller s.n)).addr :: p2.1 :: p2.2 :: tail)
    ps 0 (submit chip s w).2 hb (by rw [a2]; exact hscript)
    (fun p hp => hps p (List.mem_cons_of_mem p1 (List.mem_cons_of_mem p2 hp)))
    (by omega) h32
  rw [hlen] at r1 r2 r3 r4
  rw [Nat.zero_add] at r1
  obtain ⟨e1, e2, e3, e4⟩ := handler_rx chip
    (run_handler chip (s.buf.size - 2) (submit chip s w).2) w.adesc_index
    (chip.get_twi_id_from_addr (w.getDesc (.caller s.n)).addr)
    (w.getDesc (.caller s.n)).addr s.buf.data s.buf.size (s.buf.size - 2) p1
    (chip.get_twi_id_from_addr (w.getDesc (.caller s.n)).addr :: p2.1 :: p2.2 :: tail)
    r1 r2 (hps p1 (List.mem_cons_self p1 _)) (by omega)
  rw [← run_handler_succ] at e1 e2 e3 e4
  obtain ⟨f1, f2, f3, f4⟩ := handler_rx chip
    (run_handler chip (s.buf.size - 2 + 1) (submit chip s w).2) w.adesc_index
    (chip.get_twi_id_from_addr (w.getDesc (.caller s.n)).addr)
    (w.getDesc (.caller s.n)).addr s.buf.data s.buf.size (s.buf.size - 2 + 1) p2
    tail e1 e2 (hps p2 (List.mem_cons_of_mem p1 (List.mem_cons_self p2 _))) (by omega)
  rw [← run_handler_succ] at f1 f2 f3 f4
  have hc1a : s.buf.size - 2 + 1 ≠ s.buf.size := by omega
  have hc1b : s.buf.size - 2 + 1 = (s.buf.size + 2 ^ 32 - 1) % 2 ^ 32 := by omega
  have hc2 : s.buf.size - 2 + 1 + 1 = s.buf.size := by omega
  unfold rxEventCalls at e4 f4
  rw [if_neg hc1a, if_pos hc1b] at e4
  rw [if_pos hc2] at f4
  have ho1 : Obsd chip (run_handler chip (s.buf.size - 2) (submit chip s w).2)
      (run_handler chip (s.buf.size - 2 + 1) (submit chip s w).2)
      [Obs.read p1.2, Obs.stop] := ⟨_, e4, by simp [observe, obs]⟩
  have ho2 : Obsd chip (run_handler chip (s.buf.size - 2 + 1) (submit chip s w).2)
      (run_handler chip (s.buf.size - 2 + 1 + 1) (submit chip s w).2)
      [Obs.read p2.2] := ⟨_, f4, by simp [observe, obs]⟩
  refine ⟨?_, ?_, ?_, ?_, ?_, ?_⟩
  · rw [((r3.seq ho1).seq ho2).observe_added]
    simp
  · intro i hi
    rw [f3, Function.update_noteq (by omega), e3, Function.update_noteq (by omega)]
    have h := r4 i hi
    rwa [Nat.add_zero] at h
  · rw [f3, Function.update_noteq (by omega), e3, Function.update_same]
  · rw [f3, show s.buf.data + (s.buf.size - 1) = s.buf.data + (s.buf.size - 2 + 1) by omega,
      Function.update_same]
  · exact added_eq e4
  · exact added_eq f4

/-- C21 (amended) at a concrete input: an asynchronous read of three bytes answered
`0xA1 0xA2 0xA3`. -/
theorem C21_async_read_bytes_witness :
    (⟨0, false, ⟨600, 3⟩, .null, 0⟩ : Submission).Async
        (exampleWorld .TWID_MODE_ASYNC [32, 2, 0xA1, 32, 2, 0xA2, 32, 2, 0xA3])
    ∧ observe sama5d4 (added
        (submit sama5d4 ⟨0, false, ⟨600, 3⟩, .null, 0⟩
          (exampleWorld .TWID_MODE_ASYNC [32, 2, 0xA1, 32, 2, 0xA2, 32, 2, 0xA3])).2
        (run_handler sama5d4
          ((⟨0, false, ⟨600, 3⟩, .null, 0⟩ : Submission).buf.size - 2 + 1 + 1)
          (submit sama5d4 ⟨0, false, ⟨600, 3⟩, .null, 0⟩
            (exampleWorld .TWID_MODE_ASYNC [32, 2, 0xA1, 32, 2, 0xA2, 32, 2, 0xA3])).2))
      = [Obs.read 0xA1, Obs.read 0xA2, Obs.stop, Obs.read 0xA3] :=
  ⟨⟨rfl, rfl, by decide, by decide⟩,
    (C21_async_read_bytes sama5d4 ⟨0, false, ⟨600, 3⟩, .null, 0⟩
      (exampleWorld .TWID_MODE_ASYNC [32, 2, 0xA1, 32, 2, 0xA2, 32, 2, 0xA3])
      [(2, 0xA1)] (2, 0xA2) (2, 0xA3) []
      ⟨rfl, rfl, by decide, by decide⟩ rfl (by decide) (by decide) (by decide) rfl
      (fun x hx => absurd hx (Nat.not_lt_zero x)) rfl rfl (by decide)).1⟩

end Twid
